import Mathlib

/-!
IBHydrodynamicForceEvaluator: a shallow embedding.

Embedding of `src/IB/IBHydrodynamicForceEvaluator.cpp` (IBAMR).

Conventions of the embedding:

* `double` is modelled by the exact rationals `ℚ` (no rounding, no NaN); `int` by `Int`. The
  section on rounded arithmetic repeats the force computation with the rounding of every
  operation to binary64, for the statements that depend on what `double` arithmetic stores.
* `Eigen::Vector3d` is a record of three rationals; `Index<NDIM>` a record of three integers of
  which only the first `NDIM` components are ever stepped over.
* `std::map<int, IBHydrodynamicForceObject>` is an association list kept in ascending key order.
* The preprocessor symbol `NDEBUG` is a Boolean parameter `ndebug`: the `TBOX_ASSERT` checks are
  compiled only when it is `false`, and a failing check aborts the call.
* A default-constructed `IBHydrodynamicForceObject` has indeterminate contents; they are the
  parameter `uninit` of every operation that default-constructs a record.
* The SAMRAI collaborators (restart database, boxes, patches, patch data) are modelled by plain
  data; patch data are total functions of the index.
* One worker is modelled, for which `SAMRAI_MPI::sumReduction` returns its argument; the calls
  are recorded in a log.
-/

namespace IBAMR

/-! ## Vectors -/

/-- An `Eigen::Vector3d`, over exact rationals. -/
structure Vector3d where
  x : ℚ
  y : ℚ
  z : ℚ
deriving DecidableEq, Repr

namespace Vector3d

/-- The vector `Eigen::Vector3d::Zero()`, also the result of `setZero()`. -/
def Zero : Vector3d := ⟨0, 0, 0⟩

/-- Component read `v(d)`. -/
def get (v : Vector3d) (d : Nat) : ℚ :=
  match d with
  | 0 => v.x
  | 1 => v.y
  | _ => v.z

/-- Component write `v(d) = a`. -/
def set (v : Vector3d) (d : Nat) (a : ℚ) : Vector3d :=
  match d with
  | 0 => { v with x := a }
  | 1 => { v with y := a }
  | _ => { v with z := a }

/-- The three doubles behind `v.data()`. -/
def data (v : Vector3d) : List ℚ := [v.x, v.y, v.z]

/-- The inner product `a.dot(b)`. -/
def dot (a b : Vector3d) : ℚ := a.x * b.x + a.y * b.y + a.z * b.z

instance : Add Vector3d := ⟨fun a b => ⟨a.x + b.x, a.y + b.y, a.z + b.z⟩⟩

instance : Sub Vector3d := ⟨fun a b => ⟨a.x - b.x, a.y - b.y, a.z - b.z⟩⟩

instance : HMul ℚ Vector3d Vector3d := ⟨fun c v => ⟨c * v.x, c * v.y, c * v.z⟩⟩

instance : HMul Vector3d ℚ Vector3d := ⟨fun v c => ⟨v.x * c, v.y * c, v.z * c⟩⟩

instance : HDiv Vector3d ℚ Vector3d := ⟨fun v c => ⟨v.x / c, v.y / c, v.z / c⟩⟩

end Vector3d

/-! ## The per-body record and the map of bodies -/

/-- Modelled from the spec: the record `IBHydrodynamicForceObject` ("Tracked Body"), declared in
the header of the class, with the members the source file reads and writes: identity, and at
current and new time the box corners, box velocity, force, torque, momentum, angular momentum,
box momentum and box angular momentum. -/
structure IBHydrodynamicForceObject where
  strct_id : Int
  strct_ln : Int
  F_current : Vector3d
  T_current : Vector3d
  P_current : Vector3d
  L_current : Vector3d
  F_new : Vector3d
  T_new : Vector3d
  P_new : Vector3d
  L_new : Vector3d
  box_u_current : Vector3d
  box_X_lower_current : Vector3d
  box_X_upper_current : Vector3d
  box_u_new : Vector3d
  box_X_lower_new : Vector3d
  box_X_upper_new : Vector3d
  P_box_current : Vector3d
  L_box_current : Vector3d
  P_box_new : Vector3d
  L_box_new : Vector3d
deriving DecidableEq, Repr

/-- The container `std::map<int, IBHydrodynamicForceObject>`: pairs in ascending key order. -/
abbrev HydroObjMap := List (Int × IBHydrodynamicForceObject)

namespace HydroObjMap

/-- The lookup `m.find(k)`: `none` stands for `m.end()`. -/
def find : HydroObjMap → Int → Option IBHydrodynamicForceObject
  | [], _ => none
  | (k', v) :: rest, k => if k = k' then some v else find rest k

/-- The assignment `m[k] = v`: replaces the record of `k`, or inserts it at its place in the key
order. -/
def assign : HydroObjMap → Int → IBHydrodynamicForceObject → HydroObjMap
  | [], k, v => [(k, v)]
  | (k', v') :: rest, k, v =>
    if k < k' then (k, v) :: (k', v') :: rest
    else if k = k' then (k, v) :: rest
    else (k', v') :: assign rest k v

/-- The access `m[k]`: the record of `k` when present; otherwise a default-constructed record
`dflt` is inserted under `k` and returned. -/
def index (m : HydroObjMap) (k : Int) (dflt : IBHydrodynamicForceObject) :
    IBHydrodynamicForceObject × HydroObjMap :=
  match m.find k with
  | some v => (v, m)
  | none => (dflt, m.assign k dflt)

/-- The keys of the map, in iteration order. -/
def keys (m : HydroObjMap) : List Int := m.map Prod.fst

/-- Well-formedness of the container: strictly ascending keys. -/
def WF (m : HydroObjMap) : Prop := (keys m).Pairwise (· < ·)

end HydroObjMap

/-! ## The restart database -/

/-- Ways in which an operation aborts. -/
inductive Error where
  | assertionFailed
  | restartDatabaseNotFound
  | keyNotFound (key : String)
  | wrongArraySize (key : String)
deriving DecidableEq, Repr

/-- A SAMRAI `tbox::Database`, the checkpoint store collaborator: a key/value database of named
fixed-length arrays of doubles. -/
abbrev Database := List (String × List ℚ)

namespace Database

/-- The entry stored under `key`, if any. -/
def lookup : Database → String → Option (List ℚ)
  | [], _ => none
  | (k, v) :: rest, key => if key = k then some v else lookup rest key

/-- The database without the entries stored under `key`. -/
def erase : Database → String → Database
  | [], _ => []
  | (k, v) :: rest, key => if k = key then erase rest key else (k, v) :: erase rest key

/-- The call `db->putDoubleArray(key, data, n)`: an entry already stored under `key` is dropped
and the new one appended. -/
def putDoubleArray (db : Database) (key : String) (data : List ℚ) : Database :=
  db.erase key ++ [(key, data)]

/-- The call `db->getDoubleArray(key, v.data(), 3)`: aborts when `key` is absent or its array
does not hold three doubles. -/
def getVector3d (db : Database) (key : String) : Except Error Vector3d :=
  match db.lookup key with
  | none => .error (.keyNotFound key)
  | some [a, b, c] => .ok ⟨a, b, c⟩
  | some _ => .error (.wrongArraySize key)

end Database

/-- The SAMRAI singleton `RestartManager`: whether the run is a restart, and the root database,
whose children are the databases of the registered restart items, one per object name. -/
structure RestartManager where
  isFromRestart : Bool
  rootDatabase : List (String × Database)

namespace RestartManager

/-- The pair `restart_db->isDatabase(name)` and `restart_db->getDatabase(name)`. -/
def getDatabase : List (String × Database) → String → Option Database
  | [], _ => none
  | (k, db) :: rest, name => if name = k then some db else getDatabase rest name

end RestartManager

/-! ## Indices, boxes, patches and levels (SAMRAI collaborators) -/

/-- An `Index<NDIM>`, `IntVector<NDIM>` or `CellIndex<NDIM>`. Components `d ≥ NDIM` do not exist
in the program; the embedding keeps them at `0` wherever an index is used to read data. -/
structure Index where
  i0 : Int
  i1 : Int
  i2 : Int
deriving DecidableEq, Repr

namespace Index

/-- The index `Index<NDIM>(0)`. -/
def zero : Index := ⟨0, 0, 0⟩

/-- Component read `idx(d)`. -/
def get (v : Index) (d : Nat) : Int :=
  match d with
  | 0 => v.i0
  | 1 => v.i1
  | _ => v.i2

/-- Component write `idx(d) = a`. -/
def set (v : Index) (d : Nat) (a : Int) : Index :=
  match d with
  | 0 => { v with i0 := a }
  | 1 => { v with i1 := a }
  | _ => { v with i2 := a }

instance : Add Index := ⟨fun a b => ⟨a.i0 + b.i0, a.i1 + b.i1, a.i2 + b.i2⟩⟩

instance : Sub Index := ⟨fun a b => ⟨a.i0 - b.i0, a.i1 - b.i1, a.i2 - b.i2⟩⟩

/-- The pair of statements `CellIndex<NDIM> offset(0); offset(d) = 1;`. -/
def offset (d : Nat) : Index := zero.set d 1

/-- The coarsening of one index component, `Index::coarsen(index, ratio)`, for a positive
ratio. -/
def coarsenComponent (index ratio : Int) : Int :=
  if index < 0 then Int.tdiv (index + 1) ratio - 1 else Int.tdiv index ratio

end Index

/-- A `Box<NDIM>`: lower and upper cell index, both inclusive. -/
structure Box where
  lower : Index
  upper : Index
deriving DecidableEq, Repr

namespace Box

/-- The test `box.empty()`: some axis has its upper end below its lower end. -/
def empty (NDIM : Nat) (b : Box) : Bool :=
  (List.range NDIM).any fun d => decide (b.upper.get d < b.lower.get d)

/-- The intersection `a * b`. -/
def inter (a b : Box) : Box :=
  { lower := ⟨max a.lower.i0 b.lower.i0, max a.lower.i1 b.lower.i1, max a.lower.i2 b.lower.i2⟩
    upper := ⟨min a.upper.i0 b.upper.i0, min a.upper.i1 b.upper.i1, min a.upper.i2 b.upper.i2⟩ }

/-- The test `a.intersects(b)`. -/
def intersects (NDIM : Nat) (a b : Box) : Bool :=
  (List.range NDIM).all fun d =>
    decide (max (a.lower.get d) (b.lower.get d) ≤ min (a.upper.get d) (b.upper.get d))

/-- The box `Box<NDIM>::grow(b, n)`: a non-empty box grown by `n` cells on every side. -/
def grow (NDIM : Nat) (b : Box) (n : Int) : Box :=
  if b.empty NDIM then b
  else { lower := b.lower - ⟨n, n, n⟩, upper := b.upper + ⟨n, n, n⟩ }

/-- The box `Box<NDIM>::shift(b, offset)`. -/
def shift (b : Box) (offset : Index) : Box :=
  { lower := b.lower + offset, upper := b.upper + offset }

/-- The box `Box<NDIM>::coarsen(b, ratio)`, as applied by `BoxArray::coarsen` to every box. -/
def coarsen (b : Box) (ratio : Index) : Box :=
  { lower := ⟨Index.coarsenComponent b.lower.i0 ratio.i0, Index.coarsenComponent b.lower.i1 ratio.i1,
      Index.coarsenComponent b.lower.i2 ratio.i2⟩
    upper := ⟨Index.coarsenComponent b.upper.i0 ratio.i0, Index.coarsenComponent b.upper.i1 ratio.i1,
      Index.coarsenComponent b.upper.i2 ratio.i2⟩ }

/-- The box `SideGeometry<NDIM>::toSideBox(b, axis)`: the side indices of orientation `axis` of
the cells of `b` (one more than the cells along `axis`). -/
def toSideBox (NDIM : Nat) (b : Box) (axis : Nat) : Box :=
  if b.empty NDIM then { lower := ⟨1, 1, 1⟩, upper := ⟨0, 0, 0⟩ }
  else { b with upper := b.upper.set axis (b.upper.get axis + 1) }

/-- Membership of an index in a box (first `NDIM` components). -/
def contains (NDIM : Nat) (b : Box) (idx : Index) : Bool :=
  (List.range NDIM).all fun d => decide (b.lower.get d ≤ idx.get d ∧ idx.get d ≤ b.upper.get d)

/-- The integers `lo, lo + 1, ..., hi`. -/
def interval (lo hi : Int) : List Int :=
  (List.range (hi - lo + 1).toNat).map fun n => lo + (n : Int)

/-- The values a box iterator gives component `d` of its index. -/
def axisValues (NDIM : Nat) (b : Box) (d : Nat) : List Int :=
  if d < NDIM then interval (b.lower.get d) (b.upper.get d) else [0]

/-- The cells visited by `Box<NDIM>::Iterator`, first component fastest. -/
def cells (NDIM : Nat) (b : Box) : List Index :=
  (axisValues NDIM b 2).flatMap fun k =>
    (axisValues NDIM b 1).flatMap fun j =>
      (axisValues NDIM b 0).map fun i => ⟨i, j, k⟩

end Box

/-- A `SideIndex<NDIM>`: the index of a cell face and the axis the face is normal to. -/
structure SideIndex where
  index : Index
  axis : Nat
deriving DecidableEq, Repr

namespace SideIndex

/-- The constant `SideIndex<NDIM>::Lower`. -/
def Lower : Nat := 0

/-- The constant `SideIndex<NDIM>::Upper`. -/
def Upper : Nat := 1

/-- The constructor `SideIndex<NDIM>(cell, axis, side)`: the lower or the upper face of `cell`
along `axis`. -/
def make (cell : Index) (axis : Nat) (side : Nat) : SideIndex :=
  { index := cell.set axis (cell.get axis + (side : Int)), axis := axis }

end SideIndex

/-- Side-centred patch data `SideData<NDIM, double>`, by axis and index. -/
abbrev SideData := Nat → Index → ℚ

/-- Cell-centred patch data `CellData<NDIM, double>`. -/
abbrev CellData := Index → ℚ

/-- The read `(*data)(side_idx)`. -/
def SideData.read (data : SideData) (s : SideIndex) : ℚ := data s.axis s.index

/-- The call `data->getArrayData(axis).fill(v)` on data of ghost width `0` over `patch_box`. -/
def SideData.fill (NDIM : Nat) (patch_box : Box) (data : SideData) (axis : Nat) (v : ℚ) :
    SideData :=
  fun a idx =>
    if a = axis ∧ (patch_box.toSideBox NDIM axis).contains NDIM idx = true then v else data a idx

/-- The call `data->fillAll(v, box)` on data of ghost width `0` over `patch_box`: on every axis
the side indices of `box` that the array holds are set to `v`. -/
def SideData.fillAll (NDIM : Nat) (patch_box : Box) (data : SideData) (v : ℚ) (box : Box) :
    SideData :=
  fun a idx =>
    if a < NDIM ∧
        ((box.toSideBox NDIM a).inter (patch_box.toSideBox NDIM a)).contains NDIM idx = true
    then v else data a idx

/-- A SAMRAI `Patch<NDIM>` of the grid hierarchy collaborator: its box, the grid spacings of its
`CartesianPatchGeometry`, and its patch data, cell-centred and side-centred, by descriptor
index. -/
structure Patch where
  box : Box
  dx : Nat → ℚ
  cellData : Int → CellData
  sideData : Int → SideData

/-- A SAMRAI `PatchLevel<NDIM>`: its patches in iteration order, its refinement ratio to the
next coarser level, and the periodic shift of its grid geometry at its own ratio. The
conversion `IndexUtilities::getCellIndex(X, level->getGridGeometry(), level->getRatio())` of a
point to a cell index of the level, a function of IBTK that is not among the sources, is the
member `getCellIndex`, left arbitrary. -/
structure PatchLevel where
  patches : List Patch
  ratioToCoarserLevel : Index
  periodicShift : Index
  getCellIndex : Vector3d → Index

/-- The boxes `level->getBoxes()` of a level. -/
def PatchLevel.getBoxes (level : PatchLevel) : List Box := level.patches.map fun p => p.box

/-- A SAMRAI `PatchHierarchy<NDIM>`: its levels, coarsest first. -/
structure PatchHierarchy where
  levels : List PatchLevel

namespace PatchHierarchy

/-- The number `getFinestLevelNumber()`. -/
def getFinestLevelNumber (h : PatchHierarchy) : Int := (h.levels.length : Int) - 1

/-- The level `getPatchLevel(ln)`. A level number outside the hierarchy violates the caller's
precondition; the embedding gives it a level without patches. -/
def getPatchLevel (h : PatchHierarchy) (ln : Int) : PatchLevel :=
  if ln < 0 then ⟨[], ⟨1, 1, 1⟩, Index.zero, fun _ => Index.zero⟩
  else h.levels.getD ln.toNat ⟨[], ⟨1, 1, 1⟩, Index.zero, fun _ => Index.zero⟩

end PatchHierarchy

/-! ## The evaluator: state and body bookkeeping -/

/-- Modelled from the spec: the data members of `IBHydrodynamicForceEvaluator` (declared in the
header of the class) that the source file uses: the object name, the density and viscosity,
the descriptor index of the face weights, and the map from structure id to body record. -/
structure IBHydrodynamicForceEvaluator where
  d_object_name : String
  d_rho : ℚ
  d_mu : ℚ
  d_face_wgt_sc_idx : Int
  d_hydro_objs : HydroObjMap
deriving DecidableEq, Repr

/-- The stream output `os << strct_id` of an `int`: its decimal numeral. -/
def intStr (strct_id : Int) : String := toString strct_id

/-- The method `registerStructure`. -/
def registerStructure (ndebug : Bool) (restart_manager : RestartManager)
    (uninit : IBHydrodynamicForceObject) (self : IBHydrodynamicForceEvaluator)
    (strct_id strct_ln : Int) (box_vel box_X_lower box_X_upper : Vector3d) :
    Except Error IBHydrodynamicForceEvaluator :=
  if !ndebug && (self.d_hydro_objs.find strct_id).isSome then .error .assertionFailed
  else
    let force_obj : IBHydrodynamicForceObject :=
      { uninit with strct_id := strct_id, strct_ln := strct_ln }
    let from_restart := restart_manager.isFromRestart
    if !from_restart then
      let force_obj : IBHydrodynamicForceObject :=
        { force_obj with
          box_u_current := box_vel
          box_X_lower_current := box_X_lower
          box_X_upper_current := box_X_upper
          F_current := Vector3d.Zero
          T_current := Vector3d.Zero
          P_current := Vector3d.Zero
          L_current := Vector3d.Zero
          P_box_current := Vector3d.Zero
          L_box_current := Vector3d.Zero }
      .ok { self with d_hydro_objs := self.d_hydro_objs.assign strct_id force_obj }
    else
      match RestartManager.getDatabase restart_manager.rootDatabase self.d_object_name with
      | none => .error .restartDatabaseNotFound
      | some db =>
        (db.getVector3d ("F_" ++ intStr strct_id)).bind fun F =>
        (db.getVector3d ("T_" ++ intStr strct_id)).bind fun T =>
        (db.getVector3d ("P_" ++ intStr strct_id)).bind fun P =>
        (db.getVector3d ("L_" ++ intStr strct_id)).bind fun L =>
        (db.getVector3d ("P_box_" ++ intStr strct_id)).bind fun P_box =>
        (db.getVector3d ("L_box_" ++ intStr strct_id)).bind fun L_box =>
        (db.getVector3d ("X_lo_" ++ intStr strct_id)).bind fun X_lo =>
        (db.getVector3d ("X_hi_" ++ intStr strct_id)).bind fun X_hi =>
        let force_obj : IBHydrodynamicForceObject :=
          { force_obj with
            F_current := F
            T_current := T
            P_current := P
            L_current := L
            P_box_current := P_box
            L_box_current := L_box
            box_X_lower_current := X_lo
            box_X_upper_current := X_hi }
        .ok { self with d_hydro_objs := self.d_hydro_objs.assign strct_id force_obj }

/-- The method `updateStructureDomain`. -/
def updateStructureDomain (ndebug : Bool) (uninit : IBHydrodynamicForceObject)
    (self : IBHydrodynamicForceEvaluator) (strct_id : Int) (_strct_ln : Int)
    (current_time new_time : ℚ) (box_vel_new P_strct_new L_strct_new : Vector3d) :
    Except Error IBHydrodynamicForceEvaluator :=
  if !ndebug && (self.d_hydro_objs.find strct_id).isNone then .error .assertionFailed
  else
    let ref := self.d_hydro_objs.index strct_id uninit
    let force_obj := ref.1
    let dt := new_time - current_time
    let force_obj : IBHydrodynamicForceObject :=
      { force_obj with
        box_u_new := box_vel_new
        box_X_lower_new := force_obj.box_X_lower_current + box_vel_new * dt
        box_X_upper_new := force_obj.box_X_upper_current + box_vel_new * dt
        P_new := P_strct_new
        L_new := L_strct_new }
    .ok { self with d_hydro_objs := ref.2.assign strct_id force_obj }

/-- The method `getHydrodynamicForceObject`: the record returned, and the evaluator after the
call (the method is not `const`: it goes through `d_hydro_objs[strct_id]`). -/
def getHydrodynamicForceObject (ndebug : Bool) (uninit : IBHydrodynamicForceObject)
    (self : IBHydrodynamicForceEvaluator) (strct_id : Int) (_strct_ln : Int) :
    Except Error (IBHydrodynamicForceObject × IBHydrodynamicForceEvaluator) :=
  if !ndebug && (self.d_hydro_objs.find strct_id).isNone then .error .assertionFailed
  else
    let ref := self.d_hydro_objs.index strct_id uninit
    .ok (ref.1, { self with d_hydro_objs := ref.2 })

/-- The loop body of `postprocessIntegrateData`: every "new" member is copied to "current". -/
def promote (force_obj : IBHydrodynamicForceObject) : IBHydrodynamicForceObject :=
  { force_obj with
    box_u_current := force_obj.box_u_new
    box_X_lower_current := force_obj.box_X_lower_new
    box_X_upper_current := force_obj.box_X_upper_new
    F_current := force_obj.F_new
    T_current := force_obj.T_new
    P_current := force_obj.P_new
    L_current := force_obj.L_new
    P_box_current := force_obj.P_box_new
    L_box_current := force_obj.L_box_new }

/-- The method `postprocessIntegrateData`. -/
def postprocessIntegrateData (self : IBHydrodynamicForceEvaluator) (_current_time _new_time : ℚ) :
    IBHydrodynamicForceEvaluator :=
  { self with d_hydro_objs := self.d_hydro_objs.map fun it => (it.1, promote it.2) }

/-- The loop body of `putToDatabase`: the eight entries written for one body. -/
def putBody (db : Database) (it : Int × IBHydrodynamicForceObject) : Database :=
  let strct_id := it.1
  let force_obj := it.2
  let db := db.putDoubleArray ("F_" ++ intStr strct_id) force_obj.F_current.data
  let db := db.putDoubleArray ("T_" ++ intStr strct_id) force_obj.T_current.data
  let db := db.putDoubleArray ("P_" ++ intStr strct_id) force_obj.P_current.data
  let db := db.putDoubleArray ("L_" ++ intStr strct_id) force_obj.L_current.data
  let db := db.putDoubleArray ("P_box_" ++ intStr strct_id) force_obj.P_box_current.data
  let db := db.putDoubleArray ("L_box_" ++ intStr strct_id) force_obj.L_box_current.data
  let db := db.putDoubleArray ("X_lo_" ++ intStr strct_id) force_obj.box_X_lower_current.data
  let db := db.putDoubleArray ("X_hi_" ++ intStr strct_id) force_obj.box_X_upper_current.data
  db

/-- The method `putToDatabase`. -/
def putToDatabase (self : IBHydrodynamicForceEvaluator) (db : Database) : Database :=
  self.d_hydro_objs.foldl putBody db

/-! ## The face weights -/

/-- The cell volume `dx[0] * dx[1]` (times `dx[2]` when `NDIM > 2`). -/
def cellVolume (NDIM : Nat) (dx : Nat → ℚ) : ℚ :=
  if NDIM > 2 then dx 0 * dx 1 * dx 2 else dx 0 * dx 1

/-- The loop `for (axis ...) axis_data.fill(cell_vol / dx[axis])` of `computeFaceWeight`. -/
def fillFaceAreas (NDIM : Nat) (patch_box : Box) (dx : Nat → ℚ) (data : SideData) : SideData :=
  (List.range NDIM).foldl
    (fun data axis => SideData.fill NDIM patch_box data axis (cellVolume NDIM dx / dx axis)) data

/-- The statement `if (!intersection.empty()) face_wgt_sc_data->fillAll(0.0, intersection)` for
`intersection = Box::grow(patch_box, 1) * refined_box`. -/
def zeroIntersection (NDIM : Nat) (patch_box : Box) (data : SideData) (refined_box : Box) :
    SideData :=
  let intersection := (Box.grow NDIM patch_box 1).inter refined_box
  if !intersection.empty NDIM then SideData.fillAll NDIM patch_box data 0 intersection else data

/-- The body of the loop over `refined_region_boxes` in `computeFaceWeight`: the periodic images
of the box along every periodic axis, then the box itself. -/
def zeroRefinedBox (NDIM : Nat) (periodic_shift : Index) (patch_box : Box) (data : SideData)
    (refined_region_box : Box) : SideData :=
  let data := (List.range NDIM).foldl
    (fun data axis =>
      if periodic_shift.get axis ≠ 0 then
        [(-1 : Int), 1].foldl
          (fun data sgn =>
            let periodic_offset := Index.zero.set axis (sgn * periodic_shift.get axis)
            let refined_box := Box.shift refined_region_box periodic_offset
            zeroIntersection NDIM patch_box data refined_box)
          data
      else data)
    data
  zeroIntersection NDIM patch_box data refined_region_box

/-- The face weights `computeFaceWeight` leaves on one patch of level `ln`. -/
def faceWeightPatch (NDIM : Nat) (ln_below_finest : Bool) (periodic_shift : Index)
    (refined_region_boxes : List Box) (patch : Patch) (data : SideData) : SideData :=
  let data := fillFaceAreas NDIM patch.box patch.dx data
  if ln_below_finest then
    refined_region_boxes.foldl (zeroRefinedBox NDIM periodic_shift patch.box) data
  else data

/-- The boxes `refined_region_boxes` of level `ln`: empty on the finest level, otherwise the
boxes of the next finer level coarsened by its ratio to level `ln`. -/
def refinedRegionBoxes (patch_hierarchy : PatchHierarchy) (ln : Int) : List Box :=
  if ln < patch_hierarchy.getFinestLevelNumber then
    let next_finer_level := patch_hierarchy.getPatchLevel (ln + 1)
    next_finer_level.getBoxes.map fun b => b.coarsen next_finer_level.ratioToCoarserLevel
  else []

/-- The data `computeFaceWeight` leaves on one patch of level `ln`: those of descriptor index
`d_face_wgt_sc_idx` are overwritten with the face weights. -/
def computeFaceWeightPatch (NDIM : Nat) (self : IBHydrodynamicForceEvaluator)
    (patch_hierarchy : PatchHierarchy) (ln : Int) (level : PatchLevel) (patch : Patch) : Patch :=
  { patch with
    sideData := fun idx =>
      if idx = self.d_face_wgt_sc_idx then
        faceWeightPatch NDIM (decide (ln < patch_hierarchy.getFinestLevelNumber))
          level.periodicShift (refinedRegionBoxes patch_hierarchy ln) patch (patch.sideData idx)
      else patch.sideData idx }

/-- The loop over the patches of level `ln` in `computeFaceWeight`. -/
def computeFaceWeightLevel (NDIM : Nat) (self : IBHydrodynamicForceEvaluator)
    (patch_hierarchy : PatchHierarchy) (ln : Int) (level : PatchLevel) : PatchLevel :=
  { level with
    patches := level.patches.map (computeFaceWeightPatch NDIM self patch_hierarchy ln level) }

/-- The method `computeFaceWeight`: the loop over the levels `0, ..., finest`. -/
def computeFaceWeight (NDIM : Nat) (self : IBHydrodynamicForceEvaluator)
    (patch_hierarchy : PatchHierarchy) : PatchHierarchy :=
  { levels := patch_hierarchy.levels.mapIdx fun ln level =>
      computeFaceWeightLevel NDIM self patch_hierarchy (ln : Int) level }

/-! ## The hydrodynamic force -/

/-- The level numbers visited by `for (int ln = finest_ln; ln >= coarsest_ln; --ln)`. -/
def levelsDescending (coarsest_ln finest_ln : Int) : List Int :=
  (List.range (finest_ln - coarsest_ln + 1).toNat).map fun k => finest_ln - (k : Int)

/-- The box `integration_box` of a body on a level: the cells of its new-time box corners. -/
def integrationBox (level : PatchLevel) (fobj : IBHydrodynamicForceObject) : Box :=
  { lower := level.getCellIndex fobj.box_X_lower_new
    upper := level.getCellIndex fobj.box_X_upper_new }

/-- The momentum added by one cell: the loop over `axis` inside the cell loop. -/
def momentumCell (NDIM : Nat) (d_rho : ℚ) (u_data vol_sc_data : SideData) (P_box_new : Vector3d)
    (cell_idx : Index) : Vector3d :=
  (List.range NDIM).foldl
    (fun P_box_new axis =>
      let side_idx := SideIndex.make cell_idx axis SideIndex.Lower
      let u_axis := u_data.read side_idx
      let vol := vol_sc_data.read side_idx
      P_box_new.set axis (P_box_new.get axis + d_rho * vol * u_axis))
    P_box_new

/-- The momentum added by one patch. -/
def momentumPatch (NDIM : Nat) (d_rho : ℚ) (u_idx vol_sc_idx : Int) (integration_box : Box)
    (P_box_new : Vector3d) (patch : Patch) : Vector3d :=
  let patch_box := patch.box
  let boxes_intersect := patch_box.intersects NDIM integration_box
  if !boxes_intersect then P_box_new
  else
    let trim_box := patch_box.inter integration_box
    let u_data := patch.sideData u_idx
    let vol_sc_data := patch.sideData vol_sc_idx
    (trim_box.cells NDIM).foldl (momentumCell NDIM d_rho u_data vol_sc_data) P_box_new

/-- The momentum added by one level. -/
def momentumLevel (NDIM : Nat) (d_rho : ℚ) (u_idx vol_sc_idx : Int)
    (patch_hierarchy : PatchHierarchy) (fobj : IBHydrodynamicForceObject) (P_box_new : Vector3d)
    (ln : Int) : Vector3d :=
  let level := patch_hierarchy.getPatchLevel ln
  let integration_box := integrationBox level fobj
  level.patches.foldl (momentumPatch NDIM d_rho u_idx vol_sc_idx integration_box) P_box_new

/-- The momentum integral of a body, before the reduction: `P_box_new.setZero()` and the loop
over the levels. -/
def momentumIntegral (NDIM : Nat) (d_rho : ℚ) (u_idx vol_sc_idx : Int)
    (patch_hierarchy : PatchHierarchy) (coarsest_ln finest_ln : Int)
    (fobj : IBHydrodynamicForceObject) : Vector3d :=
  (levelsDescending coarsest_ln finest_ln).foldl
    (momentumLevel NDIM d_rho u_idx vol_sc_idx patch_hierarchy fobj) Vector3d.Zero

/-- The boundary box `bdry_boxes[axis][upperlower]` of the integration box. -/
def bdryBox (integration_box : Box) (axis upperlower : Nat) : Box :=
  if upperlower = 0 then
    { integration_box with upper := integration_box.upper.set axis (integration_box.lower.get axis) }
  else
    { integration_box with lower := integration_box.lower.set axis (integration_box.upper.get axis) }

/-- The velocity `u` interpolated to the boundary face of a cell. -/
def faceVelocity (NDIM : Nat) (u_data : SideData) (axis : Nat) (cell_idx cell_nbr_idx : Index)
    (bdry_idx : SideIndex) : Vector3d :=
  (List.range NDIM).foldl
    (fun u d =>
      if d = axis then u.set d (u_data.read bdry_idx)
      else
        let offset := Index.offset d
        u.set d
          (0.25 *
            (u_data.read (SideIndex.make cell_idx d SideIndex.Lower) +
              u_data.read (SideIndex.make (cell_idx + offset) d SideIndex.Lower) +
              u_data.read (SideIndex.make cell_nbr_idx d SideIndex.Lower) +
              u_data.read (SideIndex.make (cell_nbr_idx + offset) d SideIndex.Lower))))
    Vector3d.Zero

/-- The vector `viscous_force` of a boundary cell. -/
def viscousForce (NDIM : Nat) (d_mu : ℚ) (patch_dx : Nat → ℚ) (u_data : SideData) (axis : Nat)
    (n : Vector3d) (cell_idx cell_nbr_idx : Index) : Vector3d :=
  (List.range NDIM).foldl
    (fun viscous_force d =>
      if d = axis then
        viscous_force.set axis
          (n.get axis * (2.0 * d_mu) / (2.0 * patch_dx axis) *
            (u_data.read (SideIndex.make cell_nbr_idx axis SideIndex.Lower) -
              u_data.read (SideIndex.make cell_idx axis SideIndex.Lower)))
      else
        let offset := Index.offset d
        viscous_force.set d
          (d_mu / (2.0 * patch_dx d) *
              (u_data.read (SideIndex.make (cell_idx + offset) axis SideIndex.Lower) -
                u_data.read (SideIndex.make (cell_idx - offset) axis SideIndex.Lower))
            +
            d_mu * n.get axis / (2.0 * patch_dx axis) *
              (u_data.read (SideIndex.make cell_nbr_idx d SideIndex.Lower) +
                u_data.read (SideIndex.make (cell_nbr_idx + offset) d SideIndex.Lower) -
                u_data.read (SideIndex.make cell_idx d SideIndex.Lower) -
                u_data.read (SideIndex.make (cell_idx + offset) d SideIndex.Lower))))
    Vector3d.Zero

/-- The traction added by one boundary cell: pressure, momentum flux and viscous terms. -/
def tractionCell (NDIM : Nat) (d_rho d_mu : ℚ) (patch_dx : Nat → ℚ) (p_data : CellData)
    (u_data face_sc_data : SideData) (box_u_new : Vector3d) (axis upperlower : Nat)
    (trac : Vector3d) (cell_idx : Index) : Vector3d :=
  let n : Vector3d := Vector3d.Zero.set axis (if upperlower ≠ 0 then 1 else -1)
  let cell_nbr_idx := cell_idx.set axis (cell_idx.get axis + (if upperlower ≠ 0 then 1 else -1))
  let bdry_idx :=
    SideIndex.make cell_idx axis (if upperlower ≠ 0 then SideIndex.Upper else SideIndex.Lower)
  let dA := face_sc_data.read bdry_idx
  let trac := trac + (-0.5 : ℚ) * n * (p_data cell_idx + p_data cell_nbr_idx) * dA
  let u := faceVelocity NDIM u_data axis cell_idx cell_nbr_idx bdry_idx
  let trac := trac + -d_rho * n.dot (u - box_u_new) * u * dA
  let viscous_force := viscousForce NDIM d_mu patch_dx u_data axis n cell_idx cell_nbr_idx
  trac + n.get axis * viscous_force * dA

/-- The traction added by one side of the integration box on one patch. -/
def tractionSide (NDIM : Nat) (d_rho d_mu : ℚ) (patch : Patch) (u_idx p_idx face_idx : Int)
    (integration_box : Box) (box_u_new : Vector3d) (axis : Nat) (trac : Vector3d)
    (upperlower : Nat) : Vector3d :=
  let side_box := bdryBox integration_box axis upperlower
  if !patch.box.intersects NDIM side_box then trac
  else
    let trim_box := patch.box.inter side_box
    (trim_box.cells NDIM).foldl
      (tractionCell NDIM d_rho d_mu patch.dx (patch.cellData p_idx) (patch.sideData u_idx)
        (patch.sideData face_idx) box_u_new axis upperlower)
      trac

/-- The traction added by one patch. -/
def tractionPatch (NDIM : Nat) (d_rho d_mu : ℚ) (u_idx p_idx face_idx : Int)
    (integration_box : Box) (box_u_new : Vector3d) (trac : Vector3d) (patch : Patch) :
    Vector3d :=
  if !patch.box.intersects NDIM integration_box then trac
  else
    (List.range NDIM).foldl
      (fun trac axis =>
        [0, 1].foldl
          (tractionSide NDIM d_rho d_mu patch u_idx p_idx face_idx integration_box box_u_new axis)
          trac)
      trac

/-- The traction added by one level. -/
def tractionLevel (NDIM : Nat) (d_rho d_mu : ℚ) (u_idx p_idx face_idx : Int)
    (patch_hierarchy : PatchHierarchy) (fobj : IBHydrodynamicForceObject) (trac : Vector3d)
    (ln : Int) : Vector3d :=
  let level := patch_hierarchy.getPatchLevel ln
  let integration_box := integrationBox level fobj
  level.patches.foldl
    (tractionPatch NDIM d_rho d_mu u_idx p_idx face_idx integration_box fobj.box_u_new) trac

/-- The surface traction integral of a body, before the reduction: `trac.setZero()` and the
loop over the levels. -/
def surfaceTraction (NDIM : Nat) (d_rho d_mu : ℚ) (u_idx p_idx face_idx : Int)
    (patch_hierarchy : PatchHierarchy) (coarsest_ln finest_ln : Int)
    (fobj : IBHydrodynamicForceObject) : Vector3d :=
  (levelsDescending coarsest_ln finest_ln).foldl
    (tractionLevel NDIM d_rho d_mu u_idx p_idx face_idx patch_hierarchy fobj) Vector3d.Zero

/-- The call `SAMRAI_MPI::sumReduction(v.data(), 3)` on the single worker of the embedding: the
buffer comes back unchanged, and the call is appended to the log of collective calls. -/
def sumReduction (log : List Vector3d) (v : Vector3d) : Vector3d × List Vector3d :=
  (v, log ++ [v])

/-- The body of the loop over `d_hydro_objs` in `computeHydrodynamicForce`, on the hierarchy
that carries the face weights. -/
def computeBody (NDIM : Nat) (self : IBHydrodynamicForceEvaluator) (u_idx p_idx vol_sc_idx : Int)
    (patch_hierarchy : PatchHierarchy) (coarsest_ln finest_ln : Int) (dt : ℚ)
    (log : List Vector3d) (fobj : IBHydrodynamicForceObject) :
    IBHydrodynamicForceObject × List Vector3d :=
  let reduced := sumReduction log
    (momentumIntegral NDIM self.d_rho u_idx vol_sc_idx patch_hierarchy coarsest_ln finest_ln fobj)
  let fobj := { fobj with P_box_new := reduced.1 }
  let log := reduced.2
  let reduced := sumReduction log
    (surfaceTraction NDIM self.d_rho self.d_mu u_idx p_idx self.d_face_wgt_sc_idx patch_hierarchy
      coarsest_ln finest_ln fobj)
  let trac := reduced.1
  let log := reduced.2
  ({ fobj with
      F_new := (fobj.P_box_current - fobj.P_box_new + fobj.P_new - fobj.P_current) / dt + trac },
    log)

/-- What a call of `computeHydrodynamicForce` leaves behind: the evaluator, the hierarchy (whose
face weights were rebuilt), and the collective calls made, in order. -/
structure ComputeResult where
  evaluator : IBHydrodynamicForceEvaluator
  hierarchy : PatchHierarchy
  reductions : List Vector3d

/-- The method `computeHydrodynamicForce`. -/
def computeHydrodynamicForce (NDIM : Nat) (self : IBHydrodynamicForceEvaluator)
    (u_idx p_idx _f_idx vol_sc_idx _vol_cc_idx : Int) (patch_hierarchy : PatchHierarchy)
    (coarsest_ln finest_ln : Int) (current_time new_time : ℚ) : ComputeResult :=
  let patch_hierarchy := computeFaceWeight NDIM self patch_hierarchy
  let dt := new_time - current_time
  let out := self.d_hydro_objs.foldl
    (fun (acc : HydroObjMap × List Vector3d) it =>
      let r := computeBody NDIM self u_idx p_idx vol_sc_idx patch_hierarchy coarsest_ln finest_ln
        dt acc.2 it.2
      (acc.1 ++ [(it.1, r.1)], r.2))
    ([], [])
  { evaluator := { self with d_hydro_objs := out.1 }
    hierarchy := patch_hierarchy
    reductions := out.2 }

/-! ## The entries of the restart database -/

/-- The eight quantities of a body that `putToDatabase` writes and `registerStructure` reads. -/
inductive RestartField where
  | F
  | T
  | P
  | L
  | P_box
  | L_box
  | X_lo
  | X_hi
deriving DecidableEq, Repr

namespace RestartField

/-- The text put in front of the structure id in the key of a quantity. -/
def tag : RestartField → String
  | .F => "F_"
  | .T => "T_"
  | .P => "P_"
  | .L => "L_"
  | .P_box => "P_box_"
  | .L_box => "L_box_"
  | .X_lo => "X_lo_"
  | .X_hi => "X_hi_"

/-- The member of the record stored under a quantity. -/
def value : RestartField → IBHydrodynamicForceObject → Vector3d
  | .F, force_obj => force_obj.F_current
  | .T, force_obj => force_obj.T_current
  | .P, force_obj => force_obj.P_current
  | .L, force_obj => force_obj.L_current
  | .P_box, force_obj => force_obj.P_box_current
  | .L_box, force_obj => force_obj.L_box_current
  | .X_lo, force_obj => force_obj.box_X_lower_current
  | .X_hi, force_obj => force_obj.box_X_upper_current

/-- The eight quantities, in the order in which `putToDatabase` writes them. -/
def all : List RestartField := [F, T, P, L, P_box, L_box, X_lo, X_hi]

end RestartField

/-- The key `"<field>_<structure id>"` of a quantity of a body. -/
def restartKey (f : RestartField) (strct_id : Int) : String := f.tag ++ intStr strct_id

/-- The decimal digits of a natural number, most significant first (`[0]` for zero). -/
def decDigits (n : Nat) : List Nat := if n = 0 then [0] else (Nat.digits 10 n).reverse

/-! ## The momentum sum as a nested sum -/

/-- The momentum sum along `axis` written as a nested sum: over the levels from `finest_ln` down
to `coarsest_ln`, the patches of the level, and the cells of the patch inside the integration
box of the body, of `density * weight * velocity` at the lower face of the cell along `axis`,
the weight being read from the side data of descriptor index `wgt_idx`. -/
def momentumSum (NDIM : Nat) (d_rho : ℚ) (u_idx wgt_idx : Int) (patch_hierarchy : PatchHierarchy)
    (coarsest_ln finest_ln : Int) (fobj : IBHydrodynamicForceObject) (axis : Nat) : ℚ :=
  ((levelsDescending coarsest_ln finest_ln).map fun ln =>
    ((patch_hierarchy.getPatchLevel ln).patches.map fun patch =>
      (((patch.box.inter (integrationBox (patch_hierarchy.getPatchLevel ln) fobj)).cells
          NDIM).map fun cell_idx =>
        d_rho * (patch.sideData wgt_idx).read (SideIndex.make cell_idx axis SideIndex.Lower) *
          (patch.sideData u_idx).read (SideIndex.make cell_idx axis SideIndex.Lower)).sum).sum).sum

/-! ## The faces whose weight `computeFaceWeight` zeroes -/

/-- Whether the statement `if (!intersection.empty()) face_wgt_sc_data->fillAll(0.0,
intersection)`, for the box `refined_box`, writes the side index `idx` of orientation `a` of a
patch. -/
def zeroedBy (NDIM : Nat) (patch_box refined_box : Box) (a : Nat) (idx : Index) : Bool :=
  let intersection := (Box.grow NDIM patch_box 1).inter refined_box
  !intersection.empty NDIM && decide (a < NDIM) &&
    ((intersection.toSideBox NDIM a).inter (patch_box.toSideBox NDIM a)).contains NDIM idx

/-- The periodic images of a covered box that `computeFaceWeight` visits: along every axis whose
periodic shift is not zero, the box shifted by minus and by plus the shift. -/
def periodicImages (NDIM : Nat) (periodic_shift : Index) (refined_region_box : Box) : List Box :=
  (List.range NDIM).flatMap fun axis =>
    if periodic_shift.get axis ≠ 0 then
      [(-1 : Int), 1].map fun sgn =>
        Box.shift refined_region_box (Index.zero.set axis (sgn * periodic_shift.get axis))
    else []

/-- The boxes `computeFaceWeight` intersects with a patch of a level below the finest, in
order: for every covered box its periodic images, then the box itself. -/
def zeroingBoxes (NDIM : Nat) (periodic_shift : Index) (refined_region_boxes : List Box) :
    List Box :=
  refined_region_boxes.flatMap fun b => periodicImages NDIM periodic_shift b ++ [b]

instance : Zero Vector3d := ⟨Vector3d.Zero⟩

instance : AddCommMonoid Vector3d where
  nsmul := nsmulRec
  add_assoc := fun a b c => by
    show (⟨a.x + b.x + c.x, a.y + b.y + c.y, a.z + b.z + c.z⟩ : Vector3d) =
      ⟨a.x + (b.x + c.x), a.y + (b.y + c.y), a.z + (b.z + c.z)⟩
    rw [add_assoc, add_assoc, add_assoc]
  zero_add := fun a => by
    show (⟨0 + a.x, 0 + a.y, 0 + a.z⟩ : Vector3d) = a
    rw [zero_add, zero_add, zero_add]
  add_zero := fun a => by
    show (⟨a.x + 0, a.y + 0, a.z + 0⟩ : Vector3d) = a
    rw [add_zero, add_zero, add_zero]
  add_comm := fun a b => by
    show (⟨a.x + b.x, a.y + b.y, a.z + b.z⟩ : Vector3d) = ⟨b.x + a.x, b.y + a.y, b.z + a.z⟩
    rw [add_comm a.x, add_comm a.y, add_comm a.z]

/-- The vector added by the statement `trac += -0.5 * n * (p(cell) + p(nbr)) * dA` for a boundary
cell: the same expression as in `tractionCell`. -/
def pressureContribution (p_data : CellData) (face_sc_data : SideData) (axis upperlower : Nat)
    (cell_idx : Index) : Vector3d :=
  let n : Vector3d := Vector3d.Zero.set axis (if upperlower ≠ 0 then 1 else -1)
  let cell_nbr_idx := cell_idx.set axis (cell_idx.get axis + (if upperlower ≠ 0 then 1 else -1))
  let bdry_idx :=
    SideIndex.make cell_idx axis (if upperlower ≠ 0 then SideIndex.Upper else SideIndex.Lower)
  let dA := face_sc_data.read bdry_idx
  (-0.5 : ℚ) * n * (p_data cell_idx + p_data cell_nbr_idx) * dA

/-- The vector added by the statement `trac += -d_rho * n.dot(u - u_box) * u * dA` for a boundary
cell and a box velocity `u_box`: the same expression as in `tractionCell`. -/
def convectiveContribution (NDIM : Nat) (d_rho : ℚ) (u_data face_sc_data : SideData)
    (u_box : Vector3d) (axis upperlower : Nat) (cell_idx : Index) : Vector3d :=
  let n : Vector3d := Vector3d.Zero.set axis (if upperlower ≠ 0 then 1 else -1)
  let cell_nbr_idx := cell_idx.set axis (cell_idx.get axis + (if upperlower ≠ 0 then 1 else -1))
  let bdry_idx :=
    SideIndex.make cell_idx axis (if upperlower ≠ 0 then SideIndex.Upper else SideIndex.Lower)
  let dA := face_sc_data.read bdry_idx
  let u := faceVelocity NDIM u_data axis cell_idx cell_nbr_idx bdry_idx
  (-d_rho * n.dot (u - u_box) * u * dA)

/-- The vector added by the statement `trac += n(axis) * viscous_force * dA` for a boundary cell:
the same expression as in `tractionCell`. -/
def viscousContribution (NDIM : Nat) (d_mu : ℚ) (patch_dx : Nat → ℚ)
    (u_data face_sc_data : SideData) (axis upperlower : Nat) (cell_idx : Index) : Vector3d :=
  let n : Vector3d := Vector3d.Zero.set axis (if upperlower ≠ 0 then 1 else -1)
  let cell_nbr_idx := cell_idx.set axis (cell_idx.get axis + (if upperlower ≠ 0 then 1 else -1))
  let bdry_idx :=
    SideIndex.make cell_idx axis (if upperlower ≠ 0 then SideIndex.Upper else SideIndex.Lower)
  let dA := face_sc_data.read bdry_idx
  let viscous_force := viscousForce NDIM d_mu patch_dx u_data axis n cell_idx cell_nbr_idx
  n.get axis * viscous_force * dA

/-- The vector a boundary cell of a patch adds to `trac`: its pressure, convective and viscous
contributions, read from the data of the patch. -/
def cellTraction (NDIM : Nat) (d_rho d_mu : ℚ) (u_idx p_idx face_idx : Int) (u_box : Vector3d)
    (patch : Patch) (axis upperlower : Nat) (cell_idx : Index) : Vector3d :=
  pressureContribution (patch.cellData p_idx) (patch.sideData face_idx) axis upperlower cell_idx +
    convectiveContribution NDIM d_rho (patch.sideData u_idx) (patch.sideData face_idx) u_box axis
      upperlower cell_idx +
    viscousContribution NDIM d_mu patch.dx (patch.sideData u_idx) (patch.sideData face_idx) axis
      upperlower cell_idx

/-- The sum, in the order of the loops of the surface traction integral, of a vector `g` given
for every boundary cell: over the levels from `finest_ln` down to `coarsest_ln`, the patches of
the level that intersect the integration box of the body, the axes, the lower and the upper
side, and the cells of the patch on that side of the box. -/
def tractionSum (NDIM : Nat) (g : Patch → Nat → Nat → Index → Vector3d)
    (patch_hierarchy : PatchHierarchy) (coarsest_ln finest_ln : Int)
    (fobj : IBHydrodynamicForceObject) : Vector3d :=
  ((levelsDescending coarsest_ln finest_ln).map fun ln =>
    ((patch_hierarchy.getPatchLevel ln).patches.map fun patch =>
      if patch.box.intersects NDIM (integrationBox (patch_hierarchy.getPatchLevel ln) fobj) then
        ((List.range NDIM).map fun axis =>
          ([0, 1].map fun upperlower =>
            (((patch.box.inter
                (bdryBox (integrationBox (patch_hierarchy.getPatchLevel ln) fobj) axis
                  upperlower)).cells NDIM).map (g patch axis upperlower)).sum).sum).sum
      else 0).sum).sum

/-- The patches of a level tile a box: every cell of the box lies in the box of some patch, and
no cell lies in the boxes of two patches. -/
def Tiles (NDIM : Nat) (patches : List Patch) (box : Box) : Prop :=
  (∀ c : Index, box.contains NDIM c = true → ∃ p ∈ patches, p.box.contains NDIM c = true) ∧
  patches.Pairwise fun p q =>
    ∀ c : Index, ¬ (p.box.contains NDIM c = true ∧ q.box.contains NDIM c = true)

/-! ## The face weights as a cache -/

/-- The hierarchy in which the side data of descriptor index `idx` hold, on every patch, the
arbitrary values `g patch`: the state of a field before it is rebuilt. -/
def PatchHierarchy.setSideData (h : PatchHierarchy) (idx : Int) (g : Patch → SideData) :
    PatchHierarchy :=
  { levels := h.levels.map fun level =>
      { level with
        patches := level.patches.map fun patch =>
          { patch with sideData := fun i => if i = idx then g patch else patch.sideData i } } }

/-- The force computation as the specification words it when the hierarchy has not changed
since the last call: the cached face weights held by the hierarchy are reused, that is, the body
of `computeHydrodynamicForce` is run without the call of `computeFaceWeight`. -/
def computeHydrodynamicForceCached (NDIM : Nat) (self : IBHydrodynamicForceEvaluator)
    (u_idx p_idx _f_idx vol_sc_idx _vol_cc_idx : Int) (patch_hierarchy : PatchHierarchy)
    (coarsest_ln finest_ln : Int) (current_time new_time : ℚ) : ComputeResult :=
  let dt := new_time - current_time
  let out := self.d_hydro_objs.foldl
    (fun (acc : HydroObjMap × List Vector3d) it =>
      let r := computeBody NDIM self u_idx p_idx vol_sc_idx patch_hierarchy coarsest_ln finest_ln
        dt acc.2 it.2
      (acc.1 ++ [(it.1, r.1)], r.2))
    ([], [])
  { evaluator := { self with d_hydro_objs := out.1 }
    hierarchy := patch_hierarchy
    reductions := out.2 }

/-! ## Rounded arithmetic

The definitions above compute in exact rationals. The program computes in `double`: every
arithmetic operation returns the binary64 value nearest to its exact result. This section
repeats the force computation with a rounding function `fl` applied to the result of every
arithmetic operation, in the order in which C++ evaluates the expressions of the source. With
`fl` the identity these are the definitions above; with `fl = Binary64.roundToNearest` they are
the computation in IEEE 754 double precision (round to nearest, ties to even, one rounding per
operation, no fused multiply-add). Data are rationals that are binary64 values; negation and
the constants `0.25`, `0.5`, `2.0` are exact. -/

namespace Binary64

/-- The number of binary digits of `n`, found with at most `fuel` halvings. -/
def bitLengthAux : Nat → Nat → Nat
  | 0, _ => 0
  | fuel + 1, n => if n = 0 then 0 else bitLengthAux fuel (n / 2) + 1

/-- The number of binary digits of `n`. -/
def bitLength (n : Nat) : Nat := bitLengthAux n n

/-- The exponent `e` of the unit in the last place of the binary64 values around the positive
rational `n / d`: `2 ^ (e + 52) ≤ n / d < 2 ^ (e + 53)` for a normal value, and `e = -1074` in
the subnormal range. -/
def exponent (n d : Nat) : Int :=
  let k : Int := (bitLength n : Int) - (bitLength d : Int)
  let L : Int := if d * 2 ^ k.toNat ≤ n * 2 ^ (-k).toNat then k else k - 1
  max (L - 52) (-1074)

/-- The integer nearest to `N / D`, a tie going to the even one. -/
def nearestEven (N D : Nat) : Nat :=
  let f := N / D
  let r := N % D
  if 2 * r < D then f else if D < 2 * r then f + 1 else if f % 2 = 0 then f else f + 1

/-- The binary64 value nearest to the rational `q`, ties going to the even significand: the
multiple `s * 2 ^ e` of the unit in the last place `2 ^ e` of the binade of `q` whose integer
`s` is nearest to `q / 2 ^ e`. Overflow to infinity is not modelled: a value beyond the largest
finite double is rounded as if the exponent were unbounded. -/
def roundToNearest (q : ℚ) : ℚ :=
  if q.num = 0 then 0
  else
    let e := exponent q.num.natAbs q.den
    let m := nearestEven (q.num.natAbs * 2 ^ (-e).toNat) (q.den * 2 ^ e.toNat)
    let s : Int := if q.num < 0 then -(m : Int) else (m : Int)
    (s : ℚ) * (2 : ℚ) ^ e

end Binary64

namespace Rounded

/-- The sum `a + b` of two `Eigen::Vector3d`, each component rounded. -/
def add (fl : ℚ → ℚ) (a b : Vector3d) : Vector3d :=
  ⟨fl (a.x + b.x), fl (a.y + b.y), fl (a.z + b.z)⟩

/-- The difference `a - b` of two `Eigen::Vector3d`, each component rounded. -/
def sub (fl : ℚ → ℚ) (a b : Vector3d) : Vector3d :=
  ⟨fl (a.x - b.x), fl (a.y - b.y), fl (a.z - b.z)⟩

/-- The product `c * v` of a scalar and an `Eigen::Vector3d`, each component rounded. -/
def scale (fl : ℚ → ℚ) (c : ℚ) (v : Vector3d) : Vector3d :=
  ⟨fl (c * v.x), fl (c * v.y), fl (c * v.z)⟩

/-- The product `v * c` of an `Eigen::Vector3d` and a scalar, each component rounded. -/
def times (fl : ℚ → ℚ) (v : Vector3d) (c : ℚ) : Vector3d :=
  ⟨fl (v.x * c), fl (v.y * c), fl (v.z * c)⟩

/-- The quotient `v / c` of an `Eigen::Vector3d` by a scalar, each component rounded. -/
def over (fl : ℚ → ℚ) (v : Vector3d) (c : ℚ) : Vector3d :=
  ⟨fl (v.x / c), fl (v.y / c), fl (v.z / c)⟩

/-- The inner product `a.dot(b)`: the three rounded products, added from the first to the
last. When two of the products are zero, as for a normal `n` with a single non-zero entry, the
sum is the third product whatever the order of the additions. -/
def dot (fl : ℚ → ℚ) (a b : Vector3d) : ℚ :=
  fl (fl (fl (a.x * b.x) + fl (a.y * b.y)) + fl (a.z * b.z))

/-- The cell volume `dx[0] * dx[1]` (times `dx[2]` when `NDIM > 2`). -/
def cellVolume (fl : ℚ → ℚ) (NDIM : Nat) (dx : Nat → ℚ) : ℚ :=
  if NDIM > 2 then fl (fl (dx 0 * dx 1) * dx 2) else fl (dx 0 * dx 1)

/-- The loop `for (axis ...) axis_data.fill(cell_vol / dx[axis])` of `computeFaceWeight`. -/
def fillFaceAreas (fl : ℚ → ℚ) (NDIM : Nat) (patch_box : Box) (dx : Nat → ℚ) (data : SideData) :
    SideData :=
  (List.range NDIM).foldl
    (fun data axis =>
      SideData.fill NDIM patch_box data axis (fl (cellVolume fl NDIM dx / dx axis)))
    data

/-- The face weights `computeFaceWeight` leaves on one patch of level `ln`. -/
def faceWeightPatch (fl : ℚ → ℚ) (NDIM : Nat) (ln_below_finest : Bool) (periodic_shift : Index)
    (refined_region_boxes : List Box) (patch : Patch) (data : SideData) : SideData :=
  let data := fillFaceAreas fl NDIM patch.box patch.dx data
  if ln_below_finest then
    refined_region_boxes.foldl (zeroRefinedBox NDIM periodic_shift patch.box) data
  else data

/-- The data `computeFaceWeight` leaves on one patch of level `ln`. -/
def computeFaceWeightPatch (fl : ℚ → ℚ) (NDIM : Nat) (self : IBHydrodynamicForceEvaluator)
    (patch_hierarchy : PatchHierarchy) (ln : Int) (level : PatchLevel) (patch : Patch) : Patch :=
  { patch with
    sideData := fun idx =>
      if idx = self.d_face_wgt_sc_idx then
        faceWeightPatch fl NDIM (decide (ln < patch_hierarchy.getFinestLevelNumber))
          level.periodicShift (refinedRegionBoxes patch_hierarchy ln) patch (patch.sideData idx)
      else patch.sideData idx }

/-- The loop over the patches of level `ln` in `computeFaceWeight`. -/
def computeFaceWeightLevel (fl : ℚ → ℚ) (NDIM : Nat) (self : IBHydrodynamicForceEvaluator)
    (patch_hierarchy : PatchHierarchy) (ln : Int) (level : PatchLevel) : PatchLevel :=
  { level with
    patches := level.patches.map (computeFaceWeightPatch fl NDIM self patch_hierarchy ln level) }

/-- The method `computeFaceWeight`: the loop over the levels `0, ..., finest`. -/
def computeFaceWeight (fl : ℚ → ℚ) (NDIM : Nat) (self : IBHydrodynamicForceEvaluator)
    (patch_hierarchy : PatchHierarchy) : PatchHierarchy :=
  { levels := patch_hierarchy.levels.mapIdx fun ln level =>
      computeFaceWeightLevel fl NDIM self patch_hierarchy (ln : Int) level }

/-- The momentum added by one cell: `P_box_new(axis) += d_rho * vol * u_axis` for every axis. -/
def momentumCell (fl : ℚ → ℚ) (NDIM : Nat) (d_rho : ℚ) (u_data vol_sc_data : SideData)
    (P_box_new : Vector3d) (cell_idx : Index) : Vector3d :=
  (List.range NDIM).foldl
    (fun P_box_new axis =>
      let side_idx := SideIndex.make cell_idx axis SideIndex.Lower
      let u_axis := u_data.read side_idx
      let vol := vol_sc_data.read side_idx
      P_box_new.set axis (fl (P_box_new.get axis + fl (fl (d_rho * vol) * u_axis))))
    P_box_new

/-- The momentum added by one patch. -/
def momentumPatch (fl : ℚ → ℚ) (NDIM : Nat) (d_rho : ℚ) (u_idx vol_sc_idx : Int)
    (integration_box : Box) (P_box_new : Vector3d) (patch : Patch) : Vector3d :=
  let patch_box := patch.box
  let boxes_intersect := patch_box.intersects NDIM integration_box
  if !boxes_intersect then P_box_new
  else
    let trim_box := patch_box.inter integration_box
    let u_data := patch.sideData u_idx
    let vol_sc_data := patch.sideData vol_sc_idx
    (trim_box.cells NDIM).foldl (momentumCell fl NDIM d_rho u_data vol_sc_data) P_box_new

/-- The momentum added by one level. -/
def momentumLevel (fl : ℚ → ℚ) (NDIM : Nat) (d_rho : ℚ) (u_idx vol_sc_idx : Int)
    (patch_hierarchy : PatchHierarchy) (fobj : IBHydrodynamicForceObject) (P_box_new : Vector3d)
    (ln : Int) : Vector3d :=
  let level := patch_hierarchy.getPatchLevel ln
  let integration_box := integrationBox level fobj
  level.patches.foldl (momentumPatch fl NDIM d_rho u_idx vol_sc_idx integration_box) P_box_new

/-- The momentum integral of a body, before the reduction. -/
def momentumIntegral (fl : ℚ → ℚ) (NDIM : Nat) (d_rho : ℚ) (u_idx vol_sc_idx : Int)
    (patch_hierarchy : PatchHierarchy) (coarsest_ln finest_ln : Int)
    (fobj : IBHydrodynamicForceObject) : Vector3d :=
  (levelsDescending coarsest_ln finest_ln).foldl
    (momentumLevel fl NDIM d_rho u_idx vol_sc_idx patch_hierarchy fobj) Vector3d.Zero

/-- The velocity `u` interpolated to the boundary face of a cell. -/
def faceVelocity (fl : ℚ → ℚ) (NDIM : Nat) (u_data : SideData) (axis : Nat)
    (cell_idx cell_nbr_idx : Index) (bdry_idx : SideIndex) : Vector3d :=
  (List.range NDIM).foldl
    (fun u d =>
      if d = axis then u.set d (u_data.read bdry_idx)
      else
        let offset := Index.offset d
        u.set d
          (fl (0.25 *
            fl (fl (fl (u_data.read (SideIndex.make cell_idx d SideIndex.Lower) +
                  u_data.read (SideIndex.make (cell_idx + offset) d SideIndex.Lower)) +
                u_data.read (SideIndex.make cell_nbr_idx d SideIndex.Lower)) +
              u_data.read (SideIndex.make (cell_nbr_idx + offset) d SideIndex.Lower)))))
    Vector3d.Zero

/-- The vector `viscous_force` of a boundary cell. -/
def viscousForce (fl : ℚ → ℚ) (NDIM : Nat) (d_mu : ℚ) (patch_dx : Nat → ℚ) (u_data : SideData)
    (axis : Nat) (n : Vector3d) (cell_idx cell_nbr_idx : Index) : Vector3d :=
  (List.range NDIM).foldl
    (fun viscous_force d =>
      if d = axis then
        viscous_force.set axis
          (fl (fl (fl (n.get axis * fl (2.0 * d_mu)) / fl (2.0 * patch_dx axis)) *
            fl (u_data.read (SideIndex.make cell_nbr_idx axis SideIndex.Lower) -
              u_data.read (SideIndex.make cell_idx axis SideIndex.Lower))))
      else
        let offset := Index.offset d
        viscous_force.set d
          (fl (fl (fl (d_mu / fl (2.0 * patch_dx d)) *
              fl (u_data.read (SideIndex.make (cell_idx + offset) axis SideIndex.Lower) -
                u_data.read (SideIndex.make (cell_idx - offset) axis SideIndex.Lower)))
            +
            fl (fl (fl (d_mu * n.get axis) / fl (2.0 * patch_dx axis)) *
              fl (fl (fl (u_data.read (SideIndex.make cell_nbr_idx d SideIndex.Lower) +
                    u_data.read (SideIndex.make (cell_nbr_idx + offset) d SideIndex.Lower)) -
                  u_data.read (SideIndex.make cell_idx d SideIndex.Lower)) -
                u_data.read (SideIndex.make (cell_idx + offset) d SideIndex.Lower))))))
    Vector3d.Zero

/-- The traction added by one boundary cell: the three statements `trac += ...`. -/
def tractionCell (fl : ℚ → ℚ) (NDIM : Nat) (d_rho d_mu : ℚ) (patch_dx : Nat → ℚ)
    (p_data : CellData) (u_data face_sc_data : SideData) (box_u_new : Vector3d)
    (axis upperlower : Nat) (trac : Vector3d) (cell_idx : Index) : Vector3d :=
  let n : Vector3d := Vector3d.Zero.set axis (if upperlower ≠ 0 then 1 else -1)
  let cell_nbr_idx := cell_idx.set axis (cell_idx.get axis + (if upperlower ≠ 0 then 1 else -1))
  let bdry_idx :=
    SideIndex.make cell_idx axis (if upperlower ≠ 0 then SideIndex.Upper else SideIndex.Lower)
  let dA := face_sc_data.read bdry_idx
  let trac := add fl trac
    (times fl (times fl (scale fl (-0.5) n) (fl (p_data cell_idx + p_data cell_nbr_idx))) dA)
  let u := faceVelocity fl NDIM u_data axis cell_idx cell_nbr_idx bdry_idx
  let trac := add fl trac
    (times fl (scale fl (fl (-d_rho * dot fl n (sub fl u box_u_new))) u) dA)
  let viscous_force := viscousForce fl NDIM d_mu patch_dx u_data axis n cell_idx cell_nbr_idx
  add fl trac (times fl (scale fl (n.get axis) viscous_force) dA)

/-- The traction added by one side of the integration box on one patch. -/
def tractionSide (fl : ℚ → ℚ) (NDIM : Nat) (d_rho d_mu : ℚ) (patch : Patch)
    (u_idx p_idx face_idx : Int) (integration_box : Box) (box_u_new : Vector3d) (axis : Nat)
    (trac : Vector3d) (upperlower : Nat) : Vector3d :=
  let side_box := bdryBox integration_box axis upperlower
  if !patch.box.intersects NDIM side_box then trac
  else
    let trim_box := patch.box.inter side_box
    (trim_box.cells NDIM).foldl
      (tractionCell fl NDIM d_rho d_mu patch.dx (patch.cellData p_idx) (patch.sideData u_idx)
        (patch.sideData face_idx) box_u_new axis upperlower)
      trac

/-- The traction added by one patch. -/
def tractionPatch (fl : ℚ → ℚ) (NDIM : Nat) (d_rho d_mu : ℚ) (u_idx p_idx face_idx : Int)
    (integration_box : Box) (box_u_new : Vector3d) (trac : Vector3d) (patch : Patch) :
    Vector3d :=
  if !patch.box.intersects NDIM integration_box then trac
  else
    (List.range NDIM).foldl
      (fun trac axis =>
        [0, 1].foldl
          (tractionSide fl NDIM d_rho d_mu patch u_idx p_idx face_idx integration_box box_u_new
            axis)
          trac)
      trac

/-- The traction added by one level. -/
def tractionLevel (fl : ℚ → ℚ) (NDIM : Nat) (d_rho d_mu : ℚ) (u_idx p_idx face_idx : Int)
    (patch_hierarchy : PatchHierarchy) (fobj : IBHydrodynamicForceObject) (trac : Vector3d)
    (ln : Int) : Vector3d :=
  let level := patch_hierarchy.getPatchLevel ln
  let integration_box := integrationBox level fobj
  level.patches.foldl
    (tractionPatch fl NDIM d_rho d_mu u_idx p_idx face_idx integration_box fobj.box_u_new) trac

/-- The surface traction integral of a body, before the reduction. -/
def surfaceTraction (fl : ℚ → ℚ) (NDIM : Nat) (d_rho d_mu : ℚ) (u_idx p_idx face_idx : Int)
    (patch_hierarchy : PatchHierarchy) (coarsest_ln finest_ln : Int)
    (fobj : IBHydrodynamicForceObject) : Vector3d :=
  (levelsDescending coarsest_ln finest_ln).foldl
    (tractionLevel fl NDIM d_rho d_mu u_idx p_idx face_idx patch_hierarchy fobj) Vector3d.Zero

/-- The body of the loop over `d_hydro_objs` in `computeHydrodynamicForce`, on the hierarchy
that carries the face weights. -/
def computeBody (fl : ℚ → ℚ) (NDIM : Nat) (self : IBHydrodynamicForceEvaluator)
    (u_idx p_idx vol_sc_idx : Int) (patch_hierarchy : PatchHierarchy)
    (coarsest_ln finest_ln : Int) (dt : ℚ) (log : List Vector3d)
    (fobj : IBHydrodynamicForceObject) : IBHydrodynamicForceObject × List Vector3d :=
  let reduced := sumReduction log
    (momentumIntegral fl NDIM self.d_rho u_idx vol_sc_idx patch_hierarchy coarsest_ln finest_ln
      fobj)
  let fobj := { fobj with P_box_new := reduced.1 }
  let log := reduced.2
  let reduced := sumReduction log
    (surfaceTraction fl NDIM self.d_rho self.d_mu u_idx p_idx self.d_face_wgt_sc_idx
      patch_hierarchy coarsest_ln finest_ln fobj)
  let trac := reduced.1
  let log := reduced.2
  ({ fobj with
      F_new :=
        add fl
          (over fl
            (sub fl (add fl (sub fl fobj.P_box_current fobj.P_box_new) fobj.P_new)
              fobj.P_current)
            dt)
          trac },
    log)

/-- The method `computeHydrodynamicForce`. -/
def computeHydrodynamicForce (fl : ℚ → ℚ) (NDIM : Nat) (self : IBHydrodynamicForceEvaluator)
    (u_idx p_idx _f_idx vol_sc_idx _vol_cc_idx : Int) (patch_hierarchy : PatchHierarchy)
    (coarsest_ln finest_ln : Int) (current_time new_time : ℚ) : ComputeResult :=
  let patch_hierarchy := computeFaceWeight fl NDIM self patch_hierarchy
  let dt := fl (new_time - current_time)
  let out := self.d_hydro_objs.foldl
    (fun (acc : HydroObjMap × List Vector3d) it =>
      let r := computeBody fl NDIM self u_idx p_idx vol_sc_idx patch_hierarchy coarsest_ln
        finest_ln dt acc.2 it.2
      (acc.1 ++ [(it.1, r.1)], r.2))
    ([], [])
  { evaluator := { self with d_hydro_objs := out.1 }
    hierarchy := patch_hierarchy
    reductions := out.2 }

end Rounded

/-! ## Concrete inputs -/

/-- A record with every member zero, used as the indeterminate default-constructed record. -/
def zeroObject : IBHydrodynamicForceObject :=
  { strct_id := 0, strct_ln := 0,
    F_current := Vector3d.Zero, T_current := Vector3d.Zero, P_current := Vector3d.Zero,
    L_current := Vector3d.Zero, F_new := Vector3d.Zero, T_new := Vector3d.Zero,
    P_new := Vector3d.Zero, L_new := Vector3d.Zero, box_u_current := Vector3d.Zero,
    box_X_lower_current := Vector3d.Zero, box_X_upper_current := Vector3d.Zero,
    box_u_new := Vector3d.Zero, box_X_lower_new := Vector3d.Zero,
    box_X_upper_new := Vector3d.Zero, P_box_current := Vector3d.Zero,
    L_box_current := Vector3d.Zero, P_box_new := Vector3d.Zero, L_box_new := Vector3d.Zero }

/-- A body with structure id `1` whose members are all different from zero. -/
def sampleObject : IBHydrodynamicForceObject :=
  { strct_id := 1, strct_ln := 0,
    F_current := ⟨1, 2, 3⟩, T_current := ⟨4, 5, 6⟩, P_current := ⟨7, 8, 9⟩,
    L_current := ⟨10, 11, 12⟩, F_new := ⟨13, 14, 15⟩, T_new := ⟨16, 17, 18⟩,
    P_new := ⟨19, 20, 21⟩, L_new := ⟨22, 23, 24⟩, box_u_current := ⟨25, 26, 27⟩,
    box_X_lower_current := ⟨-3, -2, -1⟩, box_X_upper_current := ⟨28, 29, 30⟩,
    box_u_new := ⟨31, 32, 33⟩, box_X_lower_new := ⟨-6, -5, -4⟩,
    box_X_upper_new := ⟨34, 35, 36⟩, P_box_current := ⟨37, 38, 39⟩,
    L_box_current := ⟨40, 41, 42⟩, P_box_new := ⟨43, 44, 45⟩, L_box_new := ⟨46, 47, 48⟩ }

/-- An evaluator without bodies. -/
def emptyEvaluator : IBHydrodynamicForceEvaluator :=
  { d_object_name := "hydro_force", d_rho := 1, d_mu := 1, d_face_wgt_sc_idx := 7,
    d_hydro_objs := [] }

/-- An evaluator tracking the single body `sampleObject`. -/
def sampleEvaluator : IBHydrodynamicForceEvaluator :=
  { emptyEvaluator with d_hydro_objs := [(1, sampleObject)] }

/-- A restart manager of a run that is not a restart. -/
def freshRun : RestartManager := { isFromRestart := false, rootDatabase := [] }

/-- A patch of the two-by-two-by-two cells `[0, 1]³` with unit spacings: pressure `3` under every
cell descriptor, velocity `1` under side descriptor `1`, volume weight `5` under side
descriptor `3`, and `0` under every other side descriptor. -/
def samplePatch : Patch :=
  { box := { lower := ⟨0, 0, 0⟩, upper := ⟨1, 1, 1⟩ }
    dx := fun _ => 1
    cellData := fun _ _ => 3
    sideData := fun idx _ _ => if idx = 1 then 1 else if idx = 3 then 5 else 0 }

/-- A level made of `samplePatch`, on a grid of unit cells whose origin is the point zero. -/
def sampleLevel : PatchLevel :=
  { patches := [samplePatch]
    ratioToCoarserLevel := ⟨1, 1, 1⟩
    periodicShift := Index.zero
    getCellIndex := fun X => ⟨⌊X.x⌋, ⌊X.y⌋, ⌊X.z⌋⟩ }

/-- A hierarchy of the single level `sampleLevel`. -/
def sampleHierarchy : PatchHierarchy := { levels := [sampleLevel] }

/-- A coarse patch of the four-by-four cells `[0, 3]²` with unit spacings and no data. -/
def coarsePatch : Patch :=
  { box := { lower := ⟨0, 0, 0⟩, upper := ⟨3, 3, 0⟩ }
    dx := fun _ => 1
    cellData := fun _ _ => 0
    sideData := fun _ _ _ => 0 }

/-- A fine patch of the four-by-four cells `[2, 5]²`, which at ratio two covers the coarse cells
`[1, 2]²`. -/
def finePatch : Patch :=
  { box := { lower := ⟨2, 2, 0⟩, upper := ⟨5, 5, 0⟩ }
    dx := fun _ => 1 / 2
    cellData := fun _ _ => 0
    sideData := fun _ _ _ => 0 }

/-- A two-dimensional hierarchy of two levels without periodic boundaries: `coarsePatch`, and on
it `finePatch` at refinement ratio two. -/
def twoLevelHierarchy : PatchHierarchy :=
  { levels :=
      [{ patches := [coarsePatch], ratioToCoarserLevel := ⟨1, 1, 1⟩, periodicShift := Index.zero,
         getCellIndex := fun X => ⟨⌊X.x⌋, ⌊X.y⌋, 0⟩ },
       { patches := [finePatch], ratioToCoarserLevel := ⟨2, 2, 1⟩, periodicShift := Index.zero,
         getCellIndex := fun X => ⟨⌊2 * X.x⌋, ⌊2 * X.y⌋, 0⟩ }] }

/-- Face-centred samples of the velocity field `u(x) = u0 + G x`, affine in the coordinates, on
a grid of spacings `dx` whose cell `0` has its lower corner at the origin: component `a` is
sampled at the centres of the faces normal to `a`, the lower face of cell `idx` lying at
`idx(a) * dx(a)` along `a` and at `(idx(d) + 1/2) * dx(d)` along every other axis `d`. -/
def affineVelocity (NDIM : Nat) (u0 : Nat → ℚ) (G : Nat → Nat → ℚ) (dx : Nat → ℚ) : SideData :=
  fun a idx =>
    u0 a +
      ((List.range NDIM).map fun d =>
        G a d * (((idx.get d : Int) : ℚ) + (if d = a then 0 else 1 / 2)) * dx d).sum

/-- The velocity gradient of a flow stretched along the first axis: `du_0/dx_0 = 1`, every other
entry zero. -/
def stretchGradient : Nat → Nat → ℚ := fun a d => if a = 0 ∧ d = 0 then 1 else 0

/-- A two-dimensional patch of the three-by-three cells `[0, 2]²` with unit spacings: pressure
`0`, under side descriptor `1` the velocity `u(x) = (x_0, 0)`, and `1` under every other side
descriptor. -/
def flowPatch : Patch :=
  { box := { lower := ⟨0, 0, 0⟩, upper := ⟨2, 2, 0⟩ }
    dx := fun _ => 1
    cellData := fun _ _ => 0
    sideData := fun idx =>
      if idx = 1 then affineVelocity 2 (fun _ => 0) stretchGradient (fun _ => 1)
      else fun _ _ => 1 }

/-- A hierarchy of the single level made of `flowPatch`, on a grid of unit cells. -/
def flowHierarchy : PatchHierarchy :=
  { levels :=
      [{ patches := [flowPatch], ratioToCoarserLevel := ⟨1, 1, 1⟩, periodicShift := Index.zero,
         getCellIndex := fun X => ⟨⌊X.x⌋, ⌊X.y⌋, 0⟩ }] }

/-- A body whose new-time box is the single cell `(1, 1)`, with box velocity `(0, 0, 0)` at the
current time and `(1, 0, 0)` at the new time. -/
def flowObject : IBHydrodynamicForceObject :=
  { zeroObject with
    strct_id := 1
    box_X_lower_new := ⟨1, 1, 0⟩
    box_X_upper_new := ⟨3 / 2, 3 / 2, 0⟩
    box_u_new := ⟨1, 0, 0⟩ }

/-- An evaluator of unit density and viscosity tracking the single body `flowObject`. -/
def flowEvaluator : IBHydrodynamicForceEvaluator :=
  { emptyEvaluator with d_hydro_objs := [(1, flowObject)] }

/-- A two-dimensional patch of the cells `[0, 1] x [0, 3]` with spacings `(1, 1/2)`: pressure
`5` under every cell descriptor, the uniform velocity `(3, 0)` under side descriptor `4`, and
`0` under every other side descriptor. -/
def leftPatch : Patch :=
  { box := { lower := ⟨0, 0, 0⟩, upper := ⟨1, 3, 0⟩ }
    dx := fun d => if d = 0 then 1 else 1 / 2
    cellData := fun _ _ => 5
    sideData := fun idx a _ => if idx = 4 ∧ a = 0 then 3 else 0 }

/-- The patch of the cells `[2, 3] x [0, 3]` next to `leftPatch`, with the same data. -/
def rightPatch : Patch :=
  { leftPatch with box := { lower := ⟨2, 0, 0⟩, upper := ⟨3, 3, 0⟩ } }

/-- A level of the two patches `leftPatch` and `rightPatch`, which tile the cells
`[0, 3] x [0, 3]`, on a grid of spacings `(1, 1/2)` whose origin is the point zero. -/
def restLevel : PatchLevel :=
  { patches := [leftPatch, rightPatch]
    ratioToCoarserLevel := ⟨1, 1, 1⟩
    periodicShift := Index.zero
    getCellIndex := fun X => ⟨⌊X.x⌋, ⌊2 * X.y⌋, 0⟩ }

/-- A body whose new-time box, the cells `[1, 2] x [1, 2]`, straddles the two patches of
`restLevel`; its box velocity is zero, its momentum is the same at both times, and its box
momentum at the current time is zero. -/
def restObject : IBHydrodynamicForceObject :=
  { zeroObject with
    strct_id := 1
    P_current := ⟨7, 8, 0⟩
    P_new := ⟨7, 8, 0⟩
    box_X_lower_new := ⟨1, 1 / 2, 0⟩
    box_X_upper_new := ⟨2, 1, 0⟩ }

/-- An evaluator of density `2` and viscosity `3` tracking the single body `restObject`. -/
def restEvaluator : IBHydrodynamicForceEvaluator :=
  { d_object_name := "hydro_force", d_rho := 2, d_mu := 3, d_face_wgt_sc_idx := 7,
    d_hydro_objs := [(1, restObject)] }

/-- A body whose new-time box, the cells `[10, 11] x [10, 11]`, lies away from every patch of
`flowHierarchy`. -/
def farObject : IBHydrodynamicForceObject :=
  { zeroObject with
    strct_id := 1
    P_current := ⟨1, 2, 3⟩
    P_new := ⟨4, 6, 8⟩
    P_box_current := ⟨5, 5, 5⟩
    P_box_new := ⟨9, 9, 9⟩
    box_X_lower_new := ⟨10, 10, 0⟩
    box_X_upper_new := ⟨11, 11, 0⟩ }

/-- An evaluator tracking the single body `farObject`. -/
def farEvaluator : IBHydrodynamicForceEvaluator :=
  { emptyEvaluator with d_hydro_objs := [(1, farObject)] }

/-- A fine patch of the cells `[6, 7] x [2, 5]`, which at ratio two covers the coarse cells
`[3, 3] x [1, 2]` at the upper end of the first axis of `coarsePatch`. -/
def edgeFinePatch : Patch :=
  { box := { lower := ⟨6, 2, 0⟩, upper := ⟨7, 5, 0⟩ }
    dx := fun _ => 1 / 2
    cellData := fun _ _ => 0
    sideData := fun _ _ _ => 0 }

/-- A two-dimensional hierarchy of two levels whose domain, four coarse cells wide, is periodic
along the first axis only: `coarsePatch`, and on it `edgeFinePatch` at refinement ratio two. -/
def periodicHierarchy : PatchHierarchy :=
  { levels :=
      [{ patches := [coarsePatch], ratioToCoarserLevel := ⟨1, 1, 1⟩, periodicShift := ⟨4, 0, 0⟩,
         getCellIndex := fun X => ⟨⌊X.x⌋, ⌊X.y⌋, 0⟩ },
       { patches := [edgeFinePatch], ratioToCoarserLevel := ⟨2, 2, 1⟩,
         periodicShift := ⟨8, 0, 0⟩,
         getCellIndex := fun X => ⟨⌊2 * X.x⌋, ⌊2 * X.y⌋, 0⟩ }] }

/-- A hierarchy of two levels: `restLevel`, and above it the fine level of
`twoLevelHierarchy`. -/
def orderHierarchy : PatchHierarchy :=
  { levels := [restLevel, twoLevelHierarchy.getPatchLevel 1] }

/-- The hierarchy `orderHierarchy` with the two patches of its coarse level visited in the
opposite order. -/
def reorderedHierarchy : PatchHierarchy :=
  { levels :=
      [{ restLevel with patches := [rightPatch, leftPatch] }, twoLevelHierarchy.getPatchLevel 1] }

/-- An evaluator tracking two bodies, under the structure ids `-1` and `1`. -/
def pairEvaluator : IBHydrodynamicForceEvaluator :=
  { emptyEvaluator with d_hydro_objs := [(-1, farObject), (1, sampleObject)] }

/-- A two-dimensional patch of the five-by-five cells `[0, 4]²` with unit spacings, whose data
are binary64 values: the pressure nearest to `0.1` under cell descriptor `2` and nearest to
`0.3` under every other cell descriptor, the uniform velocity `(0.1, 0)` (nearest double) under
side descriptor `4`, and `0` under every other side descriptor. -/
def gridPatch : Patch :=
  { box := { lower := ⟨0, 0, 0⟩, upper := ⟨4, 4, 0⟩ }
    dx := fun _ => 1
    cellData := fun idx _ =>
      if idx = 2 then Binary64.roundToNearest (1 / 10) else Binary64.roundToNearest (3 / 10)
    sideData := fun idx a _ => if idx = 4 ∧ a = 0 then Binary64.roundToNearest (1 / 10) else 0 }

/-- A level made of `gridPatch`, on a grid of unit cells whose origin is the point zero. -/
def gridLevel : PatchLevel :=
  { patches := [gridPatch]
    ratioToCoarserLevel := ⟨1, 1, 1⟩
    periodicShift := Index.zero
    getCellIndex := fun X => ⟨⌊X.x⌋, ⌊X.y⌋, 0⟩ }

/-- A body at rest whose new-time box is the three-by-three cells `[1, 3]²`, one cell inside
`gridPatch` on every side; every other member is zero. -/
def gridObject : IBHydrodynamicForceObject :=
  { zeroObject with
    strct_id := 1
    box_X_lower_new := ⟨1, 1, 0⟩
    box_X_upper_new := ⟨3, 3, 0⟩ }

/-- An evaluator of unit density and viscosity tracking the single body `gridObject`. -/
def gridEvaluator : IBHydrodynamicForceEvaluator :=
  { emptyEvaluator with d_hydro_objs := [(1, gridObject)] }

end IBAMR

/-! # Theorems -/

namespace IBAMR

/-! ## The map of bodies -/

namespace HydroObjMap

theorem find_assign_self (m : HydroObjMap) (k : Int) (v : IBHydrodynamicForceObject) :
    (m.assign k v).find k = some v := by
  induction m with
  | nil => simp [assign, find]
  | cons hd tl ih =>
    obtain ⟨k', v'⟩ := hd
    by_cases h1 : k < k'
    · simp [assign, find, h1]
    · by_cases h2 : k = k'
      · simp [assign, find, h2]
      · simp [assign, find, h1, h2, ih]

theorem find_assign_ne (m : HydroObjMap) (k j : Int) (v : IBHydrodynamicForceObject)
    (hne : j ≠ k) : (m.assign k v).find j = m.find j := by
  induction m with
  | nil => simp [assign, find, hne]
  | cons hd tl ih =>
    obtain ⟨k', v'⟩ := hd
    by_cases h1 : k < k'
    · simp [assign, find, h1, hne]
    · by_cases h2 : k = k'
      · subst h2
        simp [assign, find, hne]
      · simp [assign, find, h1, h2, ih]

theorem find_eq_none_iff (m : HydroObjMap) (k : Int) : m.find k = none ↔ k ∉ keys m := by
  induction m with
  | nil => simp [find, keys]
  | cons hd tl ih =>
    obtain ⟨k', v'⟩ := hd
    by_cases h : k = k'
    · simp [find, keys, h]
    · simp only [keys] at ih
      simp [find, keys, h, ih]

theorem keys_assign_perm (m : HydroObjMap) (k : Int) (v : IBHydrodynamicForceObject)
    (hnone : m.find k = none) : (keys (m.assign k v)).Perm (k :: keys m) := by
  induction m with
  | nil => simp [assign, keys]
  | cons hd tl ih =>
    obtain ⟨k', v'⟩ := hd
    have hk : k ≠ k' := by
      intro h
      simp [find, h] at hnone
    have htl : find tl k = none := by
      simpa [find, hk] using hnone
    by_cases h1 : k < k'
    · simp [assign, keys, h1]
    · have := ih htl
      simp only [keys] at this
      simp only [assign, keys, h1, hk, if_false, List.map_cons]
      exact (List.Perm.cons k' this).trans (List.Perm.swap k k' _)

theorem mem_keys_assign (m : HydroObjMap) (k j : Int) (v : IBHydrodynamicForceObject) :
    j ∈ keys (m.assign k v) ↔ j = k ∨ j ∈ keys m := by
  induction m with
  | nil => simp [assign, keys]
  | cons hd tl ih =>
    obtain ⟨k', v'⟩ := hd
    simp only [keys] at ih
    by_cases h1 : k < k'
    · simp [assign, keys, h1]
    · by_cases h2 : k = k'
      · subst h2
        simp [assign, keys]
      · simp only [assign, keys, h1, h2, if_false, List.map_cons, List.mem_cons, ih]
        tauto

theorem WF_cons (k : Int) (v : IBHydrodynamicForceObject) (m : HydroObjMap) :
    WF ((k, v) :: m) ↔ (∀ j ∈ keys m, k < j) ∧ WF m := by
  simp [WF, keys, List.pairwise_cons]

theorem WF_assign (m : HydroObjMap) (k : Int) (v : IBHydrodynamicForceObject) (hwf : WF m) :
    WF (m.assign k v) := by
  induction m with
  | nil => simp [assign, WF, keys]
  | cons hd tl ih =>
    obtain ⟨k', v'⟩ := hd
    rw [WF_cons] at hwf
    obtain ⟨hlt, htl⟩ := hwf
    by_cases h1 : k < k'
    · simp only [assign, h1, if_true]
      rw [WF_cons, WF_cons]
      refine ⟨?_, hlt, htl⟩
      intro j hj
      simp only [keys, List.map_cons, List.mem_cons] at hj
      rcases hj with hj | hj
      · rw [hj]; exact h1
      · exact lt_trans h1 (hlt j hj)
    · by_cases h2 : k = k'
      · subst h2
        simp only [assign, lt_irrefl, if_false, if_true]
        rw [WF_cons]
        exact ⟨hlt, htl⟩
      · simp only [assign, h1, h2, if_false]
        rw [WF_cons]
        refine ⟨?_, ih htl⟩
        intro j hj
        rw [mem_keys_assign] at hj
        rcases hj with hj | hj
        · rw [hj]; omega
        · exact hlt j hj

theorem keys_assign_of_find_some (m : HydroObjMap) (k : Int) (v w : IBHydrodynamicForceObject)
    (hwf : WF m) (hsome : m.find k = some w) : keys (m.assign k v) = keys m := by
  induction m with
  | nil => simp [find] at hsome
  | cons hd tl ih =>
    obtain ⟨k', v'⟩ := hd
    rw [WF_cons] at hwf
    obtain ⟨hlt, htl⟩ := hwf
    by_cases h2 : k = k'
    · subst h2
      simp [assign, keys]
    · have hfind : find tl k = some w := by
        simpa [find, h2] using hsome
      have hmem : k ∈ keys tl := by
        by_contra hcon
        rw [← find_eq_none_iff] at hcon
        rw [hcon] at hfind
        cases hfind
      have h1 : ¬ k < k' := by
        have := hlt k hmem
        omega
      have := ih htl hfind
      simp only [keys] at this
      simp [assign, keys, h1, h2, this]

theorem find_map_snd (m : HydroObjMap) (k : Int)
    (f : IBHydrodynamicForceObject → IBHydrodynamicForceObject) :
    find (m.map fun it => (it.1, f it.2)) k = (m.find k).map f := by
  induction m with
  | nil => simp [find]
  | cons hd tl ih =>
    obtain ⟨k', v'⟩ := hd
    by_cases h : k = k'
    · simp [find, h]
    · simp [find, h, ih]

theorem keys_map_snd (m : HydroObjMap)
    (f : IBHydrodynamicForceObject → IBHydrodynamicForceObject) :
    keys (m.map fun it => (it.1, f it.2)) = keys m := by
  simp [keys, List.map_map, Function.comp_def]

theorem index_of_find_some (m : HydroObjMap) (k : Int) (dflt w : IBHydrodynamicForceObject)
    (hsome : m.find k = some w) : m.index k dflt = (w, m) := by
  simp [index, hsome]

theorem index_of_find_none (m : HydroObjMap) (k : Int) (dflt : IBHydrodynamicForceObject)
    (hnone : m.find k = none) : m.index k dflt = (dflt, m.assign k dflt) := by
  simp [index, hnone]

end HydroObjMap

/-! ## Registration, update, promotion and access -/

theorem except_bind_ok {ε α β : Type} (x : Except ε α) (f : α → Except ε β) (r : β)
    (h : x.bind f = .ok r) : ∃ a, x = .ok a ∧ f a = .ok r := by
  cases x with
  | error e => cases h
  | ok a => exact ⟨a, rfl, h⟩

theorem registerStructure_ok_shape (ndebug : Bool) (restart_manager : RestartManager)
    (uninit : IBHydrodynamicForceObject) (self self' : IBHydrodynamicForceEvaluator)
    (strct_id strct_ln : Int) (box_vel box_X_lower box_X_upper : Vector3d)
    (hok : registerStructure ndebug restart_manager uninit self strct_id strct_ln box_vel
      box_X_lower box_X_upper = .ok self') :
    ∃ force_obj, self' = { self with d_hydro_objs := self.d_hydro_objs.assign strct_id force_obj } := by
  unfold registerStructure at hok
  split at hok
  · cases hok
  · simp only at hok
    split at hok
    · injection hok with hok
      exact ⟨_, hok.symm⟩
    · split at hok
      · cases hok
      · obtain ⟨F, -, hok⟩ := except_bind_ok _ _ _ hok
        obtain ⟨T, -, hok⟩ := except_bind_ok _ _ _ hok
        obtain ⟨P, -, hok⟩ := except_bind_ok _ _ _ hok
        obtain ⟨L, -, hok⟩ := except_bind_ok _ _ _ hok
        obtain ⟨P_box, -, hok⟩ := except_bind_ok _ _ _ hok
        obtain ⟨L_box, -, hok⟩ := except_bind_ok _ _ _ hok
        obtain ⟨X_lo, -, hok⟩ := except_bind_ok _ _ _ hok
        obtain ⟨X_hi, -, hok⟩ := except_bind_ok _ _ _ hok
        injection hok with hok
        exact ⟨_, hok.symm⟩

/-- C3: outside a restart, `registerStructure` on an id that is not registered succeeds and adds
one record for that id: its structure id and level, its current box velocity and box corners
are the supplied ones, its current force, torque, momentum, angular momentum, box momentum and
box angular momentum are zero; the keys of the map are the old keys and the new id, and the
record of every other id is the one it was. -/
theorem registerStructure_fresh (ndebug : Bool) (restart_manager : RestartManager)
    (uninit : IBHydrodynamicForceObject) (self : IBHydrodynamicForceEvaluator)
    (strct_id strct_ln : Int) (box_vel box_X_lower box_X_upper : Vector3d)
    (hfresh : restart_manager.isFromRestart = false)
    (hnew : self.d_hydro_objs.find strct_id = none) :
    ∃ self' force_obj,
      registerStructure ndebug restart_manager uninit self strct_id strct_ln box_vel
        box_X_lower box_X_upper = .ok self' ∧
      self'.d_hydro_objs.find strct_id = some force_obj ∧
      force_obj.strct_id = strct_id ∧ force_obj.strct_ln = strct_ln ∧
      force_obj.box_u_current = box_vel ∧
      force_obj.box_X_lower_current = box_X_lower ∧
      force_obj.box_X_upper_current = box_X_upper ∧
      force_obj.F_current = Vector3d.Zero ∧ force_obj.T_current = Vector3d.Zero ∧
      force_obj.P_current = Vector3d.Zero ∧ force_obj.L_current = Vector3d.Zero ∧
      force_obj.P_box_current = Vector3d.Zero ∧ force_obj.L_box_current = Vector3d.Zero ∧
      (HydroObjMap.keys self'.d_hydro_objs).Perm (strct_id :: HydroObjMap.keys self.d_hydro_objs) ∧
      (∀ j, j ≠ strct_id → self'.d_hydro_objs.find j = self.d_hydro_objs.find j) := by
  have hcall : registerStructure ndebug restart_manager uninit self strct_id strct_ln box_vel
      box_X_lower box_X_upper =
      .ok { self with
        d_hydro_objs := self.d_hydro_objs.assign strct_id
          { uninit with
            strct_id := strct_id, strct_ln := strct_ln, box_u_current := box_vel
            box_X_lower_current := box_X_lower, box_X_upper_current := box_X_upper
            F_current := Vector3d.Zero, T_current := Vector3d.Zero, P_current := Vector3d.Zero
            L_current := Vector3d.Zero, P_box_current := Vector3d.Zero
            L_box_current := Vector3d.Zero } } := by
    simp [registerStructure, hfresh, hnew]
  exact ⟨_, _, hcall, HydroObjMap.find_assign_self _ _ _, rfl, rfl, rfl, rfl, rfl, rfl, rfl, rfl,
    rfl, rfl, rfl, HydroObjMap.keys_assign_perm _ _ _ hnew,
    fun j hj => HydroObjMap.find_assign_ne _ _ _ _ hj⟩

theorem registerStructure_fresh_witness :
    ∃ self' force_obj,
      registerStructure false freshRun zeroObject emptyEvaluator 1 0 ⟨1, 0, 0⟩ ⟨0, 0, 0⟩
        ⟨2, 2, 2⟩ = .ok self' ∧
      self'.d_hydro_objs.find 1 = some force_obj ∧
      force_obj.strct_id = 1 ∧ force_obj.strct_ln = 0 ∧
      force_obj.box_u_current = ⟨1, 0, 0⟩ ∧
      force_obj.box_X_lower_current = ⟨0, 0, 0⟩ ∧
      force_obj.box_X_upper_current = ⟨2, 2, 2⟩ ∧
      force_obj.F_current = Vector3d.Zero ∧ force_obj.T_current = Vector3d.Zero ∧
      force_obj.P_current = Vector3d.Zero ∧ force_obj.L_current = Vector3d.Zero ∧
      force_obj.P_box_current = Vector3d.Zero ∧ force_obj.L_box_current = Vector3d.Zero ∧
      (HydroObjMap.keys self'.d_hydro_objs).Perm (1 :: HydroObjMap.keys emptyEvaluator.d_hydro_objs) ∧
      (∀ j, j ≠ 1 → self'.d_hydro_objs.find j = emptyEvaluator.d_hydro_objs.find j) :=
  registerStructure_fresh false freshRun zeroObject emptyEvaluator 1 0 ⟨1, 0, 0⟩ ⟨0, 0, 0⟩
    ⟨2, 2, 2⟩ rfl rfl

/-- C4, as the claim states it, fails: in a build with `NDEBUG` defined the duplicate check is
not compiled, and registering the id `1` of `sampleEvaluator` again returns normally with the
record of `1` replaced. -/
theorem registerStructure_duplicate_unchecked :
    sampleEvaluator.d_hydro_objs.find 1 = some sampleObject ∧
    ∃ self', registerStructure true freshRun zeroObject sampleEvaluator 1 0 ⟨0, 0, 0⟩ ⟨0, 0, 0⟩
        ⟨0, 0, 0⟩ = .ok self' ∧
      self'.d_hydro_objs.find 1 ≠ some sampleObject := by
  refine ⟨rfl, _, rfl, ?_⟩
  simp [sampleEvaluator, emptyEvaluator, HydroObjMap.assign, HydroObjMap.find, sampleObject,
    zeroObject, Vector3d.Zero]

/-- C4 (amended): when the assertions are compiled (`NDEBUG` not defined), `registerStructure`
on an id that is already registered aborts on the duplicate check, before anything is written;
and in every build a call that returns leaves the keys of the map strictly ascending, so the
map never holds two records for one id. -/
theorem registerStructure_duplicate_checked (restart_manager : RestartManager)
    (uninit existing : IBHydrodynamicForceObject) (self : IBHydrodynamicForceEvaluator)
    (strct_id strct_ln : Int) (box_vel box_X_lower box_X_upper : Vector3d)
    (hdup : self.d_hydro_objs.find strct_id = some existing) :
    registerStructure false restart_manager uninit self strct_id strct_ln box_vel box_X_lower
      box_X_upper = .error .assertionFailed ∧
    ∀ (ndebug : Bool) (self' : IBHydrodynamicForceEvaluator),
      HydroObjMap.WF self.d_hydro_objs →
      registerStructure ndebug restart_manager uninit self strct_id strct_ln box_vel box_X_lower
        box_X_upper = .ok self' →
      HydroObjMap.WF self'.d_hydro_objs := by
  refine ⟨by simp [registerStructure, hdup], ?_⟩
  intro ndebug self' hwf hok
  obtain ⟨force_obj, rfl⟩ := registerStructure_ok_shape _ _ _ _ _ _ _ _ _ _ hok
  exact HydroObjMap.WF_assign _ _ _ hwf

theorem registerStructure_duplicate_checked_witness :
    registerStructure false freshRun zeroObject sampleEvaluator 1 0 ⟨0, 0, 0⟩ ⟨0, 0, 0⟩
      ⟨0, 0, 0⟩ = .error .assertionFailed ∧
    ∀ (ndebug : Bool) (self' : IBHydrodynamicForceEvaluator),
      HydroObjMap.WF sampleEvaluator.d_hydro_objs →
      registerStructure ndebug freshRun zeroObject sampleEvaluator 1 0 ⟨0, 0, 0⟩ ⟨0, 0, 0⟩
        ⟨0, 0, 0⟩ = .ok self' →
      HydroObjMap.WF self'.d_hydro_objs :=
  registerStructure_duplicate_checked freshRun zeroObject sampleObject sampleEvaluator 1 0
    ⟨0, 0, 0⟩ ⟨0, 0, 0⟩ ⟨0, 0, 0⟩ rfl

/-- C5: `updateStructureDomain` on a registered id succeeds, and the record of the id becomes
the old record with its new box velocity set to `box_vel_new`, its new box corners set to the
current corners displaced by `box_vel_new * (new_time - current_time)`, and its new momentum and
angular momentum set to the supplied ones. -/
theorem updateStructureDomain_registered (ndebug : Bool)
    (uninit force_obj : IBHydrodynamicForceObject) (self : IBHydrodynamicForceEvaluator)
    (strct_id strct_ln : Int) (current_time new_time : ℚ)
    (box_vel_new P_strct_new L_strct_new : Vector3d)
    (hreg : self.d_hydro_objs.find strct_id = some force_obj) :
    ∃ self' force_obj',
      updateStructureDomain ndebug uninit self strct_id strct_ln current_time new_time
        box_vel_new P_strct_new L_strct_new = .ok self' ∧
      self'.d_hydro_objs.find strct_id = some force_obj' ∧
      force_obj'.box_X_lower_new =
        force_obj.box_X_lower_current + box_vel_new * (new_time - current_time) ∧
      force_obj'.box_X_upper_new =
        force_obj.box_X_upper_current + box_vel_new * (new_time - current_time) ∧
      force_obj'.box_u_new = box_vel_new ∧
      force_obj'.P_new = P_strct_new ∧
      force_obj'.L_new = L_strct_new ∧
      force_obj' =
        { force_obj with
          box_u_new := box_vel_new
          box_X_lower_new :=
            force_obj.box_X_lower_current + box_vel_new * (new_time - current_time)
          box_X_upper_new :=
            force_obj.box_X_upper_current + box_vel_new * (new_time - current_time)
          P_new := P_strct_new
          L_new := L_strct_new } := by
  have hcall : updateStructureDomain ndebug uninit self strct_id strct_ln current_time new_time
      box_vel_new P_strct_new L_strct_new =
      .ok { self with
        d_hydro_objs := self.d_hydro_objs.assign strct_id
          { force_obj with
            box_u_new := box_vel_new
            box_X_lower_new :=
              force_obj.box_X_lower_current + box_vel_new * (new_time - current_time)
            box_X_upper_new :=
              force_obj.box_X_upper_current + box_vel_new * (new_time - current_time)
            P_new := P_strct_new
            L_new := L_strct_new } } := by
    simp [updateStructureDomain, hreg, HydroObjMap.index]
  exact ⟨_, _, hcall, HydroObjMap.find_assign_self _ _ _, rfl, rfl, rfl, rfl, rfl, rfl⟩

theorem updateStructureDomain_registered_witness :
    ∃ self' force_obj',
      updateStructureDomain false zeroObject sampleEvaluator 1 0 0 (1 / 2) ⟨2, 0, 0⟩ ⟨1, 1, 1⟩
        ⟨0, 0, 1⟩ = .ok self' ∧
      self'.d_hydro_objs.find 1 = some force_obj' ∧
      force_obj'.box_X_lower_new =
        sampleObject.box_X_lower_current + (⟨2, 0, 0⟩ : Vector3d) * ((1 / 2 : ℚ) - 0) ∧
      force_obj'.box_X_upper_new =
        sampleObject.box_X_upper_current + (⟨2, 0, 0⟩ : Vector3d) * ((1 / 2 : ℚ) - 0) ∧
      force_obj'.box_u_new = ⟨2, 0, 0⟩ ∧
      force_obj'.P_new = ⟨1, 1, 1⟩ ∧
      force_obj'.L_new = ⟨0, 0, 1⟩ ∧
      force_obj' =
        { sampleObject with
          box_u_new := ⟨2, 0, 0⟩
          box_X_lower_new :=
            sampleObject.box_X_lower_current + (⟨2, 0, 0⟩ : Vector3d) * ((1 / 2 : ℚ) - 0)
          box_X_upper_new :=
            sampleObject.box_X_upper_current + (⟨2, 0, 0⟩ : Vector3d) * ((1 / 2 : ℚ) - 0)
          P_new := ⟨1, 1, 1⟩
          L_new := ⟨0, 0, 1⟩ } :=
  updateStructureDomain_registered false zeroObject sampleObject sampleEvaluator 1 0 0 (1 / 2)
    ⟨2, 0, 0⟩ ⟨1, 1, 1⟩ ⟨0, 0, 1⟩ rfl

/-- C6, as the claim states it, fails: in a build with `NDEBUG` defined the check is not
compiled, and `updateStructureDomain` on the unknown id `5` of an evaluator without bodies
returns normally, having created a record for `5` through `d_hydro_objs[strct_id]`. -/
theorem updateStructureDomain_unknown_unchecked :
    emptyEvaluator.d_hydro_objs.find 5 = none ∧
    ∃ self', updateStructureDomain true zeroObject emptyEvaluator 5 0 0 1 ⟨1, 0, 0⟩ ⟨0, 0, 0⟩
        ⟨0, 0, 0⟩ = .ok self' ∧
      HydroObjMap.keys self'.d_hydro_objs = [5] := by
  refine ⟨rfl, _, rfl, ?_⟩
  simp [emptyEvaluator, HydroObjMap.index, HydroObjMap.find, HydroObjMap.assign,
    HydroObjMap.keys]

/-- C6 (amended): when the assertions are compiled (`NDEBUG` not defined),
`updateStructureDomain` on an id that is not registered aborts on its check, before anything is
written: no record is created and none is changed. -/
theorem updateStructureDomain_unknown_checked (uninit : IBHydrodynamicForceObject)
    (self : IBHydrodynamicForceEvaluator) (strct_id strct_ln : Int) (current_time new_time : ℚ)
    (box_vel_new P_strct_new L_strct_new : Vector3d)
    (hunknown : self.d_hydro_objs.find strct_id = none) :
    updateStructureDomain false uninit self strct_id strct_ln current_time new_time box_vel_new
      P_strct_new L_strct_new = .error .assertionFailed := by
  simp [updateStructureDomain, hunknown]

theorem updateStructureDomain_unknown_checked_witness :
    updateStructureDomain false zeroObject emptyEvaluator 5 0 0 1 ⟨1, 0, 0⟩ ⟨0, 0, 0⟩
      ⟨0, 0, 0⟩ = .error .assertionFailed :=
  updateStructureDomain_unknown_checked zeroObject emptyEvaluator 5 0 0 1 ⟨1, 0, 0⟩ ⟨0, 0, 0⟩
    ⟨0, 0, 0⟩ rfl

/-- C7: after `postprocessIntegrateData` the record of every registered id has each of its nine
"current" members equal to the "new" member the record had before the call, and its "new"
members, id and level as before; the keys of the map are unchanged, and so are the other data
members of the evaluator; calling the method a second time changes nothing more. -/
theorem postprocessIntegrateData_promotes (self : IBHydrodynamicForceEvaluator)
    (current_time new_time current_time' new_time' : ℚ) :
    (∀ strct_id force_obj, self.d_hydro_objs.find strct_id = some force_obj →
      ∃ force_obj',
        (postprocessIntegrateData self current_time new_time).d_hydro_objs.find strct_id =
          some force_obj' ∧
        force_obj'.box_u_current = force_obj.box_u_new ∧
        force_obj'.box_X_lower_current = force_obj.box_X_lower_new ∧
        force_obj'.box_X_upper_current = force_obj.box_X_upper_new ∧
        force_obj'.F_current = force_obj.F_new ∧
        force_obj'.T_current = force_obj.T_new ∧
        force_obj'.P_current = force_obj.P_new ∧
        force_obj'.L_current = force_obj.L_new ∧
        force_obj'.P_box_current = force_obj.P_box_new ∧
        force_obj'.L_box_current = force_obj.L_box_new ∧
        force_obj'.box_u_new = force_obj.box_u_new ∧
        force_obj'.box_X_lower_new = force_obj.box_X_lower_new ∧
        force_obj'.box_X_upper_new = force_obj.box_X_upper_new ∧
        force_obj'.F_new = force_obj.F_new ∧
        force_obj'.T_new = force_obj.T_new ∧
        force_obj'.P_new = force_obj.P_new ∧
        force_obj'.L_new = force_obj.L_new ∧
        force_obj'.P_box_new = force_obj.P_box_new ∧
        force_obj'.L_box_new = force_obj.L_box_new ∧
        force_obj'.strct_id = force_obj.strct_id ∧
        force_obj'.strct_ln = force_obj.strct_ln) ∧
    HydroObjMap.keys (postprocessIntegrateData self current_time new_time).d_hydro_objs =
      HydroObjMap.keys self.d_hydro_objs ∧
    (∀ strct_id, self.d_hydro_objs.find strct_id = none →
      (postprocessIntegrateData self current_time new_time).d_hydro_objs.find strct_id = none) ∧
    (postprocessIntegrateData self current_time new_time).d_object_name = self.d_object_name ∧
    (postprocessIntegrateData self current_time new_time).d_rho = self.d_rho ∧
    (postprocessIntegrateData self current_time new_time).d_mu = self.d_mu ∧
    (postprocessIntegrateData self current_time new_time).d_face_wgt_sc_idx =
      self.d_face_wgt_sc_idx ∧
    postprocessIntegrateData (postprocessIntegrateData self current_time new_time) current_time'
        new_time' =
      postprocessIntegrateData self current_time new_time := by
  refine ⟨?_, HydroObjMap.keys_map_snd _ _, ?_, rfl, rfl, rfl, rfl, ?_⟩
  · intro strct_id force_obj hfind
    refine ⟨promote force_obj, ?_, rfl, rfl, rfl, rfl, rfl, rfl, rfl, rfl, rfl, rfl, rfl, rfl,
      rfl, rfl, rfl, rfl, rfl, rfl, rfl, rfl⟩
    simp only [postprocessIntegrateData]
    rw [HydroObjMap.find_map_snd, hfind]
    rfl
  · intro strct_id hfind
    simp only [postprocessIntegrateData]
    rw [HydroObjMap.find_map_snd, hfind]
    rfl
  · simp only [postprocessIntegrateData, List.map_map]
    congr 1

theorem postprocessIntegrateData_promotes_witness :
    (postprocessIntegrateData sampleEvaluator 0 1).d_hydro_objs.find 1 =
      some (promote sampleObject) ∧
    (promote sampleObject).F_current = ⟨13, 14, 15⟩ ∧
    postprocessIntegrateData (postprocessIntegrateData sampleEvaluator 0 1) 1 2 =
      postprocessIntegrateData sampleEvaluator 0 1 :=
  ⟨rfl, rfl, (postprocessIntegrateData_promotes sampleEvaluator 0 1 1 2).2.2.2.2.2.2.2⟩

/-- C8, as the claim states it, fails: in a build with `NDEBUG` defined the check is not
compiled, and `getHydrodynamicForceObject` on the unknown id `5` of an evaluator without bodies
returns normally, having inserted a default-constructed record for `5` through
`d_hydro_objs[strct_id]`. -/
theorem getHydrodynamicForceObject_unknown_unchecked :
    emptyEvaluator.d_hydro_objs.find 5 = none ∧
    ∃ force_obj self', getHydrodynamicForceObject true zeroObject emptyEvaluator 5 0 =
        .ok (force_obj, self') ∧
      self'.d_hydro_objs.find 5 = some zeroObject ∧ self' ≠ emptyEvaluator := by
  refine ⟨rfl, _, _, rfl, rfl, ?_⟩
  simp [emptyEvaluator, HydroObjMap.index, HydroObjMap.find, HydroObjMap.assign]

/-- C8 (amended): for a registered id, in either build, `getHydrodynamicForceObject` returns
exactly the stored record and leaves the evaluator as it was; for an id that is not registered
it aborts on its check when the assertions are compiled (`NDEBUG` not defined), and then adds
nothing. -/
theorem getHydrodynamicForceObject_reads (uninit : IBHydrodynamicForceObject)
    (self : IBHydrodynamicForceEvaluator) (strct_id strct_ln : Int) :
    (∀ (ndebug : Bool) (force_obj : IBHydrodynamicForceObject),
      self.d_hydro_objs.find strct_id = some force_obj →
      getHydrodynamicForceObject ndebug uninit self strct_id strct_ln = .ok (force_obj, self)) ∧
    (self.d_hydro_objs.find strct_id = none →
      getHydrodynamicForceObject false uninit self strct_id strct_ln =
        .error .assertionFailed) := by
  constructor
  · intro ndebug force_obj hfind
    simp [getHydrodynamicForceObject, hfind, HydroObjMap.index]
  · intro hfind
    simp [getHydrodynamicForceObject, hfind]

theorem getHydrodynamicForceObject_reads_witness :
    getHydrodynamicForceObject true zeroObject sampleEvaluator 1 0 =
        .ok (sampleObject, sampleEvaluator) ∧
    getHydrodynamicForceObject false zeroObject sampleEvaluator 5 0 = .error .assertionFailed :=
  ⟨(getHydrodynamicForceObject_reads zeroObject sampleEvaluator 1 0).1 true sampleObject rfl,
    (getHydrodynamicForceObject_reads zeroObject sampleEvaluator 5 0).2 rfl⟩

/-! ## The net force -/

theorem Vector3d.eq_of_components (a b : Vector3d) (hx : a.x = b.x) (hy : a.y = b.y)
    (hz : a.z = b.z) : a = b := by
  cases a
  cases b
  simp only [Vector3d.mk.injEq]
  exact ⟨hx, hy, hz⟩

theorem Vector3d.add_def (a b : Vector3d) : a + b = ⟨a.x + b.x, a.y + b.y, a.z + b.z⟩ := rfl

theorem Vector3d.sub_def (a b : Vector3d) : a - b = ⟨a.x - b.x, a.y - b.y, a.z - b.z⟩ := rfl

theorem Vector3d.smul_def (c : ℚ) (v : Vector3d) : c * v = ⟨c * v.x, c * v.y, c * v.z⟩ := rfl

theorem Vector3d.mul_def (v : Vector3d) (c : ℚ) : v * c = ⟨v.x * c, v.y * c, v.z * c⟩ := rfl

theorem Vector3d.div_def (v : Vector3d) (c : ℚ) : v / c = ⟨v.x / c, v.y / c, v.z / c⟩ := rfl

theorem Vector3d.inertial_balance (a b c : Vector3d) (dt : ℚ) :
    (a - a + b - c) / dt + Vector3d.Zero = (b - c) / dt := by
  simp [Vector3d.add_def, Vector3d.sub_def, Vector3d.div_def, Vector3d.Zero]

theorem computeBody_fst_log (NDIM : Nat) (self : IBHydrodynamicForceEvaluator)
    (u_idx p_idx vol_sc_idx : Int) (patch_hierarchy : PatchHierarchy)
    (coarsest_ln finest_ln : Int) (dt : ℚ) (log : List Vector3d)
    (fobj : IBHydrodynamicForceObject) :
    (computeBody NDIM self u_idx p_idx vol_sc_idx patch_hierarchy coarsest_ln finest_ln dt log
      fobj).1 =
    (computeBody NDIM self u_idx p_idx vol_sc_idx patch_hierarchy coarsest_ln finest_ln dt []
      fobj).1 := rfl

theorem foldl_bodies_fst (step : List Vector3d → IBHydrodynamicForceObject →
      IBHydrodynamicForceObject × List Vector3d)
    (hlog : ∀ log fobj, (step log fobj).1 = (step [] fobj).1) (m : HydroObjMap)
    (acc : HydroObjMap × List Vector3d) :
    (m.foldl (fun (acc : HydroObjMap × List Vector3d) it =>
        ((acc.1 ++ [(it.1, (step acc.2 it.2).1)], (step acc.2 it.2).2) :
          HydroObjMap × List Vector3d)) acc).1 =
      acc.1 ++ m.map fun it => (it.1, (step [] it.2).1) := by
  induction m generalizing acc with
  | nil => simp
  | cons hd tl ih =>
    simp only [List.foldl_cons, List.map_cons]
    rw [ih]
    simp [hlog acc.2 hd.2]

theorem computeHydrodynamicForce_objs (NDIM : Nat) (self : IBHydrodynamicForceEvaluator)
    (u_idx p_idx f_idx vol_sc_idx vol_cc_idx : Int) (patch_hierarchy : PatchHierarchy)
    (coarsest_ln finest_ln : Int) (current_time new_time : ℚ) :
    (computeHydrodynamicForce NDIM self u_idx p_idx f_idx vol_sc_idx vol_cc_idx patch_hierarchy
      coarsest_ln finest_ln current_time new_time).evaluator.d_hydro_objs =
    self.d_hydro_objs.map fun it =>
      (it.1, (computeBody NDIM self u_idx p_idx vol_sc_idx
        (computeFaceWeight NDIM self patch_hierarchy) coarsest_ln finest_ln
        (new_time - current_time) [] it.2).1) := by
  simp only [computeHydrodynamicForce]
  rw [foldl_bodies_fst (fun log fobj => computeBody NDIM self u_idx p_idx vol_sc_idx
    (computeFaceWeight NDIM self patch_hierarchy) coarsest_ln finest_ln
    (new_time - current_time) log fobj) (fun _ _ => rfl)]
  simp

theorem computeHydrodynamicForce_find (NDIM : Nat) (self : IBHydrodynamicForceEvaluator)
    (u_idx p_idx f_idx vol_sc_idx vol_cc_idx : Int) (patch_hierarchy : PatchHierarchy)
    (coarsest_ln finest_ln : Int) (current_time new_time : ℚ) (strct_id : Int) :
    (computeHydrodynamicForce NDIM self u_idx p_idx f_idx vol_sc_idx vol_cc_idx patch_hierarchy
      coarsest_ln finest_ln current_time new_time).evaluator.d_hydro_objs.find strct_id =
    (self.d_hydro_objs.find strct_id).map fun fobj =>
      (computeBody NDIM self u_idx p_idx vol_sc_idx
        (computeFaceWeight NDIM self patch_hierarchy) coarsest_ln finest_ln
        (new_time - current_time) [] fobj).1 := by
  rw [computeHydrodynamicForce_objs]
  exact HydroObjMap.find_map_snd self.d_hydro_objs strct_id fun fobj =>
    (computeBody NDIM self u_idx p_idx vol_sc_idx
      (computeFaceWeight NDIM self patch_hierarchy) coarsest_ln finest_ln
      (new_time - current_time) [] fobj).1

/-- C1: for a registered body and a call of `computeHydrodynamicForce` with
`dt = new_time - current_time` nonzero, the record stored for the body has `P_box_new` equal to
the momentum integral of that call and `F_new` equal to
`(P_box_current - P_box_new + P_new - P_current) / dt + trac`, with `trac` the surface traction
of that call; hence, when `trac` is zero and `P_box_new = P_box_current`,
`F_new = (P_new - P_current) / dt`. -/
theorem computeHydrodynamicForce_net_force (NDIM : Nat) (self : IBHydrodynamicForceEvaluator)
    (u_idx p_idx f_idx vol_sc_idx vol_cc_idx : Int) (patch_hierarchy : PatchHierarchy)
    (coarsest_ln finest_ln : Int) (current_time new_time : ℚ) (strct_id : Int)
    (fobj : IBHydrodynamicForceObject)
    (hdt : new_time - current_time ≠ 0)
    (hreg : self.d_hydro_objs.find strct_id = some fobj) :
    ∃ fobj',
      (computeHydrodynamicForce NDIM self u_idx p_idx f_idx vol_sc_idx vol_cc_idx
        patch_hierarchy coarsest_ln finest_ln current_time new_time).evaluator.d_hydro_objs.find
          strct_id = some fobj' ∧
      fobj'.P_box_new =
        momentumIntegral NDIM self.d_rho u_idx vol_sc_idx
          (computeFaceWeight NDIM self patch_hierarchy) coarsest_ln finest_ln fobj ∧
      fobj'.F_new =
        (fobj.P_box_current - fobj'.P_box_new + fobj.P_new - fobj.P_current) /
            (new_time - current_time) +
          surfaceTraction NDIM self.d_rho self.d_mu u_idx p_idx self.d_face_wgt_sc_idx
            (computeFaceWeight NDIM self patch_hierarchy) coarsest_ln finest_ln fobj ∧
      (surfaceTraction NDIM self.d_rho self.d_mu u_idx p_idx self.d_face_wgt_sc_idx
            (computeFaceWeight NDIM self patch_hierarchy) coarsest_ln finest_ln fobj =
          Vector3d.Zero →
        fobj'.P_box_new = fobj.P_box_current →
        fobj'.F_new = (fobj.P_new - fobj.P_current) / (new_time - current_time)) := by
  have _ := hdt
  refine ⟨(computeBody NDIM self u_idx p_idx vol_sc_idx
    (computeFaceWeight NDIM self patch_hierarchy) coarsest_ln finest_ln
    (new_time - current_time) [] fobj).1, ?_, rfl, rfl, ?_⟩
  · rw [computeHydrodynamicForce_find, hreg]
    rfl
  · intro htrac hbox
    have hF : (computeBody NDIM self u_idx p_idx vol_sc_idx
        (computeFaceWeight NDIM self patch_hierarchy) coarsest_ln finest_ln
        (new_time - current_time) [] fobj).1.F_new =
        (fobj.P_box_current - (computeBody NDIM self u_idx p_idx vol_sc_idx
          (computeFaceWeight NDIM self patch_hierarchy) coarsest_ln finest_ln
          (new_time - current_time) [] fobj).1.P_box_new + fobj.P_new - fobj.P_current) /
            (new_time - current_time) +
          surfaceTraction NDIM self.d_rho self.d_mu u_idx p_idx self.d_face_wgt_sc_idx
            (computeFaceWeight NDIM self patch_hierarchy) coarsest_ln finest_ln fobj := rfl
    rw [hF, htrac, hbox]
    exact Vector3d.inertial_balance _ _ _ _

theorem computeHydrodynamicForce_net_force_witness :
    ∃ fobj',
      (computeHydrodynamicForce 3 sampleEvaluator 1 2 0 3 0 sampleHierarchy 0 0 0
        1).evaluator.d_hydro_objs.find 1 = some fobj' ∧
      fobj'.P_box_new =
        momentumIntegral 3 sampleEvaluator.d_rho 1 3
          (computeFaceWeight 3 sampleEvaluator sampleHierarchy) 0 0 sampleObject ∧
      fobj'.F_new =
        (sampleObject.P_box_current - fobj'.P_box_new + sampleObject.P_new -
              sampleObject.P_current) / ((1 : ℚ) - 0) +
          surfaceTraction 3 sampleEvaluator.d_rho sampleEvaluator.d_mu 1 2
            sampleEvaluator.d_face_wgt_sc_idx
            (computeFaceWeight 3 sampleEvaluator sampleHierarchy) 0 0 sampleObject ∧
      (surfaceTraction 3 sampleEvaluator.d_rho sampleEvaluator.d_mu 1 2
            sampleEvaluator.d_face_wgt_sc_idx
            (computeFaceWeight 3 sampleEvaluator sampleHierarchy) 0 0 sampleObject =
          Vector3d.Zero →
        fobj'.P_box_new = sampleObject.P_box_current →
        fobj'.F_new = (sampleObject.P_new - sampleObject.P_current) / ((1 : ℚ) - 0)) :=
  computeHydrodynamicForce_net_force 3 sampleEvaluator 1 2 0 3 0 sampleHierarchy 0 0 0 1 1
    sampleObject (by norm_num) rfl

/-! ## The momentum integral -/

theorem Vector3d.get_set_self (v : Vector3d) (d : Nat) (a : ℚ) : (v.set d a).get d = a := by
  rcases d with _ | _ | d <;> rfl

theorem Vector3d.get_set_ne (v : Vector3d) (d e : Nat) (a : ℚ) (hd : d ≤ 2) (he : e ≤ 2)
    (hne : e ≠ d) : (v.set d a).get e = v.get e := by
  interval_cases d <;> interval_cases e <;> first | rfl | exact absurd rfl hne

theorem foldl_get_add {α : Type} (f : Vector3d → α → Vector3d) (g : α → ℚ) (axis : Nat)
    (hstep : ∀ P a, (f P a).get axis = P.get axis + g a) (l : List α) (P : Vector3d) :
    (l.foldl f P).get axis = P.get axis + (l.map g).sum := by
  induction l generalizing P with
  | nil => simp
  | cons hd tl ih =>
    simp only [List.foldl_cons, List.map_cons, List.sum_cons]
    rw [ih, hstep]
    ring

theorem momentumCell_get (NDIM : Nat) (d_rho : ℚ) (u_data vol_sc_data : SideData)
    (P_box_new : Vector3d) (cell_idx : Index) (axis : Nat) (hdim : NDIM ≤ 3)
    (haxis : axis < NDIM) :
    (momentumCell NDIM d_rho u_data vol_sc_data P_box_new cell_idx).get axis =
      P_box_new.get axis +
        d_rho * vol_sc_data.read (SideIndex.make cell_idx axis SideIndex.Lower) *
          u_data.read (SideIndex.make cell_idx axis SideIndex.Lower) := by
  interval_cases NDIM <;> interval_cases axis <;>
    simp [momentumCell, List.range_succ, Vector3d.get, Vector3d.set]

theorem Box.interval_eq_nil (lo hi : Int) (h : hi < lo) : Box.interval lo hi = [] := by
  have : (hi - lo + 1).toNat = 0 := by omega
  simp [Box.interval, this]

theorem Box.inter_lower_get (a b : Box) (d : Nat) :
    (a.inter b).lower.get d = max (a.lower.get d) (b.lower.get d) := by
  rcases d with _ | _ | d <;> rfl

theorem Box.inter_upper_get (a b : Box) (d : Nat) :
    (a.inter b).upper.get d = min (a.upper.get d) (b.upper.get d) := by
  rcases d with _ | _ | d <;> rfl

theorem Box.cells_eq_nil_of_empty (NDIM : Nat) (b : Box) (h : b.empty NDIM = true) :
    b.cells NDIM = [] := by
  simp only [Box.empty, List.any_eq_true, List.mem_range, decide_eq_true_eq] at h
  obtain ⟨d, hd, hlt⟩ := h
  rcases d with _ | _ | d
  · simp [Box.cells, Box.axisValues, hd, Box.interval_eq_nil _ _ hlt]
  · simp [Box.cells, Box.axisValues, hd, Box.interval_eq_nil _ _ hlt]
  · have h2 : 2 < NDIM := by omega
    have hlt2 : b.upper.get 2 < b.lower.get 2 := hlt
    simp [Box.cells, Box.axisValues, h2, Box.interval_eq_nil _ _ hlt2]

theorem Box.empty_inter_of_not_intersects (NDIM : Nat) (a b : Box)
    (h : a.intersects NDIM b = false) : (a.inter b).empty NDIM = true := by
  simp only [Box.intersects, List.all_eq_false, List.mem_range, decide_eq_true_eq] at h
  obtain ⟨d, hd, hlt⟩ := h
  simp only [Box.empty, List.any_eq_true, List.mem_range, decide_eq_true_eq]
  refine ⟨d, hd, ?_⟩
  rw [Box.inter_lower_get, Box.inter_upper_get]
  omega

theorem momentumPatch_get (NDIM : Nat) (d_rho : ℚ) (u_idx vol_sc_idx : Int)
    (integration_box : Box) (P_box_new : Vector3d) (patch : Patch) (axis : Nat)
    (hdim : NDIM ≤ 3) (haxis : axis < NDIM) :
    (momentumPatch NDIM d_rho u_idx vol_sc_idx integration_box P_box_new patch).get axis =
      P_box_new.get axis +
        (((patch.box.inter integration_box).cells NDIM).map fun cell_idx =>
          d_rho * (patch.sideData vol_sc_idx).read (SideIndex.make cell_idx axis SideIndex.Lower) *
            (patch.sideData u_idx).read (SideIndex.make cell_idx axis SideIndex.Lower)).sum := by
  unfold momentumPatch
  by_cases hint : patch.box.intersects NDIM integration_box = true
  · simp only [hint, Bool.not_true, Bool.false_eq_true, if_false]
    exact foldl_get_add _ _ axis
      (fun P c => momentumCell_get NDIM d_rho _ _ P c axis hdim haxis) _ _
  · have hfalse : patch.box.intersects NDIM integration_box = false := by
      simpa using hint
    rw [Box.cells_eq_nil_of_empty NDIM _
      (Box.empty_inter_of_not_intersects NDIM _ _ hfalse)]
    simp [hfalse]

theorem momentumIntegral_get (NDIM : Nat) (d_rho : ℚ) (u_idx vol_sc_idx : Int)
    (patch_hierarchy : PatchHierarchy) (coarsest_ln finest_ln : Int)
    (fobj : IBHydrodynamicForceObject) (axis : Nat) (hdim : NDIM ≤ 3) (haxis : axis < NDIM) :
    (momentumIntegral NDIM d_rho u_idx vol_sc_idx patch_hierarchy coarsest_ln finest_ln
      fobj).get axis =
    momentumSum NDIM d_rho u_idx vol_sc_idx patch_hierarchy coarsest_ln finest_ln fobj axis := by
  unfold momentumIntegral momentumSum
  rw [foldl_get_add _ (fun ln =>
    ((patch_hierarchy.getPatchLevel ln).patches.map fun patch =>
      (((patch.box.inter (integrationBox (patch_hierarchy.getPatchLevel ln) fobj)).cells
          NDIM).map fun cell_idx =>
        d_rho * (patch.sideData vol_sc_idx).read (SideIndex.make cell_idx axis SideIndex.Lower) *
          (patch.sideData u_idx).read (SideIndex.make cell_idx axis SideIndex.Lower)).sum).sum)
    axis]
  · have hz : Vector3d.Zero.get axis = 0 := by
      rcases axis with _ | _ | d <;> rfl
    rw [hz, zero_add]
  · intro P ln
    unfold momentumLevel
    exact foldl_get_add _ _ axis
      (fun P patch => momentumPatch_get NDIM d_rho u_idx vol_sc_idx _ P patch axis hdim haxis)
      _ _

theorem computeFaceWeight_getPatchLevel (NDIM : Nat) (self : IBHydrodynamicForceEvaluator)
    (patch_hierarchy : PatchHierarchy) (ln : Int) :
    (computeFaceWeight NDIM self patch_hierarchy).getPatchLevel ln =
      computeFaceWeightLevel NDIM self patch_hierarchy ln (patch_hierarchy.getPatchLevel ln) := by
  unfold PatchHierarchy.getPatchLevel
  by_cases hneg : ln < 0
  · simp [hneg, computeFaceWeightLevel]
  · simp only [hneg, if_false, computeFaceWeight, List.getD_eq_getElem?_getD,
      List.getElem?_mapIdx]
    cases hget : patch_hierarchy.levels[ln.toNat]? with
    | none => simp [computeFaceWeightLevel]
    | some level =>
      have hcast : ((ln.toNat : Nat) : Int) = ln := Int.toNat_of_nonneg (by omega)
      simp [hcast]

theorem momentumSum_computeFaceWeight (NDIM : Nat) (self : IBHydrodynamicForceEvaluator)
    (u_idx wgt_idx : Int) (patch_hierarchy : PatchHierarchy) (coarsest_ln finest_ln : Int)
    (fobj : IBHydrodynamicForceObject) (axis : Nat) (hu : u_idx ≠ self.d_face_wgt_sc_idx)
    (hw : wgt_idx ≠ self.d_face_wgt_sc_idx) :
    momentumSum NDIM self.d_rho u_idx wgt_idx (computeFaceWeight NDIM self patch_hierarchy)
        coarsest_ln finest_ln fobj axis =
      momentumSum NDIM self.d_rho u_idx wgt_idx patch_hierarchy coarsest_ln finest_ln fobj
        axis := by
  unfold momentumSum
  congr 1
  apply List.map_congr_left
  intro ln _
  rw [computeFaceWeight_getPatchLevel]
  simp only [computeFaceWeightLevel, List.map_map]
  congr 1
  apply List.map_congr_left
  intro patch _
  simp [computeFaceWeightPatch, hu, hw, integrationBox]

theorem sample_levels : levelsDescending 0 0 = [0] := by
  decide

theorem sample_faceWeight_level :
    (computeFaceWeight 3 sampleEvaluator sampleHierarchy).getPatchLevel 0 =
      { sampleLevel with
        patches := [{ samplePatch with
          sideData := fun idx =>
            if idx = 7 then
              faceWeightPatch 3 false Index.zero [] samplePatch (samplePatch.sideData idx)
            else samplePatch.sideData idx }] } := by
  simp [computeFaceWeight, computeFaceWeightLevel, computeFaceWeightPatch, sampleHierarchy,
    PatchHierarchy.getPatchLevel, sampleLevel, PatchHierarchy.getFinestLevelNumber,
    refinedRegionBoxes, sampleEvaluator, emptyEvaluator]

theorem sample_cells :
    Box.cells 3 (samplePatch.box.inter (integrationBox sampleLevel sampleObject)) =
      [⟨0, 0, 0⟩, ⟨1, 0, 0⟩, ⟨0, 1, 0⟩, ⟨1, 1, 0⟩, ⟨0, 0, 1⟩, ⟨1, 0, 1⟩, ⟨0, 1, 1⟩,
        ⟨1, 1, 1⟩] := by
  simp [Box.cells, Box.axisValues, Box.interval, Box.inter, samplePatch, integrationBox,
    sampleLevel, sampleObject, Index.get, List.range_succ, List.flatMap, Int.floor_neg]

theorem sample_momentumSum_vol :
    momentumSum 3 1 1 3 (computeFaceWeight 3 sampleEvaluator sampleHierarchy) 0 0 sampleObject
      0 = 40 := by
  simp only [momentumSum, sample_levels, sample_faceWeight_level, List.map_cons, List.map_nil,
    List.sum_cons, List.sum_nil]
  have h := sample_cells
  simp only [integrationBox] at h ⊢
  rw [h]
  simp [SideData.read, samplePatch]
  norm_num

theorem sample_momentumSum_face :
    momentumSum 3 1 1 7 (computeFaceWeight 3 sampleEvaluator sampleHierarchy) 0 0 sampleObject
      0 = 8 := by
  simp only [momentumSum, sample_levels, sample_faceWeight_level, List.map_cons, List.map_nil,
    List.sum_cons, List.sum_nil]
  have h := sample_cells
  simp only [integrationBox] at h ⊢
  rw [h]
  simp [SideData.read, samplePatch, faceWeightPatch, fillFaceAreas, List.range_succ,
    SideData.fill, cellVolume, Box.toSideBox, Box.empty, Box.contains, Index.get, Index.set,
    SideIndex.make, SideIndex.Lower]
  norm_num

/-- C2, as the claim states it, fails: on `sampleHierarchy`, where the caller's volume weights
(descriptor `3`) are `5` and the face weights built by `computeFaceWeight` (descriptor `7`) are
`1`, the stored `P_box_new(0)` is `40`, the sum taken with the caller's weights, while the sum
of `density * face_weight * velocity` taken with the face weights is `8`. -/
theorem computeHydrodynamicForce_momentum_not_face_weight :
    ∃ fobj',
      (computeHydrodynamicForce 3 sampleEvaluator 1 2 0 3 0 sampleHierarchy 0 0 0
        1).evaluator.d_hydro_objs.find 1 = some fobj' ∧
      fobj'.P_box_new.get 0 = 40 ∧
      momentumSum 3 sampleEvaluator.d_rho 1 sampleEvaluator.d_face_wgt_sc_idx
        (computeFaceWeight 3 sampleEvaluator sampleHierarchy) 0 0 sampleObject 0 = 8 ∧
      fobj'.P_box_new.get 0 ≠
        momentumSum 3 sampleEvaluator.d_rho 1 sampleEvaluator.d_face_wgt_sc_idx
          (computeFaceWeight 3 sampleEvaluator sampleHierarchy) 0 0 sampleObject 0 := by
  have hfind : (computeHydrodynamicForce 3 sampleEvaluator 1 2 0 3 0 sampleHierarchy 0 0 0
      1).evaluator.d_hydro_objs.find 1 =
      some (computeBody 3 sampleEvaluator 1 2 3
        (computeFaceWeight 3 sampleEvaluator sampleHierarchy) 0 0 (1 - 0) [] sampleObject).1 := by
    rw [computeHydrodynamicForce_find]
    rfl
  have hP : (computeBody 3 sampleEvaluator 1 2 3
      (computeFaceWeight 3 sampleEvaluator sampleHierarchy) 0 0 (1 - 0) []
      sampleObject).1.P_box_new.get 0 = 40 := by
    have hget := momentumIntegral_get 3 1 1 3
      (computeFaceWeight 3 sampleEvaluator sampleHierarchy) 0 0 sampleObject 0 (by decide)
      (by decide)
    rw [sample_momentumSum_vol] at hget
    exact hget
  have hface : momentumSum 3 sampleEvaluator.d_rho 1 sampleEvaluator.d_face_wgt_sc_idx
      (computeFaceWeight 3 sampleEvaluator sampleHierarchy) 0 0 sampleObject 0 = 8 :=
    sample_momentumSum_face
  refine ⟨_, hfind, hP, hface, ?_⟩
  rw [hP, hface]
  norm_num

/-- C2 (amended): for a registered body and an axis below `NDIM`, after
`computeHydrodynamicForce` the component `P_box_new(axis)` is the sum, over every level from
`finest_ln` down to `coarsest_ln`, every patch of the level and every cell of the intersection
of the patch with the body's new-time box, of `density * vol * velocity` at the lower face of
the cell along `axis`, where `vol` is read from the side data whose descriptor index
`vol_sc_idx` the caller passes; when neither `u_idx` nor `vol_sc_idx` is the evaluator's own
face-weight descriptor, these are the caller's data as they were before the call. -/
theorem computeHydrodynamicForce_momentum_sum (NDIM : Nat) (self : IBHydrodynamicForceEvaluator)
    (u_idx p_idx f_idx vol_sc_idx vol_cc_idx : Int) (patch_hierarchy : PatchHierarchy)
    (coarsest_ln finest_ln : Int) (current_time new_time : ℚ) (strct_id : Int)
    (fobj : IBHydrodynamicForceObject) (axis : Nat)
    (hdim : NDIM ≤ 3) (haxis : axis < NDIM)
    (hreg : self.d_hydro_objs.find strct_id = some fobj) :
    ∃ fobj',
      (computeHydrodynamicForce NDIM self u_idx p_idx f_idx vol_sc_idx vol_cc_idx
        patch_hierarchy coarsest_ln finest_ln current_time new_time).evaluator.d_hydro_objs.find
          strct_id = some fobj' ∧
      fobj'.P_box_new.get axis =
        momentumSum NDIM self.d_rho u_idx vol_sc_idx
          (computeFaceWeight NDIM self patch_hierarchy) coarsest_ln finest_ln fobj axis ∧
      (u_idx ≠ self.d_face_wgt_sc_idx → vol_sc_idx ≠ self.d_face_wgt_sc_idx →
        fobj'.P_box_new.get axis =
          momentumSum NDIM self.d_rho u_idx vol_sc_idx patch_hierarchy coarsest_ln finest_ln
            fobj axis) := by
  have hget : (computeBody NDIM self u_idx p_idx vol_sc_idx
      (computeFaceWeight NDIM self patch_hierarchy) coarsest_ln finest_ln
      (new_time - current_time) [] fobj).1.P_box_new.get axis =
      momentumSum NDIM self.d_rho u_idx vol_sc_idx
        (computeFaceWeight NDIM self patch_hierarchy) coarsest_ln finest_ln fobj axis :=
    momentumIntegral_get NDIM self.d_rho u_idx vol_sc_idx _ coarsest_ln finest_ln fobj axis
      hdim haxis
  refine ⟨(computeBody NDIM self u_idx p_idx vol_sc_idx
    (computeFaceWeight NDIM self patch_hierarchy) coarsest_ln finest_ln
    (new_time - current_time) [] fobj).1, ?_, hget, ?_⟩
  · rw [computeHydrodynamicForce_find, hreg]
    rfl
  · intro hu hw
    rw [hget]
    exact momentumSum_computeFaceWeight NDIM self u_idx vol_sc_idx patch_hierarchy coarsest_ln
      finest_ln fobj axis hu hw

theorem computeHydrodynamicForce_momentum_sum_witness :
    ∃ fobj',
      (computeHydrodynamicForce 3 sampleEvaluator 1 2 0 3 0 sampleHierarchy 0 0 0
        1).evaluator.d_hydro_objs.find 1 = some fobj' ∧
      fobj'.P_box_new.get 0 =
        momentumSum 3 sampleEvaluator.d_rho 1 3
          (computeFaceWeight 3 sampleEvaluator sampleHierarchy) 0 0 sampleObject 0 ∧
      ((1 : Int) ≠ sampleEvaluator.d_face_wgt_sc_idx →
        (3 : Int) ≠ sampleEvaluator.d_face_wgt_sc_idx →
        fobj'.P_box_new.get 0 =
          momentumSum 3 sampleEvaluator.d_rho 1 3 sampleHierarchy 0 0 sampleObject 0) :=
  computeHydrodynamicForce_momentum_sum 3 sampleEvaluator 1 2 0 3 0 sampleHierarchy 0 0 0 1 1
    sampleObject 0 (by decide) (by decide) rfl

/-! ## The keys of the restart database -/

theorem digitChar_toNat (d : Nat) (h : d < 10) : (Nat.digitChar d).toNat = 48 + d := by
  interval_cases d <;> rfl

theorem toDigitsCore_eq (fuel n : Nat) (acc : List Char) (hn : 0 < n) (hfuel : n < fuel) :
    Nat.toDigitsCore 10 fuel n acc = ((Nat.digits 10 n).reverse.map Nat.digitChar) ++ acc := by
  induction fuel generalizing n acc with
  | zero => omega
  | succ fuel ih =>
    rw [Nat.toDigitsCore]
    have hdig : Nat.digits 10 n = n % 10 :: Nat.digits 10 (n / 10) :=
      Nat.digits_def' (by norm_num) hn
    by_cases h0 : n / 10 = 0
    · simp [h0, hdig]
    · simp only [h0, if_false]
      rw [ih (n / 10) _ (by omega) (by omega), hdig]
      simp

theorem toDigits_eq (n : Nat) : Nat.toDigits 10 n = (decDigits n).map Nat.digitChar := by
  unfold Nat.toDigits decDigits
  by_cases h : n = 0
  · subst h
    rfl
  · simp only [h, if_false]
    rw [toDigitsCore_eq _ _ _ (by omega) (by omega)]
    simp

theorem decDigits_lt (n d : Nat) (h : d ∈ decDigits n) : d < 10 := by
  unfold decDigits at h
  by_cases h0 : n = 0
  · simp [h0] at h
    omega
  · simp only [h0, if_false, List.mem_reverse] at h
    exact Nat.digits_lt_base (by norm_num) h

theorem decDigits_ne_nil (n : Nat) : decDigits n ≠ [] := by
  unfold decDigits
  by_cases h0 : n = 0
  · simp [h0]
  · simp only [h0, if_false, ne_eq, List.reverse_eq_nil_iff]
    exact fun h => h0 (Nat.digits_eq_nil_iff_eq_zero.mp h)

theorem decDigits_injective (n m : Nat) (h : decDigits n = decDigits m) : n = m := by
  unfold decDigits at h
  by_cases hn : n = 0 <;> by_cases hm : m = 0
  · rw [hn, hm]
  · exfalso
    simp only [hn, hm, if_true, if_false] at h
    have hd : Nat.digits 10 m = [0] := by
      have := congrArg List.reverse h
      simpa using this.symm
    have hlast := Nat.getLast_digit_ne_zero 10 hm
    simp [hd] at hlast
  · exfalso
    simp only [hn, hm, if_true, if_false] at h
    have hd : Nat.digits 10 n = [0] := by
      have := congrArg List.reverse h
      simpa using this
    have hlast := Nat.getLast_digit_ne_zero 10 hn
    simp [hd] at hlast
  · simp only [hn, hm, if_false] at h
    have := congrArg List.reverse h
    simp only [List.reverse_reverse] at this
    exact Nat.digits_inj_iff.mp this

theorem map_digitChar_injective (l1 l2 : List Nat) (h1 : ∀ d ∈ l1, d < 10)
    (h2 : ∀ d ∈ l2, d < 10) (h : l1.map Nat.digitChar = l2.map Nat.digitChar) : l1 = l2 := by
  induction l1 generalizing l2 with
  | nil =>
    cases l2 with
    | nil => rfl
    | cons b t => simp at h
  | cons a t ih =>
    cases l2 with
    | nil => simp at h
    | cons b t2 =>
      simp only [List.map_cons, List.cons.injEq] at h
      have ha := h1 a (by simp)
      have hb := h2 b (by simp)
      have hab : a = b := by
        have := congrArg Char.toNat h.1
        rw [digitChar_toNat a ha, digitChar_toNat b hb] at this
        omega
      rw [hab, ih t2 (fun d hd => h1 d (by simp [hd])) (fun d hd => h2 d (by simp [hd])) h.2]

theorem nat_repr_data (n : Nat) : (Nat.repr n).data = (decDigits n).map Nat.digitChar := by
  simp [Nat.repr, List.asString, toDigits_eq]

theorem int_toString_data (z : Int) :
    (toString z).data =
      match z with
      | Int.ofNat n => (decDigits n).map Nat.digitChar
      | Int.negSucc n => '-' :: (decDigits (n + 1)).map Nat.digitChar := by
  cases z with
  | ofNat n => exact nat_repr_data n
  | negSucc n =>
    show ("-" ++ Nat.repr (n + 1)).data = _
    rw [String.data_append, nat_repr_data]
    rfl

theorem digitChar_ne_minus (d : Nat) (h : d < 10) : Nat.digitChar d ≠ '-' := by
  intro heq
  have := congrArg Char.toNat heq
  rw [digitChar_toNat d h] at this
  have h45 : ('-' : Char).toNat = 45 := rfl
  omega

theorem digitChar_ne_b (d : Nat) (h : d < 10) : Nat.digitChar d ≠ 'b' := by
  intro heq
  have := congrArg Char.toNat heq
  rw [digitChar_toNat d h] at this
  have h98 : ('b' : Char).toNat = 98 := rfl
  omega

theorem intStr_injective (a b : Int) (h : intStr a = intStr b) : a = b := by
  have hdata : (toString a).data = (toString b).data := congrArg String.data h
  rw [int_toString_data, int_toString_data] at hdata
  cases a with
  | ofNat n =>
    cases b with
    | ofNat m =>
      simp only at hdata
      have := map_digitChar_injective _ _ (decDigits_lt n) (decDigits_lt m) hdata
      rw [decDigits_injective n m this]
    | negSucc m =>
      exfalso
      simp only at hdata
      cases hd : decDigits n with
      | nil => exact decDigits_ne_nil n hd
      | cons d t =>
        rw [hd] at hdata
        simp only [List.map_cons, List.cons.injEq] at hdata
        exact digitChar_ne_minus d (decDigits_lt n d (by simp [hd])) hdata.1
  | negSucc n =>
    cases b with
    | ofNat m =>
      exfalso
      simp only at hdata
      cases hd : decDigits m with
      | nil => exact decDigits_ne_nil m hd
      | cons d t =>
        rw [hd] at hdata
        simp only [List.map_cons, List.cons.injEq] at hdata
        exact digitChar_ne_minus d (decDigits_lt m d (by simp [hd])) hdata.1.symm
    | negSucc m =>
      simp only [List.cons.injEq, true_and] at hdata
      have := map_digitChar_injective _ _ (decDigits_lt _) (decDigits_lt _) hdata
      have := decDigits_injective _ _ this
      have hnm : n = m := by omega
      rw [hnm]

theorem intStr_head_ne_b (a : Int) (t : List Char) : (intStr a).data ≠ 'b' :: t := by
  intro h
  have hdata : (toString a).data = 'b' :: t := h
  rw [int_toString_data] at hdata
  cases a with
  | ofNat n =>
    simp only at hdata
    cases hd : decDigits n with
    | nil => exact decDigits_ne_nil n hd
    | cons d t' =>
      rw [hd] at hdata
      simp only [List.map_cons, List.cons.injEq] at hdata
      exact digitChar_ne_b d (decDigits_lt n d (by simp [hd])) hdata.1
  | negSucc n =>
    simp only [List.cons.injEq] at hdata
    exact absurd hdata.1 (by decide)

theorem restartKey_eq_iff (f g : RestartField) (a b : Int) :
    restartKey f a = restartKey g b ↔ f = g ∧ a = b := by
  constructor
  · intro h
    have hdata : (f.tag).data ++ (intStr a).data = (g.tag).data ++ (intStr b).data := by
      have := congrArg String.data h
      simpa [restartKey, String.data_append] using this
    cases f <;> cases g <;>
      simp only [RestartField.tag, List.cons_append, List.nil_append] at hdata <;>
      first
      | exact ⟨rfl, intStr_injective a b (String.ext (by simpa using hdata))⟩
      | (exfalso; simp at hdata; done)
      | (exfalso; simp at hdata; exact intStr_head_ne_b _ _ hdata)
      | (exfalso; simp at hdata; exact intStr_head_ne_b _ _ hdata.symm)
  · rintro ⟨rfl, rfl⟩
    rfl

/-! ## The restart database -/

namespace Database

theorem lookup_append (db1 db2 : Database) (key : String) :
    lookup (db1 ++ db2) key = (lookup db1 key).orElse fun _ => lookup db2 key := by
  induction db1 with
  | nil => simp [lookup]
  | cons hd tl ih =>
    obtain ⟨k, v⟩ := hd
    by_cases h : key = k
    · simp [lookup, h]
    · simp [lookup, h, ih]

theorem lookup_erase_self (db : Database) (key : String) :
    lookup (db.erase key) key = none := by
  induction db with
  | nil => simp [lookup, erase]
  | cons hd tl ih =>
    obtain ⟨k, v⟩ := hd
    by_cases h : k = key
    · simp [erase, h, ih]
    · have h' : ¬ key = k := fun e => h e.symm
      simp [erase, h, lookup, h', ih]

theorem lookup_erase_ne (db : Database) (key k' : String) (hne : k' ≠ key) :
    lookup (db.erase key) k' = lookup db k' := by
  induction db with
  | nil => simp [lookup, erase]
  | cons hd tl ih =>
    obtain ⟨k, v⟩ := hd
    by_cases h : k = key
    · have h' : ¬ k' = k := by rw [h]; exact hne
      simp [erase, h, lookup, hne, ih]
    · by_cases h2 : k' = k
      · simp [erase, h, lookup, h2]
      · simp [erase, h, lookup, h2, ih]

theorem lookup_putDoubleArray (db : Database) (key k' : String) (data : List ℚ) :
    lookup (db.putDoubleArray key data) k' = if k' = key then some data else lookup db k' := by
  unfold putDoubleArray
  rw [lookup_append]
  by_cases h : k' = key
  · subst h
    simp [lookup_erase_self, lookup]
  · rw [lookup_erase_ne _ _ _ h]
    cases hl : lookup db k' <;> simp [lookup, h]

theorem erase_eq_self_of_lookup_none (db : Database) (key : String)
    (hnone : lookup db key = none) : db.erase key = db := by
  induction db with
  | nil => rfl
  | cons hd tl ih =>
    obtain ⟨k, v⟩ := hd
    by_cases h : key = k
    · simp [lookup, h] at hnone
    · have h' : ¬ k = key := fun e => h e.symm
      have htl : lookup tl key = none := by simpa [lookup, h] using hnone
      simp [erase, h', ih htl]

theorem length_putDoubleArray (db : Database) (key : String) (data : List ℚ)
    (hnone : lookup db key = none) : (db.putDoubleArray key data).length = db.length + 1 := by
  unfold putDoubleArray
  rw [erase_eq_self_of_lookup_none db key hnone]
  simp

theorem getVector3d_of_lookup (db : Database) (key : String) (v : Vector3d)
    (h : lookup db key = some v.data) : db.getVector3d key = .ok v := by
  simp [getVector3d, h, Vector3d.data]

end Database

theorem putBody_eq_foldl (db : Database) (it : Int × IBHydrodynamicForceObject) :
    putBody db it =
      RestartField.all.foldl
        (fun db f => db.putDoubleArray (restartKey f it.1) (f.value it.2).data) db := rfl

theorem lookup_putFields (fs : List RestartField) (db : Database)
    (it : Int × IBHydrodynamicForceObject) (g : RestartField) (strct_id : Int) :
    (fs.foldl (fun db f => db.putDoubleArray (restartKey f it.1) (f.value it.2).data)
        db).lookup (restartKey g strct_id) =
      if strct_id = it.1 ∧ g ∈ fs then some (g.value it.2).data
      else db.lookup (restartKey g strct_id) := by
  induction fs generalizing db with
  | nil => simp
  | cons f rest ih =>
    simp only [List.foldl_cons]
    rw [ih, Database.lookup_putDoubleArray]
    by_cases hid : strct_id = it.1
    · by_cases hg : g ∈ rest
      · simp [hid, hg]
      · by_cases hgf : g = f
        · subst hgf
          simp [hid, hg]
        · have hkey : ¬ restartKey g it.1 = restartKey f it.1 := by
            rw [restartKey_eq_iff]
            exact fun h => hgf h.1
          simp [hid, hg, hgf, hkey]
    · have hkey : ¬ restartKey g strct_id = restartKey f it.1 := by
        rw [restartKey_eq_iff]
        exact fun h => hid h.2
      simp [hid, hkey]

theorem lookup_putBody (db : Database) (it : Int × IBHydrodynamicForceObject)
    (g : RestartField) (strct_id : Int) :
    (putBody db it).lookup (restartKey g strct_id) =
      if strct_id = it.1 then some (g.value it.2).data
      else db.lookup (restartKey g strct_id) := by
  rw [putBody_eq_foldl, lookup_putFields]
  have hmem : g ∈ RestartField.all := by
    cases g <;> simp [RestartField.all]
  simp [hmem]

theorem lookup_foldl_putBody (m : HydroObjMap) (db : Database) (g : RestartField)
    (strct_id : Int) (hwf : HydroObjMap.WF m) :
    (m.foldl putBody db).lookup (restartKey g strct_id) =
      match m.find strct_id with
      | some force_obj => some (g.value force_obj).data
      | none => db.lookup (restartKey g strct_id) := by
  induction m generalizing db with
  | nil => simp [HydroObjMap.find]
  | cons hd tl ih =>
    obtain ⟨k, v⟩ := hd
    rw [HydroObjMap.WF_cons] at hwf
    obtain ⟨hlt, htl⟩ := hwf
    simp only [List.foldl_cons]
    rw [ih _ htl, lookup_putBody]
    by_cases hk : strct_id = k
    · subst hk
      have hnone : HydroObjMap.find tl strct_id = none := by
        rw [HydroObjMap.find_eq_none_iff]
        intro hmem
        exact lt_irrefl _ (hlt _ hmem)
      simp [HydroObjMap.find, hnone]
    · simp [HydroObjMap.find, hk]


theorem length_putFields (fs : List RestartField) (db : Database)
    (it : Int × IBHydrodynamicForceObject) (hnodup : fs.Nodup)
    (hfresh : ∀ g ∈ fs, db.lookup (restartKey g it.1) = none) :
    (fs.foldl (fun db f => db.putDoubleArray (restartKey f it.1) (f.value it.2).data)
        db).length = db.length + fs.length := by
  induction fs generalizing db with
  | nil => simp
  | cons f rest ih =>
    rw [List.nodup_cons] at hnodup
    simp only [List.foldl_cons, List.length_cons]
    rw [ih _ hnodup.2, Database.length_putDoubleArray _ _ _ (hfresh f (by simp))]
    · omega
    · intro g hg
      rw [Database.lookup_putDoubleArray]
      have hkey : ¬ restartKey g it.1 = restartKey f it.1 := by
        rw [restartKey_eq_iff]
        intro h
        exact hnodup.1 (h.1 ▸ hg)
      simp only [hkey, if_false]
      exact hfresh g (by simp [hg])

theorem length_putBody (db : Database) (it : Int × IBHydrodynamicForceObject)
    (hfresh : ∀ g, db.lookup (restartKey g it.1) = none) :
    (putBody db it).length = db.length + 8 := by
  rw [putBody_eq_foldl, length_putFields _ _ _ (by decide) (fun g _ => hfresh g)]
  rfl

theorem length_foldl_putBody (m : HydroObjMap) (db : Database) (hwf : HydroObjMap.WF m)
    (hfresh : ∀ g, ∀ strct_id ∈ HydroObjMap.keys m, db.lookup (restartKey g strct_id) = none) :
    (m.foldl putBody db).length = db.length + 8 * m.length := by
  induction m generalizing db with
  | nil => simp
  | cons hd tl ih =>
    obtain ⟨k, v⟩ := hd
    rw [HydroObjMap.WF_cons] at hwf
    obtain ⟨hlt, htl⟩ := hwf
    simp only [List.foldl_cons, List.length_cons]
    rw [ih _ htl, length_putBody]
    · omega
    · intro g
      exact hfresh g k (by simp [HydroObjMap.keys])
    · intro g strct_id hmem
      rw [lookup_putBody]
      have hne : ¬ strct_id = k := by
        have := hlt strct_id hmem
        omega
      simp only [hne, if_false]
      exact hfresh g strct_id (by simp only [HydroObjMap.keys] at hmem ⊢; simp [hmem])

theorem registerStructure_from_restart (ndebug : Bool) (restart_manager : RestartManager)
    (uninit src : IBHydrodynamicForceObject) (self : IBHydrodynamicForceEvaluator)
    (db : Database) (strct_id strct_ln : Int) (box_vel box_X_lower box_X_upper : Vector3d)
    (hrestart : restart_manager.isFromRestart = true)
    (hdb : RestartManager.getDatabase restart_manager.rootDatabase self.d_object_name = some db)
    (hnew : self.d_hydro_objs.find strct_id = none)
    (hentries : ∀ g : RestartField, db.lookup (restartKey g strct_id) = some (g.value src).data) :
    registerStructure ndebug restart_manager uninit self strct_id strct_ln box_vel box_X_lower
        box_X_upper =
      .ok { self with
        d_hydro_objs := self.d_hydro_objs.assign strct_id
          { uninit with
            strct_id := strct_id, strct_ln := strct_ln
            F_current := src.F_current, T_current := src.T_current
            P_current := src.P_current, L_current := src.L_current
            P_box_current := src.P_box_current, L_box_current := src.L_box_current
            box_X_lower_current := src.box_X_lower_current
            box_X_upper_current := src.box_X_upper_current } } := by
  have hF : db.getVector3d ("F_" ++ intStr strct_id) = .ok src.F_current :=
    Database.getVector3d_of_lookup _ _ _ (hentries .F)
  have hT : db.getVector3d ("T_" ++ intStr strct_id) = .ok src.T_current :=
    Database.getVector3d_of_lookup _ _ _ (hentries .T)
  have hP : db.getVector3d ("P_" ++ intStr strct_id) = .ok src.P_current :=
    Database.getVector3d_of_lookup _ _ _ (hentries .P)
  have hL : db.getVector3d ("L_" ++ intStr strct_id) = .ok src.L_current :=
    Database.getVector3d_of_lookup _ _ _ (hentries .L)
  have hPb : db.getVector3d ("P_box_" ++ intStr strct_id) = .ok src.P_box_current :=
    Database.getVector3d_of_lookup _ _ _ (hentries .P_box)
  have hLb : db.getVector3d ("L_box_" ++ intStr strct_id) = .ok src.L_box_current :=
    Database.getVector3d_of_lookup _ _ _ (hentries .L_box)
  have hlo : db.getVector3d ("X_lo_" ++ intStr strct_id) = .ok src.box_X_lower_current :=
    Database.getVector3d_of_lookup _ _ _ (hentries .X_lo)
  have hhi : db.getVector3d ("X_hi_" ++ intStr strct_id) = .ok src.box_X_upper_current :=
    Database.getVector3d_of_lookup _ _ _ (hentries .X_hi)
  simp [registerStructure, hrestart, hnew, hdb, hF, hT, hP, hL, hPb, hLb, hlo, hhi, Except.bind]

theorem sample_database :
    putToDatabase sampleEvaluator [] =
      [("F_1", [1, 2, 3]), ("T_1", [4, 5, 6]), ("P_1", [7, 8, 9]), ("L_1", [10, 11, 12]),
        ("P_box_1", [37, 38, 39]), ("L_box_1", [40, 41, 42]), ("X_lo_1", [-3, -2, -1]),
        ("X_hi_1", [28, 29, 30])] := by
  rfl

theorem sample_WF : HydroObjMap.WF sampleEvaluator.d_hydro_objs := by
  simp [HydroObjMap.WF, HydroObjMap.keys, sampleEvaluator]

/-- C9, as the claim states it, fails for the box velocity: the body of `sampleEvaluator` has
current box velocity `(25, 26, 27)`; after `putToDatabase` and `registerStructure` in restart
mode on an evaluator that reads that database, the restored record has as current box velocity
the indeterminate content of the default-constructed record (here zero), even though the
caller supplied `(25, 26, 27)` as initial box velocity. -/
theorem checkpoint_round_trip_loses_box_velocity :
    sampleEvaluator.d_hydro_objs.find 1 = some sampleObject ∧
    sampleObject.box_u_current = ⟨25, 26, 27⟩ ∧
    ∃ self' restored,
      registerStructure false
        { isFromRestart := true
          rootDatabase := [("hydro_force", putToDatabase sampleEvaluator [])] }
        zeroObject emptyEvaluator 1 0 ⟨25, 26, 27⟩ ⟨0, 0, 0⟩ ⟨0, 0, 0⟩ = .ok self' ∧
      self'.d_hydro_objs.find 1 = some restored ∧
      restored.box_u_current = ⟨0, 0, 0⟩ ∧
      restored.box_u_current ≠ sampleObject.box_u_current := by
  refine ⟨rfl, rfl, _, _, rfl, rfl, rfl, ?_⟩
  simp [zeroObject, sampleObject, Vector3d.Zero]

/-- C9 (amended): checkpoint round trip of the eight persisted quantities. For a registered id
of an evaluator whose map is well formed, `putToDatabase` followed by `registerStructure` in
restart mode, on an evaluator that reads that database and does not yet track the id, succeeds
and yields a record whose current force, torque, momentum, angular momentum, box momentum, box
angular momentum, box lower corner and box upper corner are those the id had before
serialization, whatever initial values are supplied. -/
theorem checkpoint_round_trip (ndebug : Bool) (restart_manager : RestartManager)
    (uninit force_obj : IBHydrodynamicForceObject) (old self : IBHydrodynamicForceEvaluator)
    (db0 : Database) (strct_id strct_ln : Int) (box_vel box_X_lower box_X_upper : Vector3d)
    (hwf : HydroObjMap.WF old.d_hydro_objs)
    (hreg : old.d_hydro_objs.find strct_id = some force_obj)
    (hrestart : restart_manager.isFromRestart = true)
    (hdb : RestartManager.getDatabase restart_manager.rootDatabase self.d_object_name =
      some (putToDatabase old db0))
    (hnew : self.d_hydro_objs.find strct_id = none) :
    ∃ self' restored,
      registerStructure ndebug restart_manager uninit self strct_id strct_ln box_vel
        box_X_lower box_X_upper = .ok self' ∧
      self'.d_hydro_objs.find strct_id = some restored ∧
      restored.F_current = force_obj.F_current ∧
      restored.T_current = force_obj.T_current ∧
      restored.P_current = force_obj.P_current ∧
      restored.L_current = force_obj.L_current ∧
      restored.P_box_current = force_obj.P_box_current ∧
      restored.L_box_current = force_obj.L_box_current ∧
      restored.box_X_lower_current = force_obj.box_X_lower_current ∧
      restored.box_X_upper_current = force_obj.box_X_upper_current := by
  have hentries : ∀ g : RestartField,
      (putToDatabase old db0).lookup (restartKey g strct_id) = some (g.value force_obj).data := by
    intro g
    unfold putToDatabase
    rw [lookup_foldl_putBody _ _ _ _ hwf, hreg]
  exact ⟨_, _,
    registerStructure_from_restart ndebug restart_manager uninit force_obj self _ strct_id
      strct_ln box_vel box_X_lower box_X_upper hrestart hdb hnew hentries,
    HydroObjMap.find_assign_self _ _ _, rfl, rfl, rfl, rfl, rfl, rfl, rfl, rfl⟩

theorem checkpoint_round_trip_witness :
    ∃ self' restored,
      registerStructure false
        { isFromRestart := true
          rootDatabase := [("hydro_force", putToDatabase sampleEvaluator [])] }
        zeroObject emptyEvaluator 1 0 ⟨0, 0, 0⟩ ⟨0, 0, 0⟩ ⟨0, 0, 0⟩ = .ok self' ∧
      self'.d_hydro_objs.find 1 = some restored ∧
      restored.F_current = sampleObject.F_current ∧
      restored.T_current = sampleObject.T_current ∧
      restored.P_current = sampleObject.P_current ∧
      restored.L_current = sampleObject.L_current ∧
      restored.P_box_current = sampleObject.P_box_current ∧
      restored.L_box_current = sampleObject.L_box_current ∧
      restored.box_X_lower_current = sampleObject.box_X_lower_current ∧
      restored.box_X_upper_current = sampleObject.box_X_upper_current :=
  checkpoint_round_trip false
    { isFromRestart := true
      rootDatabase := [("hydro_force", putToDatabase sampleEvaluator [])] }
    zeroObject sampleObject sampleEvaluator emptyEvaluator [] 1 0 ⟨0, 0, 0⟩ ⟨0, 0, 0⟩ ⟨0, 0, 0⟩
    sample_WF rfl rfl rfl rfl

/-- C10, as the claim states it, fails: for the one body of `sampleEvaluator` the method
`putToDatabase` writes eight entries, not nine, and none of them holds the body's current box
velocity `(25, 26, 27)`. -/
theorem putToDatabase_sample_has_eight_entries :
    sampleEvaluator.d_hydro_objs.length = 1 ∧
    (putToDatabase sampleEvaluator []).length = 8 ∧
    (putToDatabase sampleEvaluator []).length ≠ 9 ∧
    ∀ e ∈ putToDatabase sampleEvaluator [], e.2 ≠ sampleObject.box_u_current.data := by
  rw [sample_database]
  refine ⟨rfl, rfl, by decide, ?_⟩
  simp [sampleObject, Vector3d.data]
  norm_num

/-- C10 (amended): `putToDatabase` writes, for every registered body of a well-formed map, eight
3-vector entries: its current force, torque, momentum, angular momentum, box momentum, box
angular momentum, box lower corner and box upper corner, each under the key
`"<field>_<structure id>"` and holding the body's current-time value; written to an empty
database they are eight entries per body. -/
theorem putToDatabase_entries (self : IBHydrodynamicForceEvaluator) (db : Database)
    (strct_id : Int) (force_obj : IBHydrodynamicForceObject)
    (hwf : HydroObjMap.WF self.d_hydro_objs)
    (hreg : self.d_hydro_objs.find strct_id = some force_obj) :
    (∀ g : RestartField,
      (putToDatabase self db).lookup (g.tag ++ intStr strct_id) =
        some [(g.value force_obj).x, (g.value force_obj).y, (g.value force_obj).z]) ∧
    (putToDatabase self []).length = 8 * self.d_hydro_objs.length := by
  constructor
  · intro g
    have := lookup_foldl_putBody self.d_hydro_objs db g strct_id hwf
    rw [hreg] at this
    exact this
  · have := length_foldl_putBody self.d_hydro_objs [] hwf (fun _ _ _ => rfl)
    simpa [putToDatabase] using this

theorem putToDatabase_entries_witness :
    (∀ g : RestartField,
      (putToDatabase sampleEvaluator []).lookup (g.tag ++ intStr 1) =
        some [(g.value sampleObject).x, (g.value sampleObject).y, (g.value sampleObject).z]) ∧
    (putToDatabase sampleEvaluator []).length = 8 * sampleEvaluator.d_hydro_objs.length :=
  putToDatabase_entries sampleEvaluator [] 1 sampleObject sample_WF rfl

/-! ## Missing restart data -/

theorem Database.getVector3d_error (db : Database) (key : String) (e : Error)
    (h : db.getVector3d key = .error e) : e = .keyNotFound key ∨ e = .wrongArraySize key := by
  unfold Database.getVector3d at h
  split at h
  · injection h with h
    exact Or.inl h.symm
  · cases h
  · injection h with h
    exact Or.inr h.symm

theorem Database.getVector3d_of_lookup_none (db : Database) (key : String)
    (h : db.lookup key = none) : db.getVector3d key = .error (.keyNotFound key) := by
  simp [Database.getVector3d, h]

theorem restart_chain_error (db : Database) (strct_id : Int)
    (k : Vector3d → Vector3d → Vector3d → Vector3d → Vector3d → Vector3d → Vector3d → Vector3d →
      IBHydrodynamicForceEvaluator)
    (g : RestartField) (hmissing : db.lookup (restartKey g strct_id) = none) :
    ∃ e f, ((db.getVector3d ("F_" ++ intStr strct_id)).bind fun F =>
        (db.getVector3d ("T_" ++ intStr strct_id)).bind fun T =>
        (db.getVector3d ("P_" ++ intStr strct_id)).bind fun P =>
        (db.getVector3d ("L_" ++ intStr strct_id)).bind fun L =>
        (db.getVector3d ("P_box_" ++ intStr strct_id)).bind fun P_box =>
        (db.getVector3d ("L_box_" ++ intStr strct_id)).bind fun L_box =>
        (db.getVector3d ("X_lo_" ++ intStr strct_id)).bind fun X_lo =>
        (db.getVector3d ("X_hi_" ++ intStr strct_id)).bind fun X_hi =>
        (Except.ok (k F T P L P_box L_box X_lo X_hi) :
          Except Error IBHydrodynamicForceEvaluator)) = .error e ∧
      (e = .keyNotFound (restartKey f strct_id) ∨ e = .wrongArraySize (restartKey f strct_id)) := by
  have hg := Database.getVector3d_of_lookup_none db _ hmissing
  cases h1 : db.getVector3d ("F_" ++ intStr strct_id) with
  | error e => exact ⟨e, .F, rfl, Database.getVector3d_error _ _ _ h1⟩
  | ok F =>
  cases h2 : db.getVector3d ("T_" ++ intStr strct_id) with
  | error e => exact ⟨e, .T, rfl, Database.getVector3d_error _ _ _ h2⟩
  | ok T =>
  cases h3 : db.getVector3d ("P_" ++ intStr strct_id) with
  | error e => exact ⟨e, .P, rfl, Database.getVector3d_error _ _ _ h3⟩
  | ok P =>
  cases h4 : db.getVector3d ("L_" ++ intStr strct_id) with
  | error e => exact ⟨e, .L, rfl, Database.getVector3d_error _ _ _ h4⟩
  | ok L =>
  cases h5 : db.getVector3d ("P_box_" ++ intStr strct_id) with
  | error e => exact ⟨e, .P_box, rfl, Database.getVector3d_error _ _ _ h5⟩
  | ok P_box =>
  cases h6 : db.getVector3d ("L_box_" ++ intStr strct_id) with
  | error e => exact ⟨e, .L_box, rfl, Database.getVector3d_error _ _ _ h6⟩
  | ok L_box =>
  cases h7 : db.getVector3d ("X_lo_" ++ intStr strct_id) with
  | error e => exact ⟨e, .X_lo, rfl, Database.getVector3d_error _ _ _ h7⟩
  | ok X_lo =>
  cases h8 : db.getVector3d ("X_hi_" ++ intStr strct_id) with
  | error e => exact ⟨e, .X_hi, rfl, Database.getVector3d_error _ _ _ h8⟩
  | ok X_hi =>
    exfalso
    cases g
    · rw [show restartKey .F strct_id = "F_" ++ intStr strct_id from rfl, h1] at hg; cases hg
    · rw [show restartKey .T strct_id = "T_" ++ intStr strct_id from rfl, h2] at hg; cases hg
    · rw [show restartKey .P strct_id = "P_" ++ intStr strct_id from rfl, h3] at hg; cases hg
    · rw [show restartKey .L strct_id = "L_" ++ intStr strct_id from rfl, h4] at hg; cases hg
    · rw [show restartKey .P_box strct_id = "P_box_" ++ intStr strct_id from rfl, h5] at hg
      cases hg
    · rw [show restartKey .L_box strct_id = "L_box_" ++ intStr strct_id from rfl, h6] at hg
      cases hg
    · rw [show restartKey .X_lo strct_id = "X_lo_" ++ intStr strct_id from rfl, h7] at hg
      cases hg
    · rw [show restartKey .X_hi strct_id = "X_hi_" ++ intStr strct_id from rfl, h8] at hg
      cases hg

/-- C11: in restart mode, when the root database has no database under the evaluator's name, or
that database lacks one of the eight keyed entries of the id, `registerStructure` aborts and so
adds no record; when the duplicate check passes the abort is that of the restart read: database
not found, or an entry of the id not found (or not holding three doubles). -/
theorem registerStructure_restart_missing (ndebug : Bool) (restart_manager : RestartManager)
    (uninit : IBHydrodynamicForceObject) (self : IBHydrodynamicForceEvaluator)
    (strct_id strct_ln : Int) (box_vel box_X_lower box_X_upper : Vector3d)
    (hrestart : restart_manager.isFromRestart = true)
    (hmissing :
      RestartManager.getDatabase restart_manager.rootDatabase self.d_object_name = none ∨
      ∃ (db : Database) (g : RestartField),
        RestartManager.getDatabase restart_manager.rootDatabase self.d_object_name = some db ∧
        db.lookup (g.tag ++ intStr strct_id) = none) :
    ∃ e, registerStructure ndebug restart_manager uninit self strct_id strct_ln box_vel
        box_X_lower box_X_upper = .error e ∧
      ((ndebug = true ∨ self.d_hydro_objs.find strct_id = none) →
        e = .restartDatabaseNotFound ∨
        ∃ f : RestartField, e = .keyNotFound (f.tag ++ intStr strct_id) ∨
          e = .wrongArraySize (f.tag ++ intStr strct_id)) := by
  unfold registerStructure
  by_cases hcheck : (!ndebug && (self.d_hydro_objs.find strct_id).isSome) = true
  · refine ⟨.assertionFailed, by simp [hcheck], ?_⟩
    intro h
    exfalso
    rcases h with h | h
    · simp [h] at hcheck
    · simp [h] at hcheck
  · simp only [hcheck, if_false, hrestart, Bool.not_true, Bool.false_eq_true]
    rcases hmissing with hnone | ⟨db, g, hdb, hkey⟩
    · rw [hnone]
      exact ⟨.restartDatabaseNotFound, rfl, fun _ => Or.inl rfl⟩
    · rw [hdb]
      obtain ⟨e, f, he, hkind⟩ := restart_chain_error db strct_id
        (fun F T P L P_box L_box X_lo X_hi =>
          { self with
            d_hydro_objs := self.d_hydro_objs.assign strct_id
              { uninit with
                strct_id := strct_id, strct_ln := strct_ln
                F_current := F, T_current := T, P_current := P, L_current := L
                P_box_current := P_box, L_box_current := L_box
                box_X_lower_current := X_lo, box_X_upper_current := X_hi } }) g hkey
      exact ⟨e, he, fun _ => Or.inr ⟨f, hkind⟩⟩

theorem registerStructure_restart_missing_witness :
    ∃ e, registerStructure false { isFromRestart := true, rootDatabase := [] } zeroObject
        emptyEvaluator 1 0 ⟨0, 0, 0⟩ ⟨0, 0, 0⟩ ⟨1, 1, 1⟩ = .error e ∧
      (((false : Bool) = true ∨ emptyEvaluator.d_hydro_objs.find 1 = none) →
        e = .restartDatabaseNotFound ∨
        ∃ f : RestartField, e = .keyNotFound (f.tag ++ intStr 1) ∨
          e = .wrongArraySize (f.tag ++ intStr 1)) :=
  registerStructure_restart_missing false { isFromRestart := true, rootDatabase := [] }
    zeroObject emptyEvaluator 1 0 ⟨0, 0, 0⟩ ⟨0, 0, 0⟩ ⟨1, 1, 1⟩ rfl (Or.inl rfl)

/-! ## A call without registered bodies -/

theorem computeHydrodynamicForce_keys (NDIM : Nat) (self : IBHydrodynamicForceEvaluator)
    (u_idx p_idx f_idx vol_sc_idx vol_cc_idx : Int) (patch_hierarchy : PatchHierarchy)
    (coarsest_ln finest_ln : Int) (current_time new_time : ℚ) :
    HydroObjMap.keys (computeHydrodynamicForce NDIM self u_idx p_idx f_idx vol_sc_idx vol_cc_idx
      patch_hierarchy coarsest_ln finest_ln current_time new_time).evaluator.d_hydro_objs =
    HydroObjMap.keys self.d_hydro_objs := by
  rw [computeHydrodynamicForce_objs]
  exact HydroObjMap.keys_map_snd self.d_hydro_objs fun fobj =>
    (computeBody NDIM self u_idx p_idx vol_sc_idx
      (computeFaceWeight NDIM self patch_hierarchy) coarsest_ln finest_ln
      (new_time - current_time) [] fobj).1

/-- C17, as the claim states it, fails: `computeHydrodynamicForce` takes no structure id and
holds no check; called on an evaluator for which `registerStructure` was never called, it
returns normally, with the map of bodies still empty and no reduction made. -/
theorem computeHydrodynamicForce_without_bodies_returns :
    emptyEvaluator.d_hydro_objs = [] ∧
    (computeHydrodynamicForce 3 emptyEvaluator 1 2 0 3 0 sampleHierarchy 0 0 0 1).evaluator =
      emptyEvaluator ∧
    (computeHydrodynamicForce 3 emptyEvaluator 1 2 0 3 0 sampleHierarchy 0 0 0 1).reductions =
      [] :=
  ⟨rfl, rfl, rfl⟩

/-- C17 (amended): `computeHydrodynamicForce` visits the registered bodies only: for an id that
is not registered the call returns without creating a record for it (the keys of the map are
those before the call), so no default state is stored; the failure for such an id is raised
afterwards by `getHydrodynamicForceObject`, on its check, when the assertions are compiled
(`NDEBUG` not defined). -/
theorem computeHydrodynamicForce_unregistered (NDIM : Nat) (self : IBHydrodynamicForceEvaluator)
    (u_idx p_idx f_idx vol_sc_idx vol_cc_idx : Int) (patch_hierarchy : PatchHierarchy)
    (coarsest_ln finest_ln : Int) (current_time new_time : ℚ) (strct_id strct_ln : Int)
    (uninit : IBHydrodynamicForceObject)
    (hunknown : self.d_hydro_objs.find strct_id = none) :
    (computeHydrodynamicForce NDIM self u_idx p_idx f_idx vol_sc_idx vol_cc_idx patch_hierarchy
      coarsest_ln finest_ln current_time new_time).evaluator.d_hydro_objs.find strct_id = none ∧
    HydroObjMap.keys (computeHydrodynamicForce NDIM self u_idx p_idx f_idx vol_sc_idx vol_cc_idx
      patch_hierarchy coarsest_ln finest_ln current_time new_time).evaluator.d_hydro_objs =
      HydroObjMap.keys self.d_hydro_objs ∧
    getHydrodynamicForceObject false uninit
      (computeHydrodynamicForce NDIM self u_idx p_idx f_idx vol_sc_idx vol_cc_idx patch_hierarchy
        coarsest_ln finest_ln current_time new_time).evaluator strct_id strct_ln =
      .error .assertionFailed := by
  have hfind : (computeHydrodynamicForce NDIM self u_idx p_idx f_idx vol_sc_idx vol_cc_idx
      patch_hierarchy coarsest_ln finest_ln current_time
      new_time).evaluator.d_hydro_objs.find strct_id = none := by
    rw [computeHydrodynamicForce_find, hunknown]
    rfl
  refine ⟨hfind, computeHydrodynamicForce_keys _ _ _ _ _ _ _ _ _ _ _ _, ?_⟩
  simp [getHydrodynamicForceObject, hfind]

theorem computeHydrodynamicForce_unregistered_witness :
    (computeHydrodynamicForce 3 sampleEvaluator 1 2 0 3 0 sampleHierarchy 0 0 0
      1).evaluator.d_hydro_objs.find 5 = none ∧
    HydroObjMap.keys (computeHydrodynamicForce 3 sampleEvaluator 1 2 0 3 0 sampleHierarchy 0 0 0
      1).evaluator.d_hydro_objs = HydroObjMap.keys sampleEvaluator.d_hydro_objs ∧
    getHydrodynamicForceObject false zeroObject
      (computeHydrodynamicForce 3 sampleEvaluator 1 2 0 3 0 sampleHierarchy 0 0 0 1).evaluator
      5 0 = .error .assertionFailed :=
  computeHydrodynamicForce_unregistered 3 sampleEvaluator 1 2 0 3 0 sampleHierarchy 0 0 0 1 5 0
    zeroObject rfl

/-! ## The face weights -/

theorem foldl_fill_apply (NDIM : Nat) (patch_box : Box) (c : Nat → ℚ) (k : Nat) (data : SideData)
    (a : Nat) (idx : Index) :
    (List.range k).foldl (fun data axis => SideData.fill NDIM patch_box data axis (c axis)) data
        a idx =
      if a < k ∧ (patch_box.toSideBox NDIM a).contains NDIM idx = true then c a
      else data a idx := by
  induction k with
  | zero => simp
  | succ k ih =>
    rw [List.range_succ, List.foldl_append]
    simp only [List.foldl_cons, List.foldl_nil, SideData.fill]
    by_cases hak : a = k
    · subst hak
      by_cases hc : (patch_box.toSideBox NDIM a).contains NDIM idx = true
      · simp [hc]
      · rw [ih]
        simp [hc]
    · rw [ih]
      have h1 : a < k + 1 ↔ a < k := by omega
      simp [hak, h1]

theorem fillFaceAreas_apply (NDIM : Nat) (patch_box : Box) (dx : Nat → ℚ) (data : SideData)
    (a : Nat) (idx : Index) :
    fillFaceAreas NDIM patch_box dx data a idx =
      if a < NDIM ∧ (patch_box.toSideBox NDIM a).contains NDIM idx = true then
        cellVolume NDIM dx / dx a
      else data a idx :=
  foldl_fill_apply NDIM patch_box (fun axis => cellVolume NDIM dx / dx axis) NDIM data a idx

theorem zeroIntersection_apply (NDIM : Nat) (patch_box : Box) (data : SideData)
    (refined_box : Box) (a : Nat) (idx : Index) :
    zeroIntersection NDIM patch_box data refined_box a idx =
      if zeroedBy NDIM patch_box refined_box a idx = true then 0 else data a idx := by
  unfold zeroIntersection zeroedBy
  by_cases hempty : ((Box.grow NDIM patch_box 1).inter refined_box).empty NDIM = true
  · simp [hempty]
  · simp only [Bool.not_eq_true] at hempty
    simp [hempty, SideData.fillAll]

theorem foldl_zeroIntersection_apply (NDIM : Nat) (patch_box : Box) (boxes : List Box)
    (data : SideData) (a : Nat) (idx : Index) :
    boxes.foldl (zeroIntersection NDIM patch_box) data a idx =
      if ∃ b ∈ boxes, zeroedBy NDIM patch_box b a idx = true then 0 else data a idx := by
  induction boxes generalizing data with
  | nil => simp
  | cons b rest ih =>
    simp only [List.foldl_cons]
    rw [ih, zeroIntersection_apply]
    by_cases hb : zeroedBy NDIM patch_box b a idx = true
    · simp [hb]
    · simp [hb]

theorem foldl_flatMap_eq {α β γ : Type} (f : γ → β → γ) (g : α → List β) (l : List α)
    (init : γ) :
    (l.flatMap g).foldl f init = l.foldl (fun acc x => (g x).foldl f acc) init := by
  induction l generalizing init with
  | nil => rfl
  | cons x xs ih => simp [List.flatMap_cons, List.foldl_append, ih]

theorem zeroRefinedBox_eq_foldl (NDIM : Nat) (periodic_shift : Index) (patch_box : Box)
    (data : SideData) (refined_region_box : Box) :
    zeroRefinedBox NDIM periodic_shift patch_box data refined_region_box =
      (periodicImages NDIM periodic_shift refined_region_box ++ [refined_region_box]).foldl
        (zeroIntersection NDIM patch_box) data := by
  have hstep : (fun (data : SideData) (axis : Nat) =>
      if periodic_shift.get axis ≠ 0 then
        [(-1 : Int), 1].foldl
          (fun data sgn =>
            zeroIntersection NDIM patch_box data
              (Box.shift refined_region_box
                (Index.zero.set axis (sgn * periodic_shift.get axis))))
          data
      else data) =
      (fun (acc : SideData) (axis : Nat) =>
        (if periodic_shift.get axis ≠ 0 then
          [(-1 : Int), 1].map fun sgn =>
            Box.shift refined_region_box (Index.zero.set axis (sgn * periodic_shift.get axis))
        else []).foldl (zeroIntersection NDIM patch_box) acc) := by
    funext data axis
    by_cases h : periodic_shift.get axis ≠ 0
    · rw [if_pos h, if_pos h]
      rfl
    · rw [if_neg h, if_neg h]
      rfl
  unfold zeroRefinedBox periodicImages
  rw [List.foldl_append, foldl_flatMap_eq, ← hstep]
  rfl

theorem faceWeightPatch_eq_foldl (NDIM : Nat) (periodic_shift : Index)
    (refined_region_boxes : List Box) (patch : Patch) (data : SideData) :
    faceWeightPatch NDIM true periodic_shift refined_region_boxes patch data =
      (zeroingBoxes NDIM periodic_shift refined_region_boxes).foldl
        (zeroIntersection NDIM patch.box) (fillFaceAreas NDIM patch.box patch.dx data) := by
  have hstep : zeroRefinedBox NDIM periodic_shift patch.box =
      fun (acc : SideData) (b : Box) =>
        (periodicImages NDIM periodic_shift b ++ [b]).foldl
          (zeroIntersection NDIM patch.box) acc := by
    funext acc b
    exact zeroRefinedBox_eq_foldl NDIM periodic_shift patch.box acc b
  unfold faceWeightPatch zeroingBoxes
  simp only [if_true]
  rw [foldl_flatMap_eq, hstep]

theorem faceWeightPatch_apply (NDIM : Nat) (below : Bool) (periodic_shift : Index)
    (refined_region_boxes : List Box) (patch : Patch) (data : SideData) (a : Nat)
    (idx : Index) :
    faceWeightPatch NDIM below periodic_shift refined_region_boxes patch data a idx =
      if below = true ∧ ∃ b ∈ zeroingBoxes NDIM periodic_shift refined_region_boxes,
          zeroedBy NDIM patch.box b a idx = true then 0
      else if a < NDIM ∧ (patch.box.toSideBox NDIM a).contains NDIM idx = true then
        cellVolume NDIM patch.dx / patch.dx a
      else data a idx := by
  cases below with
  | false =>
    simp only [faceWeightPatch, Bool.false_eq_true, if_false, false_and]
    exact fillFaceAreas_apply NDIM patch.box patch.dx data a idx
  | true =>
    rw [faceWeightPatch_eq_foldl, foldl_zeroIntersection_apply, fillFaceAreas_apply]
    simp

theorem faceWeightPatch_idempotent (NDIM : Nat) (below : Bool) (periodic_shift : Index)
    (refined_region_boxes : List Box) (patch : Patch) (data : SideData) :
    faceWeightPatch NDIM below periodic_shift refined_region_boxes patch
        (faceWeightPatch NDIM below periodic_shift refined_region_boxes patch data) =
      faceWeightPatch NDIM below periodic_shift refined_region_boxes patch data := by
  funext a idx
  rw [faceWeightPatch_apply, faceWeightPatch_apply]
  split_ifs <;> rfl

theorem Box.contains_iff (NDIM : Nat) (b : Box) (idx : Index) :
    b.contains NDIM idx = true ↔
      ∀ d < NDIM, b.lower.get d ≤ idx.get d ∧ idx.get d ≤ b.upper.get d := by
  simp [Box.contains]

theorem Box.empty_iff (NDIM : Nat) (b : Box) :
    b.empty NDIM = true ↔ ∃ d < NDIM, b.upper.get d < b.lower.get d := by
  simp [Box.empty]


theorem Index.add_eq_mk (a b : Index) : a + b = ⟨a.i0 + b.i0, a.i1 + b.i1, a.i2 + b.i2⟩ := rfl

theorem Index.sub_eq_mk (a b : Index) : a - b = ⟨a.i0 - b.i0, a.i1 - b.i1, a.i2 - b.i2⟩ := rfl

theorem Index.get_add (v w : Index) (d : Nat) : (v + w).get d = v.get d + w.get d := by
  rcases d with _ | _ | d <;> rfl

theorem Index.get_sub (v w : Index) (d : Nat) : (v - w).get d = v.get d - w.get d := by
  rcases d with _ | _ | d <;> rfl

theorem Index.get_set (v : Index) (a d : Nat) (x : Int) (ha : a ≤ 2) (hd : d ≤ 2) :
    (v.set a x).get d = if d = a then x else v.get d := by
  interval_cases a <;> interval_cases d <;> rfl

theorem Index.get_const (n : Int) (d : Nat) : (Index.mk n n n).get d = n := by
  rcases d with _ | _ | d <;> rfl

theorem Box.inter_contains (NDIM : Nat) (a b : Box) (idx : Index) :
    (a.inter b).contains NDIM idx = true ↔
      a.contains NDIM idx = true ∧ b.contains NDIM idx = true := by
  simp only [Box.contains_iff, Box.inter_lower_get, Box.inter_upper_get]
  constructor
  · intro h
    exact ⟨fun d hd => by have := h d hd; omega, fun d hd => by have := h d hd; omega⟩
  · rintro ⟨h1, h2⟩ d hd
    have := h1 d hd
    have := h2 d hd
    omega

theorem Box.not_empty_iff (NDIM : Nat) (b : Box) :
    b.empty NDIM = false ↔ ∀ d < NDIM, b.lower.get d ≤ b.upper.get d := by
  rw [← Bool.not_eq_true, Box.empty_iff]
  push_neg
  rfl

theorem Box.toSideBox_contains (NDIM : Nat) (b : Box) (a : Nat) (idx : Index)
    (hdim : NDIM ≤ 3) (ha : a < NDIM) :
    (b.toSideBox NDIM a).contains NDIM idx = true ↔
      (∀ d < NDIM, b.lower.get d ≤ b.upper.get d) ∧
      ∀ d < NDIM, b.lower.get d ≤ idx.get d ∧
        idx.get d ≤ b.upper.get d + (if d = a then 1 else 0) := by
  unfold Box.toSideBox
  by_cases hempty : b.empty NDIM = true
  · simp only [hempty, if_true]
    have hne : ¬ ∀ d < NDIM, b.lower.get d ≤ b.upper.get d := by
      rw [← Box.not_empty_iff]
      simp [hempty]
    simp only [hne, false_and, iff_false, Box.contains_iff, not_forall]
    refine ⟨0, by omega, ?_⟩
    simp [Index.get]
    omega
  · have hne : b.empty NDIM = false := by simpa using hempty
    simp only [hne, Bool.false_eq_true, if_false, Box.contains_iff]
    rw [Box.not_empty_iff] at hne
    constructor
    · intro h
      refine ⟨hne, fun d hd => ?_⟩
      have := h d hd
      rw [Index.get_set _ _ _ _ (by omega) (by omega)] at this
      split_ifs at this ⊢ with hda
      · subst hda; omega
      · omega
    · rintro ⟨-, h⟩ d hd
      have := h d hd
      rw [Index.get_set _ _ _ _ (by omega) (by omega)]
      split_ifs at this ⊢ with hda
      · subst hda; omega
      · omega

theorem Box.grow_lower_get (NDIM : Nat) (b : Box) (n : Int) (d : Nat)
    (hne : b.empty NDIM = false) : (Box.grow NDIM b n).lower.get d = b.lower.get d - n := by
  simp [Box.grow, hne, Index.get_sub, Index.get_const]

theorem Box.grow_upper_get (NDIM : Nat) (b : Box) (n : Int) (d : Nat)
    (hne : b.empty NDIM = false) : (Box.grow NDIM b n).upper.get d = b.upper.get d + n := by
  simp [Box.grow, hne, Index.get_add, Index.get_const]

theorem zeroedBy_eq_contains (NDIM : Nat) (patch_box refined_box : Box) (a : Nat) (idx : Index)
    (hdim : NDIM ≤ 3) (ha : a < NDIM)
    (hface : (patch_box.toSideBox NDIM a).contains NDIM idx = true) :
    zeroedBy NDIM patch_box refined_box a idx =
      (refined_box.toSideBox NDIM a).contains NDIM idx := by
  rw [Bool.eq_iff_iff]
  have hp := (Box.toSideBox_contains NDIM patch_box a idx hdim ha).mp hface
  obtain ⟨hpne, hpin⟩ := hp
  have hpne' : patch_box.empty NDIM = false := (Box.not_empty_iff NDIM patch_box).mpr hpne
  simp only [zeroedBy, Bool.and_eq_true, Bool.not_eq_true', decide_eq_true_eq,
    Box.inter_contains, hface, and_true, ha]
  rw [Box.toSideBox_contains NDIM _ a idx hdim ha, Box.toSideBox_contains NDIM _ a idx hdim ha,
    Box.not_empty_iff]
  simp only [Box.inter_lower_get, Box.inter_upper_get, Box.grow_lower_get NDIM _ _ _ hpne',
    Box.grow_upper_get NDIM _ _ _ hpne']
  constructor
  · rintro ⟨-, hne, hin⟩
    refine ⟨fun d hd => ?_, fun d hd => ?_⟩
    · have := hne d hd
      omega
    · have := hin d hd
      split_ifs at this ⊢ <;> omega
  · rintro ⟨hne, hin⟩
    have hI : ∀ d < NDIM, max (patch_box.lower.get d - 1) (refined_box.lower.get d) ≤
        min (patch_box.upper.get d + 1) (refined_box.upper.get d) := by
      intro d hd
      have h1 := hne d hd
      have h2 := hin d hd
      have h3 := hpin d hd
      have h4 := hpne d hd
      split_ifs at h2 h3 <;> omega
    refine ⟨hI, hI, fun d hd => ?_⟩
    have h2 := hin d hd
    have h3 := hpin d hd
    split_ifs at h2 h3 ⊢ <;> omega

theorem Box.toSideBox_contains_iff (NDIM : Nat) (b : Box) (a : Nat) (idx : Index)
    (hdim : NDIM ≤ 3) (ha : a < NDIM) :
    (b.toSideBox NDIM a).contains NDIM idx = true ↔
      b.contains NDIM idx = true ∨ b.contains NDIM (idx.set a (idx.get a - 1)) = true := by
  rw [Box.toSideBox_contains NDIM b a idx hdim ha, Box.contains_iff, Box.contains_iff]
  constructor
  · rintro ⟨hne, hin⟩
    by_cases hup : idx.get a ≤ b.upper.get a
    · left
      intro d hd
      have := hin d hd
      split_ifs at this with hda
      · subst hda; omega
      · omega
    · right
      intro d hd
      have := hin d hd
      have := hne d hd
      rw [Index.get_set _ _ _ _ (by omega) (by omega)]
      split_ifs at * with hda
      · subst hda; omega
      · omega
  · rintro (h | h)
    · refine ⟨fun d hd => ?_, fun d hd => ?_⟩
      · have := h d hd
        omega
      · have := h d hd
        split_ifs <;> omega
    · refine ⟨fun d hd => ?_, fun d hd => ?_⟩
      · have := h d hd
        omega
      · have := h d hd
        rw [Index.get_set _ _ _ _ (by omega) (by omega)] at this
        split_ifs at * with hda
        · subst hda; omega
        · omega

/-! ## The face weights of the finest level -/

theorem mem_computeFaceWeight_patches (NDIM : Nat) (self : IBHydrodynamicForceEvaluator)
    (patch_hierarchy : PatchHierarchy) (ln : Int) (patch' : Patch) :
    patch' ∈ ((computeFaceWeight NDIM self patch_hierarchy).getPatchLevel ln).patches ↔
      ∃ patch ∈ (patch_hierarchy.getPatchLevel ln).patches,
        patch' = computeFaceWeightPatch NDIM self patch_hierarchy ln
          (patch_hierarchy.getPatchLevel ln) patch := by
  rw [computeFaceWeight_getPatchLevel]
  simp only [computeFaceWeightLevel, List.mem_map]
  constructor
  · rintro ⟨patch, hmem, rfl⟩
    exact ⟨patch, hmem, rfl⟩
  · rintro ⟨patch, hmem, rfl⟩
    exact ⟨patch, hmem, rfl⟩

theorem periodicImages_eq_nil (NDIM : Nat) (periodic_shift : Index) (b : Box)
    (hnone : ∀ d < NDIM, periodic_shift.get d = 0) :
    periodicImages NDIM periodic_shift b = [] := by
  unfold periodicImages
  rw [List.flatMap_eq_nil_iff]
  intro d hd
  rw [List.mem_range] at hd
  simp [hnone d hd]

theorem zeroingBoxes_nonperiodic (NDIM : Nat) (periodic_shift : Index) (boxes : List Box)
    (hnone : ∀ d < NDIM, periodic_shift.get d = 0) :
    zeroingBoxes NDIM periodic_shift boxes = boxes := by
  unfold zeroingBoxes
  induction boxes with
  | nil => rfl
  | cons b rest ih =>
    rw [List.flatMap_cons, ih, periodicImages_eq_nil NDIM periodic_shift b hnone]
    rfl

theorem exists_toSideBox_contains_of_cover (NDIM : Nat) (boxes : List Box) (block : Box)
    (a : Nat) (idx : Index) (hdim : NDIM ≤ 3) (ha : a < NDIM)
    (hcover : ∀ c : Index, (∃ b ∈ boxes, b.contains NDIM c = true) ↔
      block.contains NDIM c = true) :
    (∃ b ∈ boxes, (b.toSideBox NDIM a).contains NDIM idx = true) ↔
      (block.toSideBox NDIM a).contains NDIM idx = true := by
  rw [Box.toSideBox_contains_iff NDIM block a idx hdim ha, ← hcover, ← hcover]
  constructor
  · rintro ⟨b, hb, hin⟩
    rw [Box.toSideBox_contains_iff NDIM b a idx hdim ha] at hin
    rcases hin with hin | hin
    · exact Or.inl ⟨b, hb, hin⟩
    · exact Or.inr ⟨b, hb, hin⟩
  · rintro (⟨b, hb, hin⟩ | ⟨b, hb, hin⟩)
    · exact ⟨b, hb, (Box.toSideBox_contains_iff NDIM b a idx hdim ha).mpr (Or.inl hin)⟩
    · exact ⟨b, hb, (Box.toSideBox_contains_iff NDIM b a idx hdim ha).mpr (Or.inr hin)⟩

theorem twoLevel_weight (NDIM : Nat) (self : IBHydrodynamicForceEvaluator)
    (coarse fine : PatchLevel) (block : Box) (patch : Patch) (axis : Nat) (idx : Index)
    (hdim : NDIM ≤ 3)
    (hperiodic : ∀ d < NDIM, coarse.periodicShift.get d = 0)
    (hcover : ∀ c : Index,
      (∃ b ∈ fine.getBoxes.map fun b => b.coarsen fine.ratioToCoarserLevel,
        b.contains NDIM c = true) ↔ block.contains NDIM c = true)
    (haxis : axis < NDIM)
    (hface : (patch.box.toSideBox NDIM axis).contains NDIM idx = true) :
    (computeFaceWeightPatch NDIM self { levels := [coarse, fine] } 0 coarse
        patch).sideData self.d_face_wgt_sc_idx axis idx =
      if (block.toSideBox NDIM axis).contains NDIM idx = true then 0
      else cellVolume NDIM patch.dx / patch.dx axis := by
  have hfinest : (PatchHierarchy.mk [coarse, fine]).getFinestLevelNumber = 1 := rfl
  have hboxes : refinedRegionBoxes { levels := [coarse, fine] } 0 =
      fine.getBoxes.map fun b => b.coarsen fine.ratioToCoarserLevel := rfl
  simp only [computeFaceWeightPatch, if_true, hfinest, hboxes]
  rw [faceWeightPatch_apply, zeroingBoxes_nonperiodic NDIM _ _ hperiodic]
  have hz : (∃ b ∈ fine.getBoxes.map fun b => b.coarsen fine.ratioToCoarserLevel,
      zeroedBy NDIM patch.box b axis idx = true) ↔
      (block.toSideBox NDIM axis).contains NDIM idx = true := by
    rw [← exists_toSideBox_contains_of_cover NDIM _ block axis idx hdim haxis hcover]
    constructor
    · rintro ⟨b, hb, hzb⟩
      exact ⟨b, hb, by rw [← zeroedBy_eq_contains NDIM patch.box b axis idx hdim haxis hface]; exact hzb⟩
    · rintro ⟨b, hb, hzb⟩
      exact ⟨b, hb, by rw [zeroedBy_eq_contains NDIM patch.box b axis idx hdim haxis hface]; exact hzb⟩
  by_cases hblock : (block.toSideBox NDIM axis).contains NDIM idx = true
  · have := hz.mpr hblock
    rw [if_pos ⟨by decide, this⟩, if_pos hblock]
  · have hno : ¬ ∃ b ∈ fine.getBoxes.map fun b => b.coarsen fine.ratioToCoarserLevel,
        zeroedBy NDIM patch.box b axis idx = true := fun h => hblock (hz.mp h)
    rw [if_neg (fun h => hno h.2), if_pos ⟨haxis, hface⟩, if_neg hblock]


/-- C13: in a two-level hierarchy without periodic boundaries whose fine level, coarsened, covers
exactly the cells of a non-empty block of coarse cells, after `computeFaceWeight` a face of
orientation `axis` of a coarse patch has weight zero when it lies strictly inside the block,
weight zero when it lies on the boundary of the block, and the unrefined weight
`cell_volume / dx[axis]` otherwise. -/
theorem computeFaceWeight_two_level (NDIM : Nat) (self : IBHydrodynamicForceEvaluator)
    (coarse fine : PatchLevel) (block : Box) (patch' : Patch) (axis : Nat) (idx : Index)
    (hdim : NDIM ≤ 3)
    (hperiodic : ∀ d < NDIM, coarse.periodicShift.get d = 0)
    (hblock : ∀ d < NDIM, block.lower.get d ≤ block.upper.get d)
    (hcover : ∀ c : Index,
      (∃ b ∈ fine.getBoxes, (b.coarsen fine.ratioToCoarserLevel).contains NDIM c = true) ↔
        block.contains NDIM c = true)
    (hpatch : patch' ∈
      ((computeFaceWeight NDIM self { levels := [coarse, fine] }).getPatchLevel 0).patches)
    (haxis : axis < NDIM)
    (hface : (patch'.box.toSideBox NDIM axis).contains NDIM idx = true) :
    ((block.lower.get axis < idx.get axis ∧ idx.get axis ≤ block.upper.get axis) ∧
        (∀ d < NDIM, d ≠ axis → block.lower.get d ≤ idx.get d ∧ idx.get d ≤ block.upper.get d) →
      patch'.sideData self.d_face_wgt_sc_idx axis idx = 0) ∧
    ((idx.get axis = block.lower.get axis ∨ idx.get axis = block.upper.get axis + 1) ∧
        (∀ d < NDIM, d ≠ axis → block.lower.get d ≤ idx.get d ∧ idx.get d ≤ block.upper.get d) →
      patch'.sideData self.d_face_wgt_sc_idx axis idx = 0) ∧
    (¬ ((block.lower.get axis ≤ idx.get axis ∧ idx.get axis ≤ block.upper.get axis + 1) ∧
        (∀ d < NDIM, d ≠ axis →
          block.lower.get d ≤ idx.get d ∧ idx.get d ≤ block.upper.get d)) →
      patch'.sideData self.d_face_wgt_sc_idx axis idx =
        cellVolume NDIM patch'.dx / patch'.dx axis) := by
  rw [mem_computeFaceWeight_patches] at hpatch
  obtain ⟨patch, -, rfl⟩ := hpatch
  have hcover' : ∀ c : Index,
      (∃ b ∈ fine.getBoxes.map fun b => b.coarsen fine.ratioToCoarserLevel,
        b.contains NDIM c = true) ↔ block.contains NDIM c = true := by
    intro c
    rw [← hcover c]
    simp only [List.mem_map, exists_exists_and_eq_and]
  have hw := twoLevel_weight NDIM self coarse fine block patch axis idx hdim hperiodic hcover'
    haxis hface
  have hlevel : (PatchHierarchy.mk [coarse, fine]).getPatchLevel 0 = coarse := rfl
  rw [hlevel]
  have hside : (block.toSideBox NDIM axis).contains NDIM idx = true ↔
      (block.lower.get axis ≤ idx.get axis ∧ idx.get axis ≤ block.upper.get axis + 1) ∧
        (∀ d < NDIM, d ≠ axis →
          block.lower.get d ≤ idx.get d ∧ idx.get d ≤ block.upper.get d) := by
    rw [Box.toSideBox_contains NDIM block axis idx hdim haxis]
    constructor
    · rintro ⟨-, hin⟩
      refine ⟨?_, fun d hd hne => ?_⟩
      · have := hin axis haxis
        simpa using this
      · have := hin d hd
        simpa [hne] using this
    · rintro ⟨ha, hothers⟩
      refine ⟨hblock, fun d hd => ?_⟩
      by_cases hda : d = axis
      · subst hda
        simpa using ha
      · simpa [hda] using hothers d hd hda
  refine ⟨fun h => ?_, fun h => ?_, fun h => ?_⟩
  · rw [hw, if_pos (hside.mpr ⟨⟨by omega, by omega⟩, h.2⟩)]
  · rw [hw, if_pos (hside.mpr ⟨by have := hblock axis haxis; omega, h.2⟩)]
  · rw [hw, if_neg (fun hc => h (hside.mp hc))]
    rfl

theorem twoLevel_cover (c : Index) :
    (∃ b ∈ PatchLevel.getBoxes (twoLevelHierarchy.getPatchLevel 1),
      (b.coarsen (twoLevelHierarchy.getPatchLevel 1).ratioToCoarserLevel).contains 2 c = true) ↔
      Box.contains 2 { lower := ⟨1, 1, 0⟩, upper := ⟨2, 2, 0⟩ } c = true := by
  have hbox : Box.coarsen finePatch.box ⟨2, 2, 1⟩ = { lower := ⟨1, 1, 0⟩, upper := ⟨2, 2, 0⟩ } := by
    decide
  have hboxes : PatchLevel.getBoxes (twoLevelHierarchy.getPatchLevel 1) = [finePatch.box] := rfl
  have hratio : (twoLevelHierarchy.getPatchLevel 1).ratioToCoarserLevel = ⟨2, 2, 1⟩ := rfl
  rw [hboxes, hratio]
  simp only [List.mem_singleton, exists_eq_left, hbox]

theorem computeFaceWeight_two_level_witness :
    (((1 : Int) < (2 : Int) ∧ (2 : Int) ≤ 2) ∧
      (∀ d < 2, d ≠ 0 → (⟨1, 1, 0⟩ : Index).get d ≤ (⟨2, 1, 0⟩ : Index).get d ∧
        (⟨2, 1, 0⟩ : Index).get d ≤ (⟨2, 2, 0⟩ : Index).get d)) ∧
    (computeFaceWeightPatch 2 sampleEvaluator twoLevelHierarchy 0
      (twoLevelHierarchy.getPatchLevel 0) coarsePatch).sideData
        sampleEvaluator.d_face_wgt_sc_idx 0 ⟨2, 1, 0⟩ = 0 :=
  have hinside : ((1 : Int) < (2 : Int) ∧ (2 : Int) ≤ 2) ∧
      (∀ d < 2, d ≠ 0 → (⟨1, 1, 0⟩ : Index).get d ≤ (⟨2, 1, 0⟩ : Index).get d ∧
        (⟨2, 1, 0⟩ : Index).get d ≤ (⟨2, 2, 0⟩ : Index).get d) := by
    refine ⟨by decide, fun d hd hne => ?_⟩
    interval_cases d
    · exact absurd rfl hne
    · decide
  ⟨hinside,
    (computeFaceWeight_two_level 2 sampleEvaluator (twoLevelHierarchy.getPatchLevel 0)
      (twoLevelHierarchy.getPatchLevel 1) { lower := ⟨1, 1, 0⟩, upper := ⟨2, 2, 0⟩ }
      (computeFaceWeightPatch 2 sampleEvaluator twoLevelHierarchy 0
        (twoLevelHierarchy.getPatchLevel 0) coarsePatch) 0 ⟨2, 1, 0⟩
      (by decide) (by decide) (by decide) twoLevel_cover
      ((mem_computeFaceWeight_patches 2 sampleEvaluator twoLevelHierarchy 0 _).mpr
        ⟨coarsePatch, List.Mem.head _, rfl⟩)
      (by decide) (by decide)).1 hinside⟩

/-! ## Calling the force computation twice -/

theorem computeFaceWeight_finest (NDIM : Nat) (self : IBHydrodynamicForceEvaluator)
    (patch_hierarchy : PatchHierarchy) :
    (computeFaceWeight NDIM self patch_hierarchy).getFinestLevelNumber =
      patch_hierarchy.getFinestLevelNumber := by
  simp [computeFaceWeight, PatchHierarchy.getFinestLevelNumber]

theorem computeFaceWeight_refinedRegionBoxes (NDIM : Nat) (self : IBHydrodynamicForceEvaluator)
    (patch_hierarchy : PatchHierarchy) (ln : Int) :
    refinedRegionBoxes (computeFaceWeight NDIM self patch_hierarchy) ln =
      refinedRegionBoxes patch_hierarchy ln := by
  unfold refinedRegionBoxes
  rw [computeFaceWeight_finest, computeFaceWeight_getPatchLevel]
  simp [computeFaceWeightLevel, PatchLevel.getBoxes, computeFaceWeightPatch,
    Function.comp_def]

theorem computeFaceWeightLevel_idempotent (NDIM : Nat) (self : IBHydrodynamicForceEvaluator)
    (patch_hierarchy : PatchHierarchy) (ln : Int) (level : PatchLevel) :
    computeFaceWeightLevel NDIM self (computeFaceWeight NDIM self patch_hierarchy) ln
        (computeFaceWeightLevel NDIM self patch_hierarchy ln level) =
      computeFaceWeightLevel NDIM self patch_hierarchy ln level := by
  simp only [computeFaceWeightLevel, List.map_map]
  congr 1
  apply List.map_congr_left
  intro patch _
  simp only [Function.comp_apply, computeFaceWeightPatch, computeFaceWeight_finest,
    computeFaceWeight_refinedRegionBoxes]
  congr 1
  funext idx
  by_cases hidx : idx = self.d_face_wgt_sc_idx
  · simp only [hidx, if_true]
    exact faceWeightPatch_idempotent NDIM _ level.periodicShift _ patch _
  · simp only [hidx, if_false]

theorem mapIdx_eq_self {α : Type} (G : Nat → α → α) (l : List α)
    (h : ∀ i x, l[i]? = some x → G i x = x) : l.mapIdx G = l := by
  apply List.ext_getElem?
  intro i
  rw [List.getElem?_mapIdx]
  cases hget : l[i]? with
  | none => rfl
  | some x => simp [h i x hget]

theorem computeFaceWeight_idempotent (NDIM : Nat) (self : IBHydrodynamicForceEvaluator)
    (patch_hierarchy : PatchHierarchy) :
    computeFaceWeight NDIM self (computeFaceWeight NDIM self patch_hierarchy) =
      computeFaceWeight NDIM self patch_hierarchy := by
  have hlevels : (computeFaceWeight NDIM self patch_hierarchy).levels =
      patch_hierarchy.levels.mapIdx fun ln level =>
        computeFaceWeightLevel NDIM self patch_hierarchy (ln : Int) level := rfl
  show PatchHierarchy.mk _ = _
  congr 1
  apply mapIdx_eq_self
  intro i x hx
  rw [hlevels, List.getElem?_mapIdx] at hx
  cases hget : patch_hierarchy.levels[i]? with
  | none => simp [hget] at hx
  | some level =>
    simp only [hget, Option.map_some', Option.some.injEq] at hx
    subst hx
    exact computeFaceWeightLevel_idempotent NDIM self patch_hierarchy i level


theorem foldl_bodies_snd (step : List Vector3d → IBHydrodynamicForceObject →
      IBHydrodynamicForceObject × List Vector3d)
    (entries : IBHydrodynamicForceObject → List Vector3d)
    (hlog : ∀ log fobj, (step log fobj).2 = log ++ entries fobj) (m : HydroObjMap)
    (acc : HydroObjMap × List Vector3d) :
    (m.foldl (fun (acc : HydroObjMap × List Vector3d) it =>
        ((acc.1 ++ [(it.1, (step acc.2 it.2).1)], (step acc.2 it.2).2) :
          HydroObjMap × List Vector3d)) acc).2 =
      acc.2 ++ m.flatMap fun it => entries it.2 := by
  induction m generalizing acc with
  | nil => simp
  | cons hd tl ih =>
    simp only [List.foldl_cons, List.flatMap_cons]
    rw [ih]
    simp [hlog acc.2 hd.2]

theorem computeHydrodynamicForce_reductions (NDIM : Nat) (self : IBHydrodynamicForceEvaluator)
    (u_idx p_idx f_idx vol_sc_idx vol_cc_idx : Int) (patch_hierarchy : PatchHierarchy)
    (coarsest_ln finest_ln : Int) (current_time new_time : ℚ) :
    (computeHydrodynamicForce NDIM self u_idx p_idx f_idx vol_sc_idx vol_cc_idx patch_hierarchy
      coarsest_ln finest_ln current_time new_time).reductions =
    self.d_hydro_objs.flatMap fun it =>
      [momentumIntegral NDIM self.d_rho u_idx vol_sc_idx
          (computeFaceWeight NDIM self patch_hierarchy) coarsest_ln finest_ln it.2,
        surfaceTraction NDIM self.d_rho self.d_mu u_idx p_idx self.d_face_wgt_sc_idx
          (computeFaceWeight NDIM self patch_hierarchy) coarsest_ln finest_ln it.2] := by
  simp only [computeHydrodynamicForce]
  rw [foldl_bodies_snd (fun log fobj => computeBody NDIM self u_idx p_idx vol_sc_idx
    (computeFaceWeight NDIM self patch_hierarchy) coarsest_ln finest_ln
    (new_time - current_time) log fobj)
    (fun fobj =>
      [momentumIntegral NDIM self.d_rho u_idx vol_sc_idx
          (computeFaceWeight NDIM self patch_hierarchy) coarsest_ln finest_ln fobj,
        surfaceTraction NDIM self.d_rho self.d_mu u_idx p_idx self.d_face_wgt_sc_idx
          (computeFaceWeight NDIM self patch_hierarchy) coarsest_ln finest_ln fobj])]
  · simp
  · intro log fobj
    simp [computeBody, sumReduction]
    rfl

theorem computeBody_idempotent (NDIM : Nat) (self : IBHydrodynamicForceEvaluator)
    (u_idx p_idx vol_sc_idx : Int) (patch_hierarchy : PatchHierarchy)
    (coarsest_ln finest_ln : Int) (dt : ℚ) (fobj : IBHydrodynamicForceObject) :
    (computeBody NDIM self u_idx p_idx vol_sc_idx patch_hierarchy coarsest_ln finest_ln dt []
        (computeBody NDIM self u_idx p_idx vol_sc_idx patch_hierarchy coarsest_ln finest_ln dt []
          fobj).1).1 =
      (computeBody NDIM self u_idx p_idx vol_sc_idx patch_hierarchy coarsest_ln finest_ln dt []
        fobj).1 := rfl

theorem computeHydrodynamicForce_eq (NDIM : Nat) (self : IBHydrodynamicForceEvaluator)
    (u_idx p_idx f_idx vol_sc_idx vol_cc_idx : Int) (patch_hierarchy : PatchHierarchy)
    (coarsest_ln finest_ln : Int) (current_time new_time : ℚ) :
    computeHydrodynamicForce NDIM self u_idx p_idx f_idx vol_sc_idx vol_cc_idx patch_hierarchy
        coarsest_ln finest_ln current_time new_time =
      { evaluator :=
          { self with
            d_hydro_objs := self.d_hydro_objs.map fun it =>
              (it.1, (computeBody NDIM self u_idx p_idx vol_sc_idx
                (computeFaceWeight NDIM self patch_hierarchy) coarsest_ln finest_ln
                (new_time - current_time) [] it.2).1) }
        hierarchy := computeFaceWeight NDIM self patch_hierarchy
        reductions := self.d_hydro_objs.flatMap fun it =>
          [momentumIntegral NDIM self.d_rho u_idx vol_sc_idx
              (computeFaceWeight NDIM self patch_hierarchy) coarsest_ln finest_ln it.2,
            surfaceTraction NDIM self.d_rho self.d_mu u_idx p_idx self.d_face_wgt_sc_idx
              (computeFaceWeight NDIM self patch_hierarchy) coarsest_ln finest_ln it.2] } := by
  have hobjs := computeHydrodynamicForce_objs NDIM self u_idx p_idx f_idx vol_sc_idx vol_cc_idx
    patch_hierarchy coarsest_ln finest_ln current_time new_time
  have hred := computeHydrodynamicForce_reductions NDIM self u_idx p_idx f_idx vol_sc_idx
    vol_cc_idx patch_hierarchy coarsest_ln finest_ln current_time new_time
  simp only [computeHydrodynamicForce] at hobjs hred ⊢
  rw [hobjs, hred]

theorem computeFaceWeight_congr_self (NDIM : Nat) (self : IBHydrodynamicForceEvaluator)
    (m : HydroObjMap) (patch_hierarchy : PatchHierarchy) :
    computeFaceWeight NDIM { self with d_hydro_objs := m } patch_hierarchy =
      computeFaceWeight NDIM self patch_hierarchy := by
  have hpatch : ∀ (ln : Int) (level : PatchLevel),
      computeFaceWeightPatch NDIM { self with d_hydro_objs := m } patch_hierarchy ln level =
        computeFaceWeightPatch NDIM self patch_hierarchy ln level := fun _ _ => rfl
  simp only [computeFaceWeight, computeFaceWeightLevel, hpatch]

theorem computeBody_congr_self (NDIM : Nat) (self : IBHydrodynamicForceEvaluator)
    (m : HydroObjMap) (u_idx p_idx vol_sc_idx : Int) (patch_hierarchy : PatchHierarchy)
    (coarsest_ln finest_ln : Int) (dt : ℚ) (log : List Vector3d)
    (fobj : IBHydrodynamicForceObject) :
    computeBody NDIM { self with d_hydro_objs := m } u_idx p_idx vol_sc_idx patch_hierarchy
        coarsest_ln finest_ln dt log fobj =
      computeBody NDIM self u_idx p_idx vol_sc_idx patch_hierarchy coarsest_ln finest_ln dt log
        fobj := by
  simp only [computeBody]

theorem momentumIntegral_congr_fobj (NDIM : Nat) (d_rho : ℚ) (u_idx vol_sc_idx : Int)
    (patch_hierarchy : PatchHierarchy) (coarsest_ln finest_ln : Int)
    (fobj fobj' : IBHydrodynamicForceObject)
    (hlo : fobj'.box_X_lower_new = fobj.box_X_lower_new)
    (hhi : fobj'.box_X_upper_new = fobj.box_X_upper_new) :
    momentumIntegral NDIM d_rho u_idx vol_sc_idx patch_hierarchy coarsest_ln finest_ln fobj' =
      momentumIntegral NDIM d_rho u_idx vol_sc_idx patch_hierarchy coarsest_ln finest_ln
        fobj := by
  have hstep : momentumLevel NDIM d_rho u_idx vol_sc_idx patch_hierarchy fobj' =
      momentumLevel NDIM d_rho u_idx vol_sc_idx patch_hierarchy fobj := by
    funext P ln
    simp only [momentumLevel, integrationBox, hlo, hhi]
  simp only [momentumIntegral, hstep]

theorem surfaceTraction_congr_fobj (NDIM : Nat) (d_rho d_mu : ℚ) (u_idx p_idx face_idx : Int)
    (patch_hierarchy : PatchHierarchy) (coarsest_ln finest_ln : Int)
    (fobj fobj' : IBHydrodynamicForceObject)
    (hlo : fobj'.box_X_lower_new = fobj.box_X_lower_new)
    (hhi : fobj'.box_X_upper_new = fobj.box_X_upper_new)
    (hu : fobj'.box_u_new = fobj.box_u_new) :
    surfaceTraction NDIM d_rho d_mu u_idx p_idx face_idx patch_hierarchy coarsest_ln finest_ln
        fobj' =
      surfaceTraction NDIM d_rho d_mu u_idx p_idx face_idx patch_hierarchy coarsest_ln
        finest_ln fobj := by
  have hstep : tractionLevel NDIM d_rho d_mu u_idx p_idx face_idx patch_hierarchy fobj' =
      tractionLevel NDIM d_rho d_mu u_idx p_idx face_idx patch_hierarchy fobj := by
    funext trac ln
    simp only [tractionLevel, integrationBox, hlo, hhi, hu]
  simp only [surfaceTraction, hstep]

/-- C16: calling `computeHydrodynamicForce` a second time with the same field, geometry, level
range and time arguments, on the evaluator and the hierarchy the first call left, leaves the
evaluator as the first call left it (so every body has the same `P_box_new` and `F_new`: the
sums restart from zero and nothing the computation reads was changed by it), leaves the
hierarchy with the same face weights, and repeats the same reductions. -/
theorem computeHydrodynamicForce_idempotent (NDIM : Nat) (self : IBHydrodynamicForceEvaluator)
    (u_idx p_idx f_idx vol_sc_idx vol_cc_idx : Int) (patch_hierarchy : PatchHierarchy)
    (coarsest_ln finest_ln : Int) (current_time new_time : ℚ) :
    (computeHydrodynamicForce NDIM
        (computeHydrodynamicForce NDIM self u_idx p_idx f_idx vol_sc_idx vol_cc_idx
          patch_hierarchy coarsest_ln finest_ln current_time new_time).evaluator
        u_idx p_idx f_idx vol_sc_idx vol_cc_idx
        (computeHydrodynamicForce NDIM self u_idx p_idx f_idx vol_sc_idx vol_cc_idx
          patch_hierarchy coarsest_ln finest_ln current_time new_time).hierarchy
        coarsest_ln finest_ln current_time new_time).evaluator =
      (computeHydrodynamicForce NDIM self u_idx p_idx f_idx vol_sc_idx vol_cc_idx
        patch_hierarchy coarsest_ln finest_ln current_time new_time).evaluator ∧
    (computeHydrodynamicForce NDIM
        (computeHydrodynamicForce NDIM self u_idx p_idx f_idx vol_sc_idx vol_cc_idx
          patch_hierarchy coarsest_ln finest_ln current_time new_time).evaluator
        u_idx p_idx f_idx vol_sc_idx vol_cc_idx
        (computeHydrodynamicForce NDIM self u_idx p_idx f_idx vol_sc_idx vol_cc_idx
          patch_hierarchy coarsest_ln finest_ln current_time new_time).hierarchy
        coarsest_ln finest_ln current_time new_time).hierarchy =
      (computeHydrodynamicForce NDIM self u_idx p_idx f_idx vol_sc_idx vol_cc_idx
        patch_hierarchy coarsest_ln finest_ln current_time new_time).hierarchy ∧
    (computeHydrodynamicForce NDIM
        (computeHydrodynamicForce NDIM self u_idx p_idx f_idx vol_sc_idx vol_cc_idx
          patch_hierarchy coarsest_ln finest_ln current_time new_time).evaluator
        u_idx p_idx f_idx vol_sc_idx vol_cc_idx
        (computeHydrodynamicForce NDIM self u_idx p_idx f_idx vol_sc_idx vol_cc_idx
          patch_hierarchy coarsest_ln finest_ln current_time new_time).hierarchy
        coarsest_ln finest_ln current_time new_time).reductions =
      (computeHydrodynamicForce NDIM self u_idx p_idx f_idx vol_sc_idx vol_cc_idx
        patch_hierarchy coarsest_ln finest_ln current_time new_time).reductions := by
  rw [computeHydrodynamicForce_eq NDIM self]
  simp only
  rw [computeHydrodynamicForce_eq NDIM _ u_idx p_idx f_idx vol_sc_idx vol_cc_idx
    (computeFaceWeight NDIM self patch_hierarchy)]
  simp only [computeFaceWeight_congr_self, computeFaceWeight_idempotent,
    computeBody_congr_self, List.map_map, List.flatMap_map, Function.comp_def,
    computeBody_idempotent, true_and]
  have hP : ∀ fobj : IBHydrodynamicForceObject,
      momentumIntegral NDIM self.d_rho u_idx vol_sc_idx
          (computeFaceWeight NDIM self patch_hierarchy) coarsest_ln finest_ln
          (computeBody NDIM self u_idx p_idx vol_sc_idx
            (computeFaceWeight NDIM self patch_hierarchy) coarsest_ln finest_ln
            (new_time - current_time) [] fobj).1 =
        momentumIntegral NDIM self.d_rho u_idx vol_sc_idx
          (computeFaceWeight NDIM self patch_hierarchy) coarsest_ln finest_ln fobj :=
    fun fobj => momentumIntegral_congr_fobj NDIM self.d_rho u_idx vol_sc_idx _ coarsest_ln
      finest_ln fobj _ rfl rfl
  have hT : ∀ fobj : IBHydrodynamicForceObject,
      surfaceTraction NDIM self.d_rho self.d_mu u_idx p_idx self.d_face_wgt_sc_idx
          (computeFaceWeight NDIM self patch_hierarchy) coarsest_ln finest_ln
          (computeBody NDIM self u_idx p_idx vol_sc_idx
            (computeFaceWeight NDIM self patch_hierarchy) coarsest_ln finest_ln
            (new_time - current_time) [] fobj).1 =
        surfaceTraction NDIM self.d_rho self.d_mu u_idx p_idx self.d_face_wgt_sc_idx
          (computeFaceWeight NDIM self patch_hierarchy) coarsest_ln finest_ln fobj :=
    fun fobj => surfaceTraction_congr_fobj NDIM self.d_rho self.d_mu u_idx p_idx _ _
      coarsest_ln finest_ln fobj _ rfl rfl rfl
  simp only [hP, hT]

/-! ## The surface traction integral as a sum -/

theorem Vector3d.zero_def : (0 : Vector3d) = Vector3d.Zero := rfl

theorem tractionCell_eq (NDIM : Nat) (d_rho d_mu : ℚ) (patch_dx : Nat → ℚ) (p_data : CellData)
    (u_data face_sc_data : SideData) (box_u_new : Vector3d) (axis upperlower : Nat)
    (trac : Vector3d) (cell_idx : Index) :
    tractionCell NDIM d_rho d_mu patch_dx p_data u_data face_sc_data box_u_new axis upperlower
        trac cell_idx =
      trac +
        (pressureContribution p_data face_sc_data axis upperlower cell_idx +
          convectiveContribution NDIM d_rho u_data face_sc_data box_u_new axis upperlower
            cell_idx +
          viscousContribution NDIM d_mu patch_dx u_data face_sc_data axis upperlower
            cell_idx) := by
  have h : tractionCell NDIM d_rho d_mu patch_dx p_data u_data face_sc_data box_u_new axis
      upperlower trac cell_idx =
      trac + pressureContribution p_data face_sc_data axis upperlower cell_idx +
        convectiveContribution NDIM d_rho u_data face_sc_data box_u_new axis upperlower
          cell_idx +
        viscousContribution NDIM d_mu patch_dx u_data face_sc_data axis upperlower cell_idx :=
    rfl
  rw [h, add_assoc, add_assoc, add_assoc]

theorem foldl_add_eq_sum {α : Type} (f : Vector3d → α → Vector3d) (g : α → Vector3d)
    (hstep : ∀ acc a, f acc a = acc + g a) (l : List α) (init : Vector3d) :
    l.foldl f init = init + (l.map g).sum := by
  induction l generalizing init with
  | nil => simp
  | cons hd tl ih =>
    simp only [List.foldl_cons, List.map_cons, List.sum_cons]
    rw [ih, hstep, add_assoc]

theorem tractionSide_eq (NDIM : Nat) (d_rho d_mu : ℚ) (patch : Patch) (u_idx p_idx face_idx : Int)
    (integration_box : Box) (box_u_new : Vector3d) (axis : Nat) (trac : Vector3d)
    (upperlower : Nat) :
    tractionSide NDIM d_rho d_mu patch u_idx p_idx face_idx integration_box box_u_new axis trac
        upperlower =
      trac +
        (((patch.box.inter (bdryBox integration_box axis upperlower)).cells NDIM).map
          (cellTraction NDIM d_rho d_mu u_idx p_idx face_idx box_u_new patch axis
            upperlower)).sum := by
  unfold tractionSide
  by_cases hint : patch.box.intersects NDIM (bdryBox integration_box axis upperlower) = true
  · simp only [hint, Bool.not_true, Bool.false_eq_true, if_false]
    exact foldl_add_eq_sum _
      (cellTraction NDIM d_rho d_mu u_idx p_idx face_idx box_u_new patch axis upperlower)
      (fun acc c => tractionCell_eq NDIM d_rho d_mu patch.dx _ _ _ box_u_new axis upperlower
        acc c) _ _
  · have hfalse : patch.box.intersects NDIM (bdryBox integration_box axis upperlower) = false := by
      simpa using hint
    rw [Box.cells_eq_nil_of_empty NDIM _ (Box.empty_inter_of_not_intersects NDIM _ _ hfalse)]
    simp [hfalse]

theorem tractionPatch_eq (NDIM : Nat) (d_rho d_mu : ℚ) (u_idx p_idx face_idx : Int)
    (integration_box : Box) (box_u_new : Vector3d) (trac : Vector3d) (patch : Patch) :
    tractionPatch NDIM d_rho d_mu u_idx p_idx face_idx integration_box box_u_new trac patch =
      trac +
        if patch.box.intersects NDIM integration_box then
          ((List.range NDIM).map fun axis =>
            ([0, 1].map fun upperlower =>
              (((patch.box.inter (bdryBox integration_box axis upperlower)).cells NDIM).map
                (cellTraction NDIM d_rho d_mu u_idx p_idx face_idx box_u_new patch axis
                  upperlower)).sum).sum).sum
        else 0 := by
  unfold tractionPatch
  by_cases hint : patch.box.intersects NDIM integration_box = true
  · simp only [hint, Bool.not_true, Bool.false_eq_true, if_false, if_true]
    refine foldl_add_eq_sum _ (fun axis =>
      ([0, 1].map fun upperlower =>
        (((patch.box.inter (bdryBox integration_box axis upperlower)).cells NDIM).map
          (cellTraction NDIM d_rho d_mu u_idx p_idx face_idx box_u_new patch axis
            upperlower)).sum).sum) (fun acc axis => ?_) _ _
    exact foldl_add_eq_sum _ (fun upperlower =>
      (((patch.box.inter (bdryBox integration_box axis upperlower)).cells NDIM).map
        (cellTraction NDIM d_rho d_mu u_idx p_idx face_idx box_u_new patch axis
          upperlower)).sum)
      (fun acc upperlower => tractionSide_eq NDIM d_rho d_mu patch u_idx p_idx face_idx
        integration_box box_u_new axis acc upperlower) _ _
  · simp [hint]

theorem surfaceTraction_eq_tractionSum (NDIM : Nat) (d_rho d_mu : ℚ) (u_idx p_idx face_idx : Int)
    (patch_hierarchy : PatchHierarchy) (coarsest_ln finest_ln : Int)
    (fobj : IBHydrodynamicForceObject) :
    surfaceTraction NDIM d_rho d_mu u_idx p_idx face_idx patch_hierarchy coarsest_ln finest_ln
        fobj =
      tractionSum NDIM (cellTraction NDIM d_rho d_mu u_idx p_idx face_idx fobj.box_u_new)
        patch_hierarchy coarsest_ln finest_ln fobj := by
  unfold surfaceTraction tractionSum
  rw [foldl_add_eq_sum _ (fun ln =>
    ((patch_hierarchy.getPatchLevel ln).patches.map fun patch =>
      if patch.box.intersects NDIM (integrationBox (patch_hierarchy.getPatchLevel ln) fobj) then
        ((List.range NDIM).map fun axis =>
          ([0, 1].map fun upperlower =>
            (((patch.box.inter
                (bdryBox (integrationBox (patch_hierarchy.getPatchLevel ln) fobj) axis
                  upperlower)).cells NDIM).map
              (cellTraction NDIM d_rho d_mu u_idx p_idx face_idx fobj.box_u_new patch axis
                upperlower)).sum).sum).sum
      else 0).sum)]
  · exact zero_add _
  · intro trac ln
    unfold tractionLevel
    exact foldl_add_eq_sum _ _
      (fun acc patch => tractionPatch_eq NDIM d_rho d_mu u_idx p_idx face_idx _ fobj.box_u_new
        acc patch) _ _

/-! ## The pressure term of a boundary cell -/

theorem Index.set_get_sub_one (cell_idx : Index) (axis : Nat) :
    cell_idx.set axis (cell_idx.get axis + -1) = cell_idx - Index.offset axis := by
  obtain ⟨a, b, c⟩ := cell_idx
  match axis with
  | 0 => simp [Index.set, Index.get, Index.offset, Index.zero, Index.sub_eq_mk]; rfl
  | 1 => simp [Index.set, Index.get, Index.offset, Index.zero, Index.sub_eq_mk]; rfl
  | _ + 2 => simp [Index.set, Index.get, Index.offset, Index.zero, Index.sub_eq_mk]; rfl

theorem Index.set_get_add_one (cell_idx : Index) (axis : Nat) :
    cell_idx.set axis (cell_idx.get axis + 1) = cell_idx + Index.offset axis := by
  obtain ⟨a, b, c⟩ := cell_idx
  match axis with
  | 0 => simp [Index.set, Index.get, Index.offset, Index.zero, Index.add_eq_mk]
  | 1 => simp [Index.set, Index.get, Index.offset, Index.zero, Index.add_eq_mk]
  | _ + 2 => simp [Index.set, Index.get, Index.offset, Index.zero, Index.add_eq_mk]

theorem Vector3d.zero_set_scale (axis : Nat) (a s t : ℚ) :
    (-0.5 : ℚ) * Vector3d.Zero.set axis a * s * t = Vector3d.Zero.set axis (-(1 / 2) * a * s * t) := by
  match axis with
  | 0 => simp [Vector3d.set, Vector3d.Zero, Vector3d.smul_def, Vector3d.mul_def]; norm_num
  | 1 => simp [Vector3d.set, Vector3d.Zero, Vector3d.smul_def, Vector3d.mul_def]; norm_num
  | _ + 2 => simp [Vector3d.set, Vector3d.Zero, Vector3d.smul_def, Vector3d.mul_def]; norm_num

theorem pressureContribution_lower (p_data : CellData) (face_sc_data : SideData) (axis : Nat)
    (cell_idx : Index) :
    pressureContribution p_data face_sc_data axis 0 cell_idx =
      Vector3d.Zero.set axis
        (-(1 / 2) * (-1) * (p_data cell_idx + p_data (cell_idx - Index.offset axis)) *
          face_sc_data axis cell_idx) := by
  unfold pressureContribution
  simp only [ne_eq, not_true_eq_false, if_false, Vector3d.zero_set_scale,
    Index.set_get_sub_one]
  have hface : SideData.read face_sc_data (SideIndex.make cell_idx axis SideIndex.Lower) =
      face_sc_data axis cell_idx := by
    obtain ⟨a, b, c⟩ := cell_idx
    match axis with
    | 0 => simp [SideData.read, SideIndex.make, SideIndex.Lower, Index.set, Index.get]
    | 1 => simp [SideData.read, SideIndex.make, SideIndex.Lower, Index.set, Index.get]
    | _ + 2 => simp [SideData.read, SideIndex.make, SideIndex.Lower, Index.set, Index.get]
  rw [hface]

theorem pressureContribution_upper (p_data : CellData) (face_sc_data : SideData) (axis : Nat)
    (cell_idx : Index) :
    pressureContribution p_data face_sc_data axis 1 cell_idx =
      Vector3d.Zero.set axis
        (-(1 / 2) * 1 * (p_data cell_idx + p_data (cell_idx + Index.offset axis)) *
          face_sc_data axis (cell_idx + Index.offset axis)) := by
  unfold pressureContribution
  simp only [ne_eq, one_ne_zero, not_false_eq_true, if_true, Vector3d.zero_set_scale,
    Index.set_get_add_one]
  have hface : SideData.read face_sc_data (SideIndex.make cell_idx axis SideIndex.Upper) =
      face_sc_data axis (cell_idx + Index.offset axis) := by
    rw [← Index.set_get_add_one]
    simp [SideData.read, SideIndex.make, SideIndex.Upper]
  rw [hface]



theorem cellTraction_lower (NDIM : Nat) (d_rho d_mu : ℚ) (u_idx p_idx face_idx : Int)
    (u_box : Vector3d) (patch : Patch) (axis : Nat) :
    cellTraction NDIM d_rho d_mu u_idx p_idx face_idx u_box patch axis 0 =
      fun cell_idx =>
        Vector3d.Zero.set axis
            (-(1 / 2) * (-1) *
              (patch.cellData p_idx cell_idx +
                patch.cellData p_idx (cell_idx - Index.offset axis)) *
              patch.sideData face_idx axis cell_idx) +
          convectiveContribution NDIM d_rho (patch.sideData u_idx) (patch.sideData face_idx)
            u_box axis 0 cell_idx +
          viscousContribution NDIM d_mu patch.dx (patch.sideData u_idx)
            (patch.sideData face_idx) axis 0 cell_idx := by
  funext cell_idx
  rw [cellTraction, pressureContribution_lower]

theorem cellTraction_upper (NDIM : Nat) (d_rho d_mu : ℚ) (u_idx p_idx face_idx : Int)
    (u_box : Vector3d) (patch : Patch) (axis : Nat) :
    cellTraction NDIM d_rho d_mu u_idx p_idx face_idx u_box patch axis 1 =
      fun cell_idx =>
        Vector3d.Zero.set axis
            (-(1 / 2) * 1 *
              (patch.cellData p_idx cell_idx +
                patch.cellData p_idx (cell_idx + Index.offset axis)) *
              patch.sideData face_idx axis (cell_idx + Index.offset axis)) +
          convectiveContribution NDIM d_rho (patch.sideData u_idx) (patch.sideData face_idx)
            u_box axis 1 cell_idx +
          viscousContribution NDIM d_mu patch.dx (patch.sideData u_idx)
            (patch.sideData face_idx) axis 1 cell_idx := by
  funext cell_idx
  rw [cellTraction, pressureContribution_upper]

/-- C18: in the surface traction integral a boundary cell of the control-volume box adds to
`trac`, next to its convective and viscous terms, the pressure term
`-1/2 * n * (p(inside cell) + p(outside neighbour cell)) * faceArea` along the axis of the side:
on a lower side `n = -1`, the neighbour is the cell one step down the axis and `faceArea` is the
face weight of the lower face of the cell; on an upper side `n = +1`, the neighbour is the cell
one step up the axis and `faceArea` is the face weight of the upper face of the cell (the lower
face of the neighbour); and the integral is the sum of these vectors over the boundary cells on
the patches that cover them. -/
theorem surfaceTraction_pressure_contribution (NDIM : Nat) (d_rho d_mu : ℚ)
    (u_idx p_idx face_idx : Int) (patch_hierarchy : PatchHierarchy) (coarsest_ln finest_ln : Int)
    (fobj : IBHydrodynamicForceObject) :
    (∀ (patch : Patch) (axis : Nat) (trac : Vector3d) (cell_idx : Index),
      tractionCell NDIM d_rho d_mu patch.dx (patch.cellData p_idx) (patch.sideData u_idx)
          (patch.sideData face_idx) fobj.box_u_new axis 0 trac cell_idx =
        trac +
          (Vector3d.Zero.set axis
              (-(1 / 2) * (-1) *
                (patch.cellData p_idx cell_idx +
                  patch.cellData p_idx (cell_idx - Index.offset axis)) *
                patch.sideData face_idx axis cell_idx) +
            convectiveContribution NDIM d_rho (patch.sideData u_idx) (patch.sideData face_idx)
              fobj.box_u_new axis 0 cell_idx +
            viscousContribution NDIM d_mu patch.dx (patch.sideData u_idx)
              (patch.sideData face_idx) axis 0 cell_idx) ∧
      tractionCell NDIM d_rho d_mu patch.dx (patch.cellData p_idx) (patch.sideData u_idx)
          (patch.sideData face_idx) fobj.box_u_new axis 1 trac cell_idx =
        trac +
          (Vector3d.Zero.set axis
              (-(1 / 2) * 1 *
                (patch.cellData p_idx cell_idx +
                  patch.cellData p_idx (cell_idx + Index.offset axis)) *
                patch.sideData face_idx axis (cell_idx + Index.offset axis)) +
            convectiveContribution NDIM d_rho (patch.sideData u_idx) (patch.sideData face_idx)
              fobj.box_u_new axis 1 cell_idx +
            viscousContribution NDIM d_mu patch.dx (patch.sideData u_idx)
              (patch.sideData face_idx) axis 1 cell_idx)) ∧
    surfaceTraction NDIM d_rho d_mu u_idx p_idx face_idx patch_hierarchy coarsest_ln finest_ln
        fobj =
      tractionSum NDIM
        (fun patch axis upperlower cell_idx =>
          Vector3d.Zero.set axis
              (-(1 / 2) * (if upperlower = 0 then -1 else 1) *
                (patch.cellData p_idx cell_idx +
                  patch.cellData p_idx
                    (if upperlower = 0 then cell_idx - Index.offset axis
                      else cell_idx + Index.offset axis)) *
                patch.sideData face_idx axis
                  (if upperlower = 0 then cell_idx else cell_idx + Index.offset axis)) +
            convectiveContribution NDIM d_rho (patch.sideData u_idx) (patch.sideData face_idx)
              fobj.box_u_new axis upperlower cell_idx +
            viscousContribution NDIM d_mu patch.dx (patch.sideData u_idx)
              (patch.sideData face_idx) axis upperlower cell_idx)
        patch_hierarchy coarsest_ln finest_ln fobj := by
  refine ⟨fun patch axis trac cell_idx => ⟨?_, ?_⟩, ?_⟩
  · rw [tractionCell_eq, pressureContribution_lower]
  · rw [tractionCell_eq, pressureContribution_upper]
  · rw [surfaceTraction_eq_tractionSum]
    unfold tractionSum
    simp only [List.map_cons, List.map_nil, cellTraction_lower, cellTraction_upper, if_true,
      one_ne_zero, if_false]

/-! ## The convective term of a boundary cell -/

theorem foldl_set_get (f : Nat → ℚ) (N : Nat) (hN : N ≤ 3) (v0 : Vector3d) (e : Nat)
    (he : e ≤ 2) :
    ((List.range N).foldl (fun v d => v.set d (f d)) v0).get e =
      if e < N then f e else v0.get e := by
  induction N with
  | zero => simp
  | succ n ih =>
    rw [List.range_succ, List.foldl_append, List.foldl_cons, List.foldl_nil]
    by_cases hen : e = n
    · subst hen
      rw [Vector3d.get_set_self]
      simp
    · rw [Vector3d.get_set_ne _ n e _ (by omega) he hen, ih (by omega)]
      by_cases hlt : e < n
      · simp [hlt, Nat.lt_succ_of_lt hlt]
      · have : ¬ e < n + 1 := by omega
        simp [hlt, this]

theorem faceVelocity_get (NDIM : Nat) (hN : NDIM ≤ 3) (u_data : SideData) (axis : Nat)
    (cell_idx cell_nbr_idx : Index) (bdry_idx : SideIndex) (d : Nat) (hd : d ≤ 2) :
    (faceVelocity NDIM u_data axis cell_idx cell_nbr_idx bdry_idx).get d =
      if d < NDIM then
        if d = axis then u_data.read bdry_idx
        else
          0.25 *
            (u_data.read (SideIndex.make cell_idx d SideIndex.Lower) +
              u_data.read (SideIndex.make (cell_idx + Index.offset d) d SideIndex.Lower) +
              u_data.read (SideIndex.make cell_nbr_idx d SideIndex.Lower) +
              u_data.read (SideIndex.make (cell_nbr_idx + Index.offset d) d SideIndex.Lower))
      else 0 := by
  have hstep : (fun (u : Vector3d) (d : Nat) =>
      if d = axis then u.set d (u_data.read bdry_idx)
      else
        let offset := Index.offset d
        u.set d
          (0.25 *
            (u_data.read (SideIndex.make cell_idx d SideIndex.Lower) +
              u_data.read (SideIndex.make (cell_idx + offset) d SideIndex.Lower) +
              u_data.read (SideIndex.make cell_nbr_idx d SideIndex.Lower) +
              u_data.read (SideIndex.make (cell_nbr_idx + offset) d SideIndex.Lower)))) =
      fun (u : Vector3d) (d : Nat) => u.set d
        (if d = axis then u_data.read bdry_idx
        else
          0.25 *
            (u_data.read (SideIndex.make cell_idx d SideIndex.Lower) +
              u_data.read (SideIndex.make (cell_idx + Index.offset d) d SideIndex.Lower) +
              u_data.read (SideIndex.make cell_nbr_idx d SideIndex.Lower) +
              u_data.read
                (SideIndex.make (cell_nbr_idx + Index.offset d) d SideIndex.Lower))) := by
    funext u d
    by_cases h : d = axis
    · rw [if_pos h, if_pos h]
    · rw [if_neg h, if_neg h]
  unfold faceVelocity
  rw [hstep, foldl_set_get _ NDIM hN _ d hd]
  have hz : Vector3d.Zero.get d = 0 := by
    rcases d with _ | _ | d <;> rfl
  rw [hz]



theorem SideData.read_make_lower (data : SideData) (cell_idx : Index) (d : Nat) :
    SideData.read data (SideIndex.make cell_idx d SideIndex.Lower) = data d cell_idx := by
  obtain ⟨a, b, c⟩ := cell_idx
  match d with
  | 0 => simp [SideData.read, SideIndex.make, SideIndex.Lower, Index.set, Index.get]
  | 1 => simp [SideData.read, SideIndex.make, SideIndex.Lower, Index.set, Index.get]
  | _ + 2 => simp [SideData.read, SideIndex.make, SideIndex.Lower, Index.set, Index.get]

theorem SideData.read_make_upper (data : SideData) (cell_idx : Index) (d : Nat) :
    SideData.read data (SideIndex.make cell_idx d SideIndex.Upper) =
      data d (cell_idx + Index.offset d) := by
  rw [← Index.set_get_add_one]
  simp [SideData.read, SideIndex.make, SideIndex.Upper]

theorem SideData.read_make_side (data : SideData) (cell_idx : Index) (d upperlower : Nat) :
    SideData.read data
        (SideIndex.make cell_idx d (if upperlower ≠ 0 then SideIndex.Upper else SideIndex.Lower)) =
      data d (if upperlower ≠ 0 then cell_idx + Index.offset d else cell_idx) := by
  by_cases h : upperlower ≠ 0
  · rw [if_pos h, if_pos h, SideData.read_make_upper]
  · rw [if_neg h, if_neg h, SideData.read_make_lower]

theorem Index.set_get_side (cell_idx : Index) (axis upperlower : Nat) :
    cell_idx.set axis (cell_idx.get axis + (if upperlower ≠ 0 then 1 else -1)) =
      if upperlower ≠ 0 then cell_idx + Index.offset axis else cell_idx - Index.offset axis := by
  by_cases h : upperlower ≠ 0
  · rw [if_pos h, if_pos h, Index.set_get_add_one]
  · rw [if_neg h, if_neg h, Index.set_get_sub_one]

theorem convectiveContribution_eq (NDIM : Nat) (d_rho : ℚ) (u_data face_sc_data : SideData)
    (u_box : Vector3d) (axis upperlower : Nat) (cell_idx : Index) :
    convectiveContribution NDIM d_rho u_data face_sc_data u_box axis upperlower cell_idx =
      -d_rho *
          (Vector3d.Zero.set axis (if upperlower ≠ 0 then 1 else -1)).dot
            (faceVelocity NDIM u_data axis cell_idx
                (if upperlower ≠ 0 then cell_idx + Index.offset axis
                  else cell_idx - Index.offset axis)
                (SideIndex.make cell_idx axis
                  (if upperlower ≠ 0 then SideIndex.Upper else SideIndex.Lower)) -
              u_box) *
          faceVelocity NDIM u_data axis cell_idx
            (if upperlower ≠ 0 then cell_idx + Index.offset axis
              else cell_idx - Index.offset axis)
            (SideIndex.make cell_idx axis
              (if upperlower ≠ 0 then SideIndex.Upper else SideIndex.Lower)) *
        face_sc_data axis (if upperlower ≠ 0 then cell_idx + Index.offset axis else cell_idx) := by
  unfold convectiveContribution
  simp only [Index.set_get_side, SideData.read_make_side]



theorem flow_faceWeight_level :
    (computeFaceWeight 2 flowEvaluator flowHierarchy).getPatchLevel 0 =
      { patches := [{ flowPatch with
          sideData := fun idx =>
            if idx = 7 then
              faceWeightPatch 2 false Index.zero [] flowPatch (flowPatch.sideData idx)
            else flowPatch.sideData idx }]
        ratioToCoarserLevel := ⟨1, 1, 1⟩
        periodicShift := Index.zero
        getCellIndex := fun X => ⟨⌊X.x⌋, ⌊X.y⌋, 0⟩ } := by
  simp [computeFaceWeight, computeFaceWeightLevel, computeFaceWeightPatch, flowHierarchy,
    PatchHierarchy.getPatchLevel, PatchHierarchy.getFinestLevelNumber,
    refinedRegionBoxes, flowEvaluator, emptyEvaluator]

theorem flow_integrationBox :
    integrationBox ((computeFaceWeight 2 flowEvaluator flowHierarchy).getPatchLevel 0)
      flowObject = { lower := ⟨1, 1, 0⟩, upper := ⟨1, 1, 0⟩ } := by
  rw [flow_faceWeight_level]
  have h : ⌊(3 / 2 : ℚ)⌋ = 1 := by
    rw [Int.floor_eq_iff]
    norm_num
  simp [integrationBox, flowObject, zeroObject, h]

theorem flow_cells (axis upperlower : Nat) (haxis : axis < 2) (hside : upperlower < 2) :
    Box.cells 2 (flowPatch.box.inter
      (bdryBox { lower := ⟨1, 1, 0⟩, upper := ⟨1, 1, 0⟩ } axis upperlower)) = [⟨1, 1, 0⟩] := by
  interval_cases axis <;> interval_cases upperlower <;>
    simp [Box.cells, Box.axisValues, Box.interval, Box.inter, flowPatch, bdryBox, Index.get,
      Index.set, List.range_succ, List.flatMap]

theorem flow_weight :
    faceWeightPatch 2 false Index.zero [] flowPatch (flowPatch.sideData 7) = fun _ _ => 1 := by
  funext axis idx
  rw [faceWeightPatch_apply]
  simp [flowPatch, cellVolume]

theorem flow_velocity (axis : Nat) (idx : Index) :
    flowPatch.sideData 1 axis idx = if axis = 0 then (idx.i0 : ℚ) else 0 := by
  by_cases h : axis = 0
  · subst h
    simp [flowPatch, affineVelocity, stretchGradient, List.range_succ, Index.get]
  · simp [flowPatch, affineVelocity, stretchGradient, List.range_succ, Index.get, h]

theorem flow_cellTraction (u_box : Vector3d) (hy : u_box.y = 0) (axis upperlower : Nat)
    (haxis : axis < 2) (hside : upperlower < 2) :
    cellTraction 2 1 1 1 2 7 u_box
        { box := flowPatch.box, dx := flowPatch.dx, cellData := flowPatch.cellData,
          sideData := fun idx =>
            if idx = 7 then
              faceWeightPatch 2 false Index.zero [] flowPatch (flowPatch.sideData idx)
            else flowPatch.sideData idx }
        axis upperlower ⟨1, 1, 0⟩ =
      if axis = 0 then
        if upperlower = 0 then ⟨-u_box.x, 0, 0⟩ else ⟨2 * u_box.x - 3, 0, 0⟩
      else ⟨0, 0, 0⟩ := by
  have hv : ∀ a idx, flowPatch.sideData 1 a idx = if a = 0 then (idx.i0 : ℚ) else 0 :=
    flow_velocity
  have hw : faceWeightPatch 2 false ⟨0, 0, 0⟩ [] flowPatch (flowPatch.sideData 7) =
      fun _ _ => 1 := flow_weight
  have hp : flowPatch.cellData 2 = fun _ => 0 := rfl
  have hdx : flowPatch.dx = fun _ => 1 := rfl
  interval_cases axis <;> interval_cases upperlower <;>
    simp [cellTraction, pressureContribution, convectiveContribution, viscousContribution,
      faceVelocity, viscousForce, hw, hp, hdx, hv, List.range_succ, SideData.read,
      SideIndex.make, SideIndex.Lower, SideIndex.Upper, Index.get, Index.set, Index.offset,
      Index.zero, Index.add_eq_mk, Index.sub_eq_mk, Vector3d.set, Vector3d.get, Vector3d.Zero,
      Vector3d.dot, Vector3d.add_def, Vector3d.sub_def, Vector3d.smul_def, Vector3d.mul_def,
      hy] <;>
    ring

theorem flow_tractionSum (u_box : Vector3d) (hy : u_box.y = 0) :
    tractionSum 2 (cellTraction 2 1 1 1 2 7 u_box)
        (computeFaceWeight 2 flowEvaluator flowHierarchy) 0 0 flowObject =
      ⟨u_box.x - 3, 0, 0⟩ := by
  have hbox := flow_integrationBox
  simp only [tractionSum, sample_levels, List.map_cons, List.map_nil, List.sum_cons,
    List.sum_nil, hbox]
  rw [flow_faceWeight_level]
  simp only [List.map_cons, List.map_nil, List.sum_cons, List.sum_nil, List.range_succ,
    List.range_zero, List.nil_append, List.cons_append,
    flow_cells 0 0 (by decide) (by decide), flow_cells 0 1 (by decide) (by decide),
    flow_cells 1 0 (by decide) (by decide), flow_cells 1 1 (by decide) (by decide),
    flow_cellTraction u_box hy 0 0 (by decide) (by decide),
    flow_cellTraction u_box hy 0 1 (by decide) (by decide),
    flow_cellTraction u_box hy 1 0 (by decide) (by decide),
    flow_cellTraction u_box hy 1 1 (by decide) (by decide)]
  simp [Box.intersects, flowPatch, Index.get, List.range_succ, Vector3d.add_def,
    Vector3d.zero_def, Vector3d.Zero]
  ring



/-- C19, as the claim states it, fails: on `flowHierarchy`, for the body `flowObject` whose box
velocity is `(0, 0, 0)` at the current time and `(1, 0, 0)` at the new time, the surface
traction the call computes is `(-2, 0, 0)`, while the sum of the cell terms whose convective
part is taken with the box velocity at the current time is `(-3, 0, 0)`. -/
theorem surfaceTraction_not_current_box_velocity :
    surfaceTraction 2 flowEvaluator.d_rho flowEvaluator.d_mu 1 2 flowEvaluator.d_face_wgt_sc_idx
        (computeFaceWeight 2 flowEvaluator flowHierarchy) 0 0 flowObject = ⟨-2, 0, 0⟩ ∧
    tractionSum 2
        (cellTraction 2 flowEvaluator.d_rho flowEvaluator.d_mu 1 2
          flowEvaluator.d_face_wgt_sc_idx flowObject.box_u_current)
        (computeFaceWeight 2 flowEvaluator flowHierarchy) 0 0 flowObject = ⟨-3, 0, 0⟩ ∧
    surfaceTraction 2 flowEvaluator.d_rho flowEvaluator.d_mu 1 2 flowEvaluator.d_face_wgt_sc_idx
        (computeFaceWeight 2 flowEvaluator flowHierarchy) 0 0 flowObject ≠
      tractionSum 2
        (cellTraction 2 flowEvaluator.d_rho flowEvaluator.d_mu 1 2
          flowEvaluator.d_face_wgt_sc_idx flowObject.box_u_current)
        (computeFaceWeight 2 flowEvaluator flowHierarchy) 0 0 flowObject := by
  have hnew : surfaceTraction 2 flowEvaluator.d_rho flowEvaluator.d_mu 1 2
      flowEvaluator.d_face_wgt_sc_idx (computeFaceWeight 2 flowEvaluator flowHierarchy) 0 0
      flowObject = ⟨-2, 0, 0⟩ := by
    rw [surfaceTraction_eq_tractionSum]
    have h := flow_tractionSum flowObject.box_u_new rfl
    have hx : flowObject.box_u_new.x - 3 = -2 := by
      simp [flowObject]
      norm_num
    rw [hx] at h
    exact h
  have hcur : tractionSum 2
      (cellTraction 2 flowEvaluator.d_rho flowEvaluator.d_mu 1 2
        flowEvaluator.d_face_wgt_sc_idx flowObject.box_u_current)
      (computeFaceWeight 2 flowEvaluator flowHierarchy) 0 0 flowObject = ⟨-3, 0, 0⟩ := by
    have h := flow_tractionSum flowObject.box_u_current rfl
    have hx : flowObject.box_u_current.x - 3 = -3 := by
      simp [flowObject, zeroObject, Vector3d.Zero]
    rw [hx] at h
    exact h
  refine ⟨hnew, hcur, ?_⟩
  rw [hnew, hcur]
  intro h
  have hx := congrArg Vector3d.x h
  norm_num at hx

/-- C19 (amended): in the surface traction integral a boundary cell adds to `trac`, next to its
pressure and viscous terms, the convective term `-rho * (n . (u - u_box)) * u * faceArea`, where
`u_box` is the box velocity of the body at the new time (`box_u_new`), `n` is `-1` along the
axis on a lower side and `+1` on an upper side, `faceArea` is the face weight of the boundary
face, the component of `u` along the axis is the velocity sampled on the boundary face, every
other component `d` of `u` below `NDIM` is `0.25` times the sum of the velocities at the lower
faces along `d` of the inside cell, of the outside neighbour cell, and of the cells one step up
the axis `d` from each, and the components from `NDIM` on are zero; the integral is the sum of
these vectors over the boundary cells on the patches that cover them. -/
theorem surfaceTraction_convective_contribution (NDIM : Nat) (d_rho d_mu : ℚ)
    (u_idx p_idx face_idx : Int) (patch_hierarchy : PatchHierarchy) (coarsest_ln finest_ln : Int)
    (fobj : IBHydrodynamicForceObject) (hdim : NDIM ≤ 3) :
    ∃ u : Patch → Nat → Nat → Index → Vector3d,
      (∀ (patch : Patch) (axis upperlower : Nat) (cell_idx : Index), axis < NDIM →
        (u patch axis upperlower cell_idx).get axis =
            patch.sideData u_idx axis
              (if upperlower ≠ 0 then cell_idx + Index.offset axis else cell_idx) ∧
          (∀ d, d < NDIM → d ≠ axis →
            (u patch axis upperlower cell_idx).get d =
              0.25 *
                (patch.sideData u_idx d cell_idx +
                  patch.sideData u_idx d (cell_idx + Index.offset d) +
                  patch.sideData u_idx d
                    (if upperlower ≠ 0 then cell_idx + Index.offset axis
                      else cell_idx - Index.offset axis) +
                  patch.sideData u_idx d
                    ((if upperlower ≠ 0 then cell_idx + Index.offset axis
                      else cell_idx - Index.offset axis) + Index.offset d))) ∧
          (∀ d, NDIM ≤ d → d ≤ 2 → (u patch axis upperlower cell_idx).get d = 0)) ∧
      (∀ (patch : Patch) (axis upperlower : Nat) (trac : Vector3d) (cell_idx : Index),
        tractionCell NDIM d_rho d_mu patch.dx (patch.cellData p_idx) (patch.sideData u_idx)
            (patch.sideData face_idx) fobj.box_u_new axis upperlower trac cell_idx =
          trac +
            (pressureContribution (patch.cellData p_idx) (patch.sideData face_idx) axis
                upperlower cell_idx +
              -d_rho *
                  (Vector3d.Zero.set axis (if upperlower ≠ 0 then 1 else -1)).dot
                    (u patch axis upperlower cell_idx - fobj.box_u_new) *
                  u patch axis upperlower cell_idx *
                patch.sideData face_idx axis
                  (if upperlower ≠ 0 then cell_idx + Index.offset axis else cell_idx) +
              viscousContribution NDIM d_mu patch.dx (patch.sideData u_idx)
                (patch.sideData face_idx) axis upperlower cell_idx)) ∧
      surfaceTraction NDIM d_rho d_mu u_idx p_idx face_idx patch_hierarchy coarsest_ln finest_ln
          fobj =
        tractionSum NDIM
          (fun patch axis upperlower cell_idx =>
            pressureContribution (patch.cellData p_idx) (patch.sideData face_idx) axis
                upperlower cell_idx +
              -d_rho *
                  (Vector3d.Zero.set axis (if upperlower ≠ 0 then 1 else -1)).dot
                    (u patch axis upperlower cell_idx - fobj.box_u_new) *
                  u patch axis upperlower cell_idx *
                patch.sideData face_idx axis
                  (if upperlower ≠ 0 then cell_idx + Index.offset axis else cell_idx) +
              viscousContribution NDIM d_mu patch.dx (patch.sideData u_idx)
                (patch.sideData face_idx) axis upperlower cell_idx)
          patch_hierarchy coarsest_ln finest_ln fobj := by
  refine ⟨fun patch axis upperlower cell_idx =>
    faceVelocity NDIM (patch.sideData u_idx) axis cell_idx
      (if upperlower ≠ 0 then cell_idx + Index.offset axis else cell_idx - Index.offset axis)
      (SideIndex.make cell_idx axis
        (if upperlower ≠ 0 then SideIndex.Upper else SideIndex.Lower)), ?_, ?_, ?_⟩
  · intro patch axis upperlower cell_idx haxis
    refine ⟨?_, fun d hd hne => ?_, fun d hd hd2 => ?_⟩
    · rw [faceVelocity_get NDIM hdim _ _ _ _ _ axis (by omega), if_pos haxis, if_pos rfl,
        SideData.read_make_side]
    · rw [faceVelocity_get NDIM hdim _ _ _ _ _ d (by omega), if_pos hd, if_neg hne]
      simp only [SideData.read_make_lower]
    · rw [faceVelocity_get NDIM hdim _ _ _ _ _ d hd2, if_neg (by omega)]
  · intro patch axis upperlower trac cell_idx
    rw [tractionCell_eq, convectiveContribution_eq]
  · rw [surfaceTraction_eq_tractionSum]
    have hg : cellTraction NDIM d_rho d_mu u_idx p_idx face_idx fobj.box_u_new =
        fun patch axis upperlower cell_idx =>
          pressureContribution (patch.cellData p_idx) (patch.sideData face_idx) axis
              upperlower cell_idx +
            -d_rho *
                (Vector3d.Zero.set axis (if upperlower ≠ 0 then 1 else -1)).dot
                  (faceVelocity NDIM (patch.sideData u_idx) axis cell_idx
                      (if upperlower ≠ 0 then cell_idx + Index.offset axis
                        else cell_idx - Index.offset axis)
                      (SideIndex.make cell_idx axis
                        (if upperlower ≠ 0 then SideIndex.Upper else SideIndex.Lower)) -
                    fobj.box_u_new) *
                faceVelocity NDIM (patch.sideData u_idx) axis cell_idx
                  (if upperlower ≠ 0 then cell_idx + Index.offset axis
                    else cell_idx - Index.offset axis)
                  (SideIndex.make cell_idx axis
                    (if upperlower ≠ 0 then SideIndex.Upper else SideIndex.Lower)) *
              patch.sideData face_idx axis
                (if upperlower ≠ 0 then cell_idx + Index.offset axis else cell_idx) +
            viscousContribution NDIM d_mu patch.dx (patch.sideData u_idx)
              (patch.sideData face_idx) axis upperlower cell_idx := by
      funext patch axis upperlower cell_idx
      rw [cellTraction, convectiveContribution_eq]
    rw [hg]



theorem surfaceTraction_convective_contribution_witness :
    ∃ u : Patch → Nat → Nat → Index → Vector3d,
      (∀ (patch : Patch) (axis upperlower : Nat) (cell_idx : Index), axis < 2 →
        (u patch axis upperlower cell_idx).get axis =
            patch.sideData 1 axis
              (if upperlower ≠ 0 then cell_idx + Index.offset axis else cell_idx) ∧
          (∀ d, d < 2 → d ≠ axis →
            (u patch axis upperlower cell_idx).get d =
              0.25 *
                (patch.sideData 1 d cell_idx +
                  patch.sideData 1 d (cell_idx + Index.offset d) +
                  patch.sideData 1 d
                    (if upperlower ≠ 0 then cell_idx + Index.offset axis
                      else cell_idx - Index.offset axis) +
                  patch.sideData 1 d
                    ((if upperlower ≠ 0 then cell_idx + Index.offset axis
                      else cell_idx - Index.offset axis) + Index.offset d))) ∧
          (∀ d, 2 ≤ d → d ≤ 2 → (u patch axis upperlower cell_idx).get d = 0)) ∧
      (∀ (patch : Patch) (axis upperlower : Nat) (trac : Vector3d) (cell_idx : Index),
        tractionCell 2 (1 : ℚ) 1 patch.dx (patch.cellData 2) (patch.sideData 1)
            (patch.sideData 7) flowObject.box_u_new axis upperlower trac cell_idx =
          trac +
            (pressureContribution (patch.cellData 2) (patch.sideData 7) axis
                upperlower cell_idx +
              -(1 : ℚ) *
                  (Vector3d.Zero.set axis (if upperlower ≠ 0 then 1 else -1)).dot
                    (u patch axis upperlower cell_idx - flowObject.box_u_new) *
                  u patch axis upperlower cell_idx *
                patch.sideData 7 axis
                  (if upperlower ≠ 0 then cell_idx + Index.offset axis else cell_idx) +
              viscousContribution 2 1 patch.dx (patch.sideData 1)
                (patch.sideData 7) axis upperlower cell_idx)) ∧
      surfaceTraction 2 (1 : ℚ) 1 1 2 7 flowHierarchy 0 0
          flowObject =
        tractionSum 2
          (fun patch axis upperlower cell_idx =>
            pressureContribution (patch.cellData 2) (patch.sideData 7) axis
                upperlower cell_idx +
              -(1 : ℚ) *
                  (Vector3d.Zero.set axis (if upperlower ≠ 0 then 1 else -1)).dot
                    (u patch axis upperlower cell_idx - flowObject.box_u_new) *
                  u patch axis upperlower cell_idx *
                patch.sideData 7 axis
                  (if upperlower ≠ 0 then cell_idx + Index.offset axis else cell_idx) +
              viscousContribution 2 1 patch.dx (patch.sideData 1)
                (patch.sideData 7) axis upperlower cell_idx)
          flowHierarchy 0 0 flowObject :=
  surfaceTraction_convective_contribution 2 1 1 1 2 7 flowHierarchy 0 0 flowObject (by decide)

/-! ## The viscous term of a boundary cell -/

theorem viscousForce_get (NDIM : Nat) (hN : NDIM ≤ 3) (d_mu : ℚ) (patch_dx : Nat → ℚ)
    (u_data : SideData) (axis : Nat) (n : Vector3d) (cell_idx cell_nbr_idx : Index) (d : Nat)
    (hd : d ≤ 2) :
    (viscousForce NDIM d_mu patch_dx u_data axis n cell_idx cell_nbr_idx).get d =
      if d < NDIM then
        if d = axis then
          n.get axis * (2.0 * d_mu) / (2.0 * patch_dx axis) *
            (u_data axis cell_nbr_idx - u_data axis cell_idx)
        else
          d_mu / (2.0 * patch_dx d) *
              (u_data axis (cell_idx + Index.offset d) - u_data axis (cell_idx - Index.offset d))
            +
            d_mu * n.get axis / (2.0 * patch_dx axis) *
              (u_data d cell_nbr_idx + u_data d (cell_nbr_idx + Index.offset d) -
                u_data d cell_idx - u_data d (cell_idx + Index.offset d))
      else 0 := by
  have hstep : (fun (viscous_force : Vector3d) (d : Nat) =>
      if d = axis then
        viscous_force.set axis
          (n.get axis * (2.0 * d_mu) / (2.0 * patch_dx axis) *
            (u_data.read (SideIndex.make cell_nbr_idx axis SideIndex.Lower) -
              u_data.read (SideIndex.make cell_idx axis SideIndex.Lower)))
      else
        let offset := Index.offset d
        viscous_force.set d
          (d_mu / (2.0 * patch_dx d) *
              (u_data.read (SideIndex.make (cell_idx + offset) axis SideIndex.Lower) -
                u_data.read (SideIndex.make (cell_idx - offset) axis SideIndex.Lower))
            +
            d_mu * n.get axis / (2.0 * patch_dx axis) *
              (u_data.read (SideIndex.make cell_nbr_idx d SideIndex.Lower) +
                u_data.read (SideIndex.make (cell_nbr_idx + offset) d SideIndex.Lower) -
                u_data.read (SideIndex.make cell_idx d SideIndex.Lower) -
                u_data.read (SideIndex.make (cell_idx + offset) d SideIndex.Lower)))) =
      fun (viscous_force : Vector3d) (d : Nat) => viscous_force.set d
        (if d = axis then
          n.get axis * (2.0 * d_mu) / (2.0 * patch_dx axis) *
            (u_data axis cell_nbr_idx - u_data axis cell_idx)
        else
          d_mu / (2.0 * patch_dx d) *
              (u_data axis (cell_idx + Index.offset d) - u_data axis (cell_idx - Index.offset d))
            +
            d_mu * n.get axis / (2.0 * patch_dx axis) *
              (u_data d cell_nbr_idx + u_data d (cell_nbr_idx + Index.offset d) -
                u_data d cell_idx - u_data d (cell_idx + Index.offset d))) := by
    funext viscous_force d
    by_cases h : d = axis
    · subst h
      simp only [if_true, SideData.read_make_lower]
    · simp only [if_neg h, SideData.read_make_lower]
  unfold viscousForce
  rw [hstep, foldl_set_get _ NDIM hN _ d hd]
  have hz : Vector3d.Zero.get d = 0 := by
    rcases d with _ | _ | d <;> rfl
  rw [hz]

theorem Vector3d.get_smul_mul (c : ℚ) (v : Vector3d) (s : ℚ) (d : Nat) :
    (c * v * s).get d = c * v.get d * s := by
  rcases d with _ | _ | d <;> rfl

theorem Index.get_offset (d e : Nat) (hd : d ≤ 2) (he : e ≤ 2) :
    (Index.offset e).get d = if d = e then 1 else 0 := by
  interval_cases d <;> interval_cases e <;> rfl

theorem affineVelocity_add_offset (NDIM : Nat) (hN : NDIM ≤ 3) (u0 : Nat → ℚ)
    (G : Nat → Nat → ℚ) (dx : Nat → ℚ) (a e : Nat) (he : e < NDIM) (idx : Index) :
    affineVelocity NDIM u0 G dx a (idx + Index.offset e) =
      affineVelocity NDIM u0 G dx a idx + G a e * dx e := by
  unfold affineVelocity
  interval_cases NDIM <;> interval_cases e <;>
    simp [List.range_succ, Index.add_eq_mk, Index.get, Index.offset, Index.zero, Index.set] <;>
    ring

theorem affineVelocity_sub_offset (NDIM : Nat) (hN : NDIM ≤ 3) (u0 : Nat → ℚ)
    (G : Nat → Nat → ℚ) (dx : Nat → ℚ) (a e : Nat) (he : e < NDIM) (idx : Index) :
    affineVelocity NDIM u0 G dx a (idx - Index.offset e) =
      affineVelocity NDIM u0 G dx a idx - G a e * dx e := by
  unfold affineVelocity
  interval_cases NDIM <;> interval_cases e <;>
    simp [List.range_succ, Index.sub_eq_mk, Index.get, Index.offset, Index.zero, Index.set] <;>
    ring



theorem viscousContribution_get (NDIM : Nat) (hN : NDIM ≤ 3) (d_mu : ℚ) (patch_dx : Nat → ℚ)
    (u_data face_sc_data : SideData) (axis upperlower : Nat) (cell_idx : Index) (d : Nat)
    (hd : d ≤ 2) :
    (viscousContribution NDIM d_mu patch_dx u_data face_sc_data axis upperlower cell_idx).get d =
      (if upperlower ≠ 0 then 1 else -1) *
          (viscousForce NDIM d_mu patch_dx u_data axis
            (Vector3d.Zero.set axis (if upperlower ≠ 0 then 1 else -1)) cell_idx
            (if upperlower ≠ 0 then cell_idx + Index.offset axis
              else cell_idx - Index.offset axis)).get d *
        face_sc_data axis (if upperlower ≠ 0 then cell_idx + Index.offset axis else cell_idx) := by
  have _ := hN
  have _ := hd
  unfold viscousContribution
  simp only [Index.set_get_side, SideData.read_make_side, Vector3d.get_smul_mul,
    Vector3d.get_set_self]

theorem viscousContribution_affine (NDIM : Nat) (hN : NDIM ≤ 3) (d_mu : ℚ) (u0 : Nat → ℚ)
    (G : Nat → Nat → ℚ) (dx : Nat → ℚ) (hdx : ∀ d < NDIM, dx d ≠ 0) (face_sc_data : SideData)
    (axis upperlower : Nat) (haxis : axis < NDIM) (cell_idx : Index) :
    (viscousContribution NDIM d_mu dx (affineVelocity NDIM u0 G dx) face_sc_data axis upperlower
        cell_idx).get axis =
      d_mu * G axis axis * (if upperlower ≠ 0 then 1 else -1) *
        face_sc_data axis (if upperlower ≠ 0 then cell_idx + Index.offset axis else cell_idx) ∧
    ∀ d, d < NDIM → d ≠ axis →
      (viscousContribution NDIM d_mu dx (affineVelocity NDIM u0 G dx) face_sc_data axis
          upperlower cell_idx).get d =
        d_mu * (G axis d + G d axis) * (if upperlower ≠ 0 then 1 else -1) *
          face_sc_data axis
            (if upperlower ≠ 0 then cell_idx + Index.offset axis else cell_idx) := by
  have ha := hdx axis haxis
  constructor
  · rw [viscousContribution_get NDIM hN _ _ _ _ _ _ _ axis (by omega),
      viscousForce_get NDIM hN _ _ _ _ _ _ _ axis (by omega), if_pos haxis, if_pos rfl,
      Vector3d.get_set_self]
    by_cases hside : upperlower ≠ 0
    · simp only [if_pos hside, affineVelocity_add_offset NDIM hN u0 G dx axis axis haxis]
      field_simp
      ring
    · simp only [if_neg hside, affineVelocity_sub_offset NDIM hN u0 G dx axis axis haxis]
      field_simp
      ring
  · intro d hd hne
    have hd' := hdx d hd
    rw [viscousContribution_get NDIM hN _ _ _ _ _ _ _ d (by omega),
      viscousForce_get NDIM hN _ _ _ _ _ _ _ d (by omega), if_pos hd, if_neg hne,
      Vector3d.get_set_self]
    by_cases hside : upperlower ≠ 0
    · simp only [if_pos hside, affineVelocity_add_offset NDIM hN u0 G dx _ _ haxis,
        affineVelocity_add_offset NDIM hN u0 G dx _ _ hd,
        affineVelocity_sub_offset NDIM hN u0 G dx _ _ hd]
      field_simp
      ring
    · simp only [if_neg hside, affineVelocity_sub_offset NDIM hN u0 G dx _ _ haxis,
        affineVelocity_add_offset NDIM hN u0 G dx _ _ hd,
        affineVelocity_sub_offset NDIM hN u0 G dx _ _ hd]
      field_simp
      ring



/-- C20: the viscous term the code adds for the boundary cell `(1, 1)` on the upper side of
axis `0` of `flowPatch`, whose velocity is the affine field `u(x) = (x_0, 0)` of gradient
`du_0/dx_0 = 1`, with viscosity `1`, unit spacings and face weight `1`: its component along the
face normal is `1 = mu * (du_0/dx_0) * n_0 * faceArea`, half of the value
`2 * mu * (du_0/dx_0) * n_0 * faceArea = 2` of `n . [mu (grad u + grad u^T)] * faceArea`. -/
theorem viscousContribution_normal_component_halved :
    flowPatch.sideData 1 = affineVelocity 2 (fun _ => 0) stretchGradient flowPatch.dx ∧
    (viscousContribution 2 flowEvaluator.d_mu flowPatch.dx (flowPatch.sideData 1)
        (flowPatch.sideData 7) 0 1 ⟨1, 1, 0⟩).get 0 = 1 ∧
    2 * flowEvaluator.d_mu * stretchGradient 0 0 * 1 * flowPatch.sideData 7 0 ⟨2, 1, 0⟩ = 2 := by
  have hu : flowPatch.sideData 1 = affineVelocity 2 (fun _ => 0) stretchGradient flowPatch.dx :=
    rfl
  have hdx : ∀ d < 2, flowPatch.dx d ≠ 0 := by
    intro d _
    show (1 : ℚ) ≠ 0
    norm_num
  have hG : stretchGradient 0 0 = 1 := by
    simp [stretchGradient]
  have hw : ∀ idx, flowPatch.sideData 7 0 idx = 1 := fun _ => rfl
  have hmu : flowEvaluator.d_mu = 1 := rfl
  refine ⟨hu, ?_, ?_⟩
  · rw [hu, (viscousContribution_affine 2 (by decide) flowEvaluator.d_mu (fun _ => 0)
      stretchGradient flowPatch.dx hdx (flowPatch.sideData 7) 0 1 (by decide) ⟨1, 1, 0⟩).1,
      hG, hw, hmu]
    norm_num
  · rw [hG, hw, hmu]
    norm_num

/-! ## Sums over the boundary cells of a tiled level -/

theorem Box.interval_eq_map (lo hi : Int) :
    Box.interval lo hi =
      (List.range (hi - lo + 1).toNat).map fun n : Nat => lo + (n : Int) := by
  have h : ∀ l : List Nat,
      (l.flatMap fun a : Nat => [(a : Int)]) = l.map fun a : Nat => (a : Int) := by
    intro l
    induction l with
    | nil => rfl
    | cons hd tl ih =>
      rw [List.flatMap_cons, List.map_cons, ih]
      rfl
  simp only [Box.interval, List.bind_eq_flatMap, List.pure_def, h, List.map_map]
  rfl

theorem Box.mem_interval (lo hi x : Int) : x ∈ Box.interval lo hi ↔ lo ≤ x ∧ x ≤ hi := by
  rw [Box.interval_eq_map]
  simp only [List.mem_map, List.mem_range]
  constructor
  · rintro ⟨n, hn, rfl⟩
    omega
  · rintro ⟨h1, h2⟩
    exact ⟨(x - lo).toNat, by omega, by omega⟩

theorem Box.nodup_interval (lo hi : Int) : (Box.interval lo hi).Nodup := by
  rw [Box.interval_eq_map]
  have hinj : Function.Injective (fun n : Nat => lo + (n : Int)) := by
    intro a b hab
    simpa using hab
  exact List.Nodup.map hinj (List.nodup_range _)

theorem Box.mem_axisValues (NDIM : Nat) (b : Box) (d : Nat) (x : Int) :
    x ∈ Box.axisValues NDIM b d ↔
      if d < NDIM then b.lower.get d ≤ x ∧ x ≤ b.upper.get d else x = 0 := by
  unfold Box.axisValues
  by_cases hd : d < NDIM
  · simp only [hd, if_true, Box.mem_interval]
  · simp only [hd, if_false, List.mem_singleton]

theorem Box.nodup_axisValues (NDIM : Nat) (b : Box) (d : Nat) :
    (Box.axisValues NDIM b d).Nodup := by
  unfold Box.axisValues
  by_cases hd : d < NDIM
  · simp only [hd, if_true]
    exact Box.nodup_interval _ _
  · simp only [hd, if_false]
    exact List.nodup_singleton 0

theorem Box.mem_cells (NDIM : Nat) (b : Box) (c : Index) :
    c ∈ Box.cells NDIM b ↔
      c.i0 ∈ Box.axisValues NDIM b 0 ∧ c.i1 ∈ Box.axisValues NDIM b 1 ∧
        c.i2 ∈ Box.axisValues NDIM b 2 := by
  obtain ⟨i, j, k⟩ := c
  simp only [Box.cells, List.mem_flatMap, List.mem_map, Index.mk.injEq]
  constructor
  · rintro ⟨k', hk, j', hj, i', hi, rfl, rfl, rfl⟩
    exact ⟨hi, hj, hk⟩
  · rintro ⟨hi, hj, hk⟩
    exact ⟨k, hk, j, hj, i, hi, rfl, rfl, rfl⟩

theorem Box.mem_cells_iff (NDIM : Nat) (b : Box) (c : Index) :
    c ∈ Box.cells NDIM b ↔
      b.contains NDIM c = true ∧ ∀ d, NDIM ≤ d → d ≤ 2 → c.get d = 0 := by
  rw [Box.mem_cells, Box.contains_iff]
  simp only [Box.mem_axisValues]
  constructor
  · rintro ⟨h0, h1, h2⟩
    refine ⟨fun d hd => ?_, fun d hd hd2 => ?_⟩
    · have hd3 : d = 0 ∨ d = 1 ∨ 2 ≤ d := by omega
      rcases hd3 with rfl | rfl | hge
      · simpa [hd] using h0
      · simpa [hd] using h1
      · have h2lt : 2 < NDIM := by omega
        have hget : ∀ v : Index, v.get d = v.get 2 := by
          intro v
          rcases d with _ | _ | d
          · omega
          · omega
          · rfl
        rw [hget, hget, hget]
        simpa [h2lt] using h2
    · have hd3 : d = 0 ∨ d = 1 ∨ d = 2 := by omega
      rcases hd3 with rfl | rfl | rfl
      · simpa [Nat.not_lt.mpr hd] using h0
      · simpa [Nat.not_lt.mpr hd] using h1
      · simpa [Nat.not_lt.mpr hd] using h2
  · rintro ⟨hin, hz⟩
    refine ⟨?_, ?_, ?_⟩
    · by_cases hd : 0 < NDIM
      · simpa [hd] using hin 0 hd
      · simpa [hd] using hz 0 (by omega) (by omega)
    · by_cases hd : 1 < NDIM
      · simpa [hd] using hin 1 hd
      · simpa [hd] using hz 1 (by omega) (by omega)
    · by_cases hd : 2 < NDIM
      · simpa [hd] using hin 2 hd
      · simpa [hd] using hz 2 (by omega) (by omega)

theorem Box.nodup_cells (NDIM : Nat) (b : Box) : (Box.cells NDIM b).Nodup := by
  unfold Box.cells
  rw [List.nodup_flatMap]
  refine ⟨fun k _ => ?_, ?_⟩
  · rw [List.nodup_flatMap]
    refine ⟨fun j _ => ?_, ?_⟩
    · refine List.Nodup.map ?_ (Box.nodup_axisValues NDIM b 0)
      intro i i' h
      exact congrArg Index.i0 h
    · refine (Box.nodup_axisValues NDIM b 1).imp ?_
      intro j j' hne c hc hc'
      simp only [List.mem_map] at hc hc'
      obtain ⟨i, -, rfl⟩ := hc
      obtain ⟨i', -, h⟩ := hc'
      exact hne (congrArg Index.i1 h).symm
  · refine (Box.nodup_axisValues NDIM b 2).imp ?_
    intro k k' hne c hc hc'
    simp only [List.mem_flatMap, List.mem_map] at hc hc'
    obtain ⟨j, -, i, -, rfl⟩ := hc
    obtain ⟨j', -, i', -, h⟩ := hc'
    exact hne (congrArg Index.i2 h).symm



theorem length_flatMap_const {α β : Type} (l : List α) (f : α → List β) (n : Nat)
    (h : ∀ x ∈ l, (f x).length = n) : (l.flatMap f).length = l.length * n := by
  induction l with
  | nil => simp
  | cons hd tl ih =>
    rw [List.flatMap_cons, List.length_append, h hd (List.mem_cons_self _ _),
      ih (fun x hx => h x (List.mem_cons_of_mem _ hx)), List.length_cons]
    ring

theorem Box.length_cells (NDIM : Nat) (b : Box) :
    (Box.cells NDIM b).length =
      (Box.axisValues NDIM b 2).length *
        ((Box.axisValues NDIM b 1).length * (Box.axisValues NDIM b 0).length) := by
  unfold Box.cells
  refine length_flatMap_const _ _ _ fun k _ => ?_
  refine length_flatMap_const _ _ _ fun j _ => ?_
  rw [List.length_map]

theorem Box.length_interval (lo hi : Int) : (Box.interval lo hi).length = (hi - lo + 1).toNat := by
  rw [Box.interval_eq_map, List.length_map, List.length_range]

theorem Box.length_axisValues_bdryBox (NDIM : Nat) (b : Box) (axis d : Nat) (haxis : axis ≤ 2)
    (hd : d ≤ 2) :
    (Box.axisValues NDIM (bdryBox b axis 0) d).length =
      (Box.axisValues NDIM (bdryBox b axis 1) d).length := by
  unfold Box.axisValues
  by_cases hdim : d < NDIM
  · simp only [hdim, if_true, Box.length_interval, bdryBox, if_true, one_ne_zero, if_false]
    rw [Index.get_set _ _ _ _ haxis hd, Index.get_set _ _ _ _ haxis hd]
    by_cases hda : d = axis
    · subst hda
      simp
    · simp [hda]
  · simp only [hdim, if_false]

theorem Box.length_cells_bdryBox (NDIM : Nat) (b : Box) (axis : Nat) (haxis : axis ≤ 2) :
    (Box.cells NDIM (bdryBox b axis 0)).length = (Box.cells NDIM (bdryBox b axis 1)).length := by
  rw [Box.length_cells, Box.length_cells,
    Box.length_axisValues_bdryBox NDIM b axis 0 haxis (by omega),
    Box.length_axisValues_bdryBox NDIM b axis 1 haxis (by omega),
    Box.length_axisValues_bdryBox NDIM b axis 2 haxis (by omega)]

theorem Tiles.cells_perm (NDIM : Nat) (patches : List Patch) (box side_box : Box)
    (htiles : Tiles NDIM patches box)
    (hside : ∀ c, side_box.contains NDIM c = true → box.contains NDIM c = true) :
    (patches.flatMap fun p => Box.cells NDIM (p.box.inter side_box)).Perm
      (Box.cells NDIM side_box) := by
  rw [List.perm_ext_iff_of_nodup _ (Box.nodup_cells NDIM side_box)]
  · intro c
    simp only [List.mem_flatMap, Box.mem_cells_iff, Box.inter_contains]
    constructor
    · rintro ⟨p, -, ⟨-, hs⟩, hz⟩
      exact ⟨hs, hz⟩
    · rintro ⟨hs, hz⟩
      obtain ⟨p, hp, hc⟩ := htiles.1 c (hside c hs)
      exact ⟨p, hp, ⟨hc, hs⟩, hz⟩
  · rw [List.nodup_flatMap]
    refine ⟨fun p _ => Box.nodup_cells NDIM _, htiles.2.imp ?_⟩
    intro p q hpq c hc hc'
    rw [Box.mem_cells_iff, Box.inter_contains] at hc hc'
    exact hpq c ⟨hc.1.1, hc'.1.1⟩

theorem sum_map_flatMap {α β : Type} (l : List α) (f : α → List β) (g : β → Vector3d) :
    ((l.flatMap f).map g).sum = (l.map fun x => ((f x).map g).sum).sum := by
  induction l with
  | nil => simp
  | cons hd tl ih =>
    rw [List.flatMap_cons, List.map_append, List.sum_append, ih, List.map_cons, List.sum_cons]

theorem Tiles.sum_const (NDIM : Nat) (patches : List Patch) (box side_box : Box)
    (htiles : Tiles NDIM patches box)
    (hside : ∀ c, side_box.contains NDIM c = true → box.contains NDIM c = true)
    (v : Vector3d) :
    (patches.map fun p =>
        ((Box.cells NDIM (p.box.inter side_box)).map fun _ => v).sum).sum =
      (Box.cells NDIM side_box).length • v := by
  rw [← sum_map_flatMap patches (fun p => Box.cells NDIM (p.box.inter side_box)) fun _ => v,
    List.map_const', List.sum_replicate,
    (Tiles.cells_perm NDIM patches box side_box htiles hside).length_eq]



theorem Box.intersects_iff (NDIM : Nat) (a b : Box) :
    a.intersects NDIM b = true ↔
      ∀ d < NDIM, max (a.lower.get d) (b.lower.get d) ≤ min (a.upper.get d) (b.upper.get d) := by
  simp [Box.intersects]

theorem bdryBox_lower_get (b : Box) (axis upperlower d : Nat) (haxis : axis ≤ 2) (hd : d ≤ 2)
    (hne : b.lower.get axis ≤ b.upper.get axis) :
    b.lower.get d ≤ (bdryBox b axis upperlower).lower.get d := by
  unfold bdryBox
  by_cases hside : upperlower = 0
  · simp only [hside, if_true]
    exact le_refl _
  · simp only [hside, if_false]
    rw [Index.get_set _ _ _ _ haxis hd]
    by_cases hda : d = axis
    · subst hda
      simpa using hne
    · simp [hda]

theorem bdryBox_upper_get (b : Box) (axis upperlower d : Nat) (haxis : axis ≤ 2) (hd : d ≤ 2)
    (hne : b.lower.get axis ≤ b.upper.get axis) :
    (bdryBox b axis upperlower).upper.get d ≤ b.upper.get d := by
  unfold bdryBox
  by_cases hside : upperlower = 0
  · simp only [hside, if_true]
    rw [Index.get_set _ _ _ _ haxis hd]
    by_cases hda : d = axis
    · subst hda
      simpa using hne
    · simp [hda]
  · simp only [hside, if_false]
    exact le_refl _

theorem bdryBox_contains (NDIM : Nat) (hdim : NDIM ≤ 3) (b : Box) (axis upperlower : Nat)
    (haxis : axis < NDIM) (hne : b.lower.get axis ≤ b.upper.get axis) (c : Index)
    (hc : (bdryBox b axis upperlower).contains NDIM c = true) : b.contains NDIM c = true := by
  rw [Box.contains_iff] at hc ⊢
  intro d hd
  have h1 := bdryBox_lower_get b axis upperlower d (by omega) (by omega) hne
  have h2 := bdryBox_upper_get b axis upperlower d (by omega) (by omega) hne
  have h3 := hc d hd
  omega

theorem Box.not_empty_of_intersects (NDIM : Nat) (a b : Box)
    (h : a.intersects NDIM b = true) : ∀ d < NDIM, b.lower.get d ≤ b.upper.get d := by
  rw [Box.intersects_iff] at h
  intro d hd
  have := h d hd
  omega

theorem Box.intersects_of_contains (NDIM : Nat) (a b : Box) (c : Index)
    (ha : a.contains NDIM c = true) (hb : b.contains NDIM c = true) :
    a.intersects NDIM b = true := by
  rw [Box.intersects_iff]
  rw [Box.contains_iff] at ha hb
  intro d hd
  have h1 := ha d hd
  have h2 := hb d hd
  omega

theorem Box.cells_inter_eq_nil (NDIM : Nat) (a b side_box : Box)
    (hside : ∀ c, side_box.contains NDIM c = true → b.contains NDIM c = true)
    (h : ¬ a.intersects NDIM b = true) : Box.cells NDIM (a.inter side_box) = [] := by
  rw [List.eq_nil_iff_forall_not_mem]
  intro c hc
  rw [Box.mem_cells_iff, Box.inter_contains] at hc
  exact h (Box.intersects_of_contains NDIM a b c hc.1.1 (hside c hc.1.2))

theorem sum_map_sum_comm {α β : Type} (l1 : List α) (l2 : List β) (f : α → β → Vector3d) :
    (l1.map fun x => (l2.map fun y => f x y).sum).sum =
      (l2.map fun y => (l1.map fun x => f x y).sum).sum := by
  induction l1 with
  | nil => simp
  | cons hd tl ih =>
    simp only [List.map_cons, List.sum_cons, List.sum_map_add]
    rw [ih]

theorem tractionSum_single_level (NDIM : Nat) (g : Patch → Nat → Nat → Index → Vector3d)
    (level : PatchLevel) (fobj : IBHydrodynamicForceObject) :
    tractionSum NDIM g { levels := [level] } 0 0 fobj =
      (level.patches.map fun patch =>
        if patch.box.intersects NDIM (integrationBox level fobj) then
          ((List.range NDIM).map fun axis =>
            (((patch.box.inter (bdryBox (integrationBox level fobj) axis 0)).cells NDIM).map
                (g patch axis 0)).sum +
              (((patch.box.inter (bdryBox (integrationBox level fobj) axis 1)).cells NDIM).map
                (g patch axis 1)).sum).sum
        else 0).sum := by
  have hlevel : (PatchHierarchy.mk [level]).getPatchLevel 0 = level := rfl
  simp only [tractionSum, sample_levels, hlevel, List.map_cons, List.map_nil, List.sum_cons,
    List.sum_nil, add_zero]



theorem tractionSum_congr_single (NDIM : Nat) (g g' : Patch → Nat → Nat → Index → Vector3d)
    (level : PatchLevel) (fobj : IBHydrodynamicForceObject)
    (h : ∀ p ∈ level.patches, ∀ a < NDIM, ∀ s ≤ 1,
      ∀ c ∈ Box.cells NDIM (p.box.inter (bdryBox (integrationBox level fobj) a s)),
        g p a s c = g' p a s c) :
    tractionSum NDIM g { levels := [level] } 0 0 fobj =
      tractionSum NDIM g' { levels := [level] } 0 0 fobj := by
  rw [tractionSum_single_level, tractionSum_single_level]
  congr 1
  apply List.map_congr_left
  intro p hp
  by_cases hint : p.box.intersects NDIM (integrationBox level fobj) = true
  · rw [if_pos hint, if_pos hint]
    congr 1
    apply List.map_congr_left
    intro a ha
    rw [List.mem_range] at ha
    rw [List.map_congr_left (h p hp a ha 0 (by omega)),
      List.map_congr_left (h p hp a ha 1 (by omega))]
  · rw [if_neg hint, if_neg hint]

theorem tractionSum_add_single (NDIM : Nat) (g1 g2 : Patch → Nat → Nat → Index → Vector3d)
    (level : PatchLevel) (fobj : IBHydrodynamicForceObject) :
    tractionSum NDIM (fun p a s c => g1 p a s c + g2 p a s c) { levels := [level] } 0 0 fobj =
      tractionSum NDIM g1 { levels := [level] } 0 0 fobj +
        tractionSum NDIM g2 { levels := [level] } 0 0 fobj := by
  rw [tractionSum_single_level, tractionSum_single_level, tractionSum_single_level,
    ← List.sum_map_add]
  congr 1
  apply List.map_congr_left
  intro p _
  by_cases hint : p.box.intersects NDIM (integrationBox level fobj) = true
  · rw [if_pos hint, if_pos hint, if_pos hint, ← List.sum_map_add]
    congr 1
    apply List.map_congr_left
    intro a _
    rw [List.sum_map_add, List.sum_map_add]
    exact add_add_add_comm _ _ _ _
  · rw [if_neg hint, if_neg hint, if_neg hint, add_zero]

theorem tractionSum_const_cancel (NDIM : Nat) (hdim : NDIM ≤ 3) (w : Nat → Nat → Vector3d)
    (level : PatchLevel) (fobj : IBHydrodynamicForceObject)
    (htiles : Tiles NDIM level.patches (integrationBox level fobj))
    (hw : ∀ a < NDIM, w a 0 + w a 1 = 0) :
    tractionSum NDIM (fun _ a s _ => w a s) { levels := [level] } 0 0 fobj = 0 := by
  rw [tractionSum_single_level]
  by_cases hne : ∀ d < NDIM, (integrationBox level fobj).lower.get d ≤
      (integrationBox level fobj).upper.get d
  · have hside : ∀ a < NDIM, ∀ s c,
        (bdryBox (integrationBox level fobj) a s).contains NDIM c = true →
          (integrationBox level fobj).contains NDIM c = true :=
      fun a ha s c hc => bdryBox_contains NDIM hdim _ a s ha (hne a ha) c hc
    have hguard : ∀ p ∈ level.patches,
        (if p.box.intersects NDIM (integrationBox level fobj) then
          ((List.range NDIM).map fun axis =>
            (((p.box.inter (bdryBox (integrationBox level fobj) axis 0)).cells NDIM).map
                (fun _ => w axis 0)).sum +
              (((p.box.inter (bdryBox (integrationBox level fobj) axis 1)).cells NDIM).map
                (fun _ => w axis 1)).sum).sum
        else 0) =
        ((List.range NDIM).map fun axis =>
            (((p.box.inter (bdryBox (integrationBox level fobj) axis 0)).cells NDIM).map
                (fun _ => w axis 0)).sum +
              (((p.box.inter (bdryBox (integrationBox level fobj) axis 1)).cells NDIM).map
                (fun _ => w axis 1)).sum).sum := by
      intro p _
      by_cases hint : p.box.intersects NDIM (integrationBox level fobj) = true
      · rw [if_pos hint]
      · rw [if_neg hint]
        symm
        apply List.sum_eq_zero
        intro x hx
        rw [List.mem_map] at hx
        obtain ⟨a, ha, rfl⟩ := hx
        rw [List.mem_range] at ha
        rw [Box.cells_inter_eq_nil NDIM p.box _ _ (hside a ha 0) hint,
          Box.cells_inter_eq_nil NDIM p.box _ _ (hside a ha 1) hint]
        simp
    rw [List.map_congr_left hguard,
      sum_map_sum_comm level.patches (List.range NDIM) fun p axis =>
        (((p.box.inter (bdryBox (integrationBox level fobj) axis 0)).cells NDIM).map
            (fun _ => w axis 0)).sum +
          (((p.box.inter (bdryBox (integrationBox level fobj) axis 1)).cells NDIM).map
            (fun _ => w axis 1)).sum]
    apply List.sum_eq_zero
    intro x hx
    rw [List.mem_map] at hx
    obtain ⟨a, ha, rfl⟩ := hx
    rw [List.mem_range] at ha
    rw [List.sum_map_add,
      Tiles.sum_const NDIM level.patches _ _ htiles (hside a ha 0) (w a 0),
      Tiles.sum_const NDIM level.patches _ _ htiles (hside a ha 1) (w a 1),
      Box.length_cells_bdryBox NDIM _ a (by omega), ← nsmul_add, hw a ha, nsmul_zero]
  · apply List.sum_eq_zero
    intro x hx
    rw [List.mem_map] at hx
    obtain ⟨p, -, rfl⟩ := hx
    rw [if_neg]
    intro hint
    exact hne (Box.not_empty_of_intersects NDIM _ _ hint)

/-! ## Uniform flow through a tiled level -/

theorem Vector3d.ext_get (a b : Vector3d) (h : ∀ d ≤ 2, a.get d = b.get d) : a = b :=
  Vector3d.eq_of_components a b (h 0 (by omega)) (h 1 (by omega)) (h 2 (by omega))

theorem faceVelocity_uniform (NDIM : Nat) (hdim : NDIM ≤ 3) (hpos : 0 < NDIM) (U : ℚ)
    (u_data : SideData) (hu : ∀ a idx, u_data a idx = if a = 0 then U else 0)
    (axis side : Nat) (cell_idx cell_nbr_idx : Index) :
    faceVelocity NDIM u_data axis cell_idx cell_nbr_idx (SideIndex.make cell_idx axis side) =
      ⟨U, 0, 0⟩ := by
  apply Vector3d.ext_get
  intro d hd
  rw [faceVelocity_get NDIM hdim _ _ _ _ _ d hd]
  have hread : ∀ s : SideIndex, u_data.read s = if s.axis = 0 then U else 0 :=
    fun s => hu s.axis s.index
  have haxis : (SideIndex.make cell_idx axis side).axis = axis := rfl
  have hmake : ∀ (c : Index) (e s : Nat), (SideIndex.make c e s).axis = e := fun _ _ _ => rfl
  simp only [hread, haxis, hmake]
  have hd3 : d = 0 ∨ d = 1 ∨ d = 2 := by omega
  rcases hd3 with rfl | rfl | rfl
  · by_cases ha : 0 = axis
    · subst ha
      simp [hpos, Vector3d.get]
    · simp [hpos, ha, Vector3d.get]
      ring
  · by_cases ha : 1 = axis
    · subst ha
      simp [Vector3d.get]
    · simp [ha, Vector3d.get]
  · by_cases ha : 2 = axis
    · subst ha
      simp [Vector3d.get]
    · simp [ha, Vector3d.get]

theorem viscousForce_uniform (NDIM : Nat) (hdim : NDIM ≤ 3) (d_mu U : ℚ) (patch_dx : Nat → ℚ)
    (u_data : SideData) (hu : ∀ a idx, u_data a idx = if a = 0 then U else 0)
    (axis : Nat) (n : Vector3d) (cell_idx cell_nbr_idx : Index) :
    viscousForce NDIM d_mu patch_dx u_data axis n cell_idx cell_nbr_idx = Vector3d.Zero := by
  apply Vector3d.ext_get
  intro d hd
  rw [viscousForce_get NDIM hdim _ _ _ _ _ _ _ d hd]
  have hz : Vector3d.Zero.get d = 0 := by
    rcases d with _ | _ | d <;> rfl
  rw [hz]
  simp only [hu]
  by_cases hlt : d < NDIM
  · by_cases ha : d = axis
    · simp [hlt, ha]
    · simp [hlt, ha]
  · simp [hlt]

theorem viscousContribution_uniform (NDIM : Nat) (hdim : NDIM ≤ 3) (d_mu U : ℚ)
    (patch_dx : Nat → ℚ) (u_data face_sc_data : SideData)
    (hu : ∀ a idx, u_data a idx = if a = 0 then U else 0) (axis upperlower : Nat)
    (cell_idx : Index) :
    viscousContribution NDIM d_mu patch_dx u_data face_sc_data axis upperlower cell_idx =
      Vector3d.Zero := by
  unfold viscousContribution
  simp only [viscousForce_uniform NDIM hdim d_mu U patch_dx u_data hu]
  simp [Vector3d.smul_def, Vector3d.mul_def, Vector3d.Zero]

theorem convectiveContribution_uniform (NDIM : Nat) (hdim : NDIM ≤ 3) (hpos : 0 < NDIM)
    (d_rho U : ℚ) (u_data face_sc_data : SideData)
    (hu : ∀ a idx, u_data a idx = if a = 0 then U else 0) (u_box : Vector3d)
    (axis upperlower : Nat) (cell_idx : Index) :
    convectiveContribution NDIM d_rho u_data face_sc_data u_box axis upperlower cell_idx =
      -d_rho *
          (Vector3d.Zero.set axis (if upperlower ≠ 0 then 1 else -1)).dot (⟨U, 0, 0⟩ - u_box) *
          (⟨U, 0, 0⟩ : Vector3d) *
        face_sc_data axis (if upperlower ≠ 0 then cell_idx + Index.offset axis else cell_idx) := by
  rw [convectiveContribution_eq, faceVelocity_uniform NDIM hdim hpos U u_data hu]



theorem computeFaceWeight_single (NDIM : Nat) (self : IBHydrodynamicForceEvaluator)
    (level : PatchLevel) :
    computeFaceWeight NDIM self { levels := [level] } =
      { levels := [computeFaceWeightLevel NDIM self { levels := [level] } 0 level] } := rfl

theorem Index.add_offset_set (cell_idx : Index) (a : Nat) :
    (cell_idx + Index.offset a).set a ((cell_idx + Index.offset a).get a - 1) = cell_idx := by
  obtain ⟨i, j, k⟩ := cell_idx
  match a with
  | 0 => simp [Index.set, Index.get, Index.offset, Index.zero, Index.add_eq_mk]
  | 1 => simp [Index.set, Index.get, Index.offset, Index.zero, Index.add_eq_mk]
  | _ + 2 => simp [Index.set, Index.get, Index.offset, Index.zero, Index.add_eq_mk]

theorem Box.toSideBox_contains_face (NDIM : Nat) (hdim : NDIM ≤ 3) (b : Box) (a : Nat)
    (ha : a < NDIM) (cell_idx : Index) (hc : b.contains NDIM cell_idx = true)
    (upperlower : Nat) :
    (b.toSideBox NDIM a).contains NDIM
      (if upperlower ≠ 0 then cell_idx + Index.offset a else cell_idx) = true := by
  rw [Box.toSideBox_contains_iff NDIM b a _ hdim ha]
  by_cases hside : upperlower ≠ 0
  · rw [if_pos hside, Index.add_offset_set]
    exact Or.inr hc
  · rw [if_neg hside]
    exact Or.inl hc

theorem computeFaceWeightPatch_single_weight (NDIM : Nat) (hdim : NDIM ≤ 3)
    (self : IBHydrodynamicForceEvaluator) (level : PatchLevel) (patch : Patch) (a : Nat)
    (ha : a < NDIM) (cell_idx : Index) (hc : patch.box.contains NDIM cell_idx = true)
    (upperlower : Nat) :
    (computeFaceWeightPatch NDIM self { levels := [level] } 0 level patch).sideData
        self.d_face_wgt_sc_idx a
        (if upperlower ≠ 0 then cell_idx + Index.offset a else cell_idx) =
      cellVolume NDIM patch.dx / patch.dx a := by
  have hfinest : (PatchHierarchy.mk [level]).getFinestLevelNumber = 0 := rfl
  simp only [computeFaceWeightPatch, if_true, hfinest, lt_irrefl, decide_False]
  rw [faceWeightPatch_apply, if_neg (fun h => Bool.false_ne_true h.1),
    if_pos ⟨ha, Box.toSideBox_contains_face NDIM hdim patch.box a ha cell_idx hc upperlower⟩]

theorem computeFaceWeightPatch_sideData_ne (NDIM : Nat) (self : IBHydrodynamicForceEvaluator)
    (patch_hierarchy : PatchHierarchy) (ln : Int) (level : PatchLevel) (patch : Patch)
    (idx : Int) (hidx : idx ≠ self.d_face_wgt_sc_idx) :
    (computeFaceWeightPatch NDIM self patch_hierarchy ln level patch).sideData idx =
      patch.sideData idx := by
  simp [computeFaceWeightPatch, hidx]

theorem cellVolume_congr (NDIM : Nat) (hdim : NDIM = 2 ∨ NDIM = 3) (dx dx' : Nat → ℚ)
    (h : ∀ d < NDIM, dx d = dx' d) : cellVolume NDIM dx = cellVolume NDIM dx' := by
  rcases hdim with rfl | rfl
  · simp [cellVolume, h 0 (by omega), h 1 (by omega)]
  · simp [cellVolume, h 0 (by omega), h 1 (by omega), h 2 (by omega)]

theorem Tiles.map_box (NDIM : Nat) (patches : List Patch) (box : Box) (F : Patch → Patch)
    (hF : ∀ p, (F p).box = p.box) (htiles : Tiles NDIM patches box) :
    Tiles NDIM (patches.map F) box := by
  refine ⟨fun c hc => ?_, ?_⟩
  · obtain ⟨p, hp, hpc⟩ := htiles.1 c hc
    exact ⟨F p, List.mem_map_of_mem F hp, by rw [hF]; exact hpc⟩
  · rw [List.pairwise_map]
    refine htiles.2.imp ?_
    intro p q hpq c
    rw [hF, hF]
    exact hpq c

theorem Vector3d.add_mul_scalar (u v : Vector3d) (c : ℚ) : u * c + v * c = (u + v) * c := by
  simp only [Vector3d.mul_def, Vector3d.add_def, add_mul]

theorem Vector3d.zero_mul_scalar (c : ℚ) : (0 : Vector3d) * c = 0 := by
  show (⟨0 * c, 0 * c, 0 * c⟩ : Vector3d) = ⟨0, 0, 0⟩
  simp

theorem tractionSum_weighted_cancel (NDIM : Nat) (hdim : NDIM = 2 ∨ NDIM = 3)
    (self : IBHydrodynamicForceEvaluator) (level : PatchLevel)
    (fobj : IBHydrodynamicForceObject) (dx : Nat → ℚ)
    (htiles : Tiles NDIM level.patches (integrationBox level fobj))
    (hdx : ∀ patch ∈ level.patches, ∀ d < NDIM, patch.dx d = dx d)
    (k : Nat → Nat → Vector3d) (hk : ∀ a < NDIM, k a 0 + k a 1 = 0)
    (g : Patch → Nat → Nat → Index → Vector3d)
    (hg : ∀ patch ∈ level.patches, ∀ a < NDIM, ∀ s ≤ 1, ∀ c,
      patch.box.contains NDIM c = true →
        g (computeFaceWeightPatch NDIM self { levels := [level] } 0 level patch) a s c =
          k a s *
            (computeFaceWeightPatch NDIM self { levels := [level] } 0 level patch).sideData
              self.d_face_wgt_sc_idx a (if s ≠ 0 then c + Index.offset a else c)) :
    tractionSum NDIM g (computeFaceWeight NDIM self { levels := [level] }) 0 0 fobj = 0 := by
  have hdim3 : NDIM ≤ 3 := by omega
  rw [computeFaceWeight_single,
    tractionSum_congr_single NDIM g (fun _ a s _ => k a s * (cellVolume NDIM dx / dx a))]
  · refine tractionSum_const_cancel NDIM hdim3 _ _ fobj ?_ ?_
    · exact Tiles.map_box NDIM level.patches _ _ (fun _ => rfl) htiles
    · intro a ha
      rw [Vector3d.add_mul_scalar, hk a ha, Vector3d.zero_mul_scalar]
  · intro p' hp' a ha s hs c hc
    simp only [computeFaceWeightLevel, List.mem_map] at hp'
    obtain ⟨p, hp, rfl⟩ := hp'
    rw [Box.mem_cells_iff, Box.inter_contains] at hc
    have hpc : p.box.contains NDIM c = true := hc.1.1
    rw [hg p hp a ha s hs c hpc,
      computeFaceWeightPatch_single_weight NDIM hdim3 self level p a ha c hpc s,
      cellVolume_congr NDIM hdim p.dx dx (hdx p hp), hdx p hp a ha]



theorem Vector3d.normal_pair_cancel (c : ℚ) (v : Vector3d) (f : ℚ → Vector3d → ℚ)
    (hf : f (-1) v = -f 1 v) (w : Vector3d) :
    c * f (if (0 : Nat) ≠ 0 then 1 else -1) v * w + c * f (if (1 : Nat) ≠ 0 then 1 else -1) v * w =
      0 := by
  simp only [ne_eq, not_true_eq_false, if_false, one_ne_zero, not_false_eq_true, if_true, hf]
  show (⟨c * -f 1 v * w.x + c * f 1 v * w.x, c * -f 1 v * w.y + c * f 1 v * w.y,
    c * -f 1 v * w.z + c * f 1 v * w.z⟩ : Vector3d) = ⟨0, 0, 0⟩
  congr 1 <;> ring

theorem Vector3d.dot_set_neg (a : Nat) (v : Vector3d) :
    (Vector3d.Zero.set a (-1)).dot v = -(Vector3d.Zero.set a 1).dot v := by
  match a with
  | 0 => simp [Vector3d.set, Vector3d.Zero, Vector3d.dot]
  | 1 => simp [Vector3d.set, Vector3d.Zero, Vector3d.dot]
  | _ + 2 => simp [Vector3d.set, Vector3d.Zero, Vector3d.dot]

theorem tractionSum_pressure_constant (NDIM : Nat) (hdim : NDIM = 2 ∨ NDIM = 3)
    (self : IBHydrodynamicForceEvaluator) (p_idx : Int) (level : PatchLevel)
    (fobj : IBHydrodynamicForceObject) (dx : Nat → ℚ) (p0 : ℚ)
    (htiles : Tiles NDIM level.patches (integrationBox level fobj))
    (hdx : ∀ patch ∈ level.patches, ∀ d < NDIM, patch.dx d = dx d)
    (hp : ∀ patch ∈ level.patches, ∀ idx, patch.cellData p_idx idx = p0) :
    tractionSum NDIM
        (fun patch axis upperlower cell_idx =>
          pressureContribution (patch.cellData p_idx) (patch.sideData self.d_face_wgt_sc_idx)
            axis upperlower cell_idx)
        (computeFaceWeight NDIM self { levels := [level] }) 0 0 fobj = 0 := by
  refine tractionSum_weighted_cancel NDIM hdim self level fobj dx htiles hdx
    (fun a s => (-0.5 : ℚ) * Vector3d.Zero.set a (if s ≠ 0 then 1 else -1) * (p0 + p0)) ?_ _ ?_
  · intro a _
    have h0 : Vector3d.Zero.set a (-1) = (-1 : ℚ) * Vector3d.Zero.set a 1 := by
      match a with
      | 0 => simp [Vector3d.set, Vector3d.Zero, Vector3d.smul_def]
      | 1 => simp [Vector3d.set, Vector3d.Zero, Vector3d.smul_def]
      | _ + 2 => simp [Vector3d.set, Vector3d.Zero, Vector3d.smul_def]
    simp only [ne_eq, not_true_eq_false, if_false, one_ne_zero, not_false_eq_true, if_true, h0]
    show (⟨_, _, _⟩ : Vector3d) = ⟨0, 0, 0⟩
    simp only [Vector3d.smul_def, Vector3d.mul_def]
    congr 1 <;> ring
  · intro patch hpatch a _ s _ c _
    have hcell : ∀ idx, (computeFaceWeightPatch NDIM self { levels := [level] } 0 level
        patch).cellData p_idx idx = p0 := hp patch hpatch
    unfold pressureContribution
    simp only [SideData.read_make_side, hcell]

theorem tractionSum_convective_uniform (NDIM : Nat) (hdim : NDIM = 2 ∨ NDIM = 3)
    (self : IBHydrodynamicForceEvaluator) (u_idx : Int) (level : PatchLevel)
    (fobj : IBHydrodynamicForceObject) (dx : Nat → ℚ) (U : ℚ) (u_box : Vector3d)
    (htiles : Tiles NDIM level.patches (integrationBox level fobj))
    (hdx : ∀ patch ∈ level.patches, ∀ d < NDIM, patch.dx d = dx d)
    (hu : ∀ patch ∈ level.patches, ∀ a idx,
      patch.sideData u_idx a idx = if a = 0 then U else 0)
    (hidx : u_idx ≠ self.d_face_wgt_sc_idx) (sel : Nat → Bool) :
    tractionSum NDIM
        (fun patch axis upperlower cell_idx =>
          if sel axis = true then
            convectiveContribution NDIM self.d_rho (patch.sideData u_idx)
              (patch.sideData self.d_face_wgt_sc_idx) u_box axis upperlower cell_idx
          else 0)
        (computeFaceWeight NDIM self { levels := [level] }) 0 0 fobj = 0 := by
  have hdim3 : NDIM ≤ 3 := by omega
  have hpos : 0 < NDIM := by omega
  refine tractionSum_weighted_cancel NDIM hdim self level fobj dx htiles hdx
    (fun a s =>
      if sel a = true then
        -self.d_rho * (Vector3d.Zero.set a (if s ≠ 0 then 1 else -1)).dot (⟨U, 0, 0⟩ - u_box) *
          (⟨U, 0, 0⟩ : Vector3d)
      else 0) ?_ _ ?_
  · intro a _
    by_cases hsel : sel a = true
    · simp only [hsel, if_true]
      exact Vector3d.normal_pair_cancel (-self.d_rho) (⟨U, 0, 0⟩ - u_box)
        (fun n v => (Vector3d.Zero.set a n).dot v) (Vector3d.dot_set_neg a _) ⟨U, 0, 0⟩
    · simp only [hsel, if_false]
      exact add_zero _
  · intro patch hpatch a _ s _ c _
    by_cases hsel : sel a = true
    · simp only [hsel, if_true]
      have hvel : ∀ a idx, (computeFaceWeightPatch NDIM self { levels := [level] } 0 level
          patch).sideData u_idx a idx = if a = 0 then U else 0 := by
        intro a idx
        rw [computeFaceWeightPatch_sideData_ne NDIM self _ 0 level patch u_idx hidx]
        exact hu patch hpatch a idx
      rw [convectiveContribution_uniform NDIM hdim3 hpos self.d_rho U _ _ hvel]
    · simp only [hsel, if_false]
      exact (Vector3d.zero_mul_scalar _).symm



theorem tractionSum_viscous_uniform (NDIM : Nat) (hdim : NDIM = 2 ∨ NDIM = 3)
    (self : IBHydrodynamicForceEvaluator) (u_idx : Int) (level : PatchLevel)
    (fobj : IBHydrodynamicForceObject) (dx : Nat → ℚ) (U : ℚ)
    (htiles : Tiles NDIM level.patches (integrationBox level fobj))
    (hdx : ∀ patch ∈ level.patches, ∀ d < NDIM, patch.dx d = dx d)
    (hu : ∀ patch ∈ level.patches, ∀ a idx,
      patch.sideData u_idx a idx = if a = 0 then U else 0)
    (hidx : u_idx ≠ self.d_face_wgt_sc_idx) :
    tractionSum NDIM
        (fun patch axis upperlower cell_idx =>
          viscousContribution NDIM self.d_mu patch.dx (patch.sideData u_idx)
            (patch.sideData self.d_face_wgt_sc_idx) axis upperlower cell_idx)
        (computeFaceWeight NDIM self { levels := [level] }) 0 0 fobj = 0 := by
  refine tractionSum_weighted_cancel NDIM hdim self level fobj dx htiles hdx
    (fun _ _ => 0) (fun _ _ => add_zero _) _ ?_
  intro patch hpatch a _ s _ c _
  have hvel : ∀ a idx, (computeFaceWeightPatch NDIM self { levels := [level] } 0 level
      patch).sideData u_idx a idx = if a = 0 then U else 0 := by
    intro a idx
    rw [computeFaceWeightPatch_sideData_ne NDIM self _ 0 level patch u_idx hidx]
    exact hu patch hpatch a idx
  rw [viscousContribution_uniform NDIM (by omega) self.d_mu U _ _ _ hvel,
    Vector3d.zero_mul_scalar]
  rfl

theorem surfaceTraction_eq_pressure_of_uniform (NDIM : Nat) (hdim : NDIM = 2 ∨ NDIM = 3)
    (self : IBHydrodynamicForceEvaluator) (u_idx p_idx : Int) (level : PatchLevel)
    (fobj : IBHydrodynamicForceObject) (dx : Nat → ℚ) (U : ℚ)
    (htiles : Tiles NDIM level.patches (integrationBox level fobj))
    (hdx : ∀ patch ∈ level.patches, ∀ d < NDIM, patch.dx d = dx d)
    (hu : ∀ patch ∈ level.patches, ∀ a idx,
      patch.sideData u_idx a idx = if a = 0 then U else 0)
    (hidx : u_idx ≠ self.d_face_wgt_sc_idx) :
    surfaceTraction NDIM self.d_rho self.d_mu u_idx p_idx self.d_face_wgt_sc_idx
        (computeFaceWeight NDIM self { levels := [level] }) 0 0 fobj =
      tractionSum NDIM
        (fun patch axis upperlower cell_idx =>
          pressureContribution (patch.cellData p_idx) (patch.sideData self.d_face_wgt_sc_idx)
            axis upperlower cell_idx)
        (computeFaceWeight NDIM self { levels := [level] }) 0 0 fobj := by
  have hsplit : cellTraction NDIM self.d_rho self.d_mu u_idx p_idx self.d_face_wgt_sc_idx
      fobj.box_u_new =
      fun patch axis upperlower cell_idx =>
        ((fun (patch : Patch) (axis upperlower : Nat) (cell_idx : Index) =>
            pressureContribution (patch.cellData p_idx)
              (patch.sideData self.d_face_wgt_sc_idx) axis upperlower cell_idx) patch axis
              upperlower cell_idx +
          (fun (patch : Patch) (axis upperlower : Nat) (cell_idx : Index) =>
            convectiveContribution NDIM self.d_rho (patch.sideData u_idx)
              (patch.sideData self.d_face_wgt_sc_idx) fobj.box_u_new axis upperlower cell_idx)
            patch axis upperlower cell_idx) +
        (fun (patch : Patch) (axis upperlower : Nat) (cell_idx : Index) =>
          viscousContribution NDIM self.d_mu patch.dx (patch.sideData u_idx)
            (patch.sideData self.d_face_wgt_sc_idx) axis upperlower cell_idx) patch axis
          upperlower cell_idx := rfl
  have hconv := tractionSum_convective_uniform NDIM hdim self u_idx level fobj dx U
    fobj.box_u_new htiles hdx hu hidx (fun _ => true)
  simp only [if_true] at hconv
  have hvisc := tractionSum_viscous_uniform NDIM hdim self u_idx level fobj dx U htiles hdx hu
    hidx
  rw [surfaceTraction_eq_tractionSum, hsplit, computeFaceWeight_single,
    tractionSum_add_single NDIM
      (fun patch axis upperlower cell_idx =>
        (fun (patch : Patch) (axis upperlower : Nat) (cell_idx : Index) =>
            pressureContribution (patch.cellData p_idx)
              (patch.sideData self.d_face_wgt_sc_idx) axis upperlower cell_idx) patch axis
              upperlower cell_idx +
          (fun (patch : Patch) (axis upperlower : Nat) (cell_idx : Index) =>
            convectiveContribution NDIM self.d_rho (patch.sideData u_idx)
              (patch.sideData self.d_face_wgt_sc_idx) fobj.box_u_new axis upperlower cell_idx)
            patch axis upperlower cell_idx),
    tractionSum_add_single, ← computeFaceWeight_single, hconv, hvisc, add_zero, add_zero]

/-! ## Uniform flow: the end-to-end scenario -/

/-- C15 (amended): over exact arithmetic, on a hierarchy of a single level whose patches tile
the control-volume box of the body (every cell of the box in exactly one patch) with the same
grid spacings, with the velocity data the uniform vector `(U, 0, 0)` on every patch and the box
velocity zero, in the surface traction integral that `computeHydrodynamicForce` takes after
rebuilding the face weights: the convective terms of the lower and upper sides of the box
normal to the flow (axis `0`) sum to zero; the convective term of every cell on a side parallel
to the flow is zero; every viscous term is zero; so the integral, evaluated without rounding,
is the sum of the pressure terms alone, which is zero when the pressure is constant. In
`double` arithmetic the terms are accumulated with a rounding after every addition, and the
integral differs from the pressure sum, and from zero, by a rounding residual (section on
rounded arithmetic). -/
theorem surfaceTraction_uniform_flow (NDIM : Nat) (self : IBHydrodynamicForceEvaluator)
    (u_idx p_idx : Int) (level : PatchLevel) (fobj : IBHydrodynamicForceObject) (dx : Nat → ℚ)
    (U : ℚ) (hdim : NDIM = 2 ∨ NDIM = 3)
    (htiles : Tiles NDIM level.patches (integrationBox level fobj))
    (hdx : ∀ patch ∈ level.patches, ∀ d < NDIM, patch.dx d = dx d)
    (hu : ∀ patch ∈ level.patches, ∀ a idx,
      patch.sideData u_idx a idx = if a = 0 then U else 0)
    (hidx : u_idx ≠ self.d_face_wgt_sc_idx)
    (hbox : fobj.box_u_new = Vector3d.Zero) :
    tractionSum NDIM
        (fun patch axis upperlower cell_idx =>
          if axis = 0 then
            convectiveContribution NDIM self.d_rho (patch.sideData u_idx)
              (patch.sideData self.d_face_wgt_sc_idx) fobj.box_u_new axis upperlower cell_idx
          else 0)
        (computeFaceWeight NDIM self { levels := [level] }) 0 0 fobj = Vector3d.Zero ∧
    (∀ patch ∈ ((computeFaceWeight NDIM self { levels := [level] }).getPatchLevel 0).patches,
      ∀ axis, axis < NDIM → axis ≠ 0 → ∀ upperlower cell_idx,
        convectiveContribution NDIM self.d_rho (patch.sideData u_idx)
          (patch.sideData self.d_face_wgt_sc_idx) fobj.box_u_new axis upperlower cell_idx =
            Vector3d.Zero) ∧
    (∀ patch ∈ ((computeFaceWeight NDIM self { levels := [level] }).getPatchLevel 0).patches,
      ∀ axis upperlower cell_idx,
        viscousContribution NDIM self.d_mu patch.dx (patch.sideData u_idx)
          (patch.sideData self.d_face_wgt_sc_idx) axis upperlower cell_idx = Vector3d.Zero) ∧
    surfaceTraction NDIM self.d_rho self.d_mu u_idx p_idx self.d_face_wgt_sc_idx
        (computeFaceWeight NDIM self { levels := [level] }) 0 0 fobj =
      tractionSum NDIM
        (fun patch axis upperlower cell_idx =>
          pressureContribution (patch.cellData p_idx) (patch.sideData self.d_face_wgt_sc_idx)
            axis upperlower cell_idx)
        (computeFaceWeight NDIM self { levels := [level] }) 0 0 fobj ∧
    (∀ p0 : ℚ, (∀ patch ∈ level.patches, ∀ idx, patch.cellData p_idx idx = p0) →
      surfaceTraction NDIM self.d_rho self.d_mu u_idx p_idx self.d_face_wgt_sc_idx
        (computeFaceWeight NDIM self { levels := [level] }) 0 0 fobj = Vector3d.Zero) := by
  have hdim3 : NDIM ≤ 3 := by omega
  have hpos : 0 < NDIM := by omega
  have hvel : ∀ patch ∈
      ((computeFaceWeight NDIM self { levels := [level] }).getPatchLevel 0).patches,
      ∀ a idx, patch.sideData u_idx a idx = if a = 0 then U else 0 := by
    intro patch' hpatch' a idx
    rw [mem_computeFaceWeight_patches] at hpatch'
    obtain ⟨patch, hpatch, rfl⟩ := hpatch'
    rw [computeFaceWeightPatch_sideData_ne NDIM self _ 0 _ patch u_idx hidx]
    exact hu patch hpatch a idx
  have hpressure := surfaceTraction_eq_pressure_of_uniform NDIM hdim self u_idx p_idx level fobj
    dx U htiles hdx hu hidx
  refine ⟨?_, ?_, ?_, hpressure, ?_⟩
  · have h := tractionSum_convective_uniform NDIM hdim self u_idx level fobj dx U
      fobj.box_u_new htiles hdx hu hidx (fun a => decide (a = 0))
    simp only [decide_eq_true_eq] at h
    exact h
  · intro patch hpatch axis haxis hne upperlower cell_idx
    rw [convectiveContribution_uniform NDIM hdim3 hpos self.d_rho U _ _ (hvel patch hpatch),
      hbox]
    have hdot : ∀ n : ℚ, (Vector3d.Zero.set axis n).dot (⟨U, 0, 0⟩ - Vector3d.Zero) = 0 := by
      intro n
      have h12 : axis = 1 ∨ axis = 2 := by omega
      rcases h12 with rfl | rfl <;>
        simp [Vector3d.set, Vector3d.Zero, Vector3d.dot, Vector3d.sub_def]
    rw [hdot]
    simp [Vector3d.smul_def, Vector3d.mul_def, Vector3d.Zero]
  · intro patch hpatch axis upperlower cell_idx
    exact viscousContribution_uniform NDIM hdim3 self.d_mu U _ _ _ (hvel patch hpatch) _ _ _
  · intro p0 hp
    rw [hpressure]
    exact tractionSum_pressure_constant NDIM hdim self p_idx level fobj dx p0 htiles hdx hp



theorem rest_integrationBox :
    integrationBox restLevel restObject = { lower := ⟨1, 1, 0⟩, upper := ⟨2, 2, 0⟩ } := by
  simp [integrationBox, restLevel, restObject, zeroObject]

theorem rest_tiles : Tiles 2 restLevel.patches (integrationBox restLevel restObject) := by
  rw [rest_integrationBox]
  refine ⟨fun c hc => ?_, ?_⟩
  · rw [Box.contains_iff] at hc
    have h0 := hc 0 (by decide)
    have h1 := hc 1 (by decide)
    simp only [Index.get] at h0 h1
    by_cases hleft : c.i0 ≤ 1
    · refine ⟨leftPatch, List.mem_cons_self _ _, ?_⟩
      rw [Box.contains_iff]
      intro d hd
      interval_cases d <;> simp only [leftPatch, Index.get] <;> omega
    · refine ⟨rightPatch, List.mem_cons_of_mem _ (List.mem_cons_self _ _), ?_⟩
      rw [Box.contains_iff]
      intro d hd
      interval_cases d <;> simp only [rightPatch, leftPatch, Index.get] <;> omega
  · simp only [restLevel, List.pairwise_cons, List.mem_singleton, forall_eq, List.mem_nil_iff,
      false_implies, implies_true, List.Pairwise.nil, and_true]
    intro c hc
    have hl := (Box.contains_iff 2 leftPatch.box c).mp hc.1 0 (by decide)
    have hr := (Box.contains_iff 2 rightPatch.box c).mp hc.2 0 (by decide)
    simp only [leftPatch, rightPatch, Index.get] at hl hr
    omega

theorem rest_spacings :
    ∀ patch ∈ restLevel.patches, ∀ d < 2, patch.dx d = leftPatch.dx d := by
  intro patch hpatch d _
  simp only [restLevel, List.mem_cons, List.mem_singleton, List.mem_nil_iff, or_false] at hpatch
  rcases hpatch with rfl | rfl <;> rfl

theorem rest_velocity (u_idx : Int) (U : ℚ) (hU : (if u_idx = 4 then (3 : ℚ) else 0) = U) :
    ∀ patch ∈ restLevel.patches, ∀ a idx,
      patch.sideData u_idx a idx = if a = 0 then U else 0 := by
  intro patch hpatch a idx
  simp only [restLevel, List.mem_cons, List.mem_singleton, List.mem_nil_iff, or_false] at hpatch
  subst hU
  rcases hpatch with rfl | rfl <;>
    by_cases h4 : u_idx = 4 <;> by_cases ha : a = 0 <;> simp [leftPatch, rightPatch, h4, ha]

theorem rest_pressure :
    ∀ patch ∈ restLevel.patches, ∀ idx, patch.cellData 2 idx = 5 := by
  intro patch hpatch idx
  simp only [restLevel, List.mem_cons, List.mem_singleton, List.mem_nil_iff, or_false] at hpatch
  rcases hpatch with rfl | rfl <;> rfl

theorem surfaceTraction_uniform_flow_witness :
    tractionSum 2
        (fun patch axis upperlower cell_idx =>
          if axis = 0 then
            convectiveContribution 2 restEvaluator.d_rho (patch.sideData 4)
              (patch.sideData restEvaluator.d_face_wgt_sc_idx) restObject.box_u_new axis upperlower cell_idx
          else 0)
        (computeFaceWeight 2 restEvaluator { levels := [restLevel] }) 0 0 restObject = Vector3d.Zero ∧
    (∀ patch ∈ ((computeFaceWeight 2 restEvaluator { levels := [restLevel] }).getPatchLevel 0).patches,
      ∀ axis, axis < 2 → axis ≠ 0 → ∀ upperlower cell_idx,
        convectiveContribution 2 restEvaluator.d_rho (patch.sideData 4)
          (patch.sideData restEvaluator.d_face_wgt_sc_idx) restObject.box_u_new axis upperlower cell_idx =
            Vector3d.Zero) ∧
    (∀ patch ∈ ((computeFaceWeight 2 restEvaluator { levels := [restLevel] }).getPatchLevel 0).patches,
      ∀ axis upperlower cell_idx,
        viscousContribution 2 restEvaluator.d_mu patch.dx (patch.sideData 4)
          (patch.sideData restEvaluator.d_face_wgt_sc_idx) axis upperlower cell_idx = Vector3d.Zero) ∧
    surfaceTraction 2 restEvaluator.d_rho restEvaluator.d_mu 4 2 restEvaluator.d_face_wgt_sc_idx
        (computeFaceWeight 2 restEvaluator { levels := [restLevel] }) 0 0 restObject =
      tractionSum 2
        (fun patch axis upperlower cell_idx =>
          pressureContribution (patch.cellData 2) (patch.sideData restEvaluator.d_face_wgt_sc_idx)
            axis upperlower cell_idx)
        (computeFaceWeight 2 restEvaluator { levels := [restLevel] }) 0 0 restObject ∧
    (∀ p0 : ℚ, (∀ patch ∈ restLevel.patches, ∀ idx, patch.cellData 2 idx = p0) →
      surfaceTraction 2 restEvaluator.d_rho restEvaluator.d_mu 4 2 restEvaluator.d_face_wgt_sc_idx
        (computeFaceWeight 2 restEvaluator { levels := [restLevel] }) 0 0 restObject = Vector3d.Zero) :=
  surfaceTraction_uniform_flow 2 restEvaluator 4 2 restLevel restObject leftPatch.dx 3
    (Or.inl rfl) rest_tiles rest_spacings (rest_velocity 4 3 rfl) (by decide) rfl

/-! ## Fluid at rest: the end-to-end scenario -/

theorem Vector3d.set_get (v : Vector3d) (d : Nat) : v.set d (v.get d) = v := by
  rcases d with _ | _ | d <;> rfl

theorem foldl_fixed {α β : Type} (f : β → α → β) (l : List α) (init : β)
    (h : ∀ x ∈ l, f init x = init) : l.foldl f init = init := by
  induction l with
  | nil => rfl
  | cons hd tl ih =>
    rw [List.foldl_cons, h hd (List.mem_cons_self _ _)]
    exact ih fun x hx => h x (List.mem_cons_of_mem _ hx)

theorem momentumIntegral_eq_zero (NDIM : Nat) (d_rho : ℚ) (u_idx vol_sc_idx : Int)
    (patch_hierarchy : PatchHierarchy) (coarsest_ln finest_ln : Int)
    (fobj : IBHydrodynamicForceObject)
    (hu : ∀ ln, ∀ patch ∈ (patch_hierarchy.getPatchLevel ln).patches, ∀ a idx,
      patch.sideData u_idx a idx = 0) :
    momentumIntegral NDIM d_rho u_idx vol_sc_idx patch_hierarchy coarsest_ln finest_ln fobj =
      Vector3d.Zero := by
  unfold momentumIntegral
  refine foldl_fixed _ _ _ fun ln _ => ?_
  unfold momentumLevel
  refine foldl_fixed _ _ _ fun patch hpatch => ?_
  unfold momentumPatch
  by_cases hint : patch.box.intersects NDIM
      (integrationBox (patch_hierarchy.getPatchLevel ln) fobj) = true
  · simp only [hint, Bool.not_true, Bool.false_eq_true, if_false]
    refine foldl_fixed _ _ _ fun cell_idx _ => ?_
    unfold momentumCell
    refine foldl_fixed _ _ _ fun axis _ => ?_
    have hread : (patch.sideData u_idx).read (SideIndex.make cell_idx axis SideIndex.Lower) =
        0 := hu ln patch hpatch _ _
    simp only [hread, mul_zero, add_zero]
    exact Vector3d.set_get _ _
  · simp [hint]



theorem PatchHierarchy.mem_single_level (level : PatchLevel) (ln : Int) (patch : Patch)
    (h : patch ∈ ((PatchHierarchy.mk [level]).getPatchLevel ln).patches) :
    patch ∈ level.patches := by
  unfold PatchHierarchy.getPatchLevel at h
  by_cases hneg : ln < 0
  · simp [hneg] at h
  · simp only [hneg, if_false] at h
    cases hn : ln.toNat with
    | zero =>
      rw [hn] at h
      exact h
    | succ n =>
      rw [hn] at h
      simp at h

/-- C14 (amended): over exact arithmetic, on a hierarchy of a single level whose patches tile
the new-time control-volume box of a registered body (every cell of the box in exactly one
patch) with the same grid spacings, if the velocity data are zero on every patch, the pressure
data are a constant `p0` on every patch, the momentum of the body satisfies
`P_new = P_current` and `P_box_current = 0`, and `dt` is not zero, then the value
`computeHydrodynamicForce` computes for `F_new`, evaluated without rounding, is `(0, 0, 0)`,
whatever the box velocity: the momentum integral is zero, the convective and viscous terms are
zero, and the pressure terms of opposite sides of the box cancel. In `double` arithmetic the
pressure terms are accumulated with a rounding after every addition, and the stored `F_new` is
zero only up to a rounding residual (section on rounded arithmetic). -/
theorem computeHydrodynamicForce_fluid_at_rest (NDIM : Nat)
    (self : IBHydrodynamicForceEvaluator) (u_idx p_idx f_idx vol_sc_idx vol_cc_idx : Int)
    (level : PatchLevel) (current_time new_time : ℚ) (strct_id : Int)
    (fobj : IBHydrodynamicForceObject) (dx : Nat → ℚ) (p0 : ℚ)
    (hdim : NDIM = 2 ∨ NDIM = 3)
    (hreg : self.d_hydro_objs.find strct_id = some fobj)
    (htiles : Tiles NDIM level.patches (integrationBox level fobj))
    (hdx : ∀ patch ∈ level.patches, ∀ d < NDIM, patch.dx d = dx d)
    (hu : ∀ patch ∈ level.patches, ∀ a idx, patch.sideData u_idx a idx = 0)
    (hp : ∀ patch ∈ level.patches, ∀ idx, patch.cellData p_idx idx = p0)
    (hidx : u_idx ≠ self.d_face_wgt_sc_idx)
    (hP : fobj.P_new = fobj.P_current) (hPbox : fobj.P_box_current = Vector3d.Zero)
    (hdt : new_time - current_time ≠ 0) :
    ∃ fobj',
      (computeHydrodynamicForce NDIM self u_idx p_idx f_idx vol_sc_idx vol_cc_idx
        { levels := [level] } 0 0 current_time new_time).evaluator.d_hydro_objs.find strct_id =
          some fobj' ∧
      fobj'.F_new = Vector3d.Zero := by
  have _ := hdt
  refine ⟨(computeBody NDIM self u_idx p_idx vol_sc_idx
    (computeFaceWeight NDIM self { levels := [level] }) 0 0 (new_time - current_time) []
    fobj).1, ?_, ?_⟩
  · rw [computeHydrodynamicForce_find, hreg]
    rfl
  · have hF : (computeBody NDIM self u_idx p_idx vol_sc_idx
        (computeFaceWeight NDIM self { levels := [level] }) 0 0 (new_time - current_time) []
        fobj).1.F_new =
        (fobj.P_box_current -
              momentumIntegral NDIM self.d_rho u_idx vol_sc_idx
                (computeFaceWeight NDIM self { levels := [level] }) 0 0 fobj +
            fobj.P_new - fobj.P_current) / (new_time - current_time) +
          surfaceTraction NDIM self.d_rho self.d_mu u_idx p_idx self.d_face_wgt_sc_idx
            (computeFaceWeight NDIM self { levels := [level] }) 0 0 fobj := rfl
    have hmom : momentumIntegral NDIM self.d_rho u_idx vol_sc_idx
        (computeFaceWeight NDIM self { levels := [level] }) 0 0 fobj = Vector3d.Zero := by
      apply momentumIntegral_eq_zero
      intro ln patch' hpatch' a idx
      rw [mem_computeFaceWeight_patches] at hpatch'
      obtain ⟨patch, hpatch, rfl⟩ := hpatch'
      rw [computeFaceWeightPatch_sideData_ne NDIM self _ ln _ patch u_idx hidx]
      exact hu patch (PatchHierarchy.mem_single_level level ln patch hpatch) a idx
    have hu0 : ∀ patch ∈ level.patches, ∀ a idx,
        patch.sideData u_idx a idx = if a = 0 then (0 : ℚ) else 0 := by
      intro patch hpatch a idx
      rw [hu patch hpatch a idx, ite_self]
    have htrac : surfaceTraction NDIM self.d_rho self.d_mu u_idx p_idx
        self.d_face_wgt_sc_idx (computeFaceWeight NDIM self { levels := [level] }) 0 0 fobj =
        Vector3d.Zero := by
      rw [surfaceTraction_eq_pressure_of_uniform NDIM hdim self u_idx p_idx level fobj dx 0
        htiles hdx hu0 hidx]
      exact tractionSum_pressure_constant NDIM hdim self p_idx level fobj dx p0 htiles hdx hp
    rw [hF, hmom, htrac, hP, hPbox]
    simp [Vector3d.sub_def, Vector3d.add_def, Vector3d.div_def, Vector3d.Zero]

theorem computeHydrodynamicForce_fluid_at_rest_witness :
    ∃ fobj',
      (computeHydrodynamicForce 2 restEvaluator 1 2 0 3 0 { levels := [restLevel] } 0 0 0
        1).evaluator.d_hydro_objs.find 1 = some fobj' ∧
      fobj'.F_new = Vector3d.Zero :=
  computeHydrodynamicForce_fluid_at_rest 2 restEvaluator 1 2 0 3 0 restLevel 0 1 1 restObject
    leftPatch.dx 5 (Or.inl rfl) rfl rest_tiles rest_spacings
    (fun patch hpatch a idx => by
      rw [rest_velocity 1 0 rfl patch hpatch a idx, ite_self])
    rest_pressure (by decide) rfl rfl (by norm_num)

/-! ## A box that no patch intersects -/

theorem flatMap_singleton_cast (l : List Nat) :
    (l.flatMap fun a : Nat => [(a : Int)]) = l.map fun a : Nat => (a : Int) := by
  induction l with
  | nil => rfl
  | cons hd tl ih =>
    rw [List.flatMap_cons, List.map_cons, ih]
    rfl

theorem levelsDescending_eq_map (coarsest_ln finest_ln : Int) :
    levelsDescending coarsest_ln finest_ln =
      (List.range (finest_ln - coarsest_ln + 1).toNat).map fun k : Nat =>
        finest_ln - (k : Int) := by
  simp only [levelsDescending, List.bind_eq_flatMap, List.pure_def, flatMap_singleton_cast,
    List.map_map]
  rfl

theorem mem_levelsDescending (coarsest_ln finest_ln ln : Int) :
    ln ∈ levelsDescending coarsest_ln finest_ln ↔ coarsest_ln ≤ ln ∧ ln ≤ finest_ln := by
  rw [levelsDescending_eq_map]
  simp only [List.mem_map, List.mem_range]
  constructor
  · rintro ⟨k, hk, rfl⟩
    omega
  · rintro ⟨h1, h2⟩
    exact ⟨(finest_ln - ln).toNat, by omega, by omega⟩

theorem momentumPatch_skip (NDIM : Nat) (d_rho : ℚ) (u_idx vol_sc_idx : Int)
    (integration_box : Box) (P_box_new : Vector3d) (patch : Patch)
    (h : patch.box.intersects NDIM integration_box = false) :
    momentumPatch NDIM d_rho u_idx vol_sc_idx integration_box P_box_new patch = P_box_new := by
  simp [momentumPatch, h]

theorem tractionPatch_skip (NDIM : Nat) (d_rho d_mu : ℚ) (u_idx p_idx face_idx : Int)
    (integration_box : Box) (box_u_new trac : Vector3d) (patch : Patch)
    (h : patch.box.intersects NDIM integration_box = false) :
    tractionPatch NDIM d_rho d_mu u_idx p_idx face_idx integration_box box_u_new trac patch =
      trac := by
  simp [tractionPatch, h]

theorem tractionSide_skip (NDIM : Nat) (d_rho d_mu : ℚ) (patch : Patch)
    (u_idx p_idx face_idx : Int) (integration_box : Box) (box_u_new : Vector3d) (axis : Nat)
    (trac : Vector3d) (upperlower : Nat)
    (h : patch.box.intersects NDIM (bdryBox integration_box axis upperlower) = false) :
    tractionSide NDIM d_rho d_mu patch u_idx p_idx face_idx integration_box box_u_new axis trac
      upperlower = trac := by
  simp [tractionSide, h]

theorem integrals_eq_zero_of_no_intersection (NDIM : Nat) (self : IBHydrodynamicForceEvaluator)
    (u_idx p_idx vol_sc_idx : Int) (patch_hierarchy : PatchHierarchy)
    (coarsest_ln finest_ln : Int) (fobj : IBHydrodynamicForceObject)
    (hskip : ∀ ln, coarsest_ln ≤ ln → ln ≤ finest_ln →
      ∀ patch ∈ (patch_hierarchy.getPatchLevel ln).patches,
        patch.box.intersects NDIM (integrationBox (patch_hierarchy.getPatchLevel ln) fobj) =
          false) :
    momentumIntegral NDIM self.d_rho u_idx vol_sc_idx
        (computeFaceWeight NDIM self patch_hierarchy) coarsest_ln finest_ln fobj =
      Vector3d.Zero ∧
    surfaceTraction NDIM self.d_rho self.d_mu u_idx p_idx self.d_face_wgt_sc_idx
        (computeFaceWeight NDIM self patch_hierarchy) coarsest_ln finest_ln fobj =
      Vector3d.Zero := by
  have hpatch : ∀ ln ∈ levelsDescending coarsest_ln finest_ln,
      ∀ patch' ∈ ((computeFaceWeight NDIM self patch_hierarchy).getPatchLevel ln).patches,
        patch'.box.intersects NDIM
          (integrationBox ((computeFaceWeight NDIM self patch_hierarchy).getPatchLevel ln)
            fobj) = false := by
    intro ln hln patch' hpatch'
    rw [mem_levelsDescending] at hln
    rw [mem_computeFaceWeight_patches] at hpatch'
    obtain ⟨patch, hmem, rfl⟩ := hpatch'
    have hbox : integrationBox ((computeFaceWeight NDIM self patch_hierarchy).getPatchLevel ln)
        fobj = integrationBox (patch_hierarchy.getPatchLevel ln) fobj := by
      rw [computeFaceWeight_getPatchLevel]
      rfl
    rw [hbox]
    exact hskip ln hln.1 hln.2 patch hmem
  constructor
  · unfold momentumIntegral
    refine foldl_fixed _ _ _ fun ln hln => ?_
    unfold momentumLevel
    exact foldl_fixed _ _ _ fun patch' hpatch' =>
      momentumPatch_skip NDIM _ _ _ _ _ patch' (hpatch ln hln patch' hpatch')
  · unfold surfaceTraction
    refine foldl_fixed _ _ _ fun ln hln => ?_
    unfold tractionLevel
    exact foldl_fixed _ _ _ fun patch' hpatch' =>
      tractionPatch_skip NDIM _ _ _ _ _ _ _ _ patch' (hpatch ln hln patch' hpatch')



/-- C21: a patch whose box does not intersect the control-volume box is skipped by both
integrals, leaving `P_box_new` and `trac` as they were, and so is a side of the box that a
patch does not intersect; and when no patch of any level from `coarsest_ln` to `finest_ln`
intersects the box of a registered body, `computeHydrodynamicForce` returns with
`P_box_new = 0` for the body, with the traction `trac = 0`, and with
`F_new = (P_box_current + P_new - P_current) / dt`. -/
theorem computeHydrodynamicForce_no_intersection (NDIM : Nat)
    (self : IBHydrodynamicForceEvaluator) (u_idx p_idx f_idx vol_sc_idx vol_cc_idx : Int)
    (patch_hierarchy : PatchHierarchy) (coarsest_ln finest_ln : Int)
    (current_time new_time : ℚ) (strct_id : Int) (fobj : IBHydrodynamicForceObject)
    (hreg : self.d_hydro_objs.find strct_id = some fobj)
    (hskip : ∀ ln, coarsest_ln ≤ ln → ln ≤ finest_ln →
      ∀ patch ∈ (patch_hierarchy.getPatchLevel ln).patches,
        patch.box.intersects NDIM (integrationBox (patch_hierarchy.getPatchLevel ln) fobj) =
          false) :
    (∀ (integration_box : Box) (patch : Patch) (P_box_new trac : Vector3d),
      patch.box.intersects NDIM integration_box = false →
        momentumPatch NDIM self.d_rho u_idx vol_sc_idx integration_box P_box_new patch =
            P_box_new ∧
          tractionPatch NDIM self.d_rho self.d_mu u_idx p_idx self.d_face_wgt_sc_idx
            integration_box fobj.box_u_new trac patch = trac) ∧
    (∀ (integration_box : Box) (patch : Patch) (axis upperlower : Nat) (trac : Vector3d),
      patch.box.intersects NDIM (bdryBox integration_box axis upperlower) = false →
        tractionSide NDIM self.d_rho self.d_mu patch u_idx p_idx self.d_face_wgt_sc_idx
          integration_box fobj.box_u_new axis trac upperlower = trac) ∧
    ∃ fobj',
      (computeHydrodynamicForce NDIM self u_idx p_idx f_idx vol_sc_idx vol_cc_idx
        patch_hierarchy coarsest_ln finest_ln current_time new_time).evaluator.d_hydro_objs.find
          strct_id = some fobj' ∧
      fobj'.P_box_new = Vector3d.Zero ∧
      surfaceTraction NDIM self.d_rho self.d_mu u_idx p_idx self.d_face_wgt_sc_idx
          (computeFaceWeight NDIM self patch_hierarchy) coarsest_ln finest_ln fobj =
        Vector3d.Zero ∧
      fobj'.F_new =
        (fobj.P_box_current + fobj.P_new - fobj.P_current) / (new_time - current_time) := by
  refine ⟨fun integration_box patch P_box_new trac h =>
      ⟨momentumPatch_skip NDIM _ _ _ _ _ patch h, tractionPatch_skip NDIM _ _ _ _ _ _ _ _ patch h⟩,
    fun integration_box patch axis upperlower trac h =>
      tractionSide_skip NDIM _ _ patch _ _ _ _ _ axis trac upperlower h, ?_⟩
  obtain ⟨hmom, htrac⟩ := integrals_eq_zero_of_no_intersection NDIM self u_idx p_idx vol_sc_idx
    patch_hierarchy coarsest_ln finest_ln fobj hskip
  refine ⟨(computeBody NDIM self u_idx p_idx vol_sc_idx
    (computeFaceWeight NDIM self patch_hierarchy) coarsest_ln finest_ln
    (new_time - current_time) [] fobj).1, ?_, hmom, htrac, ?_⟩
  · rw [computeHydrodynamicForce_find, hreg]
    rfl
  · have hF : (computeBody NDIM self u_idx p_idx vol_sc_idx
        (computeFaceWeight NDIM self patch_hierarchy) coarsest_ln finest_ln
        (new_time - current_time) [] fobj).1.F_new =
        (fobj.P_box_current -
              momentumIntegral NDIM self.d_rho u_idx vol_sc_idx
                (computeFaceWeight NDIM self patch_hierarchy) coarsest_ln finest_ln fobj +
            fobj.P_new - fobj.P_current) / (new_time - current_time) +
          surfaceTraction NDIM self.d_rho self.d_mu u_idx p_idx self.d_face_wgt_sc_idx
            (computeFaceWeight NDIM self patch_hierarchy) coarsest_ln finest_ln fobj := rfl
    rw [hF, hmom, htrac]
    simp [Vector3d.sub_def, Vector3d.add_def, Vector3d.div_def, Vector3d.Zero]

theorem far_no_intersection :
    ∀ ln : Int, 0 ≤ ln → ln ≤ 0 → ∀ patch ∈ (flowHierarchy.getPatchLevel ln).patches,
      patch.box.intersects 2 (integrationBox (flowHierarchy.getPatchLevel ln) farObject) =
        false := by
  intro ln h0 h1 patch hpatch
  have hln : ln = 0 := by omega
  subst hln
  have hmem : patch = flowPatch := by
    simpa [flowHierarchy, PatchHierarchy.getPatchLevel] using hpatch
  subst hmem
  simp [integrationBox, flowHierarchy, PatchHierarchy.getPatchLevel, farObject, zeroObject,
    Box.intersects, flowPatch, Index.get, List.range_succ]

theorem computeHydrodynamicForce_no_intersection_witness :
    ∃ fobj',
      (computeHydrodynamicForce 2 farEvaluator 1 2 0 3 0 flowHierarchy 0 0 0
        1).evaluator.d_hydro_objs.find 1 = some fobj' ∧
      fobj'.P_box_new = Vector3d.Zero ∧
      surfaceTraction 2 farEvaluator.d_rho farEvaluator.d_mu 1 2 farEvaluator.d_face_wgt_sc_idx
          (computeFaceWeight 2 farEvaluator flowHierarchy) 0 0 farObject = Vector3d.Zero ∧
      fobj'.F_new = (farObject.P_box_current + farObject.P_new - farObject.P_current) /
        ((1 : ℚ) - 0) :=
  (computeHydrodynamicForce_no_intersection 2 farEvaluator 1 2 0 3 0 flowHierarchy 0 0 0 1 1
    farObject rfl far_no_intersection).2.2

/-! ## The periodic images of a covered box -/

theorem mem_periodicImages (NDIM : Nat) (periodic_shift : Index) (b image : Box) :
    image ∈ periodicImages NDIM periodic_shift b ↔
      ∃ a < NDIM, periodic_shift.get a ≠ 0 ∧
        (image = Box.shift b (Index.zero.set a (-1 * periodic_shift.get a)) ∨
          image = Box.shift b (Index.zero.set a (1 * periodic_shift.get a))) := by
  unfold periodicImages
  simp only [List.mem_flatMap, List.mem_range]
  constructor
  · rintro ⟨a, ha, himg⟩
    by_cases hs : periodic_shift.get a ≠ 0
    · rw [if_pos hs] at himg
      simp only [List.map_cons, List.map_nil, List.mem_cons, List.mem_singleton,
        List.mem_nil_iff, or_false] at himg
      exact ⟨a, ha, hs, himg⟩
    · rw [if_neg hs] at himg
      exact absurd himg (List.not_mem_nil _)
  · rintro ⟨a, ha, hs, himg⟩
    refine ⟨a, ha, ?_⟩
    rw [if_pos hs]
    simp only [List.map_cons, List.map_nil, List.mem_cons, List.mem_singleton,
      List.mem_nil_iff, or_false]
    exact himg

theorem mem_zeroingBoxes (NDIM : Nat) (periodic_shift : Index) (boxes : List Box)
    (image : Box) :
    image ∈ zeroingBoxes NDIM periodic_shift boxes ↔
      ∃ b ∈ boxes, image ∈ periodicImages NDIM periodic_shift b ∨ image = b := by
  unfold zeroingBoxes
  simp only [List.mem_flatMap, List.mem_append, List.mem_singleton]

theorem belowFinest_weight (NDIM : Nat) (self : IBHydrodynamicForceEvaluator)
    (patch_hierarchy : PatchHierarchy) (ln : Int) (patch : Patch) (axis : Nat) (idx : Index)
    (hdim : NDIM ≤ 3) (hbelow : ln < patch_hierarchy.getFinestLevelNumber)
    (haxis : axis < NDIM)
    (hface : (patch.box.toSideBox NDIM axis).contains NDIM idx = true) :
    (computeFaceWeightPatch NDIM self patch_hierarchy ln (patch_hierarchy.getPatchLevel ln)
        patch).sideData self.d_face_wgt_sc_idx axis idx =
      if ∃ image ∈ zeroingBoxes NDIM (patch_hierarchy.getPatchLevel ln).periodicShift
          (refinedRegionBoxes patch_hierarchy ln),
          (image.toSideBox NDIM axis).contains NDIM idx = true then 0
      else cellVolume NDIM patch.dx / patch.dx axis := by
  simp only [computeFaceWeightPatch, if_true, hbelow, decide_True]
  rw [faceWeightPatch_apply]
  have hz : (∃ b ∈ zeroingBoxes NDIM (patch_hierarchy.getPatchLevel ln).periodicShift
        (refinedRegionBoxes patch_hierarchy ln), zeroedBy NDIM patch.box b axis idx = true) ↔
      ∃ image ∈ zeroingBoxes NDIM (patch_hierarchy.getPatchLevel ln).periodicShift
        (refinedRegionBoxes patch_hierarchy ln),
        (image.toSideBox NDIM axis).contains NDIM idx = true := by
    constructor
    · rintro ⟨b, hb, hzb⟩
      exact ⟨b, hb, by rw [← zeroedBy_eq_contains NDIM patch.box b axis idx hdim haxis hface]; exact hzb⟩
    · rintro ⟨b, hb, hzb⟩
      exact ⟨b, hb, by rw [zeroedBy_eq_contains NDIM patch.box b axis idx hdim haxis hface]; exact hzb⟩
  by_cases hex : ∃ image ∈ zeroingBoxes NDIM (patch_hierarchy.getPatchLevel ln).periodicShift
      (refinedRegionBoxes patch_hierarchy ln),
      (image.toSideBox NDIM axis).contains NDIM idx = true
  · rw [if_pos ⟨rfl, hz.mpr hex⟩, if_pos hex]
  · rw [if_neg (fun h => hex (hz.mp h.2)), if_pos ⟨haxis, hface⟩, if_neg hex]



/-- C22: on a level `ln` below the finest, for a face of orientation `axis` held by a patch of
the level after `computeFaceWeight`, with `s` the periodic shift of the level: the weight is
zero when the face is a face of a cell of a covered box (a box of the next finer level,
coarsened) shifted by `-s(a)` or by `+s(a)` along an axis `a` whose shift `s(a)` is not zero,
whether the face lies inside the shifted box or on its boundary; it is zero when the face is a
face of a cell of a covered box itself; and when the face is a face of no cell of a covered box
or of such an image, the weight is the unrefined `cell_volume / dx[axis]`, so no image along an
axis whose shift is zero is taken into account. -/
theorem computeFaceWeight_periodic_images (NDIM : Nat) (self : IBHydrodynamicForceEvaluator)
    (patch_hierarchy : PatchHierarchy) (ln : Int) (patch' : Patch) (axis : Nat) (idx : Index)
    (hdim : NDIM ≤ 3) (hbelow : ln < patch_hierarchy.getFinestLevelNumber)
    (hpatch : patch' ∈ ((computeFaceWeight NDIM self patch_hierarchy).getPatchLevel ln).patches)
    (haxis : axis < NDIM)
    (hface : (patch'.box.toSideBox NDIM axis).contains NDIM idx = true) :
    (∀ b ∈ refinedRegionBoxes patch_hierarchy ln, ∀ a < NDIM,
      (patch_hierarchy.getPatchLevel ln).periodicShift.get a ≠ 0 →
        ∀ sgn : Int, sgn = -1 ∨ sgn = 1 →
          ((Box.shift b (Index.zero.set a
              (sgn * (patch_hierarchy.getPatchLevel ln).periodicShift.get a))).toSideBox NDIM
            axis).contains NDIM idx = true →
          patch'.sideData self.d_face_wgt_sc_idx axis idx = 0) ∧
    (∀ b ∈ refinedRegionBoxes patch_hierarchy ln,
      (b.toSideBox NDIM axis).contains NDIM idx = true →
        patch'.sideData self.d_face_wgt_sc_idx axis idx = 0) ∧
    ((∀ b ∈ refinedRegionBoxes patch_hierarchy ln,
        (b.toSideBox NDIM axis).contains NDIM idx = false ∧
        ∀ a < NDIM, (patch_hierarchy.getPatchLevel ln).periodicShift.get a ≠ 0 →
          ∀ sgn : Int, sgn = -1 ∨ sgn = 1 →
            ((Box.shift b (Index.zero.set a
                (sgn * (patch_hierarchy.getPatchLevel ln).periodicShift.get a))).toSideBox NDIM
              axis).contains NDIM idx = false) →
      patch'.sideData self.d_face_wgt_sc_idx axis idx =
        cellVolume NDIM patch'.dx / patch'.dx axis) := by
  rw [mem_computeFaceWeight_patches] at hpatch
  obtain ⟨patch, -, rfl⟩ := hpatch
  have hw := belowFinest_weight NDIM self patch_hierarchy ln patch axis idx hdim hbelow haxis
    hface
  refine ⟨fun b hb a ha hs sgn hsgn hin => ?_, fun b hb hin => ?_, fun hout => ?_⟩
  · rw [hw, if_pos]
    refine ⟨_, (mem_zeroingBoxes NDIM _ _ _).mpr ⟨b, hb, Or.inl ?_⟩, hin⟩
    rw [mem_periodicImages]
    refine ⟨a, ha, hs, ?_⟩
    rcases hsgn with rfl | rfl
    · exact Or.inl rfl
    · exact Or.inr rfl
  · rw [hw, if_pos]
    exact ⟨b, (mem_zeroingBoxes NDIM _ _ _).mpr ⟨b, hb, Or.inr rfl⟩, hin⟩
  · rw [hw, if_neg]
    · rfl
    · rintro ⟨image, himage, hin⟩
      rw [mem_zeroingBoxes] at himage
      obtain ⟨b, hb, himg | rfl⟩ := himage
      · rw [mem_periodicImages] at himg
        obtain ⟨a, ha, hs, rfl | rfl⟩ := himg
        · have := (hout b hb).2 a ha hs (-1) (Or.inl rfl)
          rw [hin] at this
          exact Bool.noConfusion this
        · have := (hout b hb).2 a ha hs 1 (Or.inr rfl)
          rw [hin] at this
          exact Bool.noConfusion this
      · have := (hout image hb).1
        rw [hin] at this
        exact Bool.noConfusion this

theorem computeFaceWeight_periodic_images_witness :
    (computeFaceWeightPatch 2 sampleEvaluator periodicHierarchy 0
      (periodicHierarchy.getPatchLevel 0) coarsePatch).sideData
        sampleEvaluator.d_face_wgt_sc_idx 0 ⟨0, 1, 0⟩ = 0 :=
  (computeFaceWeight_periodic_images 2 sampleEvaluator periodicHierarchy 0
    (computeFaceWeightPatch 2 sampleEvaluator periodicHierarchy 0
      (periodicHierarchy.getPatchLevel 0) coarsePatch) 0 ⟨0, 1, 0⟩
    (by decide) (by decide)
    ((mem_computeFaceWeight_patches 2 sampleEvaluator periodicHierarchy 0 _).mpr
      ⟨coarsePatch, List.Mem.head _, rfl⟩)
    (by decide) (by decide)).1
    { lower := ⟨3, 1, 0⟩, upper := ⟨3, 2, 0⟩ } (by decide) 0 (by decide) (by decide) (-1)
    (Or.inl rfl) (by decide)

/-! ## The face weights as a cache -/

theorem setSideData_getPatchLevel (patch_hierarchy : PatchHierarchy) (idx : Int)
    (g : Patch → SideData) (ln : Int) :
    (patch_hierarchy.setSideData idx g).getPatchLevel ln =
      { patch_hierarchy.getPatchLevel ln with
        patches := (patch_hierarchy.getPatchLevel ln).patches.map fun patch =>
          { patch with sideData := fun i => if i = idx then g patch else patch.sideData i } } := by
  unfold PatchHierarchy.getPatchLevel
  by_cases hneg : ln < 0
  · simp [hneg]
  · simp only [hneg, if_false, PatchHierarchy.setSideData, List.getD_eq_getElem?_getD,
      List.getElem?_map]
    cases hget : patch_hierarchy.levels[ln.toNat]? with
    | none => simp
    | some level => simp

theorem setSideData_finest (patch_hierarchy : PatchHierarchy) (idx : Int)
    (g : Patch → SideData) :
    (patch_hierarchy.setSideData idx g).getFinestLevelNumber =
      patch_hierarchy.getFinestLevelNumber := by
  simp [PatchHierarchy.setSideData, PatchHierarchy.getFinestLevelNumber]

theorem setSideData_refinedRegionBoxes (patch_hierarchy : PatchHierarchy) (idx : Int)
    (g : Patch → SideData) (ln : Int) :
    refinedRegionBoxes (patch_hierarchy.setSideData idx g) ln =
      refinedRegionBoxes patch_hierarchy ln := by
  unfold refinedRegionBoxes
  rw [setSideData_finest, setSideData_getPatchLevel]
  simp [PatchLevel.getBoxes, Function.comp_def]

theorem faceWeightPatch_congr_data (NDIM : Nat) (below : Bool) (periodic_shift : Index)
    (refined_region_boxes : List Box) (patch patch0 : Patch) (data data0 : SideData)
    (hbox : patch0.box = patch.box) (hdx : patch0.dx = patch.dx) (a : Nat) (idx : Index)
    (ha : a < NDIM) (hface : (patch.box.toSideBox NDIM a).contains NDIM idx = true) :
    faceWeightPatch NDIM below periodic_shift refined_region_boxes patch0 data0 a idx =
      faceWeightPatch NDIM below periodic_shift refined_region_boxes patch data a idx := by
  rw [faceWeightPatch_apply, faceWeightPatch_apply, hbox, hdx]
  simp only [ha, hface, and_self, if_true]



/-- C23: the face weights `computeFaceWeight` builds do not depend on the values the field held
before: on the hierarchy whose face-weight data were replaced by arbitrary values `g`, the run
leaves on every level the same patch boxes and, on every face of every patch, the same weights
as on the hierarchy itself; a second run on the hierarchy left by a first one changes nothing;
and a call of `computeHydrodynamicForce` on a hierarchy that holds the weights of a previous
run gives the evaluator, hierarchy and reductions that reusing these cached weights gives. -/
theorem computeFaceWeight_cache (NDIM : Nat) (self : IBHydrodynamicForceEvaluator)
    (u_idx p_idx f_idx vol_sc_idx vol_cc_idx : Int) (patch_hierarchy : PatchHierarchy)
    (coarsest_ln finest_ln : Int) (current_time new_time : ℚ) :
    (∀ (g : Patch → SideData) (ln : Int),
      List.Forall₂
        (fun p q : Patch =>
          p.box = q.box ∧
            ∀ a < NDIM, ∀ idx : Index, (q.box.toSideBox NDIM a).contains NDIM idx = true →
              p.sideData self.d_face_wgt_sc_idx a idx = q.sideData self.d_face_wgt_sc_idx a idx)
        ((computeFaceWeight NDIM self
          (patch_hierarchy.setSideData self.d_face_wgt_sc_idx g)).getPatchLevel ln).patches
        ((computeFaceWeight NDIM self patch_hierarchy).getPatchLevel ln).patches) ∧
    computeFaceWeight NDIM self (computeFaceWeight NDIM self patch_hierarchy) =
      computeFaceWeight NDIM self patch_hierarchy ∧
    computeHydrodynamicForce NDIM self u_idx p_idx f_idx vol_sc_idx vol_cc_idx
        (computeFaceWeight NDIM self patch_hierarchy) coarsest_ln finest_ln current_time
        new_time =
      computeHydrodynamicForceCached NDIM self u_idx p_idx f_idx vol_sc_idx vol_cc_idx
        (computeFaceWeight NDIM self patch_hierarchy) coarsest_ln finest_ln current_time
        new_time ∧
    computeHydrodynamicForce NDIM self u_idx p_idx f_idx vol_sc_idx vol_cc_idx patch_hierarchy
        coarsest_ln finest_ln current_time new_time =
      computeHydrodynamicForceCached NDIM self u_idx p_idx f_idx vol_sc_idx vol_cc_idx
        (computeFaceWeight NDIM self patch_hierarchy) coarsest_ln finest_ln current_time
        new_time := by
  refine ⟨fun g ln => ?_, computeFaceWeight_idempotent NDIM self patch_hierarchy, ?_, rfl⟩
  · rw [computeFaceWeight_getPatchLevel, computeFaceWeight_getPatchLevel,
      setSideData_getPatchLevel]
    simp only [computeFaceWeightLevel, List.map_map]
    rw [List.forall₂_map_left_iff, List.forall₂_map_right_iff, List.forall₂_same]
    intro patch _
    refine ⟨rfl, fun a ha idx hface => ?_⟩
    simp only [Function.comp_apply, computeFaceWeightPatch, if_true, setSideData_finest,
      setSideData_refinedRegionBoxes]
    exact faceWeightPatch_congr_data NDIM _ _ _ patch _ _ _ rfl rfl a idx ha hface
  · have h : computeHydrodynamicForce NDIM self u_idx p_idx f_idx vol_sc_idx vol_cc_idx
        (computeFaceWeight NDIM self patch_hierarchy) coarsest_ln finest_ln current_time
        new_time =
        computeHydrodynamicForceCached NDIM self u_idx p_idx f_idx vol_sc_idx vol_cc_idx
          (computeFaceWeight NDIM self (computeFaceWeight NDIM self patch_hierarchy))
          coarsest_ln finest_ln current_time new_time := rfl
    rw [h, computeFaceWeight_idempotent]

/-! ## The order of the momentum sum -/

theorem foldl_add_left {α : Type} (f : Vector3d → α → Vector3d)
    (hf : ∀ P Q x, f (P + Q) x = P + f Q x) (l : List α) (P Q : Vector3d) :
    l.foldl f (P + Q) = P + l.foldl f Q := by
  induction l generalizing Q with
  | nil => rfl
  | cons hd tl ih => rw [List.foldl_cons, List.foldl_cons, hf, ih]

theorem foldl_eq_add_foldl_zero {α : Type} (f : Vector3d → α → Vector3d)
    (hf : ∀ P Q x, f (P + Q) x = P + f Q x) (l : List α) (P : Vector3d) :
    l.foldl f P = P + l.foldl f Vector3d.Zero := by
  have h := foldl_add_left f hf l P Vector3d.Zero
  have hP : P + Vector3d.Zero = P := add_zero P
  rw [hP] at h
  exact h

theorem momentumCell_add (NDIM : Nat) (d_rho : ℚ) (u_data vol_sc_data : SideData)
    (P Q : Vector3d) (cell_idx : Index) :
    momentumCell NDIM d_rho u_data vol_sc_data (P + Q) cell_idx =
      P + momentumCell NDIM d_rho u_data vol_sc_data Q cell_idx := by
  unfold momentumCell
  refine foldl_add_left _ ?_ _ P Q
  intro P Q axis
  obtain ⟨px, py, pz⟩ := P
  obtain ⟨qx, qy, qz⟩ := Q
  rcases axis with _ | _ | axis <;>
    simp [Vector3d.set, Vector3d.get, Vector3d.add_def, add_assoc]

theorem momentumPatch_add (NDIM : Nat) (d_rho : ℚ) (u_idx vol_sc_idx : Int)
    (integration_box : Box) (P Q : Vector3d) (patch : Patch) :
    momentumPatch NDIM d_rho u_idx vol_sc_idx integration_box (P + Q) patch =
      P + momentumPatch NDIM d_rho u_idx vol_sc_idx integration_box Q patch := by
  unfold momentumPatch
  by_cases hint : patch.box.intersects NDIM integration_box = true
  · simp only [hint, Bool.not_true, Bool.false_eq_true, if_false]
    exact foldl_add_left _ (fun P Q c => momentumCell_add NDIM d_rho _ _ P Q c) _ P Q
  · simp [hint]

theorem momentumLevel_eq_add_sum (NDIM : Nat) (d_rho : ℚ) (u_idx vol_sc_idx : Int)
    (patch_hierarchy : PatchHierarchy) (fobj : IBHydrodynamicForceObject) (P : Vector3d)
    (ln : Int) :
    momentumLevel NDIM d_rho u_idx vol_sc_idx patch_hierarchy fobj P ln =
      P +
        ((patch_hierarchy.getPatchLevel ln).patches.map fun patch =>
          momentumPatch NDIM d_rho u_idx vol_sc_idx
            (integrationBox (patch_hierarchy.getPatchLevel ln) fobj) Vector3d.Zero patch).sum := by
  unfold momentumLevel
  refine foldl_add_eq_sum _ _ (fun acc patch => ?_) _ _
  have h := momentumPatch_add NDIM d_rho u_idx vol_sc_idx
    (integrationBox (patch_hierarchy.getPatchLevel ln) fobj) acc Vector3d.Zero patch
  have hacc : acc + Vector3d.Zero = acc := add_zero acc
  rw [hacc] at h
  exact h

theorem foldl_momentumLevel_eq_sum (NDIM : Nat) (d_rho : ℚ) (u_idx vol_sc_idx : Int)
    (patch_hierarchy : PatchHierarchy) (fobj : IBHydrodynamicForceObject) (lns : List Int) :
    lns.foldl (momentumLevel NDIM d_rho u_idx vol_sc_idx patch_hierarchy fobj) Vector3d.Zero =
      (lns.map fun ln =>
        ((patch_hierarchy.getPatchLevel ln).patches.map fun patch =>
          momentumPatch NDIM d_rho u_idx vol_sc_idx
            (integrationBox (patch_hierarchy.getPatchLevel ln) fobj) Vector3d.Zero
            patch).sum).sum := by
  rw [foldl_add_eq_sum _ _
    (fun acc ln => momentumLevel_eq_add_sum NDIM d_rho u_idx vol_sc_idx patch_hierarchy fobj acc
      ln)]
  exact zero_add _



/-- C24: over the exact rationals the momentum integral does not depend on the order of the
loops over the levels and over the patches of a level: accumulating the levels in any order
`lns` that is a permutation of the levels from `finest_ln` down to `coarsest_ln`, on a hierarchy
whose levels hold the same patches in any order, gives the value the code accumulates from the
finest level to the coarsest; in particular accumulating from the coarsest level to the finest
gives that value. -/
theorem momentumIntegral_order_independent (NDIM : Nat) (d_rho : ℚ) (u_idx vol_sc_idx : Int)
    (patch_hierarchy reordered : PatchHierarchy) (coarsest_ln finest_ln : Int)
    (fobj : IBHydrodynamicForceObject) (lns : List Int)
    (hlevels : lns.Perm (levelsDescending coarsest_ln finest_ln))
    (hpatches : ∀ ln, coarsest_ln ≤ ln → ln ≤ finest_ln →
      (reordered.getPatchLevel ln).patches.Perm (patch_hierarchy.getPatchLevel ln).patches ∧
        (reordered.getPatchLevel ln).getCellIndex =
          (patch_hierarchy.getPatchLevel ln).getCellIndex) :
    lns.foldl (momentumLevel NDIM d_rho u_idx vol_sc_idx reordered fobj) Vector3d.Zero =
        momentumIntegral NDIM d_rho u_idx vol_sc_idx patch_hierarchy coarsest_ln finest_ln
          fobj ∧
    (levelsDescending coarsest_ln finest_ln).reverse.foldl
        (momentumLevel NDIM d_rho u_idx vol_sc_idx patch_hierarchy fobj) Vector3d.Zero =
      momentumIntegral NDIM d_rho u_idx vol_sc_idx patch_hierarchy coarsest_ln finest_ln
        fobj := by
  have hint : momentumIntegral NDIM d_rho u_idx vol_sc_idx patch_hierarchy coarsest_ln
      finest_ln fobj =
      (levelsDescending coarsest_ln finest_ln).foldl
        (momentumLevel NDIM d_rho u_idx vol_sc_idx patch_hierarchy fobj) Vector3d.Zero := rfl
  constructor
  · rw [hint, foldl_momentumLevel_eq_sum, foldl_momentumLevel_eq_sum,
      (hlevels.map _).sum_eq]
    congr 1
    apply List.map_congr_left
    intro ln hln
    rw [mem_levelsDescending] at hln
    obtain ⟨hperm, hcell⟩ := hpatches ln hln.1 hln.2
    have hbox : integrationBox (reordered.getPatchLevel ln) fobj =
        integrationBox (patch_hierarchy.getPatchLevel ln) fobj := by
      unfold integrationBox
      rw [hcell]
    rw [hbox]
    exact (hperm.map _).sum_eq
  · rw [hint, foldl_momentumLevel_eq_sum, foldl_momentumLevel_eq_sum]
    exact ((List.reverse_perm _).map _).sum_eq

theorem order_levels : [(0 : Int), 1].Perm (levelsDescending 0 1) := by
  have h : levelsDescending 0 1 = [1, 0] := by decide
  rw [h]
  exact List.Perm.swap _ _ _

theorem order_patches :
    ∀ ln : Int, 0 ≤ ln → ln ≤ 1 →
      (reorderedHierarchy.getPatchLevel ln).patches.Perm
          (orderHierarchy.getPatchLevel ln).patches ∧
        (reorderedHierarchy.getPatchLevel ln).getCellIndex =
          (orderHierarchy.getPatchLevel ln).getCellIndex := by
  intro ln h0 h1
  have hln : ln = 0 ∨ ln = 1 := by omega
  rcases hln with rfl | rfl
  · exact ⟨List.Perm.swap _ _ _, rfl⟩
  · exact ⟨List.Perm.refl _, rfl⟩

theorem momentumIntegral_order_independent_witness :
    [(0 : Int), 1].foldl (momentumLevel 2 2 4 4 reorderedHierarchy restObject) Vector3d.Zero =
        momentumIntegral 2 2 4 4 orderHierarchy 0 1 restObject ∧
    (levelsDescending 0 1).reverse.foldl (momentumLevel 2 2 4 4 orderHierarchy restObject)
        Vector3d.Zero =
      momentumIntegral 2 2 4 4 orderHierarchy 0 1 restObject :=
  momentumIntegral_order_independent 2 2 4 4 orderHierarchy reorderedHierarchy 0 1 restObject
    [0, 1] order_levels order_patches

/-! ## The sum-reductions of a call -/

theorem computeHydrodynamicForce_reductions_length (NDIM : Nat)
    (self : IBHydrodynamicForceEvaluator) (u_idx p_idx f_idx vol_sc_idx vol_cc_idx : Int)
    (patch_hierarchy : PatchHierarchy) (coarsest_ln finest_ln : Int)
    (current_time new_time : ℚ) :
    (computeHydrodynamicForce NDIM self u_idx p_idx f_idx vol_sc_idx vol_cc_idx patch_hierarchy
      coarsest_ln finest_ln current_time new_time).reductions.length =
      2 * (HydroObjMap.keys self.d_hydro_objs).length := by
  rw [computeHydrodynamicForce_reductions]
  refine (length_flatMap_const _ _ 2 ?_).trans ?_
  · intro it _
    rfl
  · rw [HydroObjMap.keys, List.length_map]
    omega

/-- C25: a call of `computeHydrodynamicForce` makes its sum-reductions in the iteration order of
the map of bodies, which is the ascending order of the structure ids: for every body first the
reduction of its momentum integral, then the reduction of its traction integral, and nothing
else, so twice as many reductions as there are registered ids; and a call of an evaluator with
the same registered ids makes the same number of reductions, whatever the hierarchy (the patches
of the worker and their data), the descriptor indices, the range of levels and the times. -/
theorem computeHydrodynamicForce_two_reductions (NDIM : Nat)
    (self : IBHydrodynamicForceEvaluator) (u_idx p_idx f_idx vol_sc_idx vol_cc_idx : Int)
    (patch_hierarchy : PatchHierarchy) (coarsest_ln finest_ln : Int)
    (current_time new_time : ℚ) :
    (computeHydrodynamicForce NDIM self u_idx p_idx f_idx vol_sc_idx vol_cc_idx patch_hierarchy
      coarsest_ln finest_ln current_time new_time).reductions =
      (self.d_hydro_objs.flatMap fun it =>
        [momentumIntegral NDIM self.d_rho u_idx vol_sc_idx
            (computeFaceWeight NDIM self patch_hierarchy) coarsest_ln finest_ln it.2,
          surfaceTraction NDIM self.d_rho self.d_mu u_idx p_idx self.d_face_wgt_sc_idx
            (computeFaceWeight NDIM self patch_hierarchy) coarsest_ln finest_ln it.2]) ∧
    (HydroObjMap.WF self.d_hydro_objs →
      (self.d_hydro_objs.map fun it => it.1).Pairwise fun a b => a < b) ∧
    (computeHydrodynamicForce NDIM self u_idx p_idx f_idx vol_sc_idx vol_cc_idx patch_hierarchy
      coarsest_ln finest_ln current_time new_time).reductions.length =
      2 * (HydroObjMap.keys self.d_hydro_objs).length ∧
    (∀ (self' : IBHydrodynamicForceEvaluator) (u_idx' p_idx' f_idx' vol_sc_idx' vol_cc_idx' : Int)
      (patch_hierarchy' : PatchHierarchy) (coarsest_ln' finest_ln' : Int)
      (current_time' new_time' : ℚ),
      HydroObjMap.keys self'.d_hydro_objs = HydroObjMap.keys self.d_hydro_objs →
        (computeHydrodynamicForce NDIM self' u_idx' p_idx' f_idx' vol_sc_idx' vol_cc_idx'
          patch_hierarchy' coarsest_ln' finest_ln' current_time' new_time').reductions.length =
        (computeHydrodynamicForce NDIM self u_idx p_idx f_idx vol_sc_idx vol_cc_idx
          patch_hierarchy coarsest_ln finest_ln current_time new_time).reductions.length) := by
  refine ⟨computeHydrodynamicForce_reductions NDIM self u_idx p_idx f_idx vol_sc_idx vol_cc_idx
    patch_hierarchy coarsest_ln finest_ln current_time new_time, fun hwf => hwf,
    computeHydrodynamicForce_reductions_length NDIM self u_idx p_idx f_idx vol_sc_idx vol_cc_idx
      patch_hierarchy coarsest_ln finest_ln current_time new_time, ?_⟩
  intro self' u_idx' p_idx' f_idx' vol_sc_idx' vol_cc_idx' patch_hierarchy' coarsest_ln'
    finest_ln' current_time' new_time' hkeys
  rw [computeHydrodynamicForce_reductions_length, computeHydrodynamicForce_reductions_length,
    hkeys]

/-! ## What a call leaves unchanged -/

/-- C26: for a registered body, the record `computeHydrodynamicForce` stores is the record it
found with the members `P_box_new` and `F_new` replaced and every other member as it was: the
identity, every current-time member, the new-time box corners and box velocity, `P_new`,
`L_new`, `T_new` and `L_box_new`; the registered ids and the other members of the evaluator are
unchanged; so the `T_current` and `L_box_current` that a following `postprocessIntegrateData`
stores are the `T_new` and `L_box_new` the body had before the call. -/
theorem computeHydrodynamicForce_frame (NDIM : Nat) (self : IBHydrodynamicForceEvaluator)
    (u_idx p_idx f_idx vol_sc_idx vol_cc_idx : Int) (patch_hierarchy : PatchHierarchy)
    (coarsest_ln finest_ln : Int) (current_time new_time : ℚ) (strct_id : Int)
    (fobj : IBHydrodynamicForceObject)
    (hreg : self.d_hydro_objs.find strct_id = some fobj) :
    (∃ fobj',
      (computeHydrodynamicForce NDIM self u_idx p_idx f_idx vol_sc_idx vol_cc_idx
        patch_hierarchy coarsest_ln finest_ln current_time new_time).evaluator.d_hydro_objs.find
          strct_id = some fobj' ∧
      fobj' = { fobj with P_box_new := fobj'.P_box_new, F_new := fobj'.F_new } ∧
      fobj'.strct_id = fobj.strct_id ∧ fobj'.strct_ln = fobj.strct_ln ∧
      fobj'.F_current = fobj.F_current ∧ fobj'.T_current = fobj.T_current ∧
      fobj'.P_current = fobj.P_current ∧ fobj'.L_current = fobj.L_current ∧
      fobj'.box_u_current = fobj.box_u_current ∧
      fobj'.box_X_lower_current = fobj.box_X_lower_current ∧
      fobj'.box_X_upper_current = fobj.box_X_upper_current ∧
      fobj'.P_box_current = fobj.P_box_current ∧ fobj'.L_box_current = fobj.L_box_current ∧
      fobj'.box_u_new = fobj.box_u_new ∧
      fobj'.box_X_lower_new = fobj.box_X_lower_new ∧
      fobj'.box_X_upper_new = fobj.box_X_upper_new ∧
      fobj'.P_new = fobj.P_new ∧ fobj'.L_new = fobj.L_new ∧
      fobj'.T_new = fobj.T_new ∧ fobj'.L_box_new = fobj.L_box_new) ∧
    HydroObjMap.keys (computeHydrodynamicForce NDIM self u_idx p_idx f_idx vol_sc_idx vol_cc_idx
      patch_hierarchy coarsest_ln finest_ln current_time new_time).evaluator.d_hydro_objs =
      HydroObjMap.keys self.d_hydro_objs ∧
    (computeHydrodynamicForce NDIM self u_idx p_idx f_idx vol_sc_idx vol_cc_idx patch_hierarchy
      coarsest_ln finest_ln current_time new_time).evaluator =
      { self with
        d_hydro_objs := (computeHydrodynamicForce NDIM self u_idx p_idx f_idx vol_sc_idx
          vol_cc_idx patch_hierarchy coarsest_ln finest_ln current_time
          new_time).evaluator.d_hydro_objs } ∧
    ∃ promoted,
      (postprocessIntegrateData
        (computeHydrodynamicForce NDIM self u_idx p_idx f_idx vol_sc_idx vol_cc_idx
          patch_hierarchy coarsest_ln finest_ln current_time new_time).evaluator current_time
        new_time).d_hydro_objs.find strct_id = some promoted ∧
      promoted.T_current = fobj.T_new ∧ promoted.L_box_current = fobj.L_box_new := by
  have hfind : (computeHydrodynamicForce NDIM self u_idx p_idx f_idx vol_sc_idx vol_cc_idx
      patch_hierarchy coarsest_ln finest_ln current_time new_time).evaluator.d_hydro_objs.find
        strct_id =
      some (computeBody NDIM self u_idx p_idx vol_sc_idx
        (computeFaceWeight NDIM self patch_hierarchy) coarsest_ln finest_ln
        (new_time - current_time) [] fobj).1 := by
    rw [computeHydrodynamicForce_find, hreg]
    rfl
  refine ⟨⟨_, hfind, rfl, rfl, rfl, rfl, rfl, rfl, rfl, rfl, rfl, rfl, rfl, rfl, rfl, rfl, rfl,
    rfl, rfl, rfl, rfl⟩, ?_, rfl, ?_⟩
  · exact computeHydrodynamicForce_keys NDIM self u_idx p_idx f_idx vol_sc_idx vol_cc_idx
      patch_hierarchy coarsest_ln finest_ln current_time new_time
  · refine ⟨promote (computeBody NDIM self u_idx p_idx vol_sc_idx
      (computeFaceWeight NDIM self patch_hierarchy) coarsest_ln finest_ln
      (new_time - current_time) [] fobj).1, ?_, rfl, rfl⟩
    unfold postprocessIntegrateData
    rw [HydroObjMap.find_map_snd _ strct_id promote, hfind]
    rfl



theorem computeHydrodynamicForce_frame_witness :
    (∃ fobj',
      (computeHydrodynamicForce 3 sampleEvaluator 1 2 0 3 0
        sampleHierarchy 0 0 0 1).evaluator.d_hydro_objs.find
          1 = some fobj' ∧
      fobj' = { sampleObject with P_box_new := fobj'.P_box_new, F_new := fobj'.F_new } ∧
      fobj'.strct_id = sampleObject.strct_id ∧ fobj'.strct_ln = sampleObject.strct_ln ∧
      fobj'.F_current = sampleObject.F_current ∧ fobj'.T_current = sampleObject.T_current ∧
      fobj'.P_current = sampleObject.P_current ∧ fobj'.L_current = sampleObject.L_current ∧
      fobj'.box_u_current = sampleObject.box_u_current ∧
      fobj'.box_X_lower_current = sampleObject.box_X_lower_current ∧
      fobj'.box_X_upper_current = sampleObject.box_X_upper_current ∧
      fobj'.P_box_current = sampleObject.P_box_current ∧
      fobj'.L_box_current = sampleObject.L_box_current ∧
      fobj'.box_u_new = sampleObject.box_u_new ∧
      fobj'.box_X_lower_new = sampleObject.box_X_lower_new ∧
      fobj'.box_X_upper_new = sampleObject.box_X_upper_new ∧
      fobj'.P_new = sampleObject.P_new ∧ fobj'.L_new = sampleObject.L_new ∧
      fobj'.T_new = sampleObject.T_new ∧ fobj'.L_box_new = sampleObject.L_box_new) ∧
    HydroObjMap.keys (computeHydrodynamicForce 3 sampleEvaluator 1 2 0 3 0
      sampleHierarchy 0 0 0 1).evaluator.d_hydro_objs =
      HydroObjMap.keys sampleEvaluator.d_hydro_objs ∧
    (computeHydrodynamicForce 3 sampleEvaluator 1 2 0 3 0 sampleHierarchy
      0 0 0 1).evaluator =
      { sampleEvaluator with
        d_hydro_objs := (computeHydrodynamicForce 3 sampleEvaluator 1 2 0 3
          0 sampleHierarchy 0 0 0
          1).evaluator.d_hydro_objs } ∧
    ∃ promoted,
      (postprocessIntegrateData
        (computeHydrodynamicForce 3 sampleEvaluator 1 2 0 3 0
          sampleHierarchy 0 0 0 1).evaluator 0
        1).d_hydro_objs.find 1 = some promoted ∧
      promoted.T_current = sampleObject.T_new ∧ promoted.L_box_current = sampleObject.L_box_new :=
  computeHydrodynamicForce_frame 3 sampleEvaluator 1 2 0 3 0 sampleHierarchy 0 0 0 1 1
    sampleObject rfl

/-! ## The keys of the checkpoint are collision-free -/

/-- C27: the key of a quantity of a body is its prefix (`F_`, `T_`, `P_`, `L_`, `P_box_`,
`L_box_`, `X_lo_`, `X_hi_`) followed by the decimal numeral of the structure id, with a minus
sign for a negative id, and two keys are equal only for the same quantity and the same id; so,
for a well-formed map of bodies, after `putToDatabase` the entry under the key of a quantity of
a registered body holds the three components of that body's current-time value, the entries
under the keys of an id that is not registered are those the database held before, and, when
the database held none of the keys before, it has grown by exactly eight entries for every
body: no entry was overwritten. -/
theorem putToDatabase_collision_free (self : IBHydrodynamicForceEvaluator) (db : Database)
    (hwf : HydroObjMap.WF self.d_hydro_objs) :
    (∀ (f g : RestartField) (a b : Int), restartKey f a = restartKey g b ↔ f = g ∧ a = b) ∧
    (∀ (f : RestartField) (a : Int), restartKey f a = f.tag ++ toString a) ∧
    (RestartField.all.map fun f => restartKey f (-12)) =
      ["F_-12", "T_-12", "P_-12", "L_-12", "P_box_-12", "L_box_-12", "X_lo_-12", "X_hi_-12"] ∧
    (∀ (strct_id : Int) (force_obj : IBHydrodynamicForceObject),
      self.d_hydro_objs.find strct_id = some force_obj →
        ∀ g : RestartField,
          (putToDatabase self db).lookup (restartKey g strct_id) =
            some [(g.value force_obj).x, (g.value force_obj).y, (g.value force_obj).z]) ∧
    (∀ strct_id : Int, self.d_hydro_objs.find strct_id = none →
      ∀ g : RestartField,
        (putToDatabase self db).lookup (restartKey g strct_id) =
          db.lookup (restartKey g strct_id)) ∧
    ((∀ g : RestartField, ∀ strct_id ∈ HydroObjMap.keys self.d_hydro_objs,
        db.lookup (restartKey g strct_id) = none) →
      (putToDatabase self db).length = db.length + 8 * self.d_hydro_objs.length) := by
  refine ⟨restartKey_eq_iff, fun _ _ => rfl, by decide, ?_, ?_, ?_⟩
  · intro strct_id force_obj hreg g
    have h := lookup_foldl_putBody self.d_hydro_objs db g strct_id hwf
    rw [hreg] at h
    exact h
  · intro strct_id hnone g
    have h := lookup_foldl_putBody self.d_hydro_objs db g strct_id hwf
    rw [hnone] at h
    exact h
  · intro hfresh
    exact length_foldl_putBody self.d_hydro_objs db hwf hfresh

theorem pair_WF : HydroObjMap.WF pairEvaluator.d_hydro_objs := by
  simp [HydroObjMap.WF, HydroObjMap.keys, pairEvaluator, emptyEvaluator]



theorem putToDatabase_collision_free_witness :
    (∀ (f g : RestartField) (a b : Int), restartKey f a = restartKey g b ↔ f = g ∧ a = b) ∧
    (∀ (f : RestartField) (a : Int), restartKey f a = f.tag ++ toString a) ∧
    (RestartField.all.map fun f => restartKey f (-12)) =
      ["F_-12", "T_-12", "P_-12", "L_-12", "P_box_-12", "L_box_-12", "X_lo_-12", "X_hi_-12"] ∧
    (∀ (strct_id : Int) (force_obj : IBHydrodynamicForceObject),
      pairEvaluator.d_hydro_objs.find strct_id = some force_obj →
        ∀ g : RestartField,
          (putToDatabase pairEvaluator ([] : Database)).lookup (restartKey g strct_id) =
            some [(g.value force_obj).x, (g.value force_obj).y, (g.value force_obj).z]) ∧
    (∀ strct_id : Int, pairEvaluator.d_hydro_objs.find strct_id = none →
      ∀ g : RestartField,
        (putToDatabase pairEvaluator ([] : Database)).lookup (restartKey g strct_id) =
          ([] : Database).lookup (restartKey g strct_id)) ∧
    ((∀ g : RestartField, ∀ strct_id ∈ HydroObjMap.keys pairEvaluator.d_hydro_objs,
        ([] : Database).lookup (restartKey g strct_id) = none) →
      (putToDatabase pairEvaluator ([] : Database)).length =
        ([] : Database).length + 8 * pairEvaluator.d_hydro_objs.length) :=
  putToDatabase_collision_free pairEvaluator [] pair_WF

/-! ## Rounding to binary64 -/

namespace Binary64

theorem bitLengthAux_spec (fuel : Nat) : ∀ n : Nat, n ≤ fuel → 0 < n →
    2 ^ (bitLengthAux fuel n - 1) ≤ n ∧ n < 2 ^ bitLengthAux fuel n ∧
      0 < bitLengthAux fuel n := by
  induction fuel with
  | zero => intro n h hn; omega
  | succ fuel ih =>
    intro n h hn
    have hn0 : n ≠ 0 := by omega
    simp only [bitLengthAux, hn0, if_false]
    by_cases h1 : n = 1
    · subst h1
      have hz : bitLengthAux fuel (1 / 2) = 0 := by
        cases fuel <;> simp [bitLengthAux]
      rw [hz]
      simp
    · have h2 : 0 < n / 2 := Nat.div_pos (by omega) (by decide)
      have hle : n / 2 ≤ fuel := by omega
      obtain ⟨hlo, hhi, hpos⟩ := ih (n / 2) hle h2
      refine ⟨?_, ?_, by omega⟩
      · have : bitLengthAux fuel (n / 2) + 1 - 1 = (bitLengthAux fuel (n / 2) - 1) + 1 := by omega
        rw [this, pow_succ]
        omega
      · rw [pow_succ]
        omega

/-- The number of binary digits brackets a positive number between two powers of two. -/
theorem bitLength_spec (n : Nat) (hn : 0 < n) :
    2 ^ (bitLength n - 1) ≤ n ∧ n < 2 ^ bitLength n ∧ 0 < bitLength n :=
  bitLengthAux_spec n n le_rfl hn

theorem zpow_two_split (e : Int) :
    (2 : ℚ) ^ e = (2 : ℚ) ^ e.toNat / (2 : ℚ) ^ (-e).toNat := by
  rcases le_total 0 e with h | h
  · obtain ⟨a, rfl⟩ := Int.eq_ofNat_of_zero_le h
    simp
  · obtain ⟨a, ha⟩ := Int.eq_ofNat_of_zero_le (neg_nonneg.mpr h)
    have he : e = -(a : Int) := by omega
    subst he
    simp

theorem scaled_cast (n d : Nat) (e : Int) (hd : 0 < d) :
    ((n * 2 ^ (-e).toNat : Nat) : ℚ) / ((d * 2 ^ e.toNat : Nat) : ℚ) =
      (n : ℚ) / d / (2 : ℚ) ^ e := by
  have hd0 : (d : ℚ) ≠ 0 := by positivity
  rw [zpow_two_split e]
  push_cast
  field_simp

theorem scaled_le_iff (n d : Nat) (k : Int) (hd : 0 < d) :
    d * 2 ^ k.toNat ≤ n * 2 ^ (-k).toNat ↔ (2 : ℚ) ^ k ≤ (n : ℚ) / d := by
  have hd0 : (0 : ℚ) < d := by positivity
  have hb : (0 : ℚ) < (2 : ℚ) ^ (-k).toNat := by positivity
  rw [zpow_two_split k, div_le_div_iff₀ hb hd0]
  constructor
  · intro h
    have h2 : ((d * 2 ^ k.toNat : Nat) : ℚ) ≤ ((n * 2 ^ (-k).toNat : Nat) : ℚ) := by
      exact_mod_cast h
    push_cast at h2
    linarith
  · intro h
    have h2 : ((d * 2 ^ k.toNat : Nat) : ℚ) ≤ ((n * 2 ^ (-k).toNat : Nat) : ℚ) := by
      push_cast
      linarith
    exact_mod_cast h2

/-- The exponent found for a positive quotient: not below the subnormal exponent, the quotient
below `2 ^ (e + 53)`, and at least `2 ^ (e + 52)` unless the exponent is the subnormal one. -/
theorem exponent_spec (n d : Nat) (hn : 0 < n) (hd : 0 < d) :
    -1074 ≤ exponent n d ∧ (n : ℚ) / d < (2 : ℚ) ^ (exponent n d + 53) ∧
      (exponent n d = -1074 ∨ (2 : ℚ) ^ (exponent n d + 52) ≤ (n : ℚ) / d) := by
  obtain ⟨hnlo, hnhi, hnpos⟩ := bitLength_spec n hn
  obtain ⟨hdlo, hdhi, hdpos⟩ := bitLength_spec d hd
  have hd0 : (0 : ℚ) < d := by positivity
  have h2 : (2 : ℚ) ≠ 0 := by norm_num
  -- the quotient lies strictly between two powers of two
  have hupper : (n : ℚ) / d < (2 : ℚ) ^ ((bitLength n : Int) - (bitLength d : Int) + 1) := by
    have e1 : ((bitLength n : Int) - (bitLength d : Int) + 1) =
        (bitLength n : Int) - ((bitLength d - 1 : Nat) : Int) := by omega
    rw [e1, zpow_sub₀ h2, zpow_natCast, zpow_natCast, div_lt_div_iff₀ hd0 (by positivity)]
    have a1 : (n : ℚ) < (2 : ℚ) ^ bitLength n := by exact_mod_cast hnhi
    have a2 : (2 : ℚ) ^ (bitLength d - 1) ≤ d := by exact_mod_cast hdlo
    have a3 : (0 : ℚ) ≤ n := by positivity
    have a4 : (0 : ℚ) < (2 : ℚ) ^ bitLength n := by positivity
    calc (n : ℚ) * 2 ^ (bitLength d - 1) ≤ n * d := by
          exact mul_le_mul_of_nonneg_left a2 a3
      _ < 2 ^ bitLength n * d := by
          exact mul_lt_mul_of_pos_right a1 hd0
  have hlower : (2 : ℚ) ^ ((bitLength n : Int) - (bitLength d : Int) - 1) ≤ (n : ℚ) / d := by
    have e1 : ((bitLength n : Int) - (bitLength d : Int) - 1) =
        ((bitLength n - 1 : Nat) : Int) - (bitLength d : Int) := by omega
    rw [e1, zpow_sub₀ h2, zpow_natCast, zpow_natCast, div_le_div_iff₀ (by positivity) hd0]
    have a1 : (2 : ℚ) ^ (bitLength n - 1) ≤ n := by exact_mod_cast hnlo
    have a2 : (d : ℚ) ≤ (2 : ℚ) ^ bitLength d := by exact_mod_cast hdhi.le
    have a3 : (0 : ℚ) ≤ n := by positivity
    calc (2 : ℚ) ^ (bitLength n - 1) * d ≤ n * d := by
          exact mul_le_mul_of_nonneg_right a1 hd0.le
      _ ≤ n * 2 ^ bitLength d := by
          exact mul_le_mul_of_nonneg_left a2 a3
  -- the binade of the quotient
  have hL : ∃ L : Int, exponent n d = max (L - 52) (-1074) ∧
      (2 : ℚ) ^ L ≤ (n : ℚ) / d ∧ (n : ℚ) / d < (2 : ℚ) ^ (L + 1) := by
    by_cases ht : d * 2 ^ ((bitLength n : Int) - (bitLength d : Int)).toNat ≤
        n * 2 ^ (-((bitLength n : Int) - (bitLength d : Int))).toNat
    · refine ⟨(bitLength n : Int) - (bitLength d : Int), ?_, ?_, hupper⟩
      · simp only [exponent, ht, if_true]
      · exact (scaled_le_iff n d _ hd).mp ht
    · refine ⟨(bitLength n : Int) - (bitLength d : Int) - 1, ?_, hlower, ?_⟩
      · simp only [exponent, ht, if_false]
      · rw [sub_add_cancel]
        exact lt_of_not_le fun h => ht ((scaled_le_iff n d _ hd).mpr h)
  obtain ⟨L, hexp, hLlo, hLhi⟩ := hL
  rw [hexp]
  refine ⟨le_max_right _ _, ?_, ?_⟩
  · refine lt_of_lt_of_le hLhi (zpow_le_zpow_right₀ (by norm_num) ?_)
    have := le_max_left (L - 52) (-1074)
    omega
  · rcases le_total (L - 52) (-1074) with h | h
    · left
      exact max_eq_right h
    · right
      rw [max_eq_left h]
      have : L - 52 + 52 = L := by omega
      rw [this]
      exact hLlo

theorem nearestEven_cases (N D : Nat) :
    (nearestEven N D = N / D ∧ 2 * (N % D) ≤ D) ∨
      (nearestEven N D = N / D + 1 ∧ D ≤ 2 * (N % D)) := by
  unfold nearestEven
  by_cases h1 : 2 * (N % D) < D
  · left
    simp only [h1, if_true]
    exact ⟨trivial, h1.le⟩
  · by_cases h2 : D < 2 * (N % D)
    · right
      simp only [h1, h2, if_true, if_false]
      exact ⟨trivial, h2.le⟩
    · by_cases h3 : N / D % 2 = 0
      · left
        simp only [h1, h2, h3, if_true, if_false]
        exact ⟨trivial, by omega⟩
      · right
        simp only [h1, h2, h3, if_false]
        exact ⟨trivial, by omega⟩

/-- No integer is nearer to `N / D` than `nearestEven N D`. -/
theorem nearestEven_nearest (N D : Nat) (hD : 0 < D) (j : Int) :
    |(N : ℚ) / D - (nearestEven N D : ℚ)| ≤ |(N : ℚ) / D - (j : ℚ)| := by
  have hD0 : (0 : ℚ) < D := by positivity
  have hdecomp : (N : ℚ) = D * ((N / D : Nat) : ℚ) + ((N % D : Nat) : ℚ) := by
    exact_mod_cast (Nat.div_add_mod N D).symm
  have hr : ((N % D : Nat) : ℚ) < D := by exact_mod_cast Nat.mod_lt N hD
  have hr0 : (0 : ℚ) ≤ ((N % D : Nat) : ℚ) := by positivity
  -- distances, multiplied by the denominator
  have key : ∀ z : ℚ, |(N : ℚ) / D - z| = |(N : ℚ) - z * D| / D := by
    intro z
    rw [eq_div_iff (ne_of_gt hD0), ← abs_of_pos hD0, ← abs_mul, abs_of_pos hD0]
    congr 1
    field_simp
    ring
  rw [key, key, div_le_div_iff₀ hD0 hD0]
  refine mul_le_mul_of_nonneg_right ?_ hD0.le
  -- distance from an integer multiple: at least the smaller of the two remainders
  have hdist : ∀ t : Int, min ((N % D : Nat) : ℚ) (D - ((N % D : Nat) : ℚ)) ≤
      |((N % D : Nat) : ℚ) - (t : ℚ) * D| := by
    intro t
    rcases le_or_lt t 0 with ht | ht
    · have ht' : (t : ℚ) ≤ 0 := by exact_mod_cast ht
      have : (0 : ℚ) ≤ -(t : ℚ) * D := mul_nonneg (by linarith) hD0.le
      refine le_trans (min_le_left _ _) (le_trans ?_ (le_abs_self _))
      linarith
    · have ht' : (1 : ℚ) ≤ (t : ℚ) := by exact_mod_cast ht
      have : (D : ℚ) ≤ (t : ℚ) * D := by
        have := mul_le_mul_of_nonneg_right ht' hD0.le
        linarith
      refine le_trans (min_le_right _ _) (le_trans ?_ (neg_le_abs _))
      linarith
  have hj : (N : ℚ) - (j : ℚ) * D =
      ((N % D : Nat) : ℚ) - ((j - (N / D : Nat) : Int) : ℚ) * D := by
    rw [Int.cast_sub, Int.cast_natCast, hdecomp]
    ring
  rw [hj]
  refine le_trans ?_ (hdist _)
  rcases nearestEven_cases N D with ⟨hm, hle⟩ | ⟨hm, hle⟩
  · have hle' : 2 * ((N % D : Nat) : ℚ) ≤ D := by exact_mod_cast hle
    have : (N : ℚ) - (nearestEven N D : ℚ) * D = ((N % D : Nat) : ℚ) := by
      rw [hm, hdecomp]
      ring
    rw [this, abs_of_nonneg hr0]
    exact le_min le_rfl (by linarith)
  · have hle' : (D : ℚ) ≤ 2 * ((N % D : Nat) : ℚ) := by exact_mod_cast hle
    have : (N : ℚ) - (nearestEven N D : ℚ) * D = ((N % D : Nat) : ℚ) - D := by
      rw [hm, hdecomp]
      push_cast
      ring
    rw [this, abs_of_nonpos (by linarith)]
    exact le_min (by linarith) (by linarith)

/-- A tie goes to the even integer. -/
theorem nearestEven_tie (N D : Nat) (h : 2 * (N % D) = D) : nearestEven N D % 2 = 0 := by
  unfold nearestEven
  have h1 : ¬ 2 * (N % D) < D := by omega
  have h2 : ¬ D < 2 * (N % D) := by omega
  simp only [h1, h2, if_false]
  by_cases h3 : N / D % 2 = 0
  · simp only [h3, if_true]
  · simp only [h3, if_false]
    omega

theorem nearestEven_le (N D B : Nat) (hD : 0 < D) (h : N < D * B) : nearestEven N D ≤ B := by
  have hf : N / D < B := (Nat.div_lt_iff_lt_mul hD).mpr (by rwa [Nat.mul_comm] at h)
  rcases nearestEven_cases N D with ⟨hm, _⟩ | ⟨hm, _⟩ <;> omega

theorem roundToNearest_zero : roundToNearest 0 = 0 := rfl

/-- The value `roundToNearest q` of a non-zero `q`: the sign of `q` times `m * 2 ^ e`, where
`e` is the exponent of the binade of `|q|` and `m` is an integer nearest to `|q| / 2 ^ e`. -/
theorem roundToNearest_spec (q : ℚ) (hq : q ≠ 0) :
    ∃ (e : Int) (m : Nat),
      roundToNearest q = (if q < 0 then -1 else 1) * ((m : ℚ) * (2 : ℚ) ^ e) ∧
      -1074 ≤ e ∧ m ≤ 2 ^ 53 ∧
      (∀ j : Int, |(|q| / (2 : ℚ) ^ e) - (m : ℚ)| ≤ |(|q| / (2 : ℚ) ^ e) - (j : ℚ)|) ∧
      (e = -1074 ∨ (2 : ℚ) ^ (e + 52) ≤ |q|) := by
  have hnum : q.num ≠ 0 := Rat.num_ne_zero.mpr hq
  have hn : 0 < q.num.natAbs := Int.natAbs_pos.mpr hnum
  have hd : 0 < q.den := q.den_pos
  have habs : |q| = (q.num.natAbs : ℚ) / q.den := by
    rw [Rat.abs_def, Rat.divInt_eq_div, Int.cast_natCast, Int.cast_natCast]
  obtain ⟨he1, he2, he3⟩ := exponent_spec q.num.natAbs q.den hn hd
  have hD : 0 < q.den * 2 ^ (exponent q.num.natAbs q.den).toNat :=
    Nat.mul_pos hd (pow_pos (by decide) _)
  have hpow : (0 : ℚ) < (2 : ℚ) ^ exponent q.num.natAbs q.den := zpow_pos (by norm_num) _
  have hscaled := scaled_cast q.num.natAbs q.den (exponent q.num.natAbs q.den) hd
  refine ⟨exponent q.num.natAbs q.den,
    nearestEven (q.num.natAbs * 2 ^ (-exponent q.num.natAbs q.den).toNat)
      (q.den * 2 ^ (exponent q.num.natAbs q.den).toNat), ?_, he1, ?_, ?_, ?_⟩
  · unfold roundToNearest
    rw [if_neg hnum]
    by_cases hneg : q.num < 0
    · have hq0 : q < 0 := Rat.num_neg.mp hneg
      simp only [hneg, hq0, if_true]
      push_cast
      ring
    · have hq0 : ¬ q < 0 := fun h => hneg (Rat.num_neg.mpr h)
      simp only [hneg, hq0, if_false]
      push_cast
      ring
  · apply nearestEven_le _ _ _ hD
    have h1 : (q.num.natAbs : ℚ) / q.den / (2 : ℚ) ^ exponent q.num.natAbs q.den <
        (2 : ℚ) ^ 53 := by
      rw [div_lt_iff₀ hpow]
      have : (2 : ℚ) ^ 53 * (2 : ℚ) ^ exponent q.num.natAbs q.den =
          (2 : ℚ) ^ (exponent q.num.natAbs q.den + 53) := by
        rw [zpow_add₀ (by norm_num : (2 : ℚ) ≠ 0)]
        norm_num
        ring
      rw [this]
      exact he2
    rw [← hscaled, div_lt_iff₀ (by exact_mod_cast hD)] at h1
    have h2 : ((q.num.natAbs * 2 ^ (-exponent q.num.natAbs q.den).toNat : Nat) : ℚ) <
        ((q.den * 2 ^ (exponent q.num.natAbs q.den).toNat * 2 ^ 53 : Nat) : ℚ) := by
      push_cast
      push_cast at h1
      linarith
    exact_mod_cast h2
  · intro j
    rw [habs, ← hscaled]
    exact nearestEven_nearest _ _ hD j
  · rw [habs]
    exact he3

theorem nearest_of_binade (x : ℚ) (e0 : Int) (m0 : Nat)
    (hnear : ∀ j : Int, |x / (2 : ℚ) ^ e0 - (m0 : ℚ)| ≤ |x / (2 : ℚ) ^ e0 - (j : ℚ)|)
    (hbin : e0 = -1074 ∨ (2 : ℚ) ^ (e0 + 52) ≤ x)
    (a e : Int) (ha : |a| ≤ 2 ^ 53) (he : -1074 ≤ e) :
    |x - (m0 : ℚ) * (2 : ℚ) ^ e0| ≤ |x - (a : ℚ) * (2 : ℚ) ^ e| := by
  have h2 : (2 : ℚ) ≠ 0 := by norm_num
  have hpow : (0 : ℚ) < (2 : ℚ) ^ e0 := zpow_pos (by norm_num) _
  have hscale : ∀ z : ℚ, |x - z * (2 : ℚ) ^ e0| = |x / (2 : ℚ) ^ e0 - z| * (2 : ℚ) ^ e0 := by
    intro z
    rw [← abs_of_pos hpow, ← abs_mul, abs_of_pos hpow]
    congr 1
    field_simp
    ring
  have hint : ∀ j : Int, |x - (m0 : ℚ) * (2 : ℚ) ^ e0| ≤ |x - (j : ℚ) * (2 : ℚ) ^ e0| := by
    intro j
    rw [hscale, hscale]
    exact mul_le_mul_of_nonneg_right (hnear j) hpow.le
  rcases le_or_lt e0 e with hle | hlt
  · have hsplit : (a : ℚ) * (2 : ℚ) ^ e =
        ((a * 2 ^ (e - e0).toNat : Int) : ℚ) * (2 : ℚ) ^ e0 := by
      have he' : e = ((e - e0).toNat : Int) + e0 := by
        rw [Int.toNat_of_nonneg (by omega)]
        ring
      rw [he', zpow_add₀ h2, zpow_natCast]
      push_cast
      have : ((((e - e0).toNat : Int) + e0 - e0).toNat) = (e - e0).toNat := by
        congr 1
        omega
      rw [this]
      ring
    rw [hsplit]
    exact hint _
  · have hne : e0 ≠ -1074 := by omega
    have hb : (2 : ℚ) ^ (e0 + 52) ≤ x := hbin.resolve_left hne
    have ha' : (a : ℚ) ≤ (2 : ℚ) ^ 53 := by
      have : a ≤ 2 ^ 53 := le_trans (le_abs_self a) ha
      exact_mod_cast this
    have hpe : (0 : ℚ) < (2 : ℚ) ^ e := zpow_pos (by norm_num) _
    have hbound : (a : ℚ) * (2 : ℚ) ^ e ≤ (2 : ℚ) ^ (e0 + 52) := by
      calc (a : ℚ) * (2 : ℚ) ^ e ≤ (2 : ℚ) ^ 53 * (2 : ℚ) ^ e :=
            mul_le_mul_of_nonneg_right ha' hpe.le
        _ = (2 : ℚ) ^ (e + 53) := by
            rw [zpow_add₀ h2]
            norm_num
            ring
        _ ≤ (2 : ℚ) ^ (e0 + 52) := zpow_le_zpow_right₀ (by norm_num) (by omega)
    have h52 : (2 : ℚ) ^ (e0 + 52) = ((2 ^ 52 : Int) : ℚ) * (2 : ℚ) ^ e0 := by
      rw [zpow_add₀ h2]
      norm_num
      ring
    refine le_trans (hint (2 ^ 52)) ?_
    rw [← h52, abs_of_nonneg (by linarith), abs_of_nonneg (by linarith)]
    linarith

/-- The value `roundToNearest q` is a binary64 value: an integer of magnitude at most `2 ^ 53`
times a power of two not below the smallest subnormal `2 ^ (-1074)` (the product
`2 ^ 53 * 2 ^ e` is the binary64 value `2 ^ 52 * 2 ^ (e + 1)`). -/
theorem roundToNearest_representable (q : ℚ) :
    ∃ m e : Int, |m| ≤ 2 ^ 53 ∧ -1074 ≤ e ∧ roundToNearest q = (m : ℚ) * (2 : ℚ) ^ e := by
  by_cases hq : q = 0
  · exact ⟨0, 0, by norm_num, by norm_num, by rw [hq, roundToNearest_zero]; norm_num⟩
  · obtain ⟨e, m, hval, he, hm, _, _⟩ := roundToNearest_spec q hq
    by_cases hneg : q < 0
    · refine ⟨-(m : Int), e, ?_, he, ?_⟩
      · rw [abs_neg, abs_of_nonneg (by positivity)]
        exact_mod_cast hm
      · rw [hval, if_pos hneg]
        push_cast
        ring
    · refine ⟨(m : Int), e, ?_, he, ?_⟩
      · rw [abs_of_nonneg (by positivity)]
        exact_mod_cast hm
      · rw [hval, if_neg hneg]
        push_cast
        ring

/-- No binary64 value is nearer to `q` than `roundToNearest q`: for every integer `m` of
magnitude at most `2 ^ 53` and every exponent `e` not below the subnormal one, `m * 2 ^ e` is at
least as far from `q`. -/
theorem roundToNearest_nearest (q : ℚ) (m e : Int) (hm : |m| ≤ 2 ^ 53) (he : -1074 ≤ e) :
    |q - roundToNearest q| ≤ |q - (m : ℚ) * (2 : ℚ) ^ e| := by
  by_cases hq : q = 0
  · rw [hq, roundToNearest_zero, sub_zero, abs_zero]
    exact abs_nonneg _
  · obtain ⟨e0, m0, hval, _, _, hnear, hbin⟩ := roundToNearest_spec q hq
    by_cases hneg : q < 0
    · have habs : |q| = -q := abs_of_neg hneg
      have h := nearest_of_binade |q| e0 m0 hnear hbin (-m) e (by rwa [abs_neg]) he
      rw [hval, if_pos hneg]
      have e1 : q - -1 * ((m0 : ℚ) * (2 : ℚ) ^ e0) = -(|q| - (m0 : ℚ) * (2 : ℚ) ^ e0) := by
        rw [habs]
        ring
      have e2 : q - (m : ℚ) * (2 : ℚ) ^ e = -(|q| - ((-m : Int) : ℚ) * (2 : ℚ) ^ e) := by
        rw [habs]
        push_cast
        ring
      rw [e1, e2, abs_neg, abs_neg]
      exact h
    · have habs : |q| = q := abs_of_nonneg (not_lt.mp hneg)
      have h := nearest_of_binade |q| e0 m0 hnear hbin m e hm he
      rw [hval, if_neg hneg, one_mul]
      rw [habs] at h
      exact h

end Binary64

/-! ## The force computation in rounded arithmetic -/

/-- Sample values of the rounding to binary64: the doubles nearest to `0.1` and `0.3`; the sum
of the doubles `0.1` and `0.2`, which is the double above `0.3`; two ties, which go to the even
significand; an integer below `2 ^ 53`, which is exact; and two values in the subnormal
range. -/
theorem Binary64.roundToNearest_samples :
    Binary64.roundToNearest (1 / 10) = 3602879701896397 / 2 ^ 55 ∧
    Binary64.roundToNearest (3 / 10) = 5404319552844595 / 2 ^ 54 ∧
    Binary64.roundToNearest (Binary64.roundToNearest (1 / 10) + Binary64.roundToNearest (2 / 10)) =
      5404319552844596 / 2 ^ 54 ∧
    Binary64.roundToNearest (2 ^ 53 + 1) = 2 ^ 53 ∧
    Binary64.roundToNearest (2 ^ 53 + 3) = 2 ^ 53 + 4 ∧
    Binary64.roundToNearest (-9007199254740991) = -9007199254740991 ∧
    Binary64.roundToNearest (3 / 2 ^ 1075) = 2 / 2 ^ 1074 ∧
    Binary64.roundToNearest (1 / 2 ^ 1075) = 0 := by
  decide!

/-- Without rounding, the rounded face weights are the face weights of the exact embedding. -/
theorem Rounded.computeFaceWeight_exact :
    Rounded.computeFaceWeight id = IBAMR.computeFaceWeight := rfl

/-- Without rounding, the rounded traction integral is the one of the exact embedding. -/
theorem Rounded.surfaceTraction_exact :
    Rounded.surfaceTraction id = IBAMR.surfaceTraction := rfl

/-- Without rounding, the rounded force computation is the one of the exact embedding. -/
theorem Rounded.computeHydrodynamicForce_exact :
    Rounded.computeHydrodynamicForce id = IBAMR.computeHydrodynamicForce := rfl

theorem grid_integrationBox :
    integrationBox gridLevel gridObject = { lower := ⟨1, 1, 0⟩, upper := ⟨3, 3, 0⟩ } := by
  simp [integrationBox, gridLevel, gridObject, zeroObject]

theorem grid_tiles (box : Box) : Tiles 2 gridLevel.patches box ↔
    ∀ c : Index, box.contains 2 c = true → gridPatch.box.contains 2 c = true := by
  simp [Tiles, gridLevel]

theorem grid_tiles_box : Tiles 2 gridLevel.patches (integrationBox gridLevel gridObject) := by
  rw [grid_tiles, grid_integrationBox]
  intro c hc
  rw [Box.contains_iff] at hc ⊢
  have h0 := hc 0 (by decide)
  have h1 := hc 1 (by decide)
  simp only [Index.get] at h0 h1
  intro d hd
  interval_cases d <;> simp only [gridPatch, Index.get] <;> omega

theorem grid_tiles_neighbourhood :
    Tiles 2 gridLevel.patches (Box.grow 2 (integrationBox gridLevel gridObject) 1) := by
  rw [grid_tiles, grid_integrationBox]
  intro c hc
  have hgrow : Box.grow 2 { lower := ⟨1, 1, 0⟩, upper := ⟨3, 3, 0⟩ } 1 =
      { lower := ⟨0, 0, -1⟩, upper := ⟨4, 4, 1⟩ } := by decide
  rw [hgrow, Box.contains_iff] at hc
  rw [Box.contains_iff]
  have h0 := hc 0 (by decide)
  have h1 := hc 1 (by decide)
  simp only [Index.get] at h0 h1
  intro d hd
  interval_cases d <;> simp only [gridPatch, Index.get] <;> omega

/-- C14 (counterexample): in binary64 arithmetic the force stored for a fluid at rest is not
zero. On the level of the single patch `[0, 4]²` with unit spacings, for the body whose box is
the cells `[1, 3]²` (the patch covers the box and its one-cell neighbourhood), with velocity
zero, pressure the double nearest to `0.1`, box velocity zero, `P_new = P_current`,
`P_box_current = 0`, `current_time = 0` and `new_time = 1`, the rounded computation stores
`F_new = (2⁻⁵⁵, 2⁻⁵⁵, 0)`: along each axis the three lower cells add `0.1` each and the three
upper cells subtract `0.1` each, and the running sum `0.1, 0.2, 0.30000000000000004,
0.20000000000000004, 0.10000000000000003, 2⁻⁵⁵` is rounded at the third step. On the same
input the computation without rounding gives `F_new = (0, 0, 0)`. -/
theorem computeHydrodynamicForce_rest_residual :
    Tiles 2 gridLevel.patches (integrationBox gridLevel gridObject) ∧
    Tiles 2 gridLevel.patches (Box.grow 2 (integrationBox gridLevel gridObject) 1) ∧
    (∀ patch ∈ gridLevel.patches, ∀ a idx, patch.sideData 1 a idx = 0) ∧
    (∀ patch ∈ gridLevel.patches, ∀ idx,
      patch.cellData 2 idx = Binary64.roundToNearest (1 / 10)) ∧
    gridObject.box_u_new = Vector3d.Zero ∧
    gridObject.P_new = gridObject.P_current ∧
    gridObject.P_box_current = Vector3d.Zero ∧
    Binary64.roundToNearest (1 - 0) ≠ 0 ∧
    ((Rounded.computeHydrodynamicForce Binary64.roundToNearest 2 gridEvaluator 1 2 0 3 0
        { levels := [gridLevel] } 0 0 0 1).evaluator.d_hydro_objs.find 1).map
      (fun fobj => fobj.F_new) = some ⟨1 / 2 ^ 55, 1 / 2 ^ 55, 0⟩ ∧
    (⟨1 / 2 ^ 55, 1 / 2 ^ 55, 0⟩ : Vector3d) ≠ Vector3d.Zero ∧
    ((computeHydrodynamicForce 2 gridEvaluator 1 2 0 3 0
        { levels := [gridLevel] } 0 0 0 1).evaluator.d_hydro_objs.find 1).map
      (fun fobj => fobj.F_new) = some Vector3d.Zero := by
  refine ⟨grid_tiles_box, grid_tiles_neighbourhood, ?_, ?_, rfl, rfl, rfl, ?_, ?_, ?_, ?_⟩
  · intro patch hpatch a idx
    rw [List.mem_singleton.mp hpatch]
    simp [gridPatch]
  · intro patch hpatch idx
    rw [List.mem_singleton.mp hpatch]
    simp [gridPatch]
  · decide!
  · decide!
  · decide!
  · decide!

/-- C15 (counterexample): in binary64 arithmetic the traction of a uniform flow under a
constant pressure is not zero. On the level of the single patch `[0, 4]²` with unit spacings,
for the body whose box is the cells `[1, 3]²` (the patch covers the box and its one-cell
neighbourhood), with unit density and viscosity, velocity the uniform vector `(0.1, 0)`,
pressure the constant `0.3` (nearest doubles) and box velocity zero, the rounded traction
integral on the rounded face weights is `(-15 * 2⁻⁵⁷, -2⁻⁵³, 0)`, about
`(-1.04e-16, -1.11e-16, 0)`. On the same input the integral without rounding is
`(0, 0, 0)`. -/
theorem surfaceTraction_uniform_flow_residual :
    Tiles 2 gridLevel.patches (integrationBox gridLevel gridObject) ∧
    Tiles 2 gridLevel.patches (Box.grow 2 (integrationBox gridLevel gridObject) 1) ∧
    (∀ patch ∈ gridLevel.patches, ∀ a idx,
      patch.sideData 4 a idx = if a = 0 then Binary64.roundToNearest (1 / 10) else 0) ∧
    (∀ patch ∈ gridLevel.patches, ∀ idx,
      patch.cellData 5 idx = Binary64.roundToNearest (3 / 10)) ∧
    gridObject.box_u_new = Vector3d.Zero ∧
    Rounded.surfaceTraction Binary64.roundToNearest 2 gridEvaluator.d_rho gridEvaluator.d_mu 4 5
        gridEvaluator.d_face_wgt_sc_idx
        (Rounded.computeFaceWeight Binary64.roundToNearest 2 gridEvaluator
          { levels := [gridLevel] }) 0 0 gridObject =
      ⟨-15 / 2 ^ 57, -1 / 2 ^ 53, 0⟩ ∧
    (⟨-15 / 2 ^ 57, -1 / 2 ^ 53, 0⟩ : Vector3d) ≠ Vector3d.Zero ∧
    surfaceTraction 2 gridEvaluator.d_rho gridEvaluator.d_mu 4 5
        gridEvaluator.d_face_wgt_sc_idx
        (computeFaceWeight 2 gridEvaluator { levels := [gridLevel] }) 0 0 gridObject =
      Vector3d.Zero := by
  refine ⟨grid_tiles_box, grid_tiles_neighbourhood, ?_, ?_, rfl, ?_, ?_, ?_⟩
  · intro patch hpatch a idx
    rw [List.mem_singleton.mp hpatch]
    by_cases ha : a = 0 <;> simp [gridPatch, ha]
  · intro patch hpatch idx
    rw [List.mem_singleton.mp hpatch]
    simp [gridPatch]
  · decide!
  · decide!
  · decide!

end IBAMR
